import Mathlib

/-!
# Rate-distortion cost kernels of `RdCost.cpp`

A shallow embedding of the distortion kernels, of the Lagrangian cost and of
the lambda handling of `source/Lib/CommonLib/RdCost.cpp`, and of
`CoeffCodingContext` (constructor, `initSubblock`) and the context derivation
functions `DeriveCtx` of `source/Lib/CommonLib/ContextModelling.cpp`, and of
the constructor of `AlfFilterShape` of `source/Lib/CommonLib/AlfParameters.h`,
with the properties stated about them.

Conventions of the embedding.

* A `Pel` pointer is a function `Int → Int` (the memory seen from the base
  pointer) together with an integer offset; `p[n]` after `p += k` reads the
  function at `k + n`.
* `Distortion` is `uint64_t`: every accumulation into a `Distortion` is reduced
  modulo `2 ^ 64` (`toDistortion`).
* Signed arithmetic (`int`, `int32_t`, `Intermediate_Int`) is exact integer
  arithmetic: signed overflow is undefined behaviour in the source, so the
  embedding describes the code on the runs where its behaviour is defined.
  Shift counts are natural numbers and `1 << subShift` is `2 ^ subShift`.
* A narrowing conversion `Pel(x)` wraps to the `pelBits`-bit two's complement
  range (`toPel`).
* `double` values are exact rationals and `double` arithmetic is exact, with
  one exception: in `getDistPart`, where the integer part of a `double` product
  is returned, the conversion to `double` and the product are rounded to the
  nearest `double` (`roundDouble`).
* A kernel returns `none` when the source does not return: a row loop
  `for (; rows != 0; rows -= subStep)` that steps past zero, or a division by
  zero.
* A function with a `CHECK` or a `THROW` returns `Except.error` with the
  message of the statement that fails (`CHECK(c, msg)` fails when `c` holds);
  the members written before the failure are not observed.  An `assert` fails
  in the same way unless the build defines `NDEBUG`, and a `CHECKD` in the
  builds where it expands to `CHECK`.
* A read of a `std::vector` outside its bounds does not return a value
  (`none`).
* A pointer that may be null is an `Option`; the lookups of neighbouring
  coding units are fields of `CodingStructure`, so every statement holds for
  all their results unless it says otherwise.
* Macros, constants and helpers that the translation unit takes from headers
  outside the sources at hand are the fields of `Config`; every statement
  holds for all their values unless it says otherwise.
-/

namespace RdCost

/-! ## Data model -/

/-- Read-only pixel buffer `CPelBuf`: base pointer, stride and size. -/
structure CPelBuf where
  buf : Int → Int
  stride : Int
  width : Nat
  height : Nat

/-- Sample of a buffer at row `r` and column `n`, i.e. `buf[r * stride + n]`. -/
def CPelBuf.at (b : CPelBuf) (r n : Nat) : Int :=
  b.buf ((r : Int) * b.stride + (n : Int))

/-- Values of the enumeration `ComponentID` (declared in `TypeDef.h`);
`MAX_NUM_COMPONENT` is 3. -/
inductive ComponentID where
  | COMPONENT_Y
  | COMPONENT_Cb
  | COMPONENT_Cr
  deriving DecidableEq, Repr

/-- The enumerators of `DFunc` named in `RdCost::init` (the enumeration is
declared in `RdCost.h`), in the order of their first use there. -/
inductive DFunc where
  | SSE
  | SSE2
  | SSE4
  | SSE8
  | SSE16
  | SSE32
  | SSE64
  | SSE16N
  | SAD
  | SAD2
  | SAD4
  | SAD8
  | SAD16
  | SAD32
  | SAD64
  | SAD16N
  | SAD12
  | SAD24
  | SAD48
  | HAD
  | HAD2
  | HAD4
  | HAD8
  | HAD16
  | HAD32
  | HAD64
  | HAD16N
  | MRSAD
  | MRSAD2
  | MRSAD4
  | MRSAD8
  | MRSAD16
  | MRSAD32
  | MRSAD64
  | MRSAD16N
  | MRSAD12
  | MRSAD24
  | MRSAD48
  | MRHAD
  | MRHAD2
  | MRHAD4
  | MRHAD8
  | MRHAD16
  | MRHAD32
  | MRHAD64
  | MRHAD16N
  | SAD_FULL_NBIT
  | SAD_FULL_NBIT2
  | SAD_FULL_NBIT4
  | SAD_FULL_NBIT8
  | SAD_FULL_NBIT16
  | SAD_FULL_NBIT32
  | SAD_FULL_NBIT64
  | SAD_FULL_NBIT16N
  | SAD_INTERMEDIATE_BITDEPTH
  | SAD_WITH_MASK
  deriving DecidableEq, Repr

/-- The fields of `DistParam` read or written by the functions embedded here.
`distFunc` holds the index into the table `m_distortionFunc` of the selected
function instead of the function pointer.  `cShiftX` and `cShiftY` are `int`
in the source and natural numbers here: the weighted kernels convert them to
`size_t` and shift by them, which is defined for small non-negative values
only.  The default values of the fields other than the first six only serve to
build examples. -/
structure DistParam where
  org : CPelBuf
  cur : CPelBuf
  bitDepth : Int
  subShift : Nat
  applyWeight : Bool
  maximumDistortionForEarlyExit : Nat
  step : Int := 1
  compID : ComponentID := ComponentID.COMPONENT_Y
  useMR : Bool := false
  distFunc : DFunc := DFunc.SSE
  mask : Int → Int := fun _ => 0
  maskStride : Int := 0
  stepX : Int := 0
  maskStride2 : Int := 0
  orgLuma : CPelBuf := { buf := fun _ => 0, stride := 0, width := 0, height := 0 }
  cShiftX : Nat := 0
  cShiftY : Nat := 0

/-- Values of the enumeration `CostMode` (declared in `TypeDef.h`). -/
inductive CostMode where
  | COST_STANDARD_LOSSY
  | COST_SEQUENCE_LEVEL_LOSSLESS
  | COST_LOSSLESS_CODING
  | COST_MIXED_LOSSLESS_LOSSY_CODING
  deriving DecidableEq, Repr

/-- What the translation unit takes from headers that are not part of the
sources at hand: the macro `DISTORTION_PRECISION_ADJUSTMENT`, the build flags
`WCG_EXT` and `JVET_R0164_MEAN_SCALED_SATD`, the width of `Pel`, the constants
`MAX_DOUBLE`, `SCALE_BITS`, `CSCALE_FP_PREC` and `DELTA_QP_ACT`, the weighted
prediction helpers of `RdCostWeightPrediction`, the functions `pow` and `sqrt`
of the C library (their `double` results are rationals), the template
`sizeOffset<bool>(size)`, the addition `DFunc + int`, the macro `MAP_CHROMA`,
the predicate `isChroma`, the value of a default-constructed `DistParam`, the
constant `MSE_WEIGHT_FRAC_BITS` and whether the macro `CHECKD` expands to
`CHECK` (`CHECKD`) or to nothing. -/
structure Config where
  DISTORTION_PRECISION_ADJUSTMENT : Int → Nat
  WCG_EXT : Bool
  pelBits : Nat
  MAX_DOUBLE : ℚ
  xGetSADw : DistParam → Option Nat
  xGetSSEw : DistParam → Option Nat
  xGetHADsw : DistParam → Except String Nat
  JVET_R0164_MEAN_SCALED_SATD : Bool
  SCALE_BITS : Nat
  CSCALE_FP_PREC : Nat
  DELTA_QP_ACT : ComponentID → Int
  pow : ℚ → ℚ → ℚ
  sqrt : ℚ → ℚ
  sizeOffset : Bool → Nat → Nat
  dfuncAdd : DFunc → Nat → DFunc
  MAP_CHROMA : ComponentID → Nat
  isChroma : ComponentID → Bool
  newDistParam : DistParam
  MSE_WEIGHT_FRAC_BITS : Nat := 16
  CHECKD : Bool := true

/-- Reduction of a natural number to the `uint64_t` type `Distortion`. -/
def toDistortion (x : Nat) : Nat := x % 2 ^ 64

/-- Largest value of `Distortion`, `std::numeric_limits<Distortion>::max()`. -/
def maxDistortion : Nat := 2 ^ 64 - 1

/-- Narrowing conversion `Pel(x)` to a `pelBits`-bit signed integer. -/
def toPel (pelBits : Nat) (x : Int) : Int :=
  (x + 2 ^ (pelBits - 1)) % 2 ^ pelBits - 2 ^ (pelBits - 1)

/-- The values a `pelBits`-bit `Pel` represents. -/
def IsPel (pelBits : Nat) (x : Int) : Prop :=
  -(2 ^ (pelBits - 1)) ≤ x ∧ x < 2 ^ (pelBits - 1)

instance (pelBits : Nat) (x : Int) : Decidable (IsPel pelBits x) := by
  unfold IsPel
  infer_instance

/-- The members of `RdCost` read or written by the functions embedded here.
The arrays `m_lambdaStore[2][MAX_NUM_COMPONENT]` and
`m_distScaleStore[2][MAX_NUM_COMPONENT]` are functions of the two indices,
`m_distortionWeight` is a function of its index, the static table
`m_distortionFunc` maps the value of a `DFunc` to its function, and the vector
`m_reshapeLumaLevelToWeightPLUT` is the list of its elements.  The default
values of the fields other than the first four only serve to build examples. -/
structure State where
  m_costMode : CostMode
  m_isLosslessRDCost : Bool
  m_distScale : ℚ
  m_distScaleUnadjusted : ℚ
  m_dLambda : ℚ := 0
  m_dLambdaMotionSAD : ℚ := 0
  m_lambdaStore : Nat → ComponentID → ℚ := fun _ _ => 0
  m_distScaleStore : Nat → ComponentID → ℚ := fun _ _ => 0
  m_resetStore : Bool := true
  m_pairCheck : Nat := 0
  m_motionLambda : ℚ := 0
  m_iCostScale : Int := 0
  m_distortionWeight : Nat → ℚ := fun _ => 1
  m_distortionFunc : DFunc → DistParam → Option Nat := fun _ _ => none
  m_reshapeLumaLevelToWeightPLUT : List Int := []

/-! ## Lagrangian cost -/

/-- `RdCost::calcRdCost`.  In a build without `WCG_EXT` the function has no
third parameter and `useUnadjustedLambda` is not read. -/
def calcRdCost (cfg : Config) (st : State) (fracBits : Nat) (distortion : Nat)
    (useUnadjustedLambda : Bool) : ℚ :=
  if st.m_costMode = CostMode.COST_LOSSLESS_CODING ∧ 0 ≠ distortion
      ∧ st.m_isLosslessRDCost = true then
    cfg.MAX_DOUBLE
  else if cfg.WCG_EXT then
    (if useUnadjustedLambda then st.m_distScaleUnadjusted else st.m_distScale)
      * (distortion : ℚ) + (fracBits : ℚ)
  else
    st.m_distScale * (distortion : ℚ) + (fracBits : ℚ)

/-! ## Row loops

Every sum-based kernel has the shape
`for (; rows != 0; rows -= subStep) { body; [early exit;] piOrg += strideOrg; piCur += strideCur; }`
followed by a final expression of the accumulator.  `rowLoop` is that loop:
`body piOrg piCur` is the effect of one row on the accumulator, `earlyExit`
is the value returned from inside the loop (if any), `finish` the value
returned after it.  The first argument bounds the number of rows visited; the
kernels pass the block height, which suffices whenever the loop ends, since
`subStep ≥ 1`; when `rows` steps past zero the source never leaves the loop
and the result is `none`. -/

/-- The loop `for (; rows != 0; rows -= subStep) { ... }` of the kernels. -/
def rowLoop {α β : Type} (body : Int → Int → α → α) (earlyExit : α → Option β)
    (finish : α → β) (subStep strideOrg strideCur : Int) :
    Nat → Int → Int → Int → α → Option β
  | 0, rows, _, _, acc => if rows = 0 then some (finish acc) else none
  | fuel + 1, rows, piOrg, piCur, acc =>
    if rows = 0 then some (finish acc)
    else
      let acc1 := body piOrg piCur acc
      match earlyExit acc1 with
      | some d => some d
      | none =>
        rowLoop body earlyExit finish subStep strideOrg strideCur fuel
          (rows - subStep) (piOrg + strideOrg) (piCur + strideCur) acc1

/-- Inner loop of `xGetSAD`: `for (n = 0; n < cols; n++) sum += abs(piOrg[n] - piCur[n]);`. -/
def sadRow (org cur : Int → Int) (cols : Nat) (piOrg piCur : Int) (sum : Nat) : Nat :=
  (List.range cols).foldl
    (fun (s : Nat) (n : Nat) =>
      toDistortion (s + (org (piOrg + (n : Int)) - cur (piCur + (n : Int))).natAbs)) sum

/-- Inner loop of `xGetSAD16N`: `for (n = 0; n < cols; n += 16)` over sixteen
unrolled statements `sum += abs(piOrg[n + k] - piCur[n + k]);`, `k = 0 .. 15`. -/
def sadRow16N (org cur : Int → Int) (cols : Nat) (piOrg piCur : Int) (sum : Nat) : Nat :=
  (List.range ((cols + 15) / 16)).foldl
    (fun (s : Nat) (i : Nat) => (List.range 16).foldl
      (fun (s : Nat) (k : Nat) => toDistortion (s + (org (piOrg + ((16 * i + k : Nat) : Int))
        - cur (piCur + ((16 * i + k : Nat) : Int))).natAbs)) s) sum

/-- Inner loop of the first pass of `xGetMRSAD`: `deltaSum += (piOrg[n] - piCur[n]);`. -/
def deltaRow (org cur : Int → Int) (cols : Nat) (piOrg piCur : Int) (deltaSum : Int) : Int :=
  (List.range cols).foldl
    (fun (s : Int) (n : Nat) => s + (org (piOrg + (n : Int)) - cur (piCur + (n : Int))))
    deltaSum

/-- Inner loop of the second pass of `xGetMRSAD`:
`sum += abs(piOrg[n] - piCur[n] - offset);`. -/
def mrsadRow (org cur : Int → Int) (offset : Int) (cols : Nat) (piOrg piCur : Int)
    (sum : Nat) : Nat :=
  (List.range cols).foldl
    (fun (s : Nat) (n : Nat) => toDistortion
      (s + (org (piOrg + (n : Int)) - cur (piCur + (n : Int)) - offset).natAbs)) sum

/-- One sample of the SSE kernels: `temp = piOrg[n] - piCur[n];
sum += Distortion((temp * temp) >> shift);`. -/
def sseStep (org cur : Int → Int) (shift : Nat) (piOrg piCur : Int) (s : Nat) (n : Nat) : Nat :=
  let temp : Int := org (piOrg + (n : Int)) - cur (piCur + (n : Int))
  toDistortion (s + ((temp * temp) >>> shift).toNat)

/-- Inner loop of `xGetSSE`: `for (n = 0; n < cols; n++)`. -/
def sseRow (org cur : Int → Int) (shift : Nat) (cols : Nat) (piOrg piCur : Int)
    (sum : Nat) : Nat :=
  (List.range cols).foldl (sseStep org cur shift piOrg piCur) sum

/-- Inner loop of `xGetSSE16N`: `for (n = 0; n < cols; n += 16)` over sixteen
unrolled samples `n + 0 .. n + 15`. -/
def sseRow16N (org cur : Int → Int) (shift : Nat) (cols : Nat) (piOrg piCur : Int)
    (sum : Nat) : Nat :=
  (List.range ((cols + 15) / 16)).foldl
    (fun (s : Nat) (i : Nat) => (List.range 16).foldl
      (fun (s : Nat) (k : Nat) => sseStep org cur shift piOrg piCur s (16 * i + k)) s) sum

/-- The loop `for (; rows != 0; rows--) { row; piOrg += strideOrg; piCur += strideCur; }`
of the SSE kernels. -/
def sseLoop (row : Int → Int → Nat → Nat) (strideOrg strideCur : Int) :
    Nat → Int → Int → Nat → Nat
  | 0, _, _, sum => sum
  | rows + 1, piOrg, piCur, sum =>
    sseLoop row strideOrg strideCur rows (piOrg + strideOrg) (piCur + strideCur)
      (row piOrg piCur sum)

/-! ## Kernels -/

/-- `RdCost::xGetSAD`. -/
def xGetSAD (cfg : Config) (p : DistParam) : Option Nat :=
  if p.applyWeight then cfg.xGetSADw p
  else
    let cols := p.org.width
    let rows : Int := p.org.height
    let subShift := p.subShift
    let subStep : Int := 2 ^ subShift
    let strideCur := p.cur.stride * subStep
    let strideOrg := p.org.stride * subStep
    let distortionShift := cfg.DISTORTION_PRECISION_ADJUSTMENT p.bitDepth
    rowLoop (sadRow p.org.buf p.cur.buf cols)
      (fun sum =>
        if p.maximumDistortionForEarlyExit < sum >>> distortionShift then
          some (sum >>> distortionShift)
        else none)
      (fun sum => toDistortion (sum <<< subShift) >>> distortionShift)
      subStep strideOrg strideCur p.org.height rows 0 0 0

/-- `RdCost::xGetSAD16N`: no weighted branch and no early exit. -/
def xGetSAD16N (cfg : Config) (p : DistParam) : Option Nat :=
  let rows : Int := p.org.height
  let cols := p.org.width
  let subShift := p.subShift
  let subStep : Int := 2 ^ subShift
  let strideCur := p.cur.stride * subStep
  let strideOrg := p.org.stride * subStep
  rowLoop (sadRow16N p.org.buf p.cur.buf cols) (fun _ => none)
    (fun sum =>
      toDistortion (sum <<< subShift) >>> cfg.DISTORTION_PRECISION_ADJUSTMENT p.bitDepth)
    subStep strideOrg strideCur p.org.height rows 0 0 0

/-- `RdCost::xGetMRSAD`. -/
def xGetMRSAD (cfg : Config) (p : DistParam) : Option Nat :=
  let cols := p.org.width
  let rows : Int := p.org.height
  let subShift := p.subShift
  let subStep : Int := 2 ^ subShift
  let strideCur := p.cur.stride * subStep
  let strideOrg := p.org.stride * subStep
  let distortionShift := cfg.DISTORTION_PRECISION_ADJUSTMENT p.bitDepth
  match rowLoop (deltaRow p.org.buf p.cur.buf cols) (fun _ => none) id
      subStep strideOrg strideCur p.org.height rows 0 0 (0 : Int) with
  | none => none
  | some deltaSum =>
    let divisor : Int := (cols : Int) * (rows >>> subShift)
    if divisor = 0 then none
    else
      let offset := toPel cfg.pelBits (Int.tdiv deltaSum divisor)
      rowLoop (mrsadRow p.org.buf p.cur.buf offset cols)
        (fun sum =>
          if p.maximumDistortionForEarlyExit < sum >>> distortionShift then
            some (sum >>> distortionShift)
          else none)
        (fun sum => toDistortion (sum <<< subShift) >>> distortionShift)
        subStep strideOrg strideCur p.org.height rows 0 0 0

/-- `RdCost::xGetSSE`. -/
def xGetSSE (cfg : Config) (p : DistParam) : Option Nat :=
  if p.applyWeight then cfg.xGetSSEw p
  else
    let rows := p.org.height
    let cols := p.org.width
    let strideCur := p.cur.stride
    let strideOrg := p.org.stride
    let shift := cfg.DISTORTION_PRECISION_ADJUSTMENT p.bitDepth <<< 1
    some (sseLoop (sseRow p.org.buf p.cur.buf shift cols) strideOrg strideCur rows 0 0 0)

/-- `RdCost::xGetSSE16N`. -/
def xGetSSE16N (cfg : Config) (p : DistParam) : Option Nat :=
  if p.applyWeight then cfg.xGetSSEw p
  else
    let rows := p.org.height
    let cols := p.org.width
    let strideOrg := p.org.stride
    let strideCur := p.cur.stride
    let shift := cfg.DISTORTION_PRECISION_ADJUSTMENT p.bitDepth <<< 1
    some (sseLoop (sseRow16N p.org.buf p.cur.buf shift cols) strideOrg strideCur rows 0 0 0)

/-! ## Auxiliary definitions used in the statements -/

/-- Accumulator after `m` rows of a row loop that is not left early. -/
def accRows {α : Type} (body : Int → Int → α → α) (strideOrg strideCur : Int) :
    Nat → Int → Int → α → α
  | 0, _, _, acc => acc
  | m + 1, piOrg, piCur, acc =>
    accRows body strideOrg strideCur m (piOrg + strideOrg) (piCur + strideCur)
      (body piOrg piCur acc)

/-- Exact sum of the differences `org - cur` over the rows visited with the
block's `subShift` (rows `0, 2^s, 2·2^s, …`) and all columns. -/
def deltaSum (p : DistParam) : Int :=
  ∑ j ∈ Finset.range (p.org.height / 2 ^ p.subShift), ∑ n ∈ Finset.range p.org.width,
    (p.org.at (j * 2 ^ p.subShift) n - p.cur.at (j * 2 ^ p.subShift) n)

/-- The offset `Pel(deltaSum / (cols * (rows >> subShift)))` of `xGetMRSAD`. -/
def mrOffset (cfg : Config) (p : DistParam) : Int :=
  toPel cfg.pelBits
    (Int.tdiv (deltaSum p) ((p.org.width : Int) * ((p.org.height / 2 ^ p.subShift : Nat) : Int)))

/-- Exact sum of `|org - cur - offset|` over the first `m` visited rows (rows
`0, 2^s, …, (m-1)·2^s`) and all columns. -/
def absDiffSum (p : DistParam) (offset : Int) (m : Nat) : Nat :=
  ∑ j ∈ Finset.range m, ∑ n ∈ Finset.range p.org.width,
    (p.org.at (j * 2 ^ p.subShift) n - p.cur.at (j * 2 ^ p.subShift) n - offset).natAbs

/-- The same parameters with another early-exit threshold. -/
def DistParam.withThreshold (p : DistParam) (t : Nat) : DistParam :=
  { p with maximumDistortionForEarlyExit := t }

/-- The same parameters with `org` and `cur` exchanged. -/
def DistParam.swap (p : DistParam) : DistParam :=
  { p with org := p.cur, cur := p.org }

/-- The same parameters with the constant `k` added to every sample of `cur`. -/
def DistParam.curPlus (p : DistParam) (k : Int) : DistParam :=
  { p with cur := { p.cur with buf := fun i => p.cur.buf i + k } }

/-- A default-constructed `DistParam` for the example builds. -/
def exampleDistParam : DistParam where
  org := { buf := fun _ => 0, stride := 0, width := 0, height := 0 }
  cur := { buf := fun _ => 0, stride := 0, width := 0, height := 0 }
  bitDepth := 0
  subShift := 0
  applyWeight := false
  maximumDistortionForEarlyExit := maxDistortion

/-- The table `DELTA_QP_ACT` of the example builds. -/
def exampleDeltaQpAct : ComponentID → Int
  | ComponentID.COMPONENT_Y => -5
  | ComponentID.COMPONENT_Cb => 1
  | ComponentID.COMPONENT_Cr => 3

/-- The predicate `isChroma` of the example builds: Cb and Cr are chroma. -/
def exampleIsChroma : ComponentID → Bool
  | ComponentID.COMPONENT_Y => false
  | ComponentID.COMPONENT_Cb => true
  | ComponentID.COMPONENT_Cr => true

/-- The macro `MAP_CHROMA` of the example builds: the chroma index of a component. -/
def exampleMapChroma : ComponentID → Nat
  | ComponentID.COMPONENT_Y => 0
  | ComponentID.COMPONENT_Cb => 0
  | ComponentID.COMPONENT_Cr => 1

/-- A build with `FULL_NBIT`: no precision adjustment, no `WCG_EXT`, 16-bit `Pel`.
Its `pow` rounds the exponent down to an integer and its `sqrt` is the integer
square root of the integer part. -/
def cfgFullNBit : Config where
  DISTORTION_PRECISION_ADJUSTMENT := fun _ => 0
  WCG_EXT := false
  pelBits := 16
  MAX_DOUBLE := 17 * 10 ^ 307
  xGetSADw := fun _ => none
  xGetSSEw := fun _ => none
  xGetHADsw := fun _ => Except.error "xGetHADsw"
  JVET_R0164_MEAN_SCALED_SATD := true
  SCALE_BITS := 15
  CSCALE_FP_PREC := 11
  DELTA_QP_ACT := exampleDeltaQpAct
  pow := fun b e => b ^ (Rat.floor e)
  sqrt := fun x => (Nat.sqrt (Rat.floor x).toNat : ℚ)
  sizeOffset := fun _ size => Nat.log2 size
  dfuncAdd := fun d k => DFunc.ofNat (d.toCtorIdx + k)
  MAP_CHROMA := exampleMapChroma
  isChroma := exampleIsChroma
  newDistParam := exampleDistParam

/-- A build whose precision adjustment discards `bitDepth - 8` bits, with
`WCG_EXT` and without `JVET_R0164_MEAN_SCALED_SATD`. -/
def cfgReducedPrecision : Config where
  DISTORTION_PRECISION_ADJUSTMENT := fun bitDepth =>
    if 8 < bitDepth then (bitDepth - 8).toNat else 0
  WCG_EXT := true
  pelBits := 16
  MAX_DOUBLE := 17 * 10 ^ 307
  xGetSADw := fun _ => none
  xGetSSEw := fun _ => none
  xGetHADsw := fun _ => Except.error "xGetHADsw"
  JVET_R0164_MEAN_SCALED_SATD := false
  SCALE_BITS := 15
  CSCALE_FP_PREC := 11
  DELTA_QP_ACT := exampleDeltaQpAct
  pow := fun b e => b ^ (Rat.floor e)
  sqrt := fun x => (Nat.sqrt (Rat.floor x).toNat : ℚ)
  sizeOffset := fun _ size => Nat.log2 size
  dfuncAdd := fun d k => DFunc.ofNat (d.toCtorIdx + k)
  MAP_CHROMA := exampleMapChroma
  isChroma := exampleIsChroma
  newDistParam := exampleDistParam

/-- A buffer whose samples are the entries of a list laid out row by row
(zero outside the list). -/
def listBuf (samples : List Int) (stride : Int) (width height : Nat) : CPelBuf where
  buf := fun i => if 0 ≤ i then samples.getD i.toNat 0 else 0
  stride := stride
  width := width
  height := height

/-- Parameters for two `width × height` blocks given as lists, unweighted. -/
def listParam (org cur : List Int) (width height : Nat) (bitDepth : Int) (subShift : Nat)
    (maxDist : Nat) : DistParam where
  org := listBuf org width width height
  cur := listBuf cur width width height
  bitDepth := bitDepth
  subShift := subShift
  applyWeight := false
  maximumDistortionForEarlyExit := maxDist

/-- A `width × height` buffer whose samples all equal `c`. -/
def constBuf (c : Int) (width height : Nat) : CPelBuf where
  buf := fun _ => c
  stride := width
  width := width
  height := height

/-- Two 16×16 blocks of constant 128 at bit depth 10. -/
def flat16 : DistParam where
  org := constBuf 128 16 16
  cur := constBuf 128 16 16
  bitDepth := 10
  subShift := 0
  applyWeight := false
  maximumDistortionForEarlyExit := maxDistortion

/-- Samples of an 8×8 block at bit depth 8. -/
def samples8x8 : List Int :=
  [ 52,  55,  61,  66,  70,  61,  64,  73,
    63,  59,  55,  90, 109,  85,  69,  72,
    62,  59,  68, 113, 144, 104,  66,  73,
    63,  58,  71, 122, 154, 106,  70,  69,
    67,  61,  68, 104, 126,  88,  68,  70,
    79,  65,  60,  70,  77,  68,  58,  75,
    85,  71,  64,  59,  55,  61,  65,  83,
    87,  79,  69,  68,  65,  76,  78,  94]

/-- The 8×8 block `samples8x8` against the same block with 7 added to every sample. -/
def shifted8x8 : DistParam :=
  listParam samples8x8 (samples8x8.map (fun x => x + 7)) 8 8 8 0 maxDistortion

/-- A lossless-mode state whose `m_isLosslessRDCost` flag is clear. -/
def stLosslessFlagClear : State where
  m_costMode := CostMode.COST_LOSSLESS_CODING
  m_isLosslessRDCost := false
  m_distScale := 1
  m_distScaleUnadjusted := 1

/-- A lossless-mode state whose `m_isLosslessRDCost` flag is set. -/
def stLossless : State where
  m_costMode := CostMode.COST_LOSSLESS_CODING
  m_isLosslessRDCost := true
  m_distScale := 1
  m_distScaleUnadjusted := 1

/-- A lossy state whose adjusted and unadjusted scales differ. -/
def stAdjusted : State where
  m_costMode := CostMode.COST_STANDARD_LOSSY
  m_isLosslessRDCost := false
  m_distScale := 1
  m_distScaleUnadjusted := 2

/-! ## Size-specialised kernels -/

/-- The size-specialised kernels `xGetSAD4`, `xGetSAD8`, `xGetSAD12`, `xGetSAD16`,
`xGetSAD24`, `xGetSAD32`, `xGetSAD48` and `xGetSAD64` differ only in the number
`k` of unrolled statements `sum += abs(piOrg[i] - piCur[i]);`, `i = 0 .. k-1`,
of the row body (`sadRow` with `k` columns).  They do not read the width and
have no early exit. -/
def sadUnrolled (k : Nat) (cfg : Config) (p : DistParam) : Option Nat :=
  if p.applyWeight then cfg.xGetSADw p
  else
    let rows : Int := p.org.height
    let subShift := p.subShift
    let subStep : Int := 2 ^ subShift
    let strideCur := p.cur.stride * subStep
    let strideOrg := p.org.stride * subStep
    rowLoop (sadRow p.org.buf p.cur.buf k) (fun _ => none)
      (fun sum =>
        toDistortion (sum <<< subShift) >>> cfg.DISTORTION_PRECISION_ADJUSTMENT p.bitDepth)
      subStep strideOrg strideCur p.org.height rows 0 0 0

/-- `RdCost::xGetSAD4`. -/
def xGetSAD4 (cfg : Config) (p : DistParam) : Option Nat := sadUnrolled 4 cfg p

/-- `RdCost::xGetSAD8`. -/
def xGetSAD8 (cfg : Config) (p : DistParam) : Option Nat := sadUnrolled 8 cfg p

/-- `RdCost::xGetSAD12`. -/
def xGetSAD12 (cfg : Config) (p : DistParam) : Option Nat := sadUnrolled 12 cfg p

/-- `RdCost::xGetSAD16`. -/
def xGetSAD16 (cfg : Config) (p : DistParam) : Option Nat := sadUnrolled 16 cfg p

/-- `RdCost::xGetSAD24`. -/
def xGetSAD24 (cfg : Config) (p : DistParam) : Option Nat := sadUnrolled 24 cfg p

/-- `RdCost::xGetSAD32`. -/
def xGetSAD32 (cfg : Config) (p : DistParam) : Option Nat := sadUnrolled 32 cfg p

/-- `RdCost::xGetSAD48`. -/
def xGetSAD48 (cfg : Config) (p : DistParam) : Option Nat := sadUnrolled 48 cfg p

/-- `RdCost::xGetSAD64`. -/
def xGetSAD64 (cfg : Config) (p : DistParam) : Option Nat := sadUnrolled 64 cfg p

/-- Two 4×4 blocks of constant 100 and constant 110 at bit depth 8. -/
def flat4x4 : DistParam where
  org := constBuf 100 4 4
  cur := constBuf 110 4 4
  bitDepth := 8
  subShift := 0
  applyWeight := false
  maximumDistortionForEarlyExit := maxDistortion

/-! ## Setting up a `DistParam` -/

/-- `RdCost::setDistParam(rcDP, org, piRefY, iRefStride, bitDepth, compID,
subShiftMode, step, useHadamard)`, the overload taking the original as a buffer. -/
def setDistParam (cfg : Config) (rcDP : DistParam) (org : CPelBuf) (piRefY : Int → Int)
    (iRefStride : Int) (bitDepth : Int) (compID : ComponentID) (subShiftMode : Int) (step : Int)
    (useHadamard : Bool) : DistParam :=
  let rcDP : DistParam := { rcDP with bitDepth := bitDepth, compID := compID }
  -- set Original & Curr Pointer / Stride
  let rcDP : DistParam := { rcDP with org := org }
  let rcDP : DistParam := { rcDP with cur := { rcDP.cur with buf := piRefY, stride := iRefStride } }
  -- set Block Width / Height
  let rcDP : DistParam :=
    { rcDP with cur := { rcDP.cur with width := org.width, height := org.height } }
  let rcDP : DistParam := { rcDP with step := step, maximumDistortionForEarlyExit := maxDistortion }
  let rcDP : DistParam :=
    if !useHadamard then
      let baseIdx := if rcDP.useMR then DFunc.MRSAD else DFunc.SAD
      { rcDP with distFunc := cfg.dfuncAdd baseIdx (cfg.sizeOffset true org.width) }
    else
      let baseIdx := if rcDP.useMR then DFunc.MRHAD else DFunc.HAD
      { rcDP with distFunc := cfg.dfuncAdd baseIdx (cfg.sizeOffset false org.width) }
  -- initialize
  let rcDP : DistParam := { rcDP with subShift := 0 }
  if subShiftMode = 1 then
    if rcDP.org.height > 32 ∧ rcDP.org.height &&& 15 = 0 then { rcDP with subShift := 4 }
    else if rcDP.org.height > 16 ∧ rcDP.org.height &&& 7 = 0 then { rcDP with subShift := 3 }
    else if rcDP.org.height > 8 ∧ rcDP.org.height &&& 3 = 0 then { rcDP with subShift := 2 }
    else if rcDP.org.height &&& 1 = 0 then { rcDP with subShift := 1 }
    else rcDP
  else if subShiftMode = 2 then
    if rcDP.org.height > 8 ∧ rcDP.org.width ≤ 64 then { rcDP with subShift := 1 }
    else rcDP
  else if subShiftMode = 3 then
    if rcDP.org.height > 8 then { rcDP with subShift := 1 }
    else rcDP
  else rcDP

/-- `RdCost::setDistParam(rcDP, pOrg, piRefY, iOrgStride, iRefStride, bitDepth,
compID, width, height, subShiftMode, step, useHadamard, bioApplied)`, the
overload taking raw pointers.  The result is `Except.error` when the `CHECK`
fails.  `rcDP.subShift` is an `int` in the source and a natural number here:
a negative `subShiftMode` (for which `1 << subShift` is undefined in the
kernels) is stored as 0. -/
def setDistParamRaw (cfg : Config) (rcDP : DistParam) (pOrg piRefY : Int → Int)
    (iOrgStride iRefStride : Int) (bitDepth : Int) (compID : ComponentID) (width height : Nat)
    (subShiftMode : Int) (step : Int) (useHadamard bioApplied : Bool) :
    Except String DistParam :=
  let rcDP : DistParam := { rcDP with bitDepth := bitDepth, compID := compID }
  let rcDP : DistParam :=
    { rcDP with org := { buf := pOrg, stride := iOrgStride, width := width, height := height } }
  let rcDP : DistParam :=
    { rcDP with cur := { buf := piRefY, stride := iRefStride, width := width, height := height } }
  let rcDP : DistParam := { rcDP with subShift := subShiftMode.toNat }
  let rcDP : DistParam := { rcDP with step := step, maximumDistortionForEarlyExit := maxDistortion }
  if useHadamard = true ∨ rcDP.useMR = true then
    Except.error "only used in xDmvrCost with these default parameters (so far...)"
  else if bioApplied then
    Except.ok { rcDP with distFunc := DFunc.SAD_INTERMEDIATE_BITDEPTH }
  else
    Except.ok { rcDP with distFunc := cfg.dfuncAdd DFunc.SAD (cfg.sizeOffset true width) }

/-- Rounding of a rational number to the nearest integer, a tie going to the
even neighbour. -/
def roundHalfEven (m : ℚ) : Int :=
  let f : Int := Rat.floor m
  let r : ℚ := m - (f : ℚ)
  if r < 1 / 2 then f
  else if 1 / 2 < r then f + 1
  else if f % 2 = 0 then f
  else f + 1

/-- The `double` nearest to `x`: the result of an arithmetic operation of type
`double` whose exact result is `x`, and of the conversion of an integer `x` to
`double`.  `double` is the IEEE 754 binary64 format (53 significant bits,
smallest normal exponent -1022) in the default rounding mode, round to nearest
with ties to even; an exact result beyond the largest finite `double` is
outside the embedding. -/
def roundDouble (x : ℚ) : ℚ :=
  if x = 0 then 0
  else
    let e : Int := max (Int.log 2 |x|) (-1022)
    let ulp : ℚ := 2 ^ (e - 52)
    (roundHalfEven (x / ulp) : ℚ) * ulp

/-- Conversion `(Distortion) x` of a non-negative `double` to the integer
distortion type: the integer part. -/
def doubleToDistortion (x : ℚ) : Nat := (Rat.floor x).toNat

/-- `RdCost::getDistPart(org, cur, bitDepth, compID, distFunc)`, the overload
taking a `DFunc`.  In `m_distortionWeight[...] * cDtParam.distFunc(cDtParam)`
the `Distortion` value is converted to `double` and the product is a `double`
product: both are rounded (`roundDouble`) before the conversion to
`Distortion`. -/
def getDistPart (cfg : Config) (st : State) (org cur : CPelBuf) (bitDepth : Int)
    (compID : ComponentID) (distFunc : DFunc) : Option Nat :=
  let cDtParam : DistParam :=
    { cfg.newDistParam with
      org := org
      cur := cur
      step := 1
      bitDepth := bitDepth
      compID := compID }
  let cDtParam : DistParam :=
    { cDtParam with distFunc := cfg.dfuncAdd distFunc (cfg.sizeOffset false org.width) }
  if cfg.isChroma compID then
    match st.m_distortionFunc cDtParam.distFunc cDtParam with
    | none => none
    | some d =>
      some (doubleToDistortion
        (roundDouble (st.m_distortionWeight (cfg.MAP_CHROMA compID) * roundDouble (d : ℚ))))
  else
    st.m_distortionFunc cDtParam.distFunc cDtParam

/-! ## Lambda -/

/-- `RdCost::setLambda` (its argument `bitDepths` is not read). -/
def setLambda (cfg : Config) (st : State) (dLambda : ℚ) : State :=
  let st : State := { st with m_dLambda := dLambda }
  let st : State := { st with m_distScale := ((2 ^ cfg.SCALE_BITS : Nat) : ℚ) / st.m_dLambda }
  { st with m_dLambdaMotionSAD := cfg.sqrt st.m_dLambda }

/-- The members set at the end of `RdCost::init`.  The assignments of `init`
to the static table `m_distortionFunc` are not part of the embedding: the
table is a field of `State` whose entries are arbitrary. -/
def init (st : State) : State :=
  { st with
    m_costMode := CostMode.COST_STANDARD_LOSSY
    m_motionLambda := 0
    m_iCostScale := 0
    m_resetStore := true
    m_pairCheck := 0 }

/-- The value `lamdbaAdjustRate = pow(2.0, delta_QP / 3.0)` of a component. -/
def lamdbaAdjustRate (cfg : Config) (compID : ComponentID) : ℚ :=
  cfg.pow 2 ((cfg.DELTA_QP_ACT compID : ℚ) / 3)

/-- The block `if (m_resetStore) { ... }` of `lambdaAdjustColorTrans`: for every
component the pairs `(λ, distScale)` and `(λ · rate, 2^SCALE_BITS / (λ · rate))`
are stored. -/
def captureStore (cfg : Config) (st : State) : State :=
  if st.m_resetStore then
    { st with
      m_lambdaStore := fun i component =>
        if i = 0 then st.m_dLambda
        else if i = 1 then st.m_dLambda * lamdbaAdjustRate cfg component
        else st.m_lambdaStore i component
      m_distScaleStore := fun i component =>
        if i = 0 then st.m_distScale
        else if i = 1 then
          ((2 ^ cfg.SCALE_BITS : Nat) : ℚ) / (st.m_dLambda * lamdbaAdjustRate cfg component)
        else st.m_distScaleStore i component
      m_resetStore := false }
  else st

/-- The block `if (forward) { ... } else { ... }` of `lambdaAdjustColorTrans`. -/
def pairStep (st : State) (forward : Bool) : Except String State :=
  if forward then
    if st.m_pairCheck = 1 then Except.error "lambda has been already adjusted"
    else Except.ok { st with m_pairCheck := 1 }
  else
    if st.m_pairCheck = 0 then Except.error "lambda has not been adjusted"
    else Except.ok { st with m_pairCheck := 0 }

/-- The assignments from the store and the block `if (applyChromaScale) { ... }`. -/
def scaleStep (cfg : Config) (st : State) (componentID : ComponentID)
    (applyChromaScale : Bool) (resScaleInv : Int) : Except String State :=
  let st : State :=
    { st with
      m_dLambda := st.m_lambdaStore st.m_pairCheck componentID
      m_distScale := st.m_distScaleStore st.m_pairCheck componentID }
  if applyChromaScale then
    if st.m_pairCheck = 0 ∨ componentID = ComponentID.COMPONENT_Y then
      Except.error "wrong lambda adjustment for CS"
    else
      let cResScale : ℚ := ((2 ^ cfg.CSCALE_FP_PREC : Nat) : ℚ) / (resScaleInv : ℚ)
      let st : State := { st with m_dLambda := st.m_dLambda / (cResScale * cResScale) }
      Except.ok { st with m_distScale := ((2 ^ cfg.SCALE_BITS : Nat) : ℚ) / st.m_dLambda }
  else Except.ok st

/-- The final block `if (m_pairCheck == 0) { CHECK(...) }`. -/
def restoreCheck (st : State) : Except String State :=
  if st.m_pairCheck = 0 then
    if st.m_distScale ≠ st.m_distScaleUnadjusted then
      Except.error "lambda should be adjusted to the original value"
    else Except.ok st
  else Except.ok st

/-- `RdCost::lambdaAdjustColorTrans`; `resScaleInv` is the value `*resScaleInv`,
read only when `applyChromaScale` is set.  The result is `Except.error` with the
message of the `CHECK` that fails. -/
def lambdaAdjustColorTrans (cfg : Config) (st : State) (forward : Bool)
    (componentID : ComponentID) (applyChromaScale : Bool) (resScaleInv : Int) :
    Except String State :=
  match pairStep (captureStore cfg st) forward with
  | Except.error e => Except.error e
  | Except.ok st1 =>
    match scaleStep cfg st1 componentID applyChromaScale resScaleInv with
    | Except.error e => Except.error e
    | Except.ok st2 => restoreCheck st2

/-- The arguments of one call of `lambdaAdjustColorTrans`. -/
structure AdjustCall where
  forward : Bool
  componentID : ComponentID
  applyChromaScale : Bool
  resScaleInv : Int

/-- A sequence of calls of `lambdaAdjustColorTrans`, stopping at the first failure. -/
def runCalls (cfg : Config) : State → List AdjustCall → Except String State
  | st, [] => Except.ok st
  | st, c :: cs =>
    match lambdaAdjustColorTrans cfg st c.forward c.componentID c.applyChromaScale
        c.resScaleInv with
    | Except.error e => Except.error e
    | Except.ok st1 => runCalls cfg st1 cs

/-- A state with `λ = 4`, the matching `distScale` and `m_distScaleUnadjusted`
for `SCALE_BITS = 15`. -/
def stLambda4 : State where
  m_costMode := CostMode.COST_STANDARD_LOSSY
  m_isLosslessRDCost := false
  m_distScale := 8192
  m_distScaleUnadjusted := 8192
  m_dLambda := 4

/-- The call `cDtParam.distFunc(cDtParam)` of `getDistPart`: the metric function
selected for the width of `org`, on the parameter block that `getDistPart`
fills in. -/
def rawMetric (cfg : Config) (st : State) (org cur : CPelBuf) (bitDepth : Int)
    (compID : ComponentID) (distFunc : DFunc) : Option Nat :=
  st.m_distortionFunc (cfg.dfuncAdd distFunc (cfg.sizeOffset false org.width))
    { cfg.newDistParam with
      org := org
      cur := cur
      step := 1
      bitDepth := bitDepth
      compID := compID
      distFunc := cfg.dfuncAdd distFunc (cfg.sizeOffset false org.width) }

/-- A state whose chroma weights are the `double` nearest to 0.7, which is
`3152519739159347 / 2^52`, and whose metric functions return 10. -/
def stWeightSevenTenths : State where
  m_costMode := CostMode.COST_STANDARD_LOSSY
  m_isLosslessRDCost := false
  m_distScale := 1
  m_distScaleUnadjusted := 1
  m_distortionWeight := fun _ => 3152519739159347 / 4503599627370496
  m_distortionFunc := fun _ _ => some 10

/-- The relation `distScale · λ = 2^SCALE_BITS` on the current pair while the
cached pairs are still to be captured (`m_resetStore` set), and on the two
cached pairs of every component once they are captured. -/
def ScaleInvariant (cfg : Config) (st : State) : Prop :=
  (st.m_resetStore = true → st.m_distScale * st.m_dLambda = ((2 ^ cfg.SCALE_BITS : Nat) : ℚ)) ∧
  (st.m_resetStore = false → ∀ i, i < 2 → ∀ c,
    st.m_distScaleStore i c * st.m_lambdaStore i c = ((2 ^ cfg.SCALE_BITS : Nat) : ℚ))

/-! ## Coefficient-group context (`ContextModelling.cpp`) -/

/-- Arithmetic on `unsigned` wraps modulo `2^32`. -/
def toUnsigned (n : Nat) : Nat := n % 2 ^ 32

/-- The members of `CoeffCodingContext` that `initSubblock` reads or writes.
The grid of coefficient groups is `m_widthInGroups × m_heightInGroups`;
`m_scanCG i` is the field `idx` of the scan element `m_scanCG[i]`;
`m_sigCoeffGroupFlag` is the bitset of significance bits, one per group (its
size `MLS_GRP_NUM` is declared outside the sources at hand and positions are
not bounded here).  `SigCoeffGroup` and `TsSigCoeffGroup` are the context sets
`Ctx::SigCoeffGroup[to_underlying(m_chType)]` and `Ctx::TsSigCoeffGroup`, applied
to a selector; they are declared outside the sources at hand.  The members
written by `initSubblock` start at `-1` as in the constructor, the bitset starts
empty. -/
structure CoeffCodingContext where
  m_log2CGSize : Nat
  m_widthInGroups : Nat
  m_heightInGroups : Nat
  m_scanCG : Nat → Nat
  SigCoeffGroup : Nat → Int
  TsSigCoeffGroup : Nat → Int
  m_subSetId : Int := -1
  m_subSetPos : Int := -1
  m_subSetPosX : Int := -1
  m_subSetPosY : Int := -1
  m_minSubPos : Int := -1
  m_maxSubPos : Int := -1
  m_sigGroupCtxId : Int := -1
  m_sigGroupCtxIdTS : Int := -1
  m_sigCoeffGroupFlag : Nat → Bool := fun _ => false

/-- `CoeffCodingContext::initSubblock(SubsetId, sigGroupFlag)`.  The result is
`none` when `m_widthInGroups` is 0 (division by zero).  The reads of the bitset
at `m_subSetPos - 1` and `m_subSetPos - m_widthInGroups` happen only under
guards that make the subtraction exact. -/
def CoeffCodingContext.initSubblock (c : CoeffCodingContext) (SubsetId : Nat)
    (sigGroupFlag : Bool) : Option CoeffCodingContext :=
  if c.m_widthInGroups = 0 then none
  else
    let m_subSetPos : Nat := c.m_scanCG SubsetId
    let m_subSetPosY : Nat := m_subSetPos / c.m_widthInGroups
    let m_subSetPosX : Nat := m_subSetPos - m_subSetPosY * c.m_widthInGroups
    let m_minSubPos : Nat := SubsetId <<< c.m_log2CGSize
    let m_maxSubPos : Int := (m_minSubPos : Int) + ((1 <<< c.m_log2CGSize : Nat) : Int) - 1
    let m_sigCoeffGroupFlag : Nat → Bool :=
      if sigGroupFlag then fun n => if n = m_subSetPos then true else c.m_sigCoeffGroupFlag n
      else c.m_sigCoeffGroupFlag
    let CGPosY : Nat := m_subSetPosY
    let CGPosX : Nat := m_subSetPosX
    let sigRight : Nat :=
      if toUnsigned (CGPosX + 1) < c.m_widthInGroups then
        (m_sigCoeffGroupFlag (toUnsigned (m_subSetPos + 1))).toNat
      else 0
    let sigLower : Nat :=
      if toUnsigned (CGPosY + 1) < c.m_heightInGroups then
        (m_sigCoeffGroupFlag (toUnsigned (m_subSetPos + c.m_widthInGroups))).toNat
      else 0
    let sigLeft : Nat :=
      if CGPosX > 0 then (m_sigCoeffGroupFlag (m_subSetPos - 1)).toNat else 0
    let sigAbove : Nat :=
      if CGPosY > 0 then (m_sigCoeffGroupFlag (m_subSetPos - c.m_widthInGroups)).toNat else 0
    some { c with
      m_subSetId := SubsetId
      m_subSetPos := m_subSetPos
      m_subSetPosY := m_subSetPosY
      m_subSetPosX := m_subSetPosX
      m_minSubPos := m_minSubPos
      m_maxSubPos := m_maxSubPos
      m_sigCoeffGroupFlag := m_sigCoeffGroupFlag
      m_sigGroupCtxId := c.SigCoeffGroup (sigRight ||| sigLower)
      m_sigGroupCtxIdTS := c.TsSigCoeffGroup (sigLeft + sigAbove) }

/-- The significance bit of group `n` as a number. -/
def CoeffCodingContext.sigBit (c : CoeffCodingContext) (n : Nat) : Nat :=
  (c.m_sigCoeffGroupFlag n).toNat

/-- A freshly constructed context on a `W × H` grid with row-by-row scan, whose
context sets return the selector itself. -/
def exampleContext (W H : Nat) : CoeffCodingContext where
  m_log2CGSize := 4
  m_widthInGroups := W
  m_heightInGroups := H
  m_scanCG := fun i => i
  SigCoeffGroup := fun s => s
  TsSigCoeffGroup := fun s => s

/-- The context `c` with the significance bit of group `pos` replaced by `b`. -/
def CoeffCodingContext.withBit (c : CoeffCodingContext) (pos : Nat) (b : Bool) :
    CoeffCodingContext :=
  { c with m_sigCoeffGroupFlag := fun n => if n = pos then b else c.m_sigCoeffGroupFlag n }

/-- A 4 × 4 grid in which the groups 6 and 9 are significant. -/
def markedContext : CoeffCodingContext :=
  { exampleContext 4 4 with m_sigCoeffGroupFlag := fun n => n == 6 || n == 9 }

/-! ## Hadamard butterflies -/

/-- `xCalcHADs4x4`, the 16 assignments `m[..] = diff[..] ± diff[..]` of butterfly 1. -/
def xCalcHADs4x4_stage1 (diff : Nat → Int) (k : Nat) : Int :=
  match k with
  | 0 => diff 0 + diff 12
  | 1 => diff 1 + diff 13
  | 2 => diff 2 + diff 14
  | 3 => diff 3 + diff 15
  | 4 => diff 4 + diff 8
  | 5 => diff 5 + diff 9
  | 6 => diff 6 + diff 10
  | 7 => diff 7 + diff 11
  | 8 => diff 4 - diff 8
  | 9 => diff 5 - diff 9
  | 10 => diff 6 - diff 10
  | 11 => diff 7 - diff 11
  | 12 => diff 0 - diff 12
  | 13 => diff 1 - diff 13
  | 14 => diff 2 - diff 14
  | 15 => diff 3 - diff 15
  | _ => 0

/-- `xCalcHADs4x4`, the 16 assignments `d[..] = m[..] ± m[..]` of butterfly 2. -/
def xCalcHADs4x4_stage2 (m : Nat → Int) (k : Nat) : Int :=
  match k with
  | 0 => m 0 + m 4
  | 1 => m 1 + m 5
  | 2 => m 2 + m 6
  | 3 => m 3 + m 7
  | 4 => m 8 + m 12
  | 5 => m 9 + m 13
  | 6 => m 10 + m 14
  | 7 => m 11 + m 15
  | 8 => m 0 - m 4
  | 9 => m 1 - m 5
  | 10 => m 2 - m 6
  | 11 => m 3 - m 7
  | 12 => m 12 - m 8
  | 13 => m 13 - m 9
  | 14 => m 14 - m 10
  | 15 => m 15 - m 11
  | _ => 0

/-- `xCalcHADs4x4`, the 16 assignments `m[..] = d[..] ± d[..]` of butterfly 3. -/
def xCalcHADs4x4_stage3 (d : Nat → Int) (k : Nat) : Int :=
  match k with
  | 0 => d 0 + d 3
  | 1 => d 1 + d 2
  | 2 => d 1 - d 2
  | 3 => d 0 - d 3
  | 4 => d 4 + d 7
  | 5 => d 5 + d 6
  | 6 => d 5 - d 6
  | 7 => d 4 - d 7
  | 8 => d 8 + d 11
  | 9 => d 9 + d 10
  | 10 => d 9 - d 10
  | 11 => d 8 - d 11
  | 12 => d 12 + d 15
  | 13 => d 13 + d 14
  | 14 => d 13 - d 14
  | 15 => d 12 - d 15
  | _ => 0

/-- `xCalcHADs4x4`, the 16 assignments `d[..] = m[..] ± m[..]` of butterfly 4. -/
def xCalcHADs4x4_stage4 (m : Nat → Int) (k : Nat) : Int :=
  match k with
  | 0 => m 0 + m 1
  | 1 => m 0 - m 1
  | 2 => m 2 + m 3
  | 3 => m 3 - m 2
  | 4 => m 4 + m 5
  | 5 => m 4 - m 5
  | 6 => m 6 + m 7
  | 7 => m 7 - m 6
  | 8 => m 8 + m 9
  | 9 => m 8 - m 9
  | 10 => m 10 + m 11
  | 11 => m 11 - m 10
  | 12 => m 12 + m 13
  | 13 => m 12 - m 13
  | 14 => m 14 + m 15
  | 15 => m 15 - m 14
  | _ => 0

/-- `xCalcHADs8x8`, the 8 assignments `m2[..] = diff[..] ± diff[..]` of butterfly 1 (row `j`, column `c`). -/
def xCalcHADs8x8_stage1 (diff : Nat → Int) (j c : Nat) : Int :=
  let jj := j <<< 3
  match c with
  | 0 => diff jj + diff (jj + 4)
  | 1 => diff (jj + 1) + diff (jj + 5)
  | 2 => diff (jj + 2) + diff (jj + 6)
  | 3 => diff (jj + 3) + diff (jj + 7)
  | 4 => diff jj - diff (jj + 4)
  | 5 => diff (jj + 1) - diff (jj + 5)
  | 6 => diff (jj + 2) - diff (jj + 6)
  | 7 => diff (jj + 3) - diff (jj + 7)
  | _ => 0

/-- `xCalcHADs8x8`, the 8 assignments `m1[..] = m2[..] ± m2[..]` of butterfly 2 (row `j`, column `c`). -/
def xCalcHADs8x8_stage2 (m2 : Nat → Nat → Int) (j c : Nat) : Int :=
  match c with
  | 0 => m2 j 0 + m2 j 2
  | 1 => m2 j 1 + m2 j 3
  | 2 => m2 j 0 - m2 j 2
  | 3 => m2 j 1 - m2 j 3
  | 4 => m2 j 4 + m2 j 6
  | 5 => m2 j 5 + m2 j 7
  | 6 => m2 j 4 - m2 j 6
  | 7 => m2 j 5 - m2 j 7
  | _ => 0

/-- `xCalcHADs8x8`, the 8 assignments `m2[..] = m1[..] ± m1[..]` of butterfly 3 (row `j`, column `c`). -/
def xCalcHADs8x8_stage3 (m1 : Nat → Nat → Int) (j c : Nat) : Int :=
  match c with
  | 0 => m1 j 0 + m1 j 1
  | 1 => m1 j 0 - m1 j 1
  | 2 => m1 j 2 + m1 j 3
  | 3 => m1 j 2 - m1 j 3
  | 4 => m1 j 4 + m1 j 5
  | 5 => m1 j 4 - m1 j 5
  | 6 => m1 j 6 + m1 j 7
  | 7 => m1 j 6 - m1 j 7
  | _ => 0

/-- `xCalcHADs8x8`, the 8 assignments `m3[..] = m2[..] ± m2[..]` of butterfly 4 (row `r`, column `i`). -/
def xCalcHADs8x8_stage4 (m2 : Nat → Nat → Int) (r i : Nat) : Int :=
  match r with
  | 0 => m2 0 i + m2 4 i
  | 1 => m2 1 i + m2 5 i
  | 2 => m2 2 i + m2 6 i
  | 3 => m2 3 i + m2 7 i
  | 4 => m2 0 i - m2 4 i
  | 5 => m2 1 i - m2 5 i
  | 6 => m2 2 i - m2 6 i
  | 7 => m2 3 i - m2 7 i
  | _ => 0

/-- `xCalcHADs8x8`, the 8 assignments `m1[..] = m3[..] ± m3[..]` of butterfly 5 (row `r`, column `i`). -/
def xCalcHADs8x8_stage5 (m3 : Nat → Nat → Int) (r i : Nat) : Int :=
  match r with
  | 0 => m3 0 i + m3 2 i
  | 1 => m3 1 i + m3 3 i
  | 2 => m3 0 i - m3 2 i
  | 3 => m3 1 i - m3 3 i
  | 4 => m3 4 i + m3 6 i
  | 5 => m3 5 i + m3 7 i
  | 6 => m3 4 i - m3 6 i
  | 7 => m3 5 i - m3 7 i
  | _ => 0

/-- `xCalcHADs8x8`, the 8 assignments `m2[..] = m1[..] ± m1[..]` of butterfly 6 (row `r`, column `i`). -/
def xCalcHADs8x8_stage6 (m1 : Nat → Nat → Int) (r i : Nat) : Int :=
  match r with
  | 0 => m1 0 i + m1 1 i
  | 1 => m1 0 i - m1 1 i
  | 2 => m1 2 i + m1 3 i
  | 3 => m1 2 i - m1 3 i
  | 4 => m1 4 i + m1 5 i
  | 5 => m1 4 i - m1 5 i
  | 6 => m1 6 i + m1 7 i
  | 7 => m1 6 i - m1 7 i
  | _ => 0

/-- `xCalcHADs16x8`, the 16 assignments `m2[..] = diff[..] ± diff[..]` of butterfly 1 (row `j`, column `c`). -/
def xCalcHADs16x8_stage1 (diff : Nat → Int) (j c : Nat) : Int :=
  let jj := j <<< 4
  match c with
  | 0 => diff jj + diff (jj + 8)
  | 1 => diff (jj + 1) + diff (jj + 9)
  | 2 => diff (jj + 2) + diff (jj + 10)
  | 3 => diff (jj + 3) + diff (jj + 11)
  | 4 => diff (jj + 4) + diff (jj + 12)
  | 5 => diff (jj + 5) + diff (jj + 13)
  | 6 => diff (jj + 6) + diff (jj + 14)
  | 7 => diff (jj + 7) + diff (jj + 15)
  | 8 => diff jj - diff (jj + 8)
  | 9 => diff (jj + 1) - diff (jj + 9)
  | 10 => diff (jj + 2) - diff (jj + 10)
  | 11 => diff (jj + 3) - diff (jj + 11)
  | 12 => diff (jj + 4) - diff (jj + 12)
  | 13 => diff (jj + 5) - diff (jj + 13)
  | 14 => diff (jj + 6) - diff (jj + 14)
  | 15 => diff (jj + 7) - diff (jj + 15)
  | _ => 0

/-- `xCalcHADs16x8`, the 16 assignments `m1[..] = m2[..] ± m2[..]` of butterfly 2 (row `j`, column `c`). -/
def xCalcHADs16x8_stage2 (m2 : Nat → Nat → Int) (j c : Nat) : Int :=
  match c with
  | 0 => m2 j 0 + m2 j 4
  | 1 => m2 j 1 + m2 j 5
  | 2 => m2 j 2 + m2 j 6
  | 3 => m2 j 3 + m2 j 7
  | 4 => m2 j 0 - m2 j 4
  | 5 => m2 j 1 - m2 j 5
  | 6 => m2 j 2 - m2 j 6
  | 7 => m2 j 3 - m2 j 7
  | 8 => m2 j 8 + m2 j 12
  | 9 => m2 j 9 + m2 j 13
  | 10 => m2 j 10 + m2 j 14
  | 11 => m2 j 11 + m2 j 15
  | 12 => m2 j 8 - m2 j 12
  | 13 => m2 j 9 - m2 j 13
  | 14 => m2 j 10 - m2 j 14
  | 15 => m2 j 11 - m2 j 15
  | _ => 0

/-- `xCalcHADs16x8`, the 16 assignments `m2[..] = m1[..] ± m1[..]` of butterfly 3 (row `j`, column `c`). -/
def xCalcHADs16x8_stage3 (m1 : Nat → Nat → Int) (j c : Nat) : Int :=
  match c with
  | 0 => m1 j 0 + m1 j 2
  | 1 => m1 j 1 + m1 j 3
  | 2 => m1 j 0 - m1 j 2
  | 3 => m1 j 1 - m1 j 3
  | 4 => m1 j 4 + m1 j 6
  | 5 => m1 j 5 + m1 j 7
  | 6 => m1 j 4 - m1 j 6
  | 7 => m1 j 5 - m1 j 7
  | 8 => m1 j 8 + m1 j 10
  | 9 => m1 j 9 + m1 j 11
  | 10 => m1 j 8 - m1 j 10
  | 11 => m1 j 9 - m1 j 11
  | 12 => m1 j 12 + m1 j 14
  | 13 => m1 j 13 + m1 j 15
  | 14 => m1 j 12 - m1 j 14
  | 15 => m1 j 13 - m1 j 15
  | _ => 0

/-- `xCalcHADs16x8`, the 16 assignments `m1[..] = m2[..] ± m2[..]` of butterfly 4 (row `j`, column `c`). -/
def xCalcHADs16x8_stage4 (m2 : Nat → Nat → Int) (j c : Nat) : Int :=
  match c with
  | 0 => m2 j 0 + m2 j 1
  | 1 => m2 j 0 - m2 j 1
  | 2 => m2 j 2 + m2 j 3
  | 3 => m2 j 2 - m2 j 3
  | 4 => m2 j 4 + m2 j 5
  | 5 => m2 j 4 - m2 j 5
  | 6 => m2 j 6 + m2 j 7
  | 7 => m2 j 6 - m2 j 7
  | 8 => m2 j 8 + m2 j 9
  | 9 => m2 j 8 - m2 j 9
  | 10 => m2 j 10 + m2 j 11
  | 11 => m2 j 10 - m2 j 11
  | 12 => m2 j 12 + m2 j 13
  | 13 => m2 j 12 - m2 j 13
  | 14 => m2 j 14 + m2 j 15
  | 15 => m2 j 14 - m2 j 15
  | _ => 0

/-- `xCalcHADs16x8`, the 8 assignments `m2[..] = m1[..] ± m1[..]` of butterfly 5 (row `r`, column `i`). -/
def xCalcHADs16x8_stage5 (m1 : Nat → Nat → Int) (r i : Nat) : Int :=
  match r with
  | 0 => m1 0 i + m1 4 i
  | 1 => m1 1 i + m1 5 i
  | 2 => m1 2 i + m1 6 i
  | 3 => m1 3 i + m1 7 i
  | 4 => m1 0 i - m1 4 i
  | 5 => m1 1 i - m1 5 i
  | 6 => m1 2 i - m1 6 i
  | 7 => m1 3 i - m1 7 i
  | _ => 0

/-- `xCalcHADs16x8`, the 8 assignments `m1[..] = m2[..] ± m2[..]` of butterfly 6 (row `r`, column `i`). -/
def xCalcHADs16x8_stage6 (m2 : Nat → Nat → Int) (r i : Nat) : Int :=
  match r with
  | 0 => m2 0 i + m2 2 i
  | 1 => m2 1 i + m2 3 i
  | 2 => m2 0 i - m2 2 i
  | 3 => m2 1 i - m2 3 i
  | 4 => m2 4 i + m2 6 i
  | 5 => m2 5 i + m2 7 i
  | 6 => m2 4 i - m2 6 i
  | 7 => m2 5 i - m2 7 i
  | _ => 0

/-- `xCalcHADs16x8`, the 8 assignments `m2[..] = m1[..] ± m1[..]` of butterfly 7 (row `r`, column `i`). -/
def xCalcHADs16x8_stage7 (m1 : Nat → Nat → Int) (r i : Nat) : Int :=
  match r with
  | 0 => m1 0 i + m1 1 i
  | 1 => m1 0 i - m1 1 i
  | 2 => m1 2 i + m1 3 i
  | 3 => m1 2 i - m1 3 i
  | 4 => m1 4 i + m1 5 i
  | 5 => m1 4 i - m1 5 i
  | 6 => m1 6 i + m1 7 i
  | 7 => m1 6 i - m1 7 i
  | _ => 0

/-- `xCalcHADs8x16`, the 8 assignments `m2[..] = diff[..] ± diff[..]` of butterfly 1 (row `j`, column `c`). -/
def xCalcHADs8x16_stage1 (diff : Nat → Int) (j c : Nat) : Int :=
  let jj := j <<< 3
  match c with
  | 0 => diff jj + diff (jj + 4)
  | 1 => diff (jj + 1) + diff (jj + 5)
  | 2 => diff (jj + 2) + diff (jj + 6)
  | 3 => diff (jj + 3) + diff (jj + 7)
  | 4 => diff jj - diff (jj + 4)
  | 5 => diff (jj + 1) - diff (jj + 5)
  | 6 => diff (jj + 2) - diff (jj + 6)
  | 7 => diff (jj + 3) - diff (jj + 7)
  | _ => 0

/-- `xCalcHADs8x16`, the 8 assignments `m1[..] = m2[..] ± m2[..]` of butterfly 2 (row `j`, column `c`). -/
def xCalcHADs8x16_stage2 (m2 : Nat → Nat → Int) (j c : Nat) : Int :=
  match c with
  | 0 => m2 j 0 + m2 j 2
  | 1 => m2 j 1 + m2 j 3
  | 2 => m2 j 0 - m2 j 2
  | 3 => m2 j 1 - m2 j 3
  | 4 => m2 j 4 + m2 j 6
  | 5 => m2 j 5 + m2 j 7
  | 6 => m2 j 4 - m2 j 6
  | 7 => m2 j 5 - m2 j 7
  | _ => 0

/-- `xCalcHADs8x16`, the 8 assignments `m2[..] = m1[..] ± m1[..]` of butterfly 3 (row `j`, column `c`). -/
def xCalcHADs8x16_stage3 (m1 : Nat → Nat → Int) (j c : Nat) : Int :=
  match c with
  | 0 => m1 j 0 + m1 j 1
  | 1 => m1 j 0 - m1 j 1
  | 2 => m1 j 2 + m1 j 3
  | 3 => m1 j 2 - m1 j 3
  | 4 => m1 j 4 + m1 j 5
  | 5 => m1 j 4 - m1 j 5
  | 6 => m1 j 6 + m1 j 7
  | 7 => m1 j 6 - m1 j 7
  | _ => 0

/-- `xCalcHADs8x16`, the 16 assignments `m1[..] = m2[..] ± m2[..]` of butterfly 4 (row `r`, column `i`). -/
def xCalcHADs8x16_stage4 (m2 : Nat → Nat → Int) (r i : Nat) : Int :=
  match r with
  | 0 => m2 0 i + m2 8 i
  | 1 => m2 1 i + m2 9 i
  | 2 => m2 2 i + m2 10 i
  | 3 => m2 3 i + m2 11 i
  | 4 => m2 4 i + m2 12 i
  | 5 => m2 5 i + m2 13 i
  | 6 => m2 6 i + m2 14 i
  | 7 => m2 7 i + m2 15 i
  | 8 => m2 0 i - m2 8 i
  | 9 => m2 1 i - m2 9 i
  | 10 => m2 2 i - m2 10 i
  | 11 => m2 3 i - m2 11 i
  | 12 => m2 4 i - m2 12 i
  | 13 => m2 5 i - m2 13 i
  | 14 => m2 6 i - m2 14 i
  | 15 => m2 7 i - m2 15 i
  | _ => 0

/-- `xCalcHADs8x16`, the 16 assignments `m2[..] = m1[..] ± m1[..]` of butterfly 5 (row `r`, column `i`). -/
def xCalcHADs8x16_stage5 (m1 : Nat → Nat → Int) (r i : Nat) : Int :=
  match r with
  | 0 => m1 0 i + m1 4 i
  | 1 => m1 1 i + m1 5 i
  | 2 => m1 2 i + m1 6 i
  | 3 => m1 3 i + m1 7 i
  | 4 => m1 0 i - m1 4 i
  | 5 => m1 1 i - m1 5 i
  | 6 => m1 2 i - m1 6 i
  | 7 => m1 3 i - m1 7 i
  | 8 => m1 8 i + m1 12 i
  | 9 => m1 9 i + m1 13 i
  | 10 => m1 10 i + m1 14 i
  | 11 => m1 11 i + m1 15 i
  | 12 => m1 8 i - m1 12 i
  | 13 => m1 9 i - m1 13 i
  | 14 => m1 10 i - m1 14 i
  | 15 => m1 11 i - m1 15 i
  | _ => 0

/-- `xCalcHADs8x16`, the 16 assignments `m1[..] = m2[..] ± m2[..]` of butterfly 6 (row `r`, column `i`). -/
def xCalcHADs8x16_stage6 (m2 : Nat → Nat → Int) (r i : Nat) : Int :=
  match r with
  | 0 => m2 0 i + m2 2 i
  | 1 => m2 1 i + m2 3 i
  | 2 => m2 0 i - m2 2 i
  | 3 => m2 1 i - m2 3 i
  | 4 => m2 4 i + m2 6 i
  | 5 => m2 5 i + m2 7 i
  | 6 => m2 4 i - m2 6 i
  | 7 => m2 5 i - m2 7 i
  | 8 => m2 8 i + m2 10 i
  | 9 => m2 9 i + m2 11 i
  | 10 => m2 8 i - m2 10 i
  | 11 => m2 9 i - m2 11 i
  | 12 => m2 12 i + m2 14 i
  | 13 => m2 13 i + m2 15 i
  | 14 => m2 12 i - m2 14 i
  | 15 => m2 13 i - m2 15 i
  | _ => 0

/-- `xCalcHADs8x16`, the 16 assignments `m2[..] = m1[..] ± m1[..]` of butterfly 7 (row `r`, column `i`). -/
def xCalcHADs8x16_stage7 (m1 : Nat → Nat → Int) (r i : Nat) : Int :=
  match r with
  | 0 => m1 0 i + m1 1 i
  | 1 => m1 0 i - m1 1 i
  | 2 => m1 2 i + m1 3 i
  | 3 => m1 2 i - m1 3 i
  | 4 => m1 4 i + m1 5 i
  | 5 => m1 4 i - m1 5 i
  | 6 => m1 6 i + m1 7 i
  | 7 => m1 6 i - m1 7 i
  | 8 => m1 8 i + m1 9 i
  | 9 => m1 8 i - m1 9 i
  | 10 => m1 10 i + m1 11 i
  | 11 => m1 10 i - m1 11 i
  | 12 => m1 12 i + m1 13 i
  | 13 => m1 12 i - m1 13 i
  | 14 => m1 14 i + m1 15 i
  | 15 => m1 14 i - m1 15 i
  | _ => 0

/-- `xCalcHADs4x8`, the 4 assignments `m2[..] = diff[..] ± diff[..]` of butterfly 1 (row `j`, column `c`). -/
def xCalcHADs4x8_stage1 (diff : Nat → Int) (j c : Nat) : Int :=
  let jj := j <<< 2
  match c with
  | 0 => diff jj + diff (jj + 2)
  | 1 => diff (jj + 1) + diff (jj + 3)
  | 2 => diff jj - diff (jj + 2)
  | 3 => diff (jj + 1) - diff (jj + 3)
  | _ => 0

/-- `xCalcHADs4x8`, the 4 assignments `m1[..] = m2[..] ± m2[..]` of butterfly 2 (row `j`, column `c`). -/
def xCalcHADs4x8_stage2 (m2 : Nat → Nat → Int) (j c : Nat) : Int :=
  match c with
  | 0 => m2 j 0 + m2 j 1
  | 1 => m2 j 0 - m2 j 1
  | 2 => m2 j 2 + m2 j 3
  | 3 => m2 j 2 - m2 j 3
  | _ => 0

/-- `xCalcHADs4x8`, the 8 assignments `m2[..] = m1[..] ± m1[..]` of butterfly 3 (row `r`, column `i`). -/
def xCalcHADs4x8_stage3 (m1 : Nat → Nat → Int) (r i : Nat) : Int :=
  match r with
  | 0 => m1 0 i + m1 4 i
  | 1 => m1 1 i + m1 5 i
  | 2 => m1 2 i + m1 6 i
  | 3 => m1 3 i + m1 7 i
  | 4 => m1 0 i - m1 4 i
  | 5 => m1 1 i - m1 5 i
  | 6 => m1 2 i - m1 6 i
  | 7 => m1 3 i - m1 7 i
  | _ => 0

/-- `xCalcHADs4x8`, the 8 assignments `m1[..] = m2[..] ± m2[..]` of butterfly 4 (row `r`, column `i`). -/
def xCalcHADs4x8_stage4 (m2 : Nat → Nat → Int) (r i : Nat) : Int :=
  match r with
  | 0 => m2 0 i + m2 2 i
  | 1 => m2 1 i + m2 3 i
  | 2 => m2 0 i - m2 2 i
  | 3 => m2 1 i - m2 3 i
  | 4 => m2 4 i + m2 6 i
  | 5 => m2 5 i + m2 7 i
  | 6 => m2 4 i - m2 6 i
  | 7 => m2 5 i - m2 7 i
  | _ => 0

/-- `xCalcHADs4x8`, the 8 assignments `m2[..] = m1[..] ± m1[..]` of butterfly 5 (row `r`, column `i`). -/
def xCalcHADs4x8_stage5 (m1 : Nat → Nat → Int) (r i : Nat) : Int :=
  match r with
  | 0 => m1 0 i + m1 1 i
  | 1 => m1 0 i - m1 1 i
  | 2 => m1 2 i + m1 3 i
  | 3 => m1 2 i - m1 3 i
  | 4 => m1 4 i + m1 5 i
  | 5 => m1 4 i - m1 5 i
  | 6 => m1 6 i + m1 7 i
  | 7 => m1 6 i - m1 7 i
  | _ => 0

/-- `xCalcHADs8x4`, the 8 assignments `m2[..] = diff[..] ± diff[..]` of butterfly 1 (row `j`, column `c`). -/
def xCalcHADs8x4_stage1 (diff : Nat → Int) (j c : Nat) : Int :=
  let jj := j <<< 3
  match c with
  | 0 => diff jj + diff (jj + 4)
  | 1 => diff (jj + 1) + diff (jj + 5)
  | 2 => diff (jj + 2) + diff (jj + 6)
  | 3 => diff (jj + 3) + diff (jj + 7)
  | 4 => diff jj - diff (jj + 4)
  | 5 => diff (jj + 1) - diff (jj + 5)
  | 6 => diff (jj + 2) - diff (jj + 6)
  | 7 => diff (jj + 3) - diff (jj + 7)
  | _ => 0

/-- `xCalcHADs8x4`, the 8 assignments `m1[..] = m2[..] ± m2[..]` of butterfly 2 (row `j`, column `c`). -/
def xCalcHADs8x4_stage2 (m2 : Nat → Nat → Int) (j c : Nat) : Int :=
  match c with
  | 0 => m2 j 0 + m2 j 2
  | 1 => m2 j 1 + m2 j 3
  | 2 => m2 j 0 - m2 j 2
  | 3 => m2 j 1 - m2 j 3
  | 4 => m2 j 4 + m2 j 6
  | 5 => m2 j 5 + m2 j 7
  | 6 => m2 j 4 - m2 j 6
  | 7 => m2 j 5 - m2 j 7
  | _ => 0

/-- `xCalcHADs8x4`, the 8 assignments `m2[..] = m1[..] ± m1[..]` of butterfly 3 (row `j`, column `c`). -/
def xCalcHADs8x4_stage3 (m1 : Nat → Nat → Int) (j c : Nat) : Int :=
  match c with
  | 0 => m1 j 0 + m1 j 1
  | 1 => m1 j 0 - m1 j 1
  | 2 => m1 j 2 + m1 j 3
  | 3 => m1 j 2 - m1 j 3
  | 4 => m1 j 4 + m1 j 5
  | 5 => m1 j 4 - m1 j 5
  | 6 => m1 j 6 + m1 j 7
  | 7 => m1 j 6 - m1 j 7
  | _ => 0

/-- `xCalcHADs8x4`, the 4 assignments `m1[..] = m2[..] ± m2[..]` of butterfly 4 (row `r`, column `i`). -/
def xCalcHADs8x4_stage4 (m2 : Nat → Nat → Int) (r i : Nat) : Int :=
  match r with
  | 0 => m2 0 i + m2 2 i
  | 1 => m2 1 i + m2 3 i
  | 2 => m2 0 i - m2 2 i
  | 3 => m2 1 i - m2 3 i
  | _ => 0

/-- `xCalcHADs8x4`, the 4 assignments `m2[..] = m1[..] ± m1[..]` of butterfly 5 (row `r`, column `i`). -/
def xCalcHADs8x4_stage5 (m1 : Nat → Nat → Int) (r i : Nat) : Int :=
  match r with
  | 0 => m1 0 i + m1 1 i
  | 1 => m1 0 i - m1 1 i
  | 2 => m1 2 i + m1 3 i
  | 3 => m1 2 i - m1 3 i
  | _ => 0

/-! ## Hadamard kernels

The arrays `diff`, `m`, `d`, `m1`, `m2`, `m3` of the kernels are functions of
their indices; each group of assignments that fills one array from another is
one of the butterfly functions above (entries outside the assigned range are
never read).  `TCoeff` and `int` arithmetic is exact. -/

/-- The array `diff` of a Hadamard kernel on a block `w` samples wide:
`diff[k] = piOrg[c] - piCur[c]` for `k = r · w + c`, where `piOrg` and `piCur`
have advanced by `r` strides. -/
def diffBlock (org cur : Int → Int) (piOrg piCur strideOrg strideCur : Int) (w : Nat)
    (k : Nat) : Int :=
  org (piOrg + ((k / w : Nat) : Int) * strideOrg + ((k % w : Nat) : Int))
    - cur (piCur + ((k / w : Nat) : Int) * strideCur + ((k % w : Nat) : Int))

/-- Conversion of an `int` to `Distortion`. -/
def intToDistortion (x : Int) : Nat := (x % 2 ^ 64).toNat

/-- Conversion `(int) x` of a `double`: truncation towards zero. -/
def doubleToInt (x : ℚ) : Int := if 0 ≤ x then Rat.floor x else Rat.ceil x

/-- `satd -= a` on `Distortion`. -/
def subDistortion (satd a : Nat) : Nat := (satd + 2 ^ 64 - a % 2 ^ 64) % 2 ^ 64

/-- The loops `for (i < rows) for (j < cols) sad += abs(m2[i][j]);` with a
`Distortion` accumulator. -/
def absSumDistortion (m2 : Nat → Nat → Int) (rows cols : Nat) : Nat :=
  (List.range rows).foldl (fun (s : Nat) (i : Nat) =>
    (List.range cols).foldl (fun (s : Nat) (j : Nat) =>
      toDistortion (s + (m2 i j).natAbs)) s) 0

/-- The loops `for (i < rows) for (j < cols) sad += abs(m2[i][j]);` with an
`int` accumulator. -/
def absSumInt (m2 : Nat → Nat → Int) (rows cols : Nat) : Int :=
  (List.range rows).foldl (fun (s : Int) (i : Nat) =>
    (List.range cols).foldl (fun (s : Int) (j : Nat) => s + |m2 i j|) s) 0

/-- The end of the kernels with an `int` accumulator: the reduction of the DC
term under `JVET_R0164_MEAN_SCALED_SATD`, then
`sad = (int)(sad / sqrt(n) * 2); return sad;`. -/
def normaliseInt (cfg : Config) (m2 : Nat → Nat → Int) (n : ℚ) (sad : Int) : Nat :=
  let sad : Int :=
    if cfg.JVET_R0164_MEAN_SCALED_SATD then sad - |m2 0 0| + (|m2 0 0| >>> 2) else sad
  let sad : Int := doubleToInt ((sad : ℚ) / cfg.sqrt n * 2)
  intToDistortion sad

/-- `RdCost::xCalcHADs2x2`. -/
def xCalcHADs2x2 (cfg : Config) (org cur : Int → Int)
    (piOrg piCur strideOrg strideCur step : Int) : Except String Nat :=
  if step ≠ 1 then Except.error "Invalid step"
  else
    let diff : Nat → Int := fun k =>
      match k with
      | 0 => org (piOrg + 0) - cur (piCur + 0)
      | 1 => org (piOrg + 1) - cur (piCur + 1)
      | 2 => org (piOrg + strideOrg) - cur (piCur + (0 + strideCur))
      | 3 => org (piOrg + (strideOrg + 1)) - cur (piCur + (1 + strideCur))
      | _ => 0
    let m : Nat → Int := fun k =>
      match k with
      | 0 => diff 0 + diff 2
      | 1 => diff 1 + diff 3
      | 2 => diff 0 - diff 2
      | 3 => diff 1 - diff 3
      | _ => 0
    let satd : Nat := 0
    let satd : Nat :=
      if cfg.JVET_R0164_MEAN_SCALED_SATD then toDistortion (satd + (|m 0 + m 1| >>> 2).toNat)
      else toDistortion (satd + (m 0 + m 1).natAbs)
    let satd : Nat := toDistortion (satd + (m 0 - m 1).natAbs)
    let satd : Nat := toDistortion (satd + (m 2 + m 3).natAbs)
    let satd : Nat := toDistortion (satd + (m 2 - m 3).natAbs)
    Except.ok satd

/-- `RdCost::xCalcHADs4x4`. -/
def xCalcHADs4x4 (cfg : Config) (org cur : Int → Int)
    (piOrg piCur strideOrg strideCur step : Int) : Except String Nat :=
  if step ≠ 1 then Except.error "Invalid step"
  else
    let diff := diffBlock org cur piOrg piCur strideOrg strideCur 4
    let m := xCalcHADs4x4_stage1 diff
    let d := xCalcHADs4x4_stage2 m
    let m := xCalcHADs4x4_stage3 d
    let d := xCalcHADs4x4_stage4 m
    let satd : Nat :=
      (List.range 16).foldl (fun (s : Nat) (k : Nat) => toDistortion (s + (d k).natAbs)) 0
    let satd : Nat :=
      if cfg.JVET_R0164_MEAN_SCALED_SATD then
        toDistortion (subDistortion satd (d 0).natAbs + (|d 0| >>> 2).toNat)
      else satd
    Except.ok (toDistortion (satd + 1) >>> 1)

/-- `RdCost::xCalcHADs8x8`. -/
def xCalcHADs8x8 (cfg : Config) (org cur : Int → Int)
    (piOrg piCur strideOrg strideCur step : Int) : Except String Nat :=
  if step ≠ 1 then Except.error "Invalid step"
  else
    let diff := diffBlock org cur piOrg piCur strideOrg strideCur 8
    -- horizontal
    let m2 := xCalcHADs8x8_stage1 diff
    let m1 := xCalcHADs8x8_stage2 m2
    let m2 := xCalcHADs8x8_stage3 m1
    -- vertical
    let m3 := xCalcHADs8x8_stage4 m2
    let m1 := xCalcHADs8x8_stage5 m3
    let m2 := xCalcHADs8x8_stage6 m1
    let sad : Nat := absSumDistortion m2 8 8
    let sad : Nat :=
      if cfg.JVET_R0164_MEAN_SCALED_SATD then
        toDistortion (subDistortion sad (m2 0 0).natAbs + (|m2 0 0| >>> 2).toNat)
      else sad
    Except.ok (toDistortion (sad + 2) >>> 2)

/-- `RdCost::xCalcHADs16x8`. -/
def xCalcHADs16x8 (cfg : Config) (org cur : Int → Int)
    (piOrg piCur strideOrg strideCur : Int) : Nat :=
  let diff := diffBlock org cur piOrg piCur strideOrg strideCur 16
  -- horizontal
  let m2 := xCalcHADs16x8_stage1 diff
  let m1 := xCalcHADs16x8_stage2 m2
  let m2 := xCalcHADs16x8_stage3 m1
  let m1 := xCalcHADs16x8_stage4 m2
  -- vertical
  let m2 := xCalcHADs16x8_stage5 m1
  let m1 := xCalcHADs16x8_stage6 m2
  let m2 := xCalcHADs16x8_stage7 m1
  normaliseInt cfg m2 (16 * 8) (absSumInt m2 8 16)

/-- `RdCost::xCalcHADs8x16`. -/
def xCalcHADs8x16 (cfg : Config) (org cur : Int → Int)
    (piOrg piCur strideOrg strideCur : Int) : Nat :=
  let diff := diffBlock org cur piOrg piCur strideOrg strideCur 8
  -- horizontal
  let m2 := xCalcHADs8x16_stage1 diff
  let m1 := xCalcHADs8x16_stage2 m2
  let m2 := xCalcHADs8x16_stage3 m1
  -- vertical
  let m1 := xCalcHADs8x16_stage4 m2
  let m2 := xCalcHADs8x16_stage5 m1
  let m1 := xCalcHADs8x16_stage6 m2
  let m2 := xCalcHADs8x16_stage7 m1
  normaliseInt cfg m2 (16 * 8) (absSumInt m2 16 8)

/-- `RdCost::xCalcHADs4x8`. -/
def xCalcHADs4x8 (cfg : Config) (org cur : Int → Int)
    (piOrg piCur strideOrg strideCur : Int) : Nat :=
  let diff := diffBlock org cur piOrg piCur strideOrg strideCur 4
  -- horizontal
  let m2 := xCalcHADs4x8_stage1 diff
  let m1 := xCalcHADs4x8_stage2 m2
  -- vertical
  let m2 := xCalcHADs4x8_stage3 m1
  let m1 := xCalcHADs4x8_stage4 m2
  let m2 := xCalcHADs4x8_stage5 m1
  normaliseInt cfg m2 (4 * 8) (absSumInt m2 8 4)

/-- `RdCost::xCalcHADs8x4`. -/
def xCalcHADs8x4 (cfg : Config) (org cur : Int → Int)
    (piOrg piCur strideOrg strideCur : Int) : Nat :=
  let diff := diffBlock org cur piOrg piCur strideOrg strideCur 8
  -- horizontal
  let m2 := xCalcHADs8x4_stage1 diff
  let m1 := xCalcHADs8x4_stage2 m2
  let m2 := xCalcHADs8x4_stage3 m1
  -- vertical
  let m1 := xCalcHADs8x4_stage4 m2
  let m2 := xCalcHADs8x4_stage5 m1
  normaliseInt cfg m2 (4 * 8) (absSumInt m2 4 8)

/-- The tile loops of `xGetHADs`:
`for (y = 0; y < rows; y += th) { for (x = 0; x < cols; x += tw) sum += kernel(&piOrg[x], &piCur[x * xStep]); piOrg += strideOrg * th; piCur += strideCur * th; }`.
The kernel receives the positions `piOrg + x` and `piCur + x · xStep`; the first
failing kernel ends the loops. -/
def hadTiles (kernel : Int → Int → Except String Nat) (tw th cols rows : Nat)
    (strideOrg strideCur xStep : Int) : Except String Nat :=
  (List.range ((rows + th - 1) / th)).foldlM (fun (sum : Nat) (ty : Nat) =>
    (List.range ((cols + tw - 1) / tw)).foldlM (fun (sum : Nat) (tx : Nat) =>
      match kernel ((ty : Int) * (strideOrg * (th : Int)) + ((tx * tw : Nat) : Int))
          ((ty : Int) * (strideCur * (th : Int)) + ((tx * tw : Nat) : Int) * xStep) with
      | Except.error e => Except.error e
      | Except.ok v => Except.ok (toDistortion (sum + v))) sum) 0

/-- `RdCost::xGetHADs`.  The result is `Except.error` with the message of the
failing `CHECK` or `THROW`. -/
def xGetHADs (cfg : Config) (p : DistParam) : Except String Nat :=
  if p.applyWeight then cfg.xGetHADsw p
  else
    let rows := p.org.height
    let cols := p.org.width
    let strideCur := p.cur.stride
    let strideOrg := p.org.stride
    let step := p.step
    let sum : Except String Nat :=
      if cols > rows ∧ rows &&& 7 = 0 ∧ cols &&& 15 = 0 then
        hadTiles (fun piOrg piCur =>
            Except.ok (xCalcHADs16x8 cfg p.org.buf p.cur.buf piOrg piCur strideOrg strideCur))
          16 8 cols rows strideOrg strideCur 1
      else if cols < rows ∧ cols &&& 7 = 0 ∧ rows &&& 15 = 0 then
        hadTiles (fun piOrg piCur =>
            Except.ok (xCalcHADs8x16 cfg p.org.buf p.cur.buf piOrg piCur strideOrg strideCur))
          8 16 cols rows strideOrg strideCur 1
      else if cols > rows ∧ rows &&& 3 = 0 ∧ cols &&& 7 = 0 then
        hadTiles (fun piOrg piCur =>
            Except.ok (xCalcHADs8x4 cfg p.org.buf p.cur.buf piOrg piCur strideOrg strideCur))
          8 4 cols rows strideOrg strideCur 1
      else if cols < rows ∧ cols &&& 3 = 0 ∧ rows &&& 7 = 0 then
        hadTiles (fun piOrg piCur =>
            Except.ok (xCalcHADs4x8 cfg p.org.buf p.cur.buf piOrg piCur strideOrg strideCur))
          4 8 cols rows strideOrg strideCur 1
      else if rows % 8 = 0 ∧ cols % 8 = 0 then
        hadTiles (fun piOrg piCur =>
            xCalcHADs8x8 cfg p.org.buf p.cur.buf piOrg piCur strideOrg strideCur step)
          8 8 cols rows strideOrg strideCur step
      else if rows % 4 = 0 ∧ cols % 4 = 0 then
        hadTiles (fun piOrg piCur =>
            xCalcHADs4x4 cfg p.org.buf p.cur.buf piOrg piCur strideOrg strideCur step)
          4 4 cols rows strideOrg strideCur step
      else if rows % 2 = 0 ∧ cols % 2 = 0 then
        hadTiles (fun piOrg piCur =>
            xCalcHADs2x2 cfg p.org.buf p.cur.buf piOrg piCur strideOrg strideCur step)
          2 2 cols rows strideOrg strideCur step
      else Except.error "Invalid size"
    match sum with
    | Except.error e => Except.error e
    | Except.ok sum => Except.ok (sum >>> cfg.DISTORTION_PRECISION_ADJUSTMENT p.bitDepth)

/-! ## Masked SAD and size-specialised SSE -/

/-- Inner loop of `xGetSADwMask`:
`for (n = 0; n < cols; n++) { sum += abs(org[n] - cur[n]) * *mask; mask += stepX; }`
on the pair of the sum and the position of `mask`. -/
def maskRow (org cur mask : Int → Int) (stepX : Int) (cols : Nat) (piOrg piCur : Int)
    (acc : Nat × Int) : Nat × Int :=
  (List.range cols).foldl
    (fun (a : Nat × Int) (n : Nat) =>
      (intToDistortion ((a.1 : Int)
          + |org (piOrg + (n : Int)) - cur (piCur + (n : Int))| * mask a.2),
        a.2 + stepX)) acc

/-- `RdCost::xGetSADwMask`. -/
def xGetSADwMask (cfg : Config) (p : DistParam) : Option Nat :=
  if p.applyWeight then cfg.xGetSADw p
  else
    let cols := p.org.width
    let rows : Int := p.org.height
    let subShift := p.subShift
    let subStep : Int := 2 ^ subShift
    let strideCur := p.cur.stride * subStep
    let strideOrg := p.org.stride * subStep
    let strideMask := p.maskStride * subStep
    let stepX := p.stepX
    let strideMask2 := p.maskStride2
    let distortionShift := cfg.DISTORTION_PRECISION_ADJUSTMENT p.bitDepth
    rowLoop
      (fun piOrg piCur (acc : Nat × Int) =>
        let acc1 := maskRow p.org.buf p.cur.buf p.mask stepX cols piOrg piCur acc
        (acc1.1, acc1.2 + strideMask + strideMask2))
      (fun _ => none)
      (fun acc => toDistortion (acc.1 <<< subShift) >>> distortionShift)
      subStep strideOrg strideCur p.org.height rows 0 0 ((0 : Nat), (0 : Int))

/-- The size-specialised kernels `xGetSSE4`, `xGetSSE8`, `xGetSSE16`, `xGetSSE32`
and `xGetSSE64` differ only in the number `k` of unrolled samples of a row and
in the width `k` of `CHECK(rcDtParam.org.width != k, "Invalid size")`, which
stands in the weighted branch only.  The result is `Except.error` when the
`CHECK` fails. -/
def sseUnrolled (k : Nat) (cfg : Config) (p : DistParam) : Except String (Option Nat) :=
  if p.applyWeight then
    if p.org.width ≠ k then Except.error "Invalid size"
    else Except.ok (cfg.xGetSSEw p)
  else
    let rows := p.org.height
    let strideOrg := p.org.stride
    let strideCur := p.cur.stride
    let shift := cfg.DISTORTION_PRECISION_ADJUSTMENT p.bitDepth <<< 1
    Except.ok (some (sseLoop (sseRow p.org.buf p.cur.buf shift k) strideOrg strideCur rows 0 0 0))

/-- `RdCost::xGetSSE4`. -/
def xGetSSE4 (cfg : Config) (p : DistParam) : Except String (Option Nat) := sseUnrolled 4 cfg p

/-- `RdCost::xGetSSE8`. -/
def xGetSSE8 (cfg : Config) (p : DistParam) : Except String (Option Nat) := sseUnrolled 8 cfg p

/-- `RdCost::xGetSSE16`. -/
def xGetSSE16 (cfg : Config) (p : DistParam) : Except String (Option Nat) := sseUnrolled 16 cfg p

/-- `RdCost::xGetSSE32`. -/
def xGetSSE32 (cfg : Config) (p : DistParam) : Except String (Option Nat) := sseUnrolled 32 cfg p

/-- `RdCost::xGetSSE64`. -/
def xGetSSE64 (cfg : Config) (p : DistParam) : Except String (Option Nat) := sseUnrolled 64 cfg p

/-- A build in which the external weighted-prediction helpers return values. -/
def cfgWeighted : Config :=
  { cfgFullNBit with
    xGetSADw := fun _ => some 7
    xGetSSEw := fun _ => some 9
    xGetHADsw := fun _ => Except.ok 11 }

/-- A 16 × 4 block pair with constant samples 100 and 110 and `applyWeight` set. -/
def weighted16x4 : DistParam :=
  { exampleDistParam with
    org := constBuf 100 16 4
    cur := constBuf 110 16 4
    bitDepth := 8
    applyWeight := true }

/-- The same block pair with `applyWeight` clear. -/
def plain16x4 : DistParam := { weighted16x4 with applyWeight := false }

/-! ## Last-position parameters and context derivation (`ContextModelling.cpp`) -/

/-- Values of the enumeration `ChannelType` used in `ContextModelling.cpp` (the
enumeration is declared outside the sources at hand). -/
inductive ChannelType where
  | LUMA
  | CHROMA
  deriving DecidableEq, Repr

/-- Conversion of an `int` to `unsigned`. -/
def intToUnsigned (x : Int) : Nat := (x % 2 ^ 32).toNat

/-- Modelled from the spec: `floorLog2` is defined outside the sources at hand;
the spec speaks of the log2 of a block width or height, the largest `k` with
`2 ^ k ≤ x`.  The spec does not describe the value at 0, which is 0 here and
which no statement uses. -/
def floorLog2 (x : Nat) : Int := (Nat.log2 x : Int)

/-- Modelled from the spec: `Clip3(minVal, maxVal, a)` is defined outside the
sources at hand; the spec speaks of a clipped size class, `a` limited to the
range from `minVal` to `maxVal`. -/
def Clip3 (minVal maxVal a : Int) : Int := min (max minVal a) maxVal

/-- The table `CoeffCodingContext::prefixCtx[8]`. -/
def CoeffCodingContext.prefixCtx : List Int := [0, 0, 0, 3, 6, 10, 15, 21]

/-- The members `m_lastOffsetX`, `m_lastOffsetY`, `m_lastShiftX`, `m_lastShiftY`
of `CoeffCodingContext`. -/
structure LastPosParams where
  m_lastOffsetX : Int
  m_lastOffsetY : Int
  m_lastShiftX : Int
  m_lastShiftY : Int
  deriving DecidableEq, Repr

/-- The part of the constructor `CoeffCodingContext::CoeffCodingContext` that
sets the last-position parameters: the initialisers `m_log2BlockWidth((unsigned)
floorLog2(m_width))`, `m_log2BlockHeight(...)`, `m_lastOffsetX(0)`,
`m_lastOffsetY(0)`, `m_lastShiftX(0)`, `m_lastShiftY(0)` and the statement
`if (m_chType == ChannelType::CHROMA) { ... } else { ... }` of the body.  The
result is `none` when an index of `prefixCtx` is outside the table. -/
def CoeffCodingContext.constructorBody (m_chType : ChannelType) (m_width m_height : Nat) :
    Option LastPosParams :=
  let m_log2BlockWidth : Nat := intToUnsigned (floorLog2 m_width)
  let m_log2BlockHeight : Nat := intToUnsigned (floorLog2 m_height)
  let init : LastPosParams :=
    { m_lastOffsetX := 0, m_lastOffsetY := 0, m_lastShiftX := 0, m_lastShiftY := 0 }
  let log2sizeX := m_log2BlockWidth
  let log2sizeY := m_log2BlockHeight
  if m_chType = ChannelType.CHROMA then
    some { init with
      m_lastShiftX := Clip3 0 2 ((m_width >>> 3 : Nat) : Int)
      m_lastShiftY := Clip3 0 2 ((m_height >>> 3 : Nat) : Int) }
  else
    match CoeffCodingContext.prefixCtx[log2sizeX]?, CoeffCodingContext.prefixCtx[log2sizeY]? with
    | some offsetX, some offsetY =>
      some { init with
        m_lastOffsetX := offsetX
        m_lastOffsetY := offsetY
        m_lastShiftX := ((toUnsigned (log2sizeX + 1) >>> 2 : Nat) : Int)
        m_lastShiftY := ((toUnsigned (log2sizeY + 1) >>> 2 : Nat) : Int) }
    | _, _ => none

/-- A `Position` (declared outside the sources at hand): its coordinates. -/
structure Position where
  x : Int
  y : Int
  deriving DecidableEq, Repr

/-- Modelled from the spec: `Position::offset(dx, dy)` is defined outside the
sources at hand; the spec speaks of the left and the above neighbour of a
position, reached by the offsets `(-1, 0)` and `(0, -1)`. -/
def Position.offset (p : Position) (dx dy : Int) : Position := { x := p.x + dx, y := p.y + dy }

/-- An `Area` (declared outside the sources at hand): a position with a width
and a height. -/
structure Area where
  pos : Position
  width : Nat
  height : Nat
  deriving DecidableEq, Repr

/-- Values of the enumeration `PredMode` (declared outside the sources at hand). -/
inductive PredMode where
  | MODE_INTER
  | MODE_INTRA
  | MODE_IBC
  | MODE_PLT
  | NUMBER_OF_PREDICTION_MODES
  deriving DecidableEq, Repr

/-- The members and accessors of a `CodingUnit` that the functions of
`DeriveCtx` read: `block(chType)`, `lumaPos()`, `chromaPos()`, `lwidth()`,
`lheight()`, `chType`, `skip`, `affine`, `mipFlag` and `qtDepth`; `predMode` is
what the predicates `CU::isIntra` and `CU::isIBC` of the example builds read. -/
structure CodingUnit where
  predMode : PredMode
  block : ChannelType → Area
  lumaPos : Position
  chromaPos : Position
  lwidth : Nat
  lheight : Nat
  chType : ChannelType
  skip : Bool
  affine : Bool
  mipFlag : Bool
  qtDepth : Nat

/-- What the functions of `DeriveCtx` read of a `CodingStructure`: the two
overloads of the neighbour lookup `getCURestricted` (`none` is the null
pointer), `slice->getIndependentSliceIdx()` and `pps->getTileIdx(pos)`.  All of
them are defined outside the sources at hand. -/
structure CodingStructure where
  getCURestricted : Position → CodingUnit → ChannelType → Option CodingUnit
  getCURestrictedAt : Position → Position → Nat → Nat → ChannelType → Option CodingUnit
  getIndependentSliceIdx : Nat
  getTileIdx : Position → Nat

/-- What the functions of `DeriveCtx` read of a `Partitioner`: `chType`,
`currArea().block(chType)`, `currArea().lumaPos()`, `currQtDepth`, `currMtDepth`
and the six flags that `canSplit(cs, ...)` writes. -/
structure Partitioner where
  chType : ChannelType
  currAreaBlock : ChannelType → Area
  currAreaLumaPos : Position
  currQtDepth : Nat
  currMtDepth : Nat
  canSplit : CodingStructure → Nat → Bool

/-- What `ContextModelling.cpp` takes from headers that are not part of the
sources at hand: the predicates `CU::isIntra`, `CU::isIBC`, `isLuma` on a
component and on a channel type, and whether `assert` is compiled out
(`NDEBUG`). -/
structure CtxConfig where
  isIntra : CodingUnit → Bool
  isIBC : CodingUnit → Bool
  isLuma : ComponentID → Bool
  isLumaChannel : ChannelType → Bool
  NDEBUG : Bool

/-- `DeriveCtx::CtxModeConsFlag`.  The result is `Except.error` when the
`assert` fails. -/
def DeriveCtx.CtxModeConsFlag (cfg : CtxConfig) (cs : CodingStructure)
    (partitioner : Partitioner) : Except String Nat :=
  if !cfg.NDEBUG && !cfg.isLumaChannel partitioner.chType then
    Except.error "isLuma(partitioner.chType)"
  else
    let pos : Position := (partitioner.currAreaBlock partitioner.chType).pos
    let curSliceIdx := cs.getIndependentSliceIdx
    let curTileIdx := cs.getTileIdx partitioner.currAreaLumaPos
    let cuLeft := cs.getCURestrictedAt (pos.offset (-1) 0) pos curSliceIdx curTileIdx
      partitioner.chType
    let cuAbove := cs.getCURestrictedAt (pos.offset 0 (-1)) pos curSliceIdx curTileIdx
      partitioner.chType
    let ctxId : Nat :=
      if cuAbove.any cfg.isIntra || cuLeft.any cfg.isIntra then 1 else 0
    Except.ok ctxId

/-- `DeriveCtx::CtxQtCbf`. -/
def DeriveCtx.CtxQtCbf (cfg : CtxConfig) (compID : ComponentID) (prevCbf : Bool)
    (ispIdx : Int) : Nat :=
  if ispIdx ≠ 0 ∧ cfg.isLuma compID = true then 2 + prevCbf.toNat
  else if compID = ComponentID.COMPONENT_Cr then (if prevCbf then 1 else 0)
  else 0

/-- What `CtxInterDir` reads of a `PredictionUnit`: `lumaSize()`. -/
structure PredictionUnit where
  lumaSizeWidth : Nat
  lumaSizeHeight : Nat

/-- `DeriveCtx::CtxInterDir`: the `int` value of the expression is converted
to `unsigned`. -/
def DeriveCtx.CtxInterDir (pu : PredictionUnit) : Nat :=
  intToUnsigned
    (7 - ((floorLog2 pu.lumaSizeWidth + floorLog2 pu.lumaSizeHeight + 1) >>> 1))

/-- `DeriveCtx::CtxAffineFlag` (`cs` is `cu.cs`). -/
def DeriveCtx.CtxAffineFlag (cs : CodingStructure) (cu : CodingUnit) : Nat :=
  let cuLeft := cs.getCURestricted (cu.lumaPos.offset (-1) 0) cu ChannelType.LUMA
  let ctxId : Nat := if cuLeft.any (fun c => c.affine) then 1 else 0
  let cuAbove := cs.getCURestricted (cu.lumaPos.offset 0 (-1)) cu ChannelType.LUMA
  let ctxId : Nat := ctxId + (if cuAbove.any (fun c => c.affine) then 1 else 0)
  ctxId

/-- `DeriveCtx::CtxSkipFlag` (`cs` is `cu.cs`). -/
def DeriveCtx.CtxSkipFlag (cs : CodingStructure) (cu : CodingUnit) : Nat :=
  let cuLeft := cs.getCURestricted (cu.lumaPos.offset (-1) 0) cu ChannelType.LUMA
  let ctxId : Nat := if cuLeft.any (fun c => c.skip) then 1 else 0
  let cuAbove := cs.getCURestricted (cu.lumaPos.offset 0 (-1)) cu ChannelType.LUMA
  let ctxId : Nat := ctxId + (if cuAbove.any (fun c => c.skip) then 1 else 0)
  ctxId

/-- `DeriveCtx::CtxPredModeFlag` (`cs` is `cu.cs`). -/
def DeriveCtx.CtxPredModeFlag (cfg : CtxConfig) (cs : CodingStructure) (cu : CodingUnit) : Nat :=
  let cuLeft := cs.getCURestricted (cu.lumaPos.offset (-1) 0) cu ChannelType.LUMA
  let cuAbove := cs.getCURestricted (cu.lumaPos.offset 0 (-1)) cu ChannelType.LUMA
  let ctxId : Nat := if cuAbove.any cfg.isIntra || cuLeft.any cfg.isIntra then 1 else 0
  ctxId

/-- `DeriveCtx::CtxIBCFlag` (`cs` is `cu.cs`). -/
def DeriveCtx.CtxIBCFlag (cfg : CtxConfig) (cs : CodingStructure) (cu : CodingUnit) : Nat :=
  let ctxId : Nat := 0
  let pos : Position := if cu.chType = ChannelType.CHROMA then cu.chromaPos else cu.lumaPos
  let cuLeft := cs.getCURestricted (pos.offset (-1) 0) cu cu.chType
  let ctxId : Nat := ctxId + (if cuLeft.any cfg.isIBC then 1 else 0)
  let cuAbove := cs.getCURestricted (pos.offset 0 (-1)) cu cu.chType
  let ctxId : Nat := ctxId + (if cuAbove.any cfg.isIBC then 1 else 0)
  ctxId

/-- `DeriveCtx::CtxMipFlag` (`cs` is `cu.cs`); `2 * cu.lheight()` and
`2 * cu.lwidth()` are products of `unsigned` values. -/
def DeriveCtx.CtxMipFlag (cs : CodingStructure) (cu : CodingUnit) : Nat :=
  let cuLeft := cs.getCURestricted (cu.lumaPos.offset (-1) 0) cu ChannelType.LUMA
  let ctxId : Nat := if cuLeft.any (fun c => c.mipFlag) then 1 else 0
  let cuAbove := cs.getCURestricted (cu.lumaPos.offset 0 (-1)) cu ChannelType.LUMA
  let ctxId : Nat := ctxId + (if cuAbove.any (fun c => c.mipFlag) then 1 else 0)
  let ctxId : Nat :=
    if cu.lwidth > toUnsigned (2 * cu.lheight) ∨ cu.lheight > toUnsigned (2 * cu.lwidth) then 3
    else ctxId
  ctxId

/-- The five outputs of `DeriveCtx::CtxSplit`. -/
structure SplitCtx where
  ctxSpl : Nat
  ctxQt : Nat
  ctxHv : Nat
  ctxHorBt : Nat
  ctxVerBt : Nat
  deriving DecidableEq, Repr

/-- The value of `numSplit` in `CtxSplit` before `ctxSpl += 3 * (numSplit >> 1)`. -/
def DeriveCtx.numSplit (canSplit : Nat → Bool) : Nat :=
  let numSplit : Nat := 0
  let numSplit := if canSplit 1 then numSplit + 2 else numSplit
  let numSplit := if canSplit 2 then numSplit + 1 else numSplit
  let numSplit := if canSplit 3 then numSplit + 1 else numSplit
  let numSplit := if canSplit 4 then numSplit + 1 else numSplit
  let numSplit := if canSplit 5 then numSplit + 1 else numSplit
  if numSplit > 0 then numSplit - 1 else numSplit

/-- The statements of `DeriveCtx::CtxSplit` that follow the two neighbour
lookups and the filling of `canSplit`: the sections "CTX do split", "CTX is qt
split", "CTX is ver split" and "CTX is h/v bt".  The result is `none` when
`area.width / wAbove` or `area.height / hLeft` divides by zero. -/
def DeriveCtx.CtxSplitContexts (partitioner : Partitioner) (cuLeft cuAbove : Option CodingUnit)
    (canSplit : Nat → Bool) : Option SplitCtx :=
  -- CTX do split (0-8)
  let widthCurr := (partitioner.currAreaBlock partitioner.chType).width
  let heightCurr := (partitioner.currAreaBlock partitioner.chType).height
  let ctxSpl : Nat := 0
  let ctxSpl : Nat :=
    match cuLeft with
    | some left =>
      let heightLeft := (left.block partitioner.chType).height
      ctxSpl + (if heightLeft < heightCurr then 1 else 0)
    | none => ctxSpl
  let ctxSpl : Nat :=
    match cuAbove with
    | some above =>
      let widthAbove := (above.block partitioner.chType).width
      ctxSpl + (if widthAbove < widthCurr then 1 else 0)
    | none => ctxSpl
  let numSplit := DeriveCtx.numSplit canSplit
  let ctxSpl : Nat := ctxSpl + 3 * (numSplit >>> 1)
  -- CTX is qt split (0-5)
  let ctxQt : Nat := if cuLeft.any (fun c => c.qtDepth > partitioner.currQtDepth) then 1 else 0
  let ctxQt : Nat :=
    ctxQt + (if cuAbove.any (fun c => c.qtDepth > partitioner.currQtDepth) then 1 else 0)
  let ctxQt : Nat := ctxQt + (if partitioner.currQtDepth < 2 then 0 else 3)
  -- CTX is ver split (0-4)
  let numHor : Nat := (if canSplit 2 then 1 else 0) + (if canSplit 4 then 1 else 0)
  let numVer : Nat := (if canSplit 3 then 1 else 0) + (if canSplit 5 then 1 else 0)
  let ctxHv : Option Nat :=
    if numVer = numHor then
      let area := partitioner.currAreaBlock partitioner.chType
      let wAbove : Nat :=
        match cuAbove with
        | some above => (above.block partitioner.chType).width
        | none => 1
      let hLeft : Nat :=
        match cuLeft with
        | some left => (left.block partitioner.chType).height
        | none => 1
      if wAbove = 0 ∨ hLeft = 0 then none
      else
        let depAbove := area.width / wAbove
        let depLeft := area.height / hLeft
        if depAbove = depLeft ∨ cuLeft.isNone ∨ cuAbove.isNone then some 0
        else if depAbove < depLeft then some 1
        else some 2
    else if numVer < numHor then some 3
    else some 4
  -- CTX is h/v bt (0-3)
  let ctxHorBt : Nat := if partitioner.currMtDepth ≤ 1 then 1 else 0
  let ctxVerBt : Nat := if partitioner.currMtDepth ≤ 1 then 3 else 2
  match ctxHv with
  | none => none
  | some ctxHv =>
    some { ctxSpl := ctxSpl, ctxQt := ctxQt, ctxHv := ctxHv, ctxHorBt := ctxHorBt,
           ctxVerBt := ctxVerBt }

/-- `DeriveCtx::CtxSplit`; `_canSplit` is `none` for the null pointer and the
array of six flags otherwise.  The result is `none` when `area.width / wAbove`
or `area.height / hLeft` divides by zero. -/
def DeriveCtx.CtxSplit (cs : CodingStructure) (partitioner : Partitioner)
    (_canSplit : Option (Nat → Bool)) : Option SplitCtx :=
  let pos : Position := (partitioner.currAreaBlock partitioner.chType).pos
  let curSliceIdx := cs.getIndependentSliceIdx
  let curTileIdx := cs.getTileIdx partitioner.currAreaLumaPos
  -- get left depth
  let cuLeft := cs.getCURestrictedAt (pos.offset (-1) 0) pos curSliceIdx curTileIdx
    partitioner.chType
  -- get above depth
  let cuAbove := cs.getCURestrictedAt (pos.offset 0 (-1)) pos curSliceIdx curTileIdx
    partitioner.chType
  let canSplit : Nat → Bool :=
    match _canSplit with
    | none => partitioner.canSplit cs
    | some flags => flags
  DeriveCtx.CtxSplitContexts partitioner cuLeft cuAbove canSplit

/-! ## Auxiliary definitions for the statements on context derivation -/

/-- The left neighbour that `CtxSkipFlag`, `CtxAffineFlag`, `CtxPredModeFlag`
and `CtxMipFlag` look up. -/
def lumaLeft (cs : CodingStructure) (cu : CodingUnit) : Option CodingUnit :=
  cs.getCURestricted (cu.lumaPos.offset (-1) 0) cu ChannelType.LUMA

/-- The above neighbour that `CtxSkipFlag`, `CtxAffineFlag`, `CtxPredModeFlag`
and `CtxMipFlag` look up. -/
def lumaAbove (cs : CodingStructure) (cu : CodingUnit) : Option CodingUnit :=
  cs.getCURestricted (cu.lumaPos.offset 0 (-1)) cu ChannelType.LUMA

/-- The left neighbour that `CtxIBCFlag` looks up. -/
def ibcLeft (cs : CodingStructure) (cu : CodingUnit) : Option CodingUnit :=
  cs.getCURestricted
    ((if cu.chType = ChannelType.CHROMA then cu.chromaPos else cu.lumaPos).offset (-1) 0)
    cu cu.chType

/-- The above neighbour that `CtxIBCFlag` looks up. -/
def ibcAbove (cs : CodingStructure) (cu : CodingUnit) : Option CodingUnit :=
  cs.getCURestricted
    ((if cu.chType = ChannelType.CHROMA then cu.chromaPos else cu.lumaPos).offset 0 (-1))
    cu cu.chType

/-- The left neighbour that `CtxModeConsFlag` and `CtxSplit` look up. -/
def partLeft (cs : CodingStructure) (p : Partitioner) : Option CodingUnit :=
  cs.getCURestrictedAt ((p.currAreaBlock p.chType).pos.offset (-1) 0)
    (p.currAreaBlock p.chType).pos cs.getIndependentSliceIdx (cs.getTileIdx p.currAreaLumaPos)
    p.chType

/-- The above neighbour that `CtxModeConsFlag` and `CtxSplit` look up. -/
def partAbove (cs : CodingStructure) (p : Partitioner) : Option CodingUnit :=
  cs.getCURestrictedAt ((p.currAreaBlock p.chType).pos.offset 0 (-1))
    (p.currAreaBlock p.chType).pos cs.getIndependentSliceIdx (cs.getTileIdx p.currAreaLumaPos)
    p.chType

/-- The number of available neighbours (entries other than `none`) that have
the property `prop`. -/
def countNeighbours (prop : CodingUnit → Bool) (neighbours : List (Option CodingUnit)) : Nat :=
  ((neighbours.filterMap id).filter prop).length

/-- The six flags that `CtxSplit` uses. -/
def splitFlags (cs : CodingStructure) (p : Partitioner) (_canSplit : Option (Nat → Bool)) :
    Nat → Bool :=
  match _canSplit with
  | none => p.canSplit cs
  | some flags => flags

/-- The number of allowed split types among the six flags, the quad split
`canSplit[1]` counting 2, each of `canSplit[2..5]` counting 1 and `canSplit[0]`
counting 0. -/
def allowedSplits (canSplit : Nat → Bool) : Nat :=
  (if canSplit 1 then 2 else 0)
    + (([2, 3, 4, 5].filter (fun i => canSplit i)).length)

/-- The number of allowed horizontal split types, `canSplit[2]` and `canSplit[4]`. -/
def numHor (canSplit : Nat → Bool) : Nat :=
  ([2, 4].filter (fun i => canSplit i)).length

/-- The number of allowed vertical split types, `canSplit[3]` and `canSplit[5]`. -/
def numVer (canSplit : Nat → Bool) : Nat :=
  ([3, 5].filter (fun i => canSplit i)).length

/-- The comparison of `depAbove = widthCurr / widthAbove` with
`depLeft = heightCurr / heightLeft` for two neighbours, 0 when a neighbour is
missing. -/
def depthTieBreak (p : Partitioner) : Option CodingUnit → Option CodingUnit → Nat
  | some l, some a =>
    if (p.currAreaBlock p.chType).width / (a.block p.chType).width
        = (p.currAreaBlock p.chType).height / (l.block p.chType).height then 0
    else if (p.currAreaBlock p.chType).width / (a.block p.chType).width
        < (p.currAreaBlock p.chType).height / (l.block p.chType).height then 1
    else 2
  | _, _ => 0

/-- An example build: `CU::isIntra` and `CU::isIBC` test `predMode`, luma is the
component `COMPONENT_Y` and the channel type `LUMA`, `assert` is active. -/
def ctxCfgExample : CtxConfig where
  isIntra := fun c => c.predMode == PredMode.MODE_INTRA
  isIBC := fun c => c.predMode == PredMode.MODE_IBC
  isLuma := fun c => c == ComponentID.COMPONENT_Y
  isLumaChannel := fun ch => ch == ChannelType.LUMA
  NDEBUG := false

/-- A luma coding unit of the given mode, position and size, with all flags
clear and quad-tree depth 1. -/
def exampleUnit (predMode : PredMode) (x y : Int) (width height : Nat) : CodingUnit where
  predMode := predMode
  block := fun _ => { pos := { x := x, y := y }, width := width, height := height }
  lumaPos := { x := x, y := y }
  chromaPos := { x := x / 2, y := y / 2 }
  lwidth := width
  lheight := height
  chType := ChannelType.LUMA
  skip := false
  affine := false
  mipFlag := false
  qtDepth := 1

/-- A coding structure whose lookups find the given left neighbour at
horizontal positions below `x` and the given above neighbour otherwise. -/
def exampleStructure (x : Int) (left above : Option CodingUnit) : CodingStructure where
  getCURestricted := fun pos _ _ => if pos.x < x then left else above
  getCURestrictedAt := fun pos _ _ _ _ => if pos.x < x then left else above
  getIndependentSliceIdx := 0
  getTileIdx := fun _ => 0

/-- A luma partitioner at position (16, 16) on an area of the given size, with
the given depths, whose `canSplit` allows every split. -/
def examplePartitioner (width height qtDepth mtDepth : Nat) : Partitioner where
  chType := ChannelType.LUMA
  currAreaBlock := fun _ => { pos := { x := 16, y := 16 }, width := width, height := height }
  currAreaLumaPos := { x := 16, y := 16 }
  currQtDepth := qtDepth
  currMtDepth := mtDepth
  canSplit := fun _ _ => true





/-- The number of iterations of the loop control
`for (; rows != 0; rows -= subStep)` shared by the row kernels, counted with the
row loop itself: every iteration adds one, no early exit is taken.  `none` when
`rows` never reaches zero. -/
def rowIterations (subStep : Int) (fuel : Nat) (rows : Int) : Option Nat :=
  rowLoop (fun _ _ (n : Nat) => n + 1) (fun _ => none) id subStep 0 0 fuel rows 0 0 0





/-! ## ALF filter shapes (`AlfParameters.h`) -/

/-- The enumeration `AlfFilterType`. -/
inductive AlfFilterType where
  | ALF_FILTER_5
  | ALF_FILTER_7
  | CC_ALF
  | ALF_NUM_OF_FILTER_TYPES
  deriving DecidableEq, Repr

/-- The constant `size_CC_ALF`. -/
def size_CC_ALF : Int := -1

/-- The data members of `struct AlfFilterShape`. -/
structure AlfFilterShape where
  filterType : AlfFilterType
  filterLength : Int
  numCoeff : Int
  pattern : List Int
  deriving DecidableEq, Repr

/-- The constructor `AlfFilterShape::AlfFilterShape(int size)`.  The member
initialisers set `filterLength = size` and `numCoeff = size * size / 4 + 1`
(`int` division truncates toward zero) and leave `pattern` empty; the body then
selects the shape.  The result is `Except.error` with the message of the
`THROW`. -/
def AlfFilterShape.construct (size : Int) : Except String AlfFilterShape :=
  let filterLength : Int := size
  let numCoeff : Int := Int.tdiv (size * size) 4 + 1
  let pattern : List Int := []
  if size = 5 then
    Except.ok
      { pattern := [0,
                    1, 2, 3,
                    4, 5, 6, 5, 4,
                    3, 2, 1,
                    0]
        filterType := AlfFilterType.ALF_FILTER_5
        filterLength := filterLength
        numCoeff := numCoeff }
  else if size = 7 then
    Except.ok
      { pattern := [0,
                    1, 2, 3,
                    4, 5, 6, 7, 8,
                    9, 10, 11, 12, 11, 10, 9,
                    8, 7, 6, 5, 4,
                    3, 2, 1,
                    0]
        filterType := AlfFilterType.ALF_FILTER_7
        filterLength := filterLength
        numCoeff := numCoeff }
  else if size = size_CC_ALF then
    Except.ok
      { filterLength := 8
        numCoeff := 8
        filterType := AlfFilterType.CC_ALF
        pattern := pattern }
  else
    Except.error "Wrong ALF filter shape"

/-! ## Hadamard kernels: coefficients and their DC-reduced sum

The transform coefficients of each kernel (the array that its final loops sum)
and the sum `S` of their absolute values after the reduction of the DC term, as
separate functions of the block; the kernels above compute the same
expressions inline. -/

/-- The coefficients `m2[8][16]` of `xCalcHADs16x8` after the last butterfly. -/
def xCalcHADs16x8_coeff (org cur : Int → Int) (piOrg piCur strideOrg strideCur : Int) :
    Nat → Nat → Int :=
  xCalcHADs16x8_stage7 (xCalcHADs16x8_stage6 (xCalcHADs16x8_stage5 (xCalcHADs16x8_stage4
    (xCalcHADs16x8_stage3 (xCalcHADs16x8_stage2 (xCalcHADs16x8_stage1
      (diffBlock org cur piOrg piCur strideOrg strideCur 16)))))))

/-- The coefficients `m2[16][8]` of `xCalcHADs8x16` after the last butterfly. -/
def xCalcHADs8x16_coeff (org cur : Int → Int) (piOrg piCur strideOrg strideCur : Int) :
    Nat → Nat → Int :=
  xCalcHADs8x16_stage7 (xCalcHADs8x16_stage6 (xCalcHADs8x16_stage5 (xCalcHADs8x16_stage4
    (xCalcHADs8x16_stage3 (xCalcHADs8x16_stage2 (xCalcHADs8x16_stage1
      (diffBlock org cur piOrg piCur strideOrg strideCur 8)))))))

/-- The coefficients `m2[8][4]` of `xCalcHADs4x8` after the last butterfly. -/
def xCalcHADs4x8_coeff (org cur : Int → Int) (piOrg piCur strideOrg strideCur : Int) :
    Nat → Nat → Int :=
  xCalcHADs4x8_stage5 (xCalcHADs4x8_stage4 (xCalcHADs4x8_stage3 (xCalcHADs4x8_stage2
    (xCalcHADs4x8_stage1 (diffBlock org cur piOrg piCur strideOrg strideCur 4)))))

/-- The coefficients `m2[4][8]` of `xCalcHADs8x4` after the last butterfly. -/
def xCalcHADs8x4_coeff (org cur : Int → Int) (piOrg piCur strideOrg strideCur : Int) :
    Nat → Nat → Int :=
  xCalcHADs8x4_stage5 (xCalcHADs8x4_stage4 (xCalcHADs8x4_stage3 (xCalcHADs8x4_stage2
    (xCalcHADs8x4_stage1 (diffBlock org cur piOrg piCur strideOrg strideCur 8)))))

/-- The coefficients `m2[8][8]` of `xCalcHADs8x8` after the last butterfly. -/
def xCalcHADs8x8_coeff (org cur : Int → Int) (piOrg piCur strideOrg strideCur : Int) :
    Nat → Nat → Int :=
  xCalcHADs8x8_stage6 (xCalcHADs8x8_stage5 (xCalcHADs8x8_stage4 (xCalcHADs8x8_stage3
    (xCalcHADs8x8_stage2 (xCalcHADs8x8_stage1
      (diffBlock org cur piOrg piCur strideOrg strideCur 8))))))

/-- The coefficients `d[16]` of `xCalcHADs4x4` after the last butterfly. -/
def xCalcHADs4x4_coeff (org cur : Int → Int) (piOrg piCur strideOrg strideCur : Int) :
    Nat → Int :=
  xCalcHADs4x4_stage4 (xCalcHADs4x4_stage3 (xCalcHADs4x4_stage2 (xCalcHADs4x4_stage1
    (diffBlock org cur piOrg piCur strideOrg strideCur 4))))

/-- The reduction of the DC term `dc` in a sum `sad` held in an `int`:
`sad -= abs(dc); sad += abs(dc) >> 2;` under `JVET_R0164_MEAN_SCALED_SATD`. -/
def dcReducedInt (cfg : Config) (dc sad : Int) : Int :=
  if cfg.JVET_R0164_MEAN_SCALED_SATD then sad - |dc| + (|dc| >>> 2) else sad

/-- The reduction of the DC term `dc` in a sum `sad` held in a `Distortion`. -/
def dcReducedDistortion (cfg : Config) (dc : Int) (sad : Nat) : Nat :=
  if cfg.JVET_R0164_MEAN_SCALED_SATD then
    toDistortion (subDistortion sad dc.natAbs + (|dc| >>> 2).toNat)
  else sad

/-- The sum of `xCalcHADs2x2`: the absolute values of the four coefficients
`m[0] + m[1]`, `m[0] - m[1]`, `m[2] + m[3]`, `m[2] - m[3]`, the first one (the DC
term) shifted right by 2 under `JVET_R0164_MEAN_SCALED_SATD`. -/
def xCalcHADs2x2_sum (cfg : Config) (org cur : Int → Int)
    (piOrg piCur strideOrg strideCur : Int) : Nat :=
  let d0 := org (piOrg + 0) - cur (piCur + 0)
  let d1 := org (piOrg + 1) - cur (piCur + 1)
  let d2 := org (piOrg + strideOrg) - cur (piCur + (0 + strideCur))
  let d3 := org (piOrg + (strideOrg + 1)) - cur (piCur + (1 + strideCur))
  let dc : Nat :=
    if cfg.JVET_R0164_MEAN_SCALED_SATD then (|(d0 + d2) + (d1 + d3)| >>> 2).toNat
    else ((d0 + d2) + (d1 + d3)).natAbs
  toDistortion (toDistortion (toDistortion (toDistortion (0 + dc)
    + ((d0 + d2) - (d1 + d3)).natAbs)
    + ((d0 - d2) + (d1 - d3)).natAbs)
    + ((d0 - d2) - (d1 - d3)).natAbs)

/-- The full-precision example build with the `double` values that `sqrt`
returns for the two arguments used by the Hadamard kernels:
`sqrt(4.0 * 8)` is `6369051672525773 / 2^50` and `sqrt(16.0 * 8)` is
`6369051672525773 / 2^49`. -/
def cfgLibm : Config :=
  { cfgFullNBit with
    sqrt := fun x =>
      if x = 32 then 6369051672525773 / 1125899906842624
      else if x = 128 then 6369051672525773 / 562949953421312
      else cfgFullNBit.sqrt x }



/-- A 64×64 block pair at the ends of the 16-bit sample range: `org` is 65535
and `cur` is 0 everywhere; rows are sub-sampled with `subShift = 4`. -/
def extreme64x64 : DistParam :=
  { exampleDistParam with
    org := constBuf 65535 64 64
    cur := constBuf 0 64 64
    bitDepth := 16
    subShift := 4 }

/-! ## Luma-weighted SSE (`WCG_EXT`)

`getWeightedMSE` and `xGetSSE_WTD` return `Except.error` with the message of a
failing `CHECKD` (in a build where `CHECKD` is `CHECK`), and `Except.ok none`
when `m_reshapeLumaLevelToWeightPLUT` is read outside its bounds. -/

/-- `RdCost::getWeightedMSE`.  `Pel diff = org - cur` narrows the difference to
a `Pel`; the products and sums are `int` and `int64_t` arithmetic, the result
is converted to `Distortion`. -/
def getWeightedMSE (cfg : Config) (st : State) (compIdx : ComponentID) (org cur : Int)
    (shift : Nat) (orgLuma : Int) : Except String (Option Nat) :=
  if cfg.CHECKD ∧ org < 0 then Except.error "Sample value must be positive"
  else if compIdx = ComponentID.COMPONENT_Y ∧ cfg.CHECKD ∧ org ≠ orgLuma then
    Except.error "Luma sample values must be equal to each other"
  else
    let diff : Int := toPel cfg.pelBits (org - cur)
    -- use luma to get weight
    match (if 0 ≤ orgLuma then st.m_reshapeLumaLevelToWeightPLUT[orgLuma.toNat]? else none) with
    | none => Except.ok none
    | some weight =>
      Except.ok (some (intToDistortion
        ((weight * (diff * diff) + (((1 <<< cfg.MSE_WEIGHT_FRAC_BITS >>> 1 : Nat) : Int)))
          >>> (cfg.MSE_WEIGHT_FRAC_BITS + shift))))

/-- The statement `sum += getWeightedMSE(compID, piOrg[n], piCur[n], shift, piOrgLuma[n << cShift])`
of `xGetSSE_WTD`. -/
def wtdStep (cfg : Config) (st : State) (org cur orgLuma : Int → Int) (compID : ComponentID)
    (shift cShift : Nat) (piOrg piCur piOrgLuma : Int) (sum : Nat) (n : Nat) :
    Except String (Option Nat) :=
  match getWeightedMSE cfg st compID (org (piOrg + (n : Int))) (cur (piCur + (n : Int))) shift
      (orgLuma (piOrgLuma + ((n <<< cShift : Nat) : Int))) with
  | Except.error e => Except.error e
  | Except.ok none => Except.ok none
  | Except.ok (some v) => Except.ok (some (toDistortion (sum + v)))

/-- The inner loop `for (int n = 0; n < cols; n++)` of `xGetSSE_WTD`; the first
failure ends it. -/
def wtdRow (cfg : Config) (st : State) (org cur orgLuma : Int → Int) (compID : ComponentID)
    (shift cShift cols : Nat) (piOrg piCur piOrgLuma : Int) (sum : Nat) :
    Except String (Option Nat) :=
  (List.range cols).foldl
    (fun (acc : Except String (Option Nat)) (n : Nat) =>
      match acc with
      | Except.ok (some s) =>
        wtdStep cfg st org cur orgLuma compID shift cShift piOrg piCur piOrgLuma s n
      | other => other)
    (Except.ok (some sum))

/-- The outer loop `for (; rows != 0; rows--)` of `xGetSSE_WTD` with the three
pointer updates. -/
def wtdLoop (row : Int → Int → Int → Nat → Except String (Option Nat))
    (strideOrg strideCur strideOrgLuma : Int) :
    Nat → Int → Int → Int → Nat → Except String (Option Nat)
  | 0, _, _, _, sum => Except.ok (some sum)
  | rows + 1, piOrg, piCur, piOrgLuma, sum =>
    match row piOrg piCur piOrgLuma sum with
    | Except.ok (some s) =>
      wtdLoop row strideOrg strideCur strideOrgLuma rows (piOrg + strideOrg)
        (piCur + strideCur) (piOrgLuma + strideOrgLuma) s
    | other => other

/-- `RdCost::xGetSSE_WTD`; `strideOrgLuma << cShiftY` is the product with
`2 ^ cShiftY`. -/
def xGetSSE_WTD (cfg : Config) (st : State) (p : DistParam) : Except String (Option Nat) :=
  if p.applyWeight then Except.ok (cfg.xGetSSEw p)
  else
    let rows := p.org.height
    let cols := p.org.width
    let strideCur := p.cur.stride
    let strideOrg := p.org.stride
    let strideOrgLuma := p.orgLuma.stride
    let cShift := p.cShiftX
    let cShiftY := p.cShiftY
    let shift := cfg.DISTORTION_PRECISION_ADJUSTMENT p.bitDepth <<< 1
    wtdLoop (wtdRow cfg st p.org.buf p.cur.buf p.orgLuma.buf p.compID shift cShift cols)
      strideOrg strideCur (strideOrgLuma * 2 ^ cShiftY) rows 0 0 0 0

/-- The luma sample `piOrgLuma[n << cShiftX]` that `xGetSSE_WTD` reads in row `r`
and column `n`. -/
def DistParam.lumaAt (p : DistParam) (r n : Nat) : Int :=
  p.orgLuma.buf ((r : Int) * (p.orgLuma.stride * 2 ^ p.cShiftY) + ((n <<< p.cShiftX : Nat) : Int))

/-- The conditions on an `org` sample and its luma sample under which
`getWeightedMSE` passes its checks (in a build where `CHECKD` is `CHECK`) and
finds the weight `1 << MSE_WEIGHT_FRAC_BITS` in the table. -/
def WtdSampleOk (cfg : Config) (st : State) (compID : ComponentID) (org orgLuma : Int) :
    Prop :=
  (cfg.CHECKD = true → 0 ≤ org)
    ∧ (cfg.CHECKD = true → compID = ComponentID.COMPONENT_Y → org = orgLuma)
    ∧ 0 ≤ orgLuma
    ∧ st.m_reshapeLumaLevelToWeightPLUT[orgLuma.toNat]?
        = some ((1 <<< cfg.MSE_WEIGHT_FRAC_BITS : Nat) : Int)

instance (cfg : Config) (st : State) (compID : ComponentID) (org orgLuma : Int) :
    Decidable (WtdSampleOk cfg st compID org orgLuma) := by
  unfold WtdSampleOk
  infer_instance

/-- A 1×1 block pair with its luma sample, for component `compID`, at bit depth
16. -/
def wtd1x1 (org cur orgLuma : Int) (compID : ComponentID) : DistParam :=
  { exampleDistParam with
    org := constBuf org 1 1
    cur := constBuf cur 1 1
    orgLuma := constBuf orgLuma 1 1
    compID := compID
    bitDepth := 16 }

/-- A state whose weight table has 256 entries, all equal to
`1 << MSE_WEIGHT_FRAC_BITS` for `MSE_WEIGHT_FRAC_BITS = 16`. -/
def stUnitWeights : State :=
  { stLambda4 with m_reshapeLumaLevelToWeightPLUT := List.replicate 256 65536 }

/-- A 4×4 luma block pair, `org` constant 100 and `cur` constant 110, with
`org` itself as the luma plane. -/
def luma4x4 : DistParam :=
  { flat4x4 with orgLuma := flat4x4.org }



/-! ## Lagrangian cost: properties -/

/-- C1 (as stated) fails: in lossless cost mode with a non-zero distortion
`calcRdCost` still returns the Lagrangian cost when `m_isLosslessRDCost` is
clear; here it returns `1`, not `MAX_DOUBLE`. -/
theorem calcRdCost_lossless_flag_clear_not_sentinel :
    stLosslessFlagClear.m_costMode = CostMode.COST_LOSSLESS_CODING ∧ (1 : Nat) ≠ 0 ∧
    calcRdCost cfgFullNBit stLosslessFlagClear 0 1 false = 1 ∧
    calcRdCost cfgFullNBit stLosslessFlagClear 0 1 false ≠ cfgFullNBit.MAX_DOUBLE := by
  refine ⟨rfl, by decide, ?_, ?_⟩ <;>
    norm_num [calcRdCost, stLosslessFlagClear, cfgFullNBit]

/-- C1 (amended): in lossless cost mode with `m_isLosslessRDCost` set,
`calcRdCost` returns `MAX_DOUBLE` for every non-zero distortion, whatever the
bit count. -/
theorem calcRdCost_lossless_sentinel (cfg : Config) (st : State) (fracBits distortion : Nat)
    (useUnadjustedLambda : Bool)
    (hmode : st.m_costMode = CostMode.COST_LOSSLESS_CODING)
    (hflag : st.m_isLosslessRDCost = true) (hdist : distortion ≠ 0) :
    calcRdCost cfg st fracBits distortion useUnadjustedLambda = cfg.MAX_DOUBLE := by
  unfold calcRdCost
  rw [if_pos ⟨hmode, fun h => hdist h.symm, hflag⟩]

/-- Witness of `calcRdCost_lossless_sentinel`: distortion 5, 100 bits. -/
theorem calcRdCost_lossless_sentinel_witness :
    calcRdCost cfgReducedPrecision stLossless 100 5 true = cfgReducedPrecision.MAX_DOUBLE :=
  calcRdCost_lossless_sentinel cfgReducedPrecision stLossless 100 5 true rfl rfl (by decide)

/-- C2 (as stated) fails: in a `WCG_EXT` build called with
`useUnadjustedLambda` the cost is computed from `m_distScaleUnadjusted`; here
it is `2`, while `m_distScale × distortion + bits` is `1`. -/
theorem calcRdCost_unadjusted_scale_used :
    calcRdCost cfgReducedPrecision stAdjusted 0 1 true = 2 ∧
    stAdjusted.m_distScale * ((1 : Nat) : ℚ) + ((0 : Nat) : ℚ) = 1 ∧
    calcRdCost cfgReducedPrecision stAdjusted 0 1 true
      ≠ stAdjusted.m_distScale * ((1 : Nat) : ℚ) + ((0 : Nat) : ℚ) := by
  refine ⟨?_, ?_, ?_⟩ <;> norm_num [calcRdCost, stAdjusted, cfgReducedPrecision]

/-- C2 (amended): whenever `calcRdCost` does not return the sentinel, it returns
`s × distortion + bits`, where `s` is `m_distScaleUnadjusted` in a `WCG_EXT`
build called with `useUnadjustedLambda`, and `m_distScale` otherwise; for
distortion 0 and 100 bits the result is exactly 100, whatever the scales. -/
theorem calcRdCost_lagrangian (cfg : Config) (st : State) (fracBits distortion : Nat)
    (useUnadjustedLambda : Bool)
    (hns : ¬ (st.m_costMode = CostMode.COST_LOSSLESS_CODING ∧ 0 ≠ distortion
      ∧ st.m_isLosslessRDCost = true)) :
    calcRdCost cfg st fracBits distortion useUnadjustedLambda
      = (if cfg.WCG_EXT = true ∧ useUnadjustedLambda = true then st.m_distScaleUnadjusted
          else st.m_distScale) * (distortion : ℚ) + (fracBits : ℚ)
    ∧ calcRdCost cfg st 100 0 useUnadjustedLambda = 100 := by
  constructor
  · unfold calcRdCost
    rw [if_neg hns]
    cases hW : cfg.WCG_EXT <;> cases useUnadjustedLambda <;> simp
  · unfold calcRdCost
    have h0 : ¬ (st.m_costMode = CostMode.COST_LOSSLESS_CODING ∧ 0 ≠ 0
        ∧ st.m_isLosslessRDCost = true) := fun h => h.2.1 rfl
    rw [if_neg h0]
    cases hW : cfg.WCG_EXT <;> cases useUnadjustedLambda <;> simp

/-- Witness of `calcRdCost_lagrangian`: lossy mode, distortion 3, 7 bits. -/
theorem calcRdCost_lagrangian_witness :
    calcRdCost cfgReducedPrecision stAdjusted 7 3 true
      = (if cfgReducedPrecision.WCG_EXT = true ∧ true = true
          then stAdjusted.m_distScaleUnadjusted
          else stAdjusted.m_distScale) * ((3 : Nat) : ℚ) + ((7 : Nat) : ℚ)
    ∧ calcRdCost cfgReducedPrecision stAdjusted 100 0 true = 100 :=
  calcRdCost_lagrangian cfgReducedPrecision stAdjusted 7 3 true
    (by simp [stAdjusted])

/-! ## Lemmas on the loops -/

theorem toDistortion_lt (x : Nat) : toDistortion x < 2 ^ 64 :=
  Nat.mod_lt _ (by norm_num)

theorem toDistortion_of_lt {x : Nat} (h : x < 2 ^ 64) : toDistortion x = x :=
  Nat.mod_eq_of_lt h

theorem toDistortion_add_left (a b : Nat) :
    toDistortion (toDistortion a + b) = toDistortion (a + b) := by
  unfold toDistortion
  rw [Nat.add_mod, Nat.mod_mod, ← Nat.add_mod]

/-- A wrapped accumulation over `0 .. n-1` is the wrapped exact sum. -/
theorem foldl_range_wrap (f : Nat → Nat) (n : Nat) (s : Nat) (hs : s < 2 ^ 64) :
    (List.range n).foldl (fun s k => toDistortion (s + f k)) s
      = toDistortion (s + ∑ k ∈ Finset.range n, f k) := by
  induction n with
  | zero => simp [toDistortion_of_lt hs]
  | succ n ih =>
    rw [List.range_succ, List.foldl_append, ih, Finset.sum_range_succ]
    simp only [List.foldl_cons, List.foldl_nil]
    rw [toDistortion_add_left, Nat.add_assoc]

theorem foldl_range_add (f : Nat → Int) (n : Nat) (s : Int) :
    (List.range n).foldl (fun s k => s + f k) s = s + ∑ k ∈ Finset.range n, f k := by
  induction n with
  | zero => simp
  | succ n ih =>
    rw [List.range_succ, List.foldl_append, ih, Finset.sum_range_succ]
    simp only [List.foldl_cons, List.foldl_nil]
    ring

/-- The row loop run to completion: when `rows` is `m` steps of `subStep` and no
early exit fires, the loop returns `finish` of the accumulator after `m` rows. -/
theorem rowLoop_complete {α β : Type} (body : Int → Int → α → α) (earlyExit : α → Option β)
    (finish : α → β) (subStep strideOrg strideCur : Int) (hstep : 0 < subStep) :
    ∀ (m fuel : Nat) (piOrg piCur : Int) (acc : α), m ≤ fuel →
      (∀ j, j < m → earlyExit (accRows body strideOrg strideCur (j + 1) piOrg piCur acc) = none) →
      rowLoop body earlyExit finish subStep strideOrg strideCur fuel ((m : Int) * subStep)
        piOrg piCur acc
        = some (finish (accRows body strideOrg strideCur m piOrg piCur acc)) := by
  intro m
  induction m with
  | zero =>
    intro fuel piOrg piCur acc _ _
    cases fuel <;> simp [rowLoop, accRows]
  | succ m ih =>
    intro fuel piOrg piCur acc hfuel hexit
    obtain ⟨fuel, rfl⟩ : ∃ k, fuel = k + 1 := ⟨fuel - 1, by omega⟩
    have hpos : ((m + 1 : Nat) : Int) * subStep ≠ 0 := by
      have : (0 : Int) < ((m + 1 : Nat) : Int) := by exact_mod_cast Nat.succ_pos m
      exact (mul_pos this hstep).ne'
    have h0 := hexit 0 (Nat.succ_pos m)
    simp only [accRows] at h0
    have hrows : ((m + 1 : Nat) : Int) * subStep - subStep = (m : Int) * subStep := by
      push_cast; ring
    simp only [rowLoop, if_neg hpos, h0, hrows]
    rw [ih fuel _ _ _ (by omega)]
    · rfl
    · intro j hj
      exact hexit (j + 1) (by omega)

/-- Rows of a wrapped accumulation: if each row adds `R piOrg piCur` modulo
`2 ^ 64`, then `m` rows add the exact sum of the `R`s modulo `2 ^ 64`. -/
theorem accRows_wrap (row : Int → Int → Nat → Nat) (R : Int → Int → Nat)
    (hrow : ∀ po pc s, s < 2 ^ 64 → row po pc s = toDistortion (s + R po pc))
    (so sc : Int) :
    ∀ (m : Nat) (po pc : Int) (s : Nat), s < 2 ^ 64 →
      accRows row so sc m po pc s
        = toDistortion (s + ∑ j ∈ Finset.range m, R (po + (j : Int) * so) (pc + (j : Int) * sc)) := by
  intro m
  induction m with
  | zero => intro po pc s hs; simp [accRows, toDistortion_of_lt hs]
  | succ m ih =>
    intro po pc s hs
    rw [accRows, ih _ _ _ (by rw [hrow _ _ _ hs]; exact toDistortion_lt _), hrow _ _ _ hs,
      toDistortion_add_left, Finset.sum_range_succ', Nat.add_assoc]
    congr 2
    rw [Nat.add_comm]
    congr 1
    · apply Finset.sum_congr rfl
      intro j _
      congr 1 <;> push_cast <;> ring
    · simp

theorem accRows_add (row : Int → Int → Int → Int) (R : Int → Int → Int)
    (hrow : ∀ po pc s, row po pc s = s + R po pc) (so sc : Int) :
    ∀ (m : Nat) (po pc : Int) (s : Int),
      accRows row so sc m po pc s
        = s + ∑ j ∈ Finset.range m, R (po + (j : Int) * so) (pc + (j : Int) * sc) := by
  intro m
  induction m with
  | zero => intro po pc s; simp [accRows]
  | succ m ih =>
    intro po pc s
    rw [accRows, ih, hrow, Finset.sum_range_succ', Int.add_assoc]
    congr 1
    rw [Int.add_comm]
    congr 1
    · apply Finset.sum_congr rfl
      intro j _
      congr 1 <;> push_cast <;> ring
    · simp

theorem sseLoop_wrap (row : Int → Int → Nat → Nat) (R : Int → Int → Nat)
    (hrow : ∀ po pc s, s < 2 ^ 64 → row po pc s = toDistortion (s + R po pc))
    (so sc : Int) :
    ∀ (m : Nat) (po pc : Int) (s : Nat), s < 2 ^ 64 →
      sseLoop row so sc m po pc s
        = toDistortion (s + ∑ j ∈ Finset.range m, R (po + (j : Int) * so) (pc + (j : Int) * sc)) := by
  intro m
  induction m with
  | zero => intro po pc s hs; simp [sseLoop, toDistortion_of_lt hs]
  | succ m ih =>
    intro po pc s hs
    rw [sseLoop, ih _ _ _ (by rw [hrow _ _ _ hs]; exact toDistortion_lt _), hrow _ _ _ hs,
      toDistortion_add_left, Finset.sum_range_succ', Nat.add_assoc]
    congr 2
    rw [Nat.add_comm]
    congr 1
    · apply Finset.sum_congr rfl
      intro j _
      congr 1 <;> push_cast <;> ring
    · simp

theorem mrsadRow_eq (org cur : Int → Int) (offset : Int) (cols : Nat) (po pc : Int) (s : Nat)
    (hs : s < 2 ^ 64) :
    mrsadRow org cur offset cols po pc s
      = toDistortion (s + ∑ n ∈ Finset.range cols,
          (org (po + (n : Int)) - cur (pc + (n : Int)) - offset).natAbs) :=
  foldl_range_wrap
    (fun n => (org (po + (n : Int)) - cur (pc + (n : Int)) - offset).natAbs) cols s hs

theorem sadRow_eq (org cur : Int → Int) (cols : Nat) (po pc : Int) (s : Nat)
    (hs : s < 2 ^ 64) :
    sadRow org cur cols po pc s
      = toDistortion (s + ∑ n ∈ Finset.range cols,
          (org (po + (n : Int)) - cur (pc + (n : Int))).natAbs) :=
  foldl_range_wrap (fun n => (org (po + (n : Int)) - cur (pc + (n : Int))).natAbs) cols s hs

theorem deltaRow_eq (org cur : Int → Int) (cols : Nat) (po pc : Int) (s : Int) :
    deltaRow org cur cols po pc s
      = s + ∑ n ∈ Finset.range cols, (org (po + (n : Int)) - cur (pc + (n : Int))) :=
  foldl_range_add (fun n => org (po + (n : Int)) - cur (pc + (n : Int))) cols s

theorem sseRow_eq (org cur : Int → Int) (shift cols : Nat) (po pc : Int) (s : Nat)
    (hs : s < 2 ^ 64) :
    sseRow org cur shift cols po pc s
      = toDistortion (s + ∑ n ∈ Finset.range cols,
          (((org (po + (n : Int)) - cur (pc + (n : Int)))
            * (org (po + (n : Int)) - cur (pc + (n : Int)))) >>> shift).toNat) :=
  foldl_range_wrap
    (fun n => (((org (po + (n : Int)) - cur (pc + (n : Int)))
      * (org (po + (n : Int)) - cur (pc + (n : Int)))) >>> shift).toNat) cols s hs

theorem foldl_range_wrap_step (step : Nat → Nat → Nat) (g : Nat → Nat)
    (hstep : ∀ s i, s < 2 ^ 64 → step s i = toDistortion (s + g i)) (n : Nat) (s : Nat)
    (hs : s < 2 ^ 64) :
    (List.range n).foldl step s = toDistortion (s + ∑ i ∈ Finset.range n, g i) := by
  induction n with
  | zero => simp [toDistortion_of_lt hs]
  | succ n ih =>
    rw [List.range_succ, List.foldl_append, ih, Finset.sum_range_succ]
    simp only [List.foldl_cons, List.foldl_nil]
    rw [hstep _ _ (toDistortion_lt _), toDistortion_add_left, Nat.add_assoc]

theorem sadRow16N_eq (org cur : Int → Int) (cols : Nat) (po pc : Int) (s : Nat)
    (hs : s < 2 ^ 64) :
    sadRow16N org cur cols po pc s
      = toDistortion (s + ∑ i ∈ Finset.range ((cols + 15) / 16), ∑ k ∈ Finset.range 16,
          (org (po + ((16 * i + k : Nat) : Int)) - cur (pc + ((16 * i + k : Nat) : Int))).natAbs) := by
  unfold sadRow16N
  exact foldl_range_wrap_step _ _
    (fun s i hsi => foldl_range_wrap
      (fun k => (org (po + ((16 * i + k : Nat) : Int))
        - cur (pc + ((16 * i + k : Nat) : Int))).natAbs) 16 s hsi) _ s hs

theorem sseRow16N_eq (org cur : Int → Int) (shift cols : Nat) (po pc : Int) (s : Nat)
    (hs : s < 2 ^ 64) :
    sseRow16N org cur shift cols po pc s
      = toDistortion (s + ∑ i ∈ Finset.range ((cols + 15) / 16), ∑ k ∈ Finset.range 16,
          (((org (po + ((16 * i + k : Nat) : Int)) - cur (pc + ((16 * i + k : Nat) : Int)))
            * (org (po + ((16 * i + k : Nat) : Int)) - cur (pc + ((16 * i + k : Nat) : Int))))
              >>> shift).toNat) := by
  unfold sseRow16N
  exact foldl_range_wrap_step _ _
    (fun s i hsi => foldl_range_wrap
      (fun k => (((org (po + ((16 * i + k : Nat) : Int)) - cur (pc + ((16 * i + k : Nat) : Int)))
            * (org (po + ((16 * i + k : Nat) : Int)) - cur (pc + ((16 * i + k : Nat) : Int))))
              >>> shift).toNat) 16 s hsi) _ s hs

theorem sadRow_eq_mrsadRow (org cur : Int → Int) : sadRow org cur = mrsadRow org cur 0 := by
  funext cols po pc s
  simp [sadRow, mrsadRow]

/-- A pass with early exit that is never taken: the loop returns the final
expression of the wrapped sum of the rows. -/
theorem exitPass_complete (row : Int → Int → Nat → Nat) (R : Int → Int → Nat)
    (hrow : ∀ po pc s, s < 2 ^ 64 → row po pc s = toDistortion (s + R po pc))
    (t sh sub : Nat) (so sc : Int) (m fuel : Nat) (hfuel : m ≤ fuel)
    (hno : ∀ j, j < m →
      ¬ t < toDistortion (∑ i ∈ Finset.range (j + 1), R ((i : Int) * so) ((i : Int) * sc)) >>> sh) :
    rowLoop row
        (fun sum => if t < sum >>> sh then some (sum >>> sh) else none)
        (fun sum => toDistortion (sum <<< sub) >>> sh)
        (2 ^ sub) so sc fuel ((m : Int) * 2 ^ sub) 0 0 0
      = some (toDistortion
          ((∑ i ∈ Finset.range m, R ((i : Int) * so) ((i : Int) * sc)) <<< sub) >>> sh) := by
  have hacc : ∀ k, accRows row so sc k 0 0 0
      = toDistortion (∑ i ∈ Finset.range k, R ((i : Int) * so) ((i : Int) * sc)) := by
    intro k
    rw [accRows_wrap row R hrow so sc k 0 0 0 (by norm_num)]
    simp
  rw [rowLoop_complete _ _ _ _ _ _ (by positivity) m fuel 0 0 0 hfuel]
  · rw [hacc]
    congr 2
    simp only [toDistortion, Nat.shiftLeft_eq]
    rw [Nat.mul_mod, Nat.mod_mod, ← Nat.mul_mod]
  · intro j hj
    rw [hacc, if_neg (hno j hj)]

/-! ## Sum of absolute differences -/

theorem maxDistortion_not_lt (x sh : Nat) : ¬ maxDistortion < toDistortion x >>> sh := by
  have h1 : toDistortion x >>> sh ≤ toDistortion x := by
    rw [Nat.shiftRight_eq_div_pow]; exact Nat.div_le_self _ _
  have h2 := toDistortion_lt x
  unfold maxDistortion
  omega

theorem height_eq_steps {h s : Nat} (hdiv : 2 ^ s ∣ h) :
    (h : Int) = ((h / 2 ^ s : Nat) : Int) * 2 ^ s := by
  have := Nat.div_mul_cancel hdiv
  exact_mod_cast this.symm

theorem steps_le_height (h s : Nat) : h / 2 ^ s ≤ h := Nat.div_le_self _ _

/-- C3: with `applyWeight = false`, `2 ^ subShift` dividing the height and the
early-exit threshold at its maximum, `xGetSAD` returns `(S << subShift) >>
DISTORTION_PRECISION_ADJUSTMENT(bitDepth)`, where `S` is the sum of
`|org[r][n] - cur[r][n]|` over the rows `r = 0, 2^s, 2·2^s, … < height` and the
columns `n < width`; the left shift is taken in the 64-bit type `Distortion`,
and is the plain shift whenever `S << subShift` is below `2 ^ 64`. -/
theorem xGetSAD_eq_subsampled_sum (cfg : Config) (p : DistParam) (S : Nat)
    (hw : p.applyWeight = false) (hdiv : 2 ^ p.subShift ∣ p.org.height)
    (ht : p.maximumDistortionForEarlyExit = maxDistortion)
    (hS : S = ∑ j ∈ Finset.range (p.org.height / 2 ^ p.subShift),
      ∑ n ∈ Finset.range p.org.width,
        (p.org.at (j * 2 ^ p.subShift) n - p.cur.at (j * 2 ^ p.subShift) n).natAbs) :
    xGetSAD cfg p
      = some (toDistortion (S <<< p.subShift) >>> cfg.DISTORTION_PRECISION_ADJUSTMENT p.bitDepth)
    ∧ (S <<< p.subShift < 2 ^ 64 →
      xGetSAD cfg p
        = some ((S <<< p.subShift) >>> cfg.DISTORTION_PRECISION_ADJUSTMENT p.bitDepth)) := by
  have main : xGetSAD cfg p
      = some (toDistortion (S <<< p.subShift)
          >>> cfg.DISTORTION_PRECISION_ADJUSTMENT p.bitDepth) := by
    subst hS
    simp only [xGetSAD, hw, ht, Bool.false_eq_true, if_false]
    rw [height_eq_steps hdiv]
    rw [exitPass_complete _ _ (sadRow_eq p.org.buf p.cur.buf p.org.width) _ _ _ _ _ _ _
      (steps_le_height _ _) (fun j _ => maxDistortion_not_lt _ _)]
    congr 4
    apply Finset.sum_congr rfl
    intro j _
    apply Finset.sum_congr rfl
    intro n _
    simp only [CPelBuf.at]
    congr 3 <;> push_cast <;> ring
  exact ⟨main, fun h => by rw [main, toDistortion_of_lt h]⟩

/-- Witness of `xGetSAD_eq_subsampled_sum`: a 2×2 block with `subShift = 1`; only
row 0 is visited, `S = |1 - 4| + |2 - 3| = 4` and the result is `4 << 1 = 8`. -/
theorem xGetSAD_eq_subsampled_sum_witness :
    xGetSAD cfgReducedPrecision (listParam [1, 2, 3, 4] [4, 3, 2, 1] 2 2 8 1 maxDistortion)
      = some 8 :=
  (xGetSAD_eq_subsampled_sum cfgReducedPrecision
    (listParam [1, 2, 3, 4] [4, 3, 2, 1] 2 2 8 1 maxDistortion) 4 rfl (by decide) rfl
    (by decide)).2 (by decide)

/-! ## Sum of squared errors -/

theorem xGetSSE_closed (cfg : Config) (p : DistParam) (hw : p.applyWeight = false) :
    xGetSSE cfg p
      = some (toDistortion (∑ r ∈ Finset.range p.org.height, ∑ n ∈ Finset.range p.org.width,
          (((p.org.at r n - p.cur.at r n) * (p.org.at r n - p.cur.at r n))
            >>> (cfg.DISTORTION_PRECISION_ADJUSTMENT p.bitDepth <<< 1)).toNat)) := by
  simp only [xGetSSE, hw, Bool.false_eq_true, if_false]
  rw [sseLoop_wrap _ _ (sseRow_eq p.org.buf p.cur.buf _ p.org.width) _ _ _ 0 0 0 (by norm_num)]
  congr 2
  rw [Nat.zero_add]
  apply Finset.sum_congr rfl
  intro j _
  apply Finset.sum_congr rfl
  intro n _
  simp only [CPelBuf.at]
  congr 3 <;> congr 2 <;> ring

/-- C4 (as stated) fails: on a 2×2 block of differences 1 at bit depth 9, with a
precision adjustment of one bit, `xGetSSE` returns 0 while the sum of squared
differences shifted right by twice the adjustment is `4 >> 2 = 1`. -/
theorem xGetSSE_not_shifted_sum :
    xGetSSE cfgReducedPrecision (listParam [1, 1, 1, 1] [0, 0, 0, 0] 2 2 9 0 maxDistortion)
      = some 0 ∧
    (∑ r ∈ Finset.range 2, ∑ n ∈ Finset.range 2,
      ((listParam [1, 1, 1, 1] [0, 0, 0, 0] 2 2 9 0 maxDistortion).org.at r n
        - (listParam [1, 1, 1, 1] [0, 0, 0, 0] 2 2 9 0 maxDistortion).cur.at r n) ^ 2).toNat
      >>> (2 * cfgReducedPrecision.DISTORTION_PRECISION_ADJUSTMENT 9) = 1 := by
  constructor <;> decide

/-- C4 (amended): with `applyWeight = false`, `xGetSSE` returns the sum `T` over
all samples of `(org - cur)^2 >> (2 * DISTORTION_PRECISION_ADJUSTMENT(bitDepth))`:
each squared difference is shifted before it is added.  `T` is taken in the
64-bit type `Distortion`, and is the plain sum whenever it is below `2 ^ 64`. -/
theorem xGetSSE_eq_sum_of_shifted_squares (cfg : Config) (p : DistParam) (T : Nat)
    (hw : p.applyWeight = false)
    (hT : T = ∑ r ∈ Finset.range p.org.height, ∑ n ∈ Finset.range p.org.width,
      (((p.org.at r n - p.cur.at r n) ^ 2)
        >>> (2 * cfg.DISTORTION_PRECISION_ADJUSTMENT p.bitDepth)).toNat) :
    xGetSSE cfg p = some (toDistortion T) ∧ (T < 2 ^ 64 → xGetSSE cfg p = some T) := by
  have main : xGetSSE cfg p = some (toDistortion T) := by
    rw [xGetSSE_closed cfg p hw, hT]
    simp only [Nat.shiftLeft_eq, pow_one, sq, Nat.mul_comm]
  exact ⟨main, fun h => by rw [main, toDistortion_of_lt h]⟩

/-- Witness of `xGetSSE_eq_sum_of_shifted_squares`: a 2×2 block at bit depth 9
(shift 2) with differences `3, 1, 1, 1`: the result is `(9 >> 2) + 0 + 0 + 0 = 2`. -/
theorem xGetSSE_eq_sum_of_shifted_squares_witness :
    xGetSSE cfgReducedPrecision (listParam [3, 1, 1, 1] [0, 0, 0, 0] 2 2 9 0 maxDistortion)
      = some 2 :=
  (xGetSSE_eq_sum_of_shifted_squares cfgReducedPrecision
    (listParam [3, 1, 1, 1] [0, 0, 0, 0] 2 2 9 0 maxDistortion) 2 rfl (by decide)).2 (by decide)

/-! ## Mean-removed sum of absolute differences -/

theorem buf_at (b : CPelBuf) (s i n : Nat) :
    b.buf ((i : Int) * (b.stride * 2 ^ s) + (n : Int)) = b.at (i * 2 ^ s) n := by
  simp only [CPelBuf.at]
  congr 1
  push_cast
  ring

theorem cast_shiftRight (h s : Nat) : ((h : Int) >>> s) = ((h / 2 ^ s : Nat) : Int) := by
  rw [Int.shiftRight_eq_div_pow]
  norm_cast

theorem steps_pos {h s : Nat} (hh : 1 ≤ h) (hdiv : 2 ^ s ∣ h) : 1 ≤ h / 2 ^ s := by
  obtain ⟨k, rfl⟩ := hdiv
  have h2 : 0 < 2 ^ s := by positivity
  rw [Nat.mul_div_cancel_left _ h2]
  rcases Nat.eq_zero_or_pos k with h0 | h0
  · subst h0; simp at hh
  · exact h0

/-- The first pass of `xGetMRSAD` returns the exact sum of differences. -/
theorem deltaPass_complete (p : DistParam) (hdiv : 2 ^ p.subShift ∣ p.org.height) :
    rowLoop (deltaRow p.org.buf p.cur.buf p.org.width) (fun _ => (none : Option Int)) id
        (2 ^ p.subShift) (p.org.stride * 2 ^ p.subShift) (p.cur.stride * 2 ^ p.subShift)
        p.org.height (p.org.height : Int) 0 0 (0 : Int)
      = some (deltaSum p) := by
  rw [height_eq_steps hdiv]
  rw [rowLoop_complete _ _ _ _ _ _ (by positivity) _ _ 0 0 0 (steps_le_height _ _)
    (fun _ _ => rfl)]
  rw [accRows_add _ _ (deltaRow_eq p.org.buf p.cur.buf p.org.width)]
  simp only [id, zero_add, buf_at, deltaSum]

/-- `xGetMRSAD` run to completion: with a non-empty block, `2 ^ subShift`
dividing the height and no early exit taken, the kernel returns the wrapped sum
of `|org - cur - offset|` over the visited rows, shifted left by `subShift` and
right by the precision adjustment. -/
theorem xGetMRSAD_complete (cfg : Config) (p : DistParam)
    (hw : 1 ≤ p.org.width) (hh : 1 ≤ p.org.height) (hdiv : 2 ^ p.subShift ∣ p.org.height)
    (hno : ∀ j, j < p.org.height / 2 ^ p.subShift →
      ¬ p.maximumDistortionForEarlyExit
          < toDistortion (absDiffSum p (mrOffset cfg p) (j + 1))
              >>> cfg.DISTORTION_PRECISION_ADJUSTMENT p.bitDepth) :
    xGetMRSAD cfg p
      = some (toDistortion
          (absDiffSum p (mrOffset cfg p) (p.org.height / 2 ^ p.subShift) <<< p.subShift)
            >>> cfg.DISTORTION_PRECISION_ADJUSTMENT p.bitDepth) := by
  have hdivisor : (p.org.width : Int) * ((p.org.height / 2 ^ p.subShift : Nat) : Int) ≠ 0 := by
    have h1 := steps_pos hh hdiv
    have : 0 < p.org.width * (p.org.height / 2 ^ p.subShift) := Nat.mul_pos hw h1
    exact_mod_cast this.ne'
  simp only [xGetMRSAD, deltaPass_complete p hdiv, cast_shiftRight, if_neg hdivisor]
  rw [height_eq_steps hdiv]
  rw [exitPass_complete _ _ (mrsadRow_eq p.org.buf p.cur.buf _ p.org.width) _ _ _ _ _ _ _
    (steps_le_height _ _)]
  · simp only [zero_add, buf_at, absDiffSum, mrOffset]
  · intro j hj
    have := hno j hj
    simpa only [zero_add, buf_at, absDiffSum, mrOffset] using this

/-- A row loop whose `rows` is not a multiple of `subStep` and whose early exit
is never taken does not return. -/
theorem rowLoop_diverges {α β : Type} (body : Int → Int → α → α) (earlyExit : α → Option β)
    (finish : α → β) (subStep strideOrg strideCur : Int) (I : α → Prop)
    (hbody : ∀ po pc a, I a → I (body po pc a)) (hexit : ∀ a, I a → earlyExit a = none) :
    ∀ (fuel : Nat) (rows piOrg piCur : Int) (acc : α), I acc →
      (∀ k : Nat, rows ≠ (k : Int) * subStep) →
      rowLoop body earlyExit finish subStep strideOrg strideCur fuel rows piOrg piCur acc
        = none := by
  intro fuel
  induction fuel with
  | zero =>
    intro rows piOrg piCur acc _ hrows
    have h0 : rows ≠ 0 := by simpa using hrows 0
    simp [rowLoop, h0]
  | succ fuel ih =>
    intro rows piOrg piCur acc hacc hrows
    have h0 : rows ≠ 0 := by simpa using hrows 0
    simp only [rowLoop, if_neg h0, hexit _ (hbody piOrg piCur acc hacc)]
    apply ih _ _ _ _ (hbody piOrg piCur acc hacc)
    intro k hk
    apply hrows (k + 1)
    push_cast
    linarith

/-- A row loop over `m` steps of `subStep` returns, whatever its early exit. -/
theorem rowLoop_terminates {α β : Type} (body : Int → Int → α → α) (earlyExit : α → Option β)
    (finish : α → β) (subStep strideOrg strideCur : Int) (hstep : 0 < subStep) :
    ∀ (m fuel : Nat) (piOrg piCur : Int) (acc : α), m ≤ fuel →
      ∃ v, rowLoop body earlyExit finish subStep strideOrg strideCur fuel ((m : Int) * subStep)
        piOrg piCur acc = some v := by
  intro m
  induction m with
  | zero =>
    intro fuel piOrg piCur acc _
    cases fuel <;> simp [rowLoop]
  | succ m ih =>
    intro fuel piOrg piCur acc hfuel
    obtain ⟨fuel, rfl⟩ : ∃ k, fuel = k + 1 := ⟨fuel - 1, by omega⟩
    have hpos : ((m + 1 : Nat) : Int) * subStep ≠ 0 := by
      have : (0 : Int) < ((m + 1 : Nat) : Int) := by exact_mod_cast Nat.succ_pos m
      exact (mul_pos this hstep).ne'
    have hrows : ((m + 1 : Nat) : Int) * subStep - subStep = (m : Int) * subStep := by
      push_cast; ring
    simp only [rowLoop, if_neg hpos, hrows]
    cases earlyExit (body piOrg piCur acc) with
    | some d => exact ⟨d, rfl⟩
    | none => exact ih fuel _ _ _ (by omega)

theorem not_steps_of_not_dvd {h s : Nat} (hdiv : ¬ 2 ^ s ∣ h) :
    ∀ k : Nat, (h : Int) ≠ (k : Int) * 2 ^ s := by
  intro k hk
  apply hdiv
  have : h = k * 2 ^ s := by exact_mod_cast hk
  exact ⟨k, by rw [this, Nat.mul_comm]⟩

theorem sadRow_lt (org cur : Int → Int) (cols : Nat) (po pc : Int) (s : Nat)
    (hs : s < 2 ^ 64) : sadRow org cur cols po pc s < 2 ^ 64 := by
  rw [sadRow_eq _ _ _ _ _ _ hs]; exact toDistortion_lt _

theorem maxDistortion_not_lt_of_lt {x : Nat} (hx : x < 2 ^ 64) (sh : Nat) :
    ¬ maxDistortion < x >>> sh := by
  have := maxDistortion_not_lt x sh
  rwa [toDistortion_of_lt hx] at this

/-- With the threshold at its maximum, `xGetSAD` returns only when
`2 ^ subShift` divides the height. -/
theorem xGetSAD_none_of_not_dvd (cfg : Config) (p : DistParam) (hw : p.applyWeight = false)
    (ht : p.maximumDistortionForEarlyExit = maxDistortion)
    (hdiv : ¬ 2 ^ p.subShift ∣ p.org.height) : xGetSAD cfg p = none := by
  simp only [xGetSAD, hw, ht, Bool.false_eq_true, if_false]
  apply rowLoop_diverges _ _ _ _ _ _ (fun a => a < 2 ^ 64)
  · intro po pc a ha; exact sadRow_lt _ _ _ _ _ _ ha
  · intro a ha; rw [if_neg (maxDistortion_not_lt_of_lt ha _)]
  · norm_num
  · exact not_steps_of_not_dvd hdiv

/-- If `xGetMRSAD` returns, the block is not empty and `2 ^ subShift` divides its height. -/
theorem xGetMRSAD_some_imp (cfg : Config) (p : DistParam) (v : Nat)
    (h : xGetMRSAD cfg p = some v) :
    1 ≤ p.org.width ∧ 1 ≤ p.org.height ∧ 2 ^ p.subShift ∣ p.org.height := by
  by_cases hdiv : 2 ^ p.subShift ∣ p.org.height
  · simp only [xGetMRSAD, deltaPass_complete p hdiv, cast_shiftRight] at h
    by_cases hdivisor :
        (p.org.width : Int) * ((p.org.height / 2 ^ p.subShift : Nat) : Int) = 0
    · rw [if_pos hdivisor] at h; exact absurd h (by simp)
    · have hne : p.org.width * (p.org.height / 2 ^ p.subShift) ≠ 0 := by
        intro h0; apply hdivisor; exact_mod_cast h0
      have h1 : p.org.width ≠ 0 := fun h0 => hne (by rw [h0, Nat.zero_mul])
      have h2 : p.org.height ≠ 0 := fun h0 => hne (by rw [h0, Nat.zero_div, Nat.mul_zero])
      exact ⟨Nat.one_le_iff_ne_zero.mpr h1, Nat.one_le_iff_ne_zero.mpr h2, hdiv⟩
  · have hnone : rowLoop (deltaRow p.org.buf p.cur.buf p.org.width)
          (fun _ => (none : Option Int)) id
          (2 ^ p.subShift) (p.org.stride * 2 ^ p.subShift) (p.cur.stride * 2 ^ p.subShift)
          p.org.height (p.org.height : Int) 0 0 (0 : Int) = none :=
      rowLoop_diverges _ _ _ _ _ _ (fun _ => True) (fun _ _ _ _ => trivial)
        (fun _ _ => rfl) _ _ _ _ _ trivial (not_steps_of_not_dvd hdiv)
    simp only [xGetMRSAD, hnone] at h
    exact absurd h (by simp)

/-- Sums of integers bounded in absolute value by `B`. -/
theorem abs_sum_le_of_bound (f : Nat → Nat → Int) (B : Int) (a b : Nat)
    (hf : ∀ r, r < a → ∀ n, n < b → |f r n| ≤ B) :
    |∑ r ∈ Finset.range a, ∑ n ∈ Finset.range b, f r n| ≤ ((b : Int) * (a : Int)) * B := by
  have h1 : ∀ r, r < a → |∑ n ∈ Finset.range b, f r n| ≤ (b : Int) * B := by
    intro r hr
    calc |∑ n ∈ Finset.range b, f r n| ≤ ∑ n ∈ Finset.range b, |f r n| :=
          Finset.abs_sum_le_sum_abs _ _
      _ ≤ ∑ _n ∈ Finset.range b, B :=
          Finset.sum_le_sum (fun n hn => hf r hr n (Finset.mem_range.mp hn))
      _ = (b : Int) * B := by simp
  calc |∑ r ∈ Finset.range a, ∑ n ∈ Finset.range b, f r n|
      ≤ ∑ r ∈ Finset.range a, |∑ n ∈ Finset.range b, f r n| := Finset.abs_sum_le_sum_abs _ _
    _ ≤ ∑ _r ∈ Finset.range a, (b : Int) * B :=
        Finset.sum_le_sum (fun r hr => h1 r (Finset.mem_range.mp hr))
    _ = ((b : Int) * (a : Int)) * B := by simp; ring

/-- Truncating division by a positive `N` of a number bounded by `N * B`. -/
theorem abs_tdiv_le {x N B : Int} (hN : 0 < N) (hx : |x| ≤ N * B) : |Int.tdiv x N| ≤ B := by
  have hB : 0 ≤ B := by
    by_contra hneg
    push_neg at hneg
    have : N * B < 0 := mul_neg_of_pos_of_neg hN hneg
    have := abs_nonneg x
    linarith
  rcases le_total 0 x with h0 | h0
  · rw [abs_of_nonneg h0] at hx
    rw [Int.tdiv_eq_ediv h0 hN.le, abs_of_nonneg (Int.ediv_nonneg h0 hN.le)]
    exact Int.ediv_le_of_le_mul hN (by linarith [mul_comm N B])
  · rw [abs_of_nonpos h0] at hx
    have h1 : 0 ≤ -x := by linarith
    have h2 : Int.tdiv x N = -Int.tdiv (-x) N := by rw [Int.neg_tdiv, neg_neg]
    rw [h2, abs_neg, Int.tdiv_eq_ediv h1 hN.le, abs_of_nonneg (Int.ediv_nonneg h1 hN.le)]
    exact Int.ediv_le_of_le_mul hN (by linarith [mul_comm N B])

/-- The offset of `xGetMRSAD` fits `Pel` on blocks of pixel samples: when all
samples of `org` and `cur` lie in `[0, 2 ^ bd)` with `bd` smaller than the width
of `Pel`, the truncated mean difference is representable as a `Pel`. -/
theorem isPel_mean_difference (pelBits bd : Nat) (p : DistParam) (hbd : bd < pelBits)
    (hw : 1 ≤ p.org.width) (hh : 1 ≤ p.org.height)
    (horg : ∀ r, r < p.org.height → ∀ n, n < p.org.width →
      0 ≤ p.org.at r n ∧ p.org.at r n < 2 ^ bd)
    (hcur : ∀ r, r < p.org.height → ∀ n, n < p.org.width →
      0 ≤ p.cur.at r n ∧ p.cur.at r n < 2 ^ bd) :
    IsPel pelBits (Int.tdiv
      (∑ r ∈ Finset.range p.org.height, ∑ n ∈ Finset.range p.org.width,
        (p.org.at r n - p.cur.at r n))
      ((p.org.width : Int) * (p.org.height : Int))) := by
  have hpow : (2 : Int) ^ bd ≤ 2 ^ (pelBits - 1) :=
    pow_le_pow_right₀ (by norm_num) (by omega)
  have hN : (0 : Int) < (p.org.width : Int) * (p.org.height : Int) := by
    have : 0 < p.org.width * p.org.height := Nat.mul_pos hw hh
    exact_mod_cast this
  have hsum := abs_sum_le_of_bound (fun r n => p.org.at r n - p.cur.at r n) (2 ^ bd - 1)
    p.org.height p.org.width (fun r hr n hn => by
      have h1 := horg r hr n hn
      have h2 := hcur r hr n hn
      show |p.org.at r n - p.cur.at r n| ≤ 2 ^ bd - 1
      rw [abs_le]
      constructor <;> linarith [h1.1, h1.2, h2.1, h2.2])
  have hq := abs_tdiv_le hN hsum
  rw [abs_le] at hq
  constructor <;> linarith [hq.1, hq.2]

theorem toPel_of_isPel {pelBits : Nat} {x : Int} (hbits : 1 ≤ pelBits) (hx : IsPel pelBits x) :
    toPel pelBits x = x := by
  obtain ⟨h1, h2⟩ := hx
  have hpow : (2 : Int) ^ pelBits = 2 * 2 ^ (pelBits - 1) := by
    obtain ⟨k, rfl⟩ : ∃ k, pelBits = k + 1 := ⟨pelBits - 1, by omega⟩
    simp [pow_succ, mul_comm]
  unfold toPel
  rw [Int.emod_eq_of_lt (by linarith) (by linarith)]
  ring

set_option maxRecDepth 10000 in
/-- C5 (as stated) fails at the edge of the `Pel` range: for the 1×1 block pair
`org = [32767]`, `cur = [-32768]` with a 16-bit `Pel` the quotient 65535 is
stored as -1 and `xGetMRSAD` returns `|65535 - (-1)| = 65536`, where the sum
with the quotient itself as offset is 0. -/
theorem xGetMRSAD_offset_is_narrowed :
    xGetMRSAD cfgFullNBit (listParam [32767] [-32768] 1 1 16 0 maxDistortion) = some 65536 ∧
    (∑ r ∈ Finset.range 1, ∑ n ∈ Finset.range 1,
      ((listParam [32767] [-32768] 1 1 16 0 maxDistortion).org.at r n
        - (listParam [32767] [-32768] 1 1 16 0 maxDistortion).cur.at r n
        - Int.tdiv
            (∑ r ∈ Finset.range 1, ∑ n ∈ Finset.range 1,
              ((listParam [32767] [-32768] 1 1 16 0 maxDistortion).org.at r n
                - (listParam [32767] [-32768] 1 1 16 0 maxDistortion).cur.at r n))
            (((1 : Nat) : Int) * ((1 : Nat) : Int))).natAbs)
      >>> cfgFullNBit.DISTORTION_PRECISION_ADJUSTMENT 16 = 0 := by
  constructor <;> decide

/-- C5 (amended): for a block of width and height at least 1, `subShift = 0` and
the early-exit threshold at its maximum, `xGetMRSAD` returns `T >>
DISTORTION_PRECISION_ADJUSTMENT(bitDepth)`, where `T` is the sum over all
samples of `|org - cur - offset|` and `offset` is the quotient of the sum over
all samples of `org - cur` by `cols * rows`, truncated toward zero and then
narrowed to a `Pel`; `offset` is the quotient itself whenever the quotient is
representable as a `Pel`.  `T` is taken in the 64-bit type `Distortion`, and is
the plain sum whenever it is below `2 ^ 64`. -/
theorem xGetMRSAD_eq_mean_removed_sum (cfg : Config) (p : DistParam) (quotient offset : Int)
    (T : Nat)
    (hw : 1 ≤ p.org.width) (hh : 1 ≤ p.org.height) (hs : p.subShift = 0)
    (ht : p.maximumDistortionForEarlyExit = maxDistortion)
    (hquot : quotient = Int.tdiv
      (∑ r ∈ Finset.range p.org.height, ∑ n ∈ Finset.range p.org.width,
        (p.org.at r n - p.cur.at r n))
      ((p.org.width : Int) * (p.org.height : Int)))
    (hoff : offset = toPel cfg.pelBits quotient)
    (hT : T = ∑ r ∈ Finset.range p.org.height, ∑ n ∈ Finset.range p.org.width,
      (p.org.at r n - p.cur.at r n - offset).natAbs)
    (hbits : 1 ≤ cfg.pelBits) :
    xGetMRSAD cfg p
      = some (toDistortion T >>> cfg.DISTORTION_PRECISION_ADJUSTMENT p.bitDepth)
    ∧ (T < 2 ^ 64 →
      xGetMRSAD cfg p = some (T >>> cfg.DISTORTION_PRECISION_ADJUSTMENT p.bitDepth))
    ∧ (IsPel cfg.pelBits quotient → offset = quotient) := by
  have hdiv : 2 ^ p.subShift ∣ p.org.height := by rw [hs]; simp
  have hmr : mrOffset cfg p = offset := by
    rw [hoff, hquot]
    simp only [mrOffset, deltaSum, hs, pow_zero, Nat.div_one, Nat.mul_one]
  have main : xGetMRSAD cfg p
      = some (toDistortion T >>> cfg.DISTORTION_PRECISION_ADJUSTMENT p.bitDepth) := by
    rw [xGetMRSAD_complete cfg p hw hh hdiv
      (fun j _ => by rw [ht]; exact maxDistortion_not_lt _ _)]
    rw [hmr, hT]
    simp only [absDiffSum, hs, pow_zero, Nat.div_one, Nat.mul_one, Nat.shiftLeft_zero]
  exact ⟨main, fun h => by rw [main, toDistortion_of_lt h],
    fun hpel => by rw [hoff, toPel_of_isPel hbits hpel]⟩

/-- Witness of `xGetMRSAD_eq_mean_removed_sum`: a 2×2 block whose differences
`-7, -8, -7, -7` sum to `-29`, so that the quotient and the offset are `-7`
(truncation toward zero; rounding down would give `-8`) and the result is
`0 + 1 + 0 + 0 = 1`. -/
theorem xGetMRSAD_eq_mean_removed_sum_witness :
    xGetMRSAD cfgFullNBit (listParam [5, 9, 3, 2] [12, 17, 10, 9] 2 2 8 0 maxDistortion)
      = some 1 :=
  (xGetMRSAD_eq_mean_removed_sum cfgFullNBit
    (listParam [5, 9, 3, 2] [12, 17, 10, 9] 2 2 8 0 maxDistortion) (-7) (-7) 1
    (by decide) (by decide) rfl rfl (by decide) (by decide) (by decide) (by decide)).2.1
    (by decide)

/-! ## Early exit -/

theorem absDiffSum_mono (p : DistParam) (offset : Int) {j m : Nat} (h : j ≤ m) :
    absDiffSum p offset j ≤ absDiffSum p offset m := by
  unfold absDiffSum
  exact Finset.sum_le_sum_of_subset (Finset.range_mono h)

theorem shiftRight_mono {a b : Nat} (h : a ≤ b) (sh : Nat) : a >>> sh ≤ b >>> sh := by
  simp only [Nat.shiftRight_eq_div_pow]
  exact Nat.div_le_div_right h

theorem le_shiftLeft (a s : Nat) : a ≤ a <<< s := by
  rw [Nat.shiftLeft_eq]
  exact Nat.le_mul_of_pos_right a (by positivity)

/-- The second pass shared by `xGetSAD` (offset 0) and `xGetMRSAD`: if the exact
sum fits 64 bits after the `subShift` compensation and the value returned
without early exit is at most `t`, the pass with threshold `t` returns the same
value. -/
theorem exitPass_threshold (p : DistParam) (offset : Int) (sh t : Nat)
    (hdiv : 2 ^ p.subShift ∣ p.org.height)
    (hfit : absDiffSum p offset (p.org.height / 2 ^ p.subShift) <<< p.subShift < 2 ^ 64)
    (hle : (absDiffSum p offset (p.org.height / 2 ^ p.subShift) <<< p.subShift) >>> sh ≤ t)
    (t0 : Nat) (ht0 : t0 = t ∨ t0 = maxDistortion) :
    rowLoop (mrsadRow p.org.buf p.cur.buf offset p.org.width)
        (fun sum => if t0 < sum >>> sh then some (sum >>> sh) else none)
        (fun sum => toDistortion (sum <<< p.subShift) >>> sh)
        (2 ^ p.subShift) (p.org.stride * 2 ^ p.subShift) (p.cur.stride * 2 ^ p.subShift)
        p.org.height (p.org.height : Int) 0 0 0
      = some ((absDiffSum p offset (p.org.height / 2 ^ p.subShift) <<< p.subShift) >>> sh) := by
  rw [height_eq_steps hdiv]
  rw [exitPass_complete _ _ (mrsadRow_eq p.org.buf p.cur.buf offset p.org.width) _ _ _ _ _ _ _
    (steps_le_height _ _)]
  · simp only [buf_at]
    rw [← absDiffSum, toDistortion_of_lt hfit]
  · intro j hj
    simp only [buf_at]
    rw [← absDiffSum]
    rcases ht0 with h | h
    · have h1 : absDiffSum p offset (j + 1)
          ≤ absDiffSum p offset (p.org.height / 2 ^ p.subShift) <<< p.subShift :=
        le_trans (absDiffSum_mono p offset (by omega)) (le_shiftLeft _ _)
      rw [toDistortion_of_lt (lt_of_le_of_lt h1 hfit), h]
      exact not_lt.mpr (le_trans (shiftRight_mono h1 sh) hle)
    · rw [h]; exact maxDistortion_not_lt _ _

/-- C6: for `xGetSAD` (unweighted) and `xGetMRSAD`, for every block, `subShift`
and threshold `t`: if the call with the early-exit threshold at its maximum
returns `v` and `v ≤ t`, the call with threshold `t` returns `v` as well,
provided the exact sum of absolute differences, after the `subShift`
compensation, fits the 64-bit accumulator. -/
theorem earlyExit_keeps_result (cfg : Config) (p : DistParam) (t : Nat)
    (hmax : p.maximumDistortionForEarlyExit = maxDistortion) :
    (p.applyWeight = false →
      absDiffSum p 0 (p.org.height / 2 ^ p.subShift) <<< p.subShift < 2 ^ 64 →
      ∀ v, xGetSAD cfg p = some v → v ≤ t → xGetSAD cfg (p.withThreshold t) = some v) ∧
    (absDiffSum p (mrOffset cfg p) (p.org.height / 2 ^ p.subShift) <<< p.subShift < 2 ^ 64 →
      ∀ v, xGetMRSAD cfg p = some v → v ≤ t → xGetMRSAD cfg (p.withThreshold t) = some v) := by
  constructor
  · intro hw hfit v hv hle
    by_cases hdiv : 2 ^ p.subShift ∣ p.org.height
    · have hmaxv : xGetSAD cfg p
          = some ((absDiffSum p 0 (p.org.height / 2 ^ p.subShift) <<< p.subShift)
              >>> cfg.DISTORTION_PRECISION_ADJUSTMENT p.bitDepth) := by
        simp only [xGetSAD, hw, Bool.false_eq_true, if_false, sadRow_eq_mrsadRow]
        exact exitPass_threshold p 0 _ _ hdiv hfit le_rfl _ (Or.inr hmax)
      rw [hmaxv] at hv
      have hv' := Option.some.inj hv
      rw [← hv'] at hle ⊢
      simp only [xGetSAD, DistParam.withThreshold, hw, Bool.false_eq_true, if_false,
        sadRow_eq_mrsadRow]
      exact exitPass_threshold p 0 _ t hdiv hfit hle _ (Or.inl rfl)
    · rw [xGetSAD_none_of_not_dvd cfg p hw hmax hdiv] at hv
      exact absurd hv (by simp)
  · intro hfit v hv hle
    obtain ⟨hw, hh, hdiv⟩ := xGetMRSAD_some_imp cfg p v hv
    have hdivisor : (p.org.width : Int) * ((p.org.height / 2 ^ p.subShift : Nat) : Int) ≠ 0 := by
      have h1 := steps_pos hh hdiv
      have : 0 < p.org.width * (p.org.height / 2 ^ p.subShift) := Nat.mul_pos hw h1
      exact_mod_cast this.ne'
    have hmaxv : xGetMRSAD cfg p
        = some ((absDiffSum p (mrOffset cfg p) (p.org.height / 2 ^ p.subShift) <<< p.subShift)
            >>> cfg.DISTORTION_PRECISION_ADJUSTMENT p.bitDepth) := by
      simp only [xGetMRSAD, deltaPass_complete p hdiv, cast_shiftRight, if_neg hdivisor]
      exact exitPass_threshold p (mrOffset cfg p) _ _ hdiv hfit le_rfl _ (Or.inr hmax)
    rw [hmaxv] at hv
    have hv' := Option.some.inj hv
    rw [← hv'] at hle ⊢
    have hdelta := deltaPass_complete p hdiv
    simp only [xGetMRSAD, DistParam.withThreshold, hdelta, cast_shiftRight, if_neg hdivisor]
    exact exitPass_threshold p (mrOffset cfg p) _ t hdiv hfit hle _ (Or.inl rfl)

/-- Witness of `earlyExit_keeps_result`: a 2×2 block with `subShift = 1`, whose
SAD is 8 and whose MRSAD is 4, with threshold 8. -/
theorem earlyExit_keeps_result_witness :
    xGetSAD cfgReducedPrecision
        ((listParam [1, 2, 3, 4] [4, 3, 2, 1] 2 2 8 1 maxDistortion).withThreshold 8) = some 8 ∧
    xGetMRSAD cfgReducedPrecision
        ((listParam [1, 2, 3, 4] [4, 3, 2, 1] 2 2 8 1 maxDistortion).withThreshold 8) = some 4 :=
  ⟨(earlyExit_keeps_result cfgReducedPrecision
      (listParam [1, 2, 3, 4] [4, 3, 2, 1] 2 2 8 1 maxDistortion) 8 rfl).1 rfl (by decide) 8
      (by decide) (by decide),
   (earlyExit_keeps_result cfgReducedPrecision
      (listParam [1, 2, 3, 4] [4, 3, 2, 1] 2 2 8 1 maxDistortion) 8 rfl).2 (by decide) 4
      (by decide) (by decide)⟩

/-! ## Symmetry and identical blocks -/

theorem rowLoop_swap {α β : Type} (body body' : Int → Int → α → α) (earlyExit : α → Option β)
    (finish : α → β) (subStep strideOrg strideCur : Int)
    (h : ∀ po pc a, body' pc po a = body po pc a) :
    ∀ (fuel : Nat) (rows piOrg piCur : Int) (acc : α),
      rowLoop body' earlyExit finish subStep strideCur strideOrg fuel rows piCur piOrg acc
        = rowLoop body earlyExit finish subStep strideOrg strideCur fuel rows piOrg piCur acc := by
  intro fuel
  induction fuel with
  | zero => intro rows piOrg piCur acc; simp [rowLoop]
  | succ fuel ih =>
    intro rows piOrg piCur acc
    simp only [rowLoop, h, ih]

theorem sadRow_swap (org cur : Int → Int) (cols : Nat) (po pc : Int) (s : Nat) :
    sadRow cur org cols pc po s = sadRow org cur cols po pc s := by
  unfold sadRow
  congr 1
  funext s n
  rw [← Int.natAbs_neg, neg_sub]

/-- C7: for equal-shape blocks, `applyWeight = false`, `2 ^ subShift` dividing
the height and any early-exit threshold, `xGetSAD` returns a value and returns
the same value when `org` and `cur` are exchanged. -/
theorem xGetSAD_symm (cfg : Config) (p : DistParam) (hw : p.applyWeight = false)
    (hwidth : p.cur.width = p.org.width) (hheight : p.cur.height = p.org.height)
    (hdiv : 2 ^ p.subShift ∣ p.org.height) :
    ∃ v, xGetSAD cfg p = some v ∧ xGetSAD cfg p.swap = some v := by
  have hswap : xGetSAD cfg p.swap = xGetSAD cfg p := by
    simp only [xGetSAD, DistParam.swap, hw, hwidth, hheight, Bool.false_eq_true, if_false]
    exact rowLoop_swap _ _ _ _ _ _ _ (fun po pc a => sadRow_swap _ _ _ _ _ _) _ _ _ _ _
  have hterm : ∃ v, xGetSAD cfg p = some v := by
    simp only [xGetSAD, hw, Bool.false_eq_true, if_false]
    rw [height_eq_steps hdiv]
    exact rowLoop_terminates _ _ _ _ _ _ (by positivity) _ _ _ _ _ (steps_le_height _ _)
  obtain ⟨v, hv⟩ := hterm
  exact ⟨v, hv, by rw [hswap, hv]⟩

/-- Witness of `xGetSAD_symm`: a 2×2 block pair with `subShift = 1` and threshold 3. -/
theorem xGetSAD_symm_witness :
    ∃ v, xGetSAD cfgReducedPrecision (listParam [1, 2, 3, 4] [4, 3, 2, 1] 2 2 8 1 3) = some v ∧
      xGetSAD cfgReducedPrecision (listParam [1, 2, 3, 4] [4, 3, 2, 1] 2 2 8 1 3).swap = some v :=
  xGetSAD_symm cfgReducedPrecision (listParam [1, 2, 3, 4] [4, 3, 2, 1] 2 2 8 1 3) rfl rfl rfl
    (by decide)

theorem visited_row_lt {h s j : Nat} (hj : j < h / 2 ^ s) : j * 2 ^ s < h := by
  have h2 : 0 < 2 ^ s := by positivity
  calc j * 2 ^ s < (h / 2 ^ s) * 2 ^ s := Nat.mul_lt_mul_of_pos_right hj h2
    _ ≤ h := Nat.div_mul_le_self h (2 ^ s)

theorem absDiffSum_eq_zero (p : DistParam) (offset : Int) (m : Nat)
    (hm : m ≤ p.org.height / 2 ^ p.subShift)
    (hzero : ∀ r, r < p.org.height → ∀ n, n < p.org.width →
      p.org.at r n - p.cur.at r n - offset = 0) :
    absDiffSum p offset m = 0 := by
  unfold absDiffSum
  apply Finset.sum_eq_zero
  intro j hj
  apply Finset.sum_eq_zero
  intro n hn
  rw [hzero _ (visited_row_lt (lt_of_lt_of_le (Finset.mem_range.mp hj) hm)) _
    (Finset.mem_range.mp hn)]
  rfl

theorem block_col_lt {w i k : Nat} (hw : 16 ∣ w) (hi : i < (w + 15) / 16) (hk : k < 16) :
    16 * i + k < w := by
  obtain ⟨c, rfl⟩ := hw
  omega

/-- C8: with `applyWeight = false`, when `org` and `cur` hold the same samples
the kernels return 0: `xGetSAD` and `xGetSAD16N` (for `2 ^ subShift` dividing
the height, any threshold), `xGetSSE` and `xGetSSE16N`; the `16N` kernels for
widths that are a multiple of 16. -/
theorem kernels_zero_on_identical_blocks (cfg : Config) (p : DistParam)
    (hw : p.applyWeight = false)
    (hsame : ∀ r, r < p.org.height → ∀ n, n < p.org.width → p.org.at r n = p.cur.at r n) :
    (2 ^ p.subShift ∣ p.org.height → xGetSAD cfg p = some 0) ∧
    xGetSSE cfg p = some 0 ∧
    (16 ∣ p.org.width → 2 ^ p.subShift ∣ p.org.height → xGetSAD16N cfg p = some 0) ∧
    (16 ∣ p.org.width → xGetSSE16N cfg p = some 0) := by
  refine ⟨?_, ?_, ?_, ?_⟩
  · intro hdiv
    have hz : absDiffSum p 0 (p.org.height / 2 ^ p.subShift) = 0 :=
      absDiffSum_eq_zero p 0 _ le_rfl
        (fun r hr n hn => by rw [hsame r hr n hn]; ring)
    simp only [xGetSAD, hw, Bool.false_eq_true, if_false, sadRow_eq_mrsadRow]
    rw [exitPass_threshold p 0 (cfg.DISTORTION_PRECISION_ADJUSTMENT p.bitDepth)
      p.maximumDistortionForEarlyExit hdiv
      (by rw [hz]; simp) (by rw [hz]; simp) _ (Or.inl rfl), hz]
    simp
  · rw [xGetSSE_closed cfg p hw]
    congr 1
    have : (∑ r ∈ Finset.range p.org.height, ∑ n ∈ Finset.range p.org.width,
          (((p.org.at r n - p.cur.at r n) * (p.org.at r n - p.cur.at r n))
            >>> (cfg.DISTORTION_PRECISION_ADJUSTMENT p.bitDepth <<< 1)).toNat) = 0 := by
      apply Finset.sum_eq_zero
      intro r hr
      apply Finset.sum_eq_zero
      intro n hn
      rw [hsame r (Finset.mem_range.mp hr) n (Finset.mem_range.mp hn)]
      simp
    rw [this]
    rfl
  · intro h16 hdiv
    simp only [xGetSAD16N]
    rw [height_eq_steps hdiv]
    rw [rowLoop_complete _ _ _ _ _ _ (by positivity) _ _ 0 0 0 (steps_le_height _ _)
      (fun _ _ => rfl)]
    rw [accRows_wrap _ _ (sadRow16N_eq p.org.buf p.cur.buf p.org.width) _ _ _ 0 0 0 (by norm_num)]
    have : (∑ j ∈ Finset.range (p.org.height / 2 ^ p.subShift),
        ∑ i ∈ Finset.range ((p.org.width + 15) / 16), ∑ k ∈ Finset.range 16,
          (p.org.buf ((0 : Int) + (j : Int) * (p.org.stride * 2 ^ p.subShift)
              + ((16 * i + k : Nat) : Int))
            - p.cur.buf ((0 : Int) + (j : Int) * (p.cur.stride * 2 ^ p.subShift)
              + ((16 * i + k : Nat) : Int))).natAbs) = 0 := by
      apply Finset.sum_eq_zero
      intro j hj
      apply Finset.sum_eq_zero
      intro i hi
      apply Finset.sum_eq_zero
      intro k hk
      rw [zero_add, zero_add, buf_at, buf_at,
        hsame _ (visited_row_lt (Finset.mem_range.mp hj)) _
          (block_col_lt h16 (Finset.mem_range.mp hi) (Finset.mem_range.mp hk))]
      simp
    rw [this]
    simp [toDistortion]
  · intro h16
    simp only [xGetSSE16N, hw, Bool.false_eq_true, if_false]
    rw [sseLoop_wrap _ _ (sseRow16N_eq p.org.buf p.cur.buf _ p.org.width) _ _ _ 0 0 0
      (by norm_num)]
    have : (∑ j ∈ Finset.range p.org.height,
        ∑ i ∈ Finset.range ((p.org.width + 15) / 16), ∑ k ∈ Finset.range 16,
          (((p.org.buf ((0 : Int) + (j : Int) * p.org.stride + ((16 * i + k : Nat) : Int))
              - p.cur.buf ((0 : Int) + (j : Int) * p.cur.stride + ((16 * i + k : Nat) : Int)))
            * (p.org.buf ((0 : Int) + (j : Int) * p.org.stride + ((16 * i + k : Nat) : Int))
              - p.cur.buf ((0 : Int) + (j : Int) * p.cur.stride + ((16 * i + k : Nat) : Int))))
              >>> (cfg.DISTORTION_PRECISION_ADJUSTMENT p.bitDepth <<< 1)).toNat) = 0 := by
      apply Finset.sum_eq_zero
      intro j hj
      apply Finset.sum_eq_zero
      intro i hi
      apply Finset.sum_eq_zero
      intro k hk
      have key := hsame j (Finset.mem_range.mp hj) _
        (block_col_lt h16 (Finset.mem_range.mp hi) (Finset.mem_range.mp hk))
      simp only [CPelBuf.at] at key
      rw [zero_add, zero_add, key]
      simp
    rw [this]
    simp [toDistortion]

/-- Witness of `kernels_zero_on_identical_blocks`: two 16×16 blocks of constant
128 at bit depth 10. -/
theorem kernels_zero_on_identical_blocks_witness :
    xGetSAD cfgReducedPrecision flat16 = some 0 ∧
    xGetSSE cfgReducedPrecision flat16 = some 0 ∧
    xGetSAD16N cfgReducedPrecision flat16 = some 0 ∧
    xGetSSE16N cfgReducedPrecision flat16 = some 0 :=
  have h := kernels_zero_on_identical_blocks cfgReducedPrecision flat16 rfl
    (fun _ _ _ _ => rfl)
  ⟨h.1 (by decide), h.2.1, h.2.2.1 (by decide) (by decide), h.2.2.2 (by decide)⟩

/-! ## Uniform offsets -/

theorem deltaSum_of_const (p : DistParam) (c : Int)
    (hconst : ∀ r, r < p.org.height → ∀ n, n < p.org.width → p.org.at r n - p.cur.at r n = c) :
    deltaSum p
      = c * ((p.org.width : Int) * ((p.org.height / 2 ^ p.subShift : Nat) : Int)) := by
  unfold deltaSum
  have h1 : ∀ j ∈ Finset.range (p.org.height / 2 ^ p.subShift),
      (∑ n ∈ Finset.range p.org.width,
        (p.org.at (j * 2 ^ p.subShift) n - p.cur.at (j * 2 ^ p.subShift) n))
        = (p.org.width : Int) * c := by
    intro j hj
    rw [Finset.sum_congr rfl (fun n hn =>
      hconst _ (visited_row_lt (Finset.mem_range.mp hj)) n (Finset.mem_range.mp hn))]
    simp
  rw [Finset.sum_congr rfl h1]
  simp
  ring

/-- C9: for a block of width and height at least 1 whose samples lie in the
sample range `[0, 2 ^ bitDepth)` of a bit depth that fits `Pel`, and `cur = org + k`
sample-wise with `cur` in that range too, `xGetMRSAD` returns 0 (for every
`subShift` with `2 ^ subShift` dividing the height and every threshold). -/
theorem xGetMRSAD_uniform_shift (cfg : Config) (p : DistParam) (k : Int)
    (hw : 1 ≤ p.org.width) (hh : 1 ≤ p.org.height) (hdiv : 2 ^ p.subShift ∣ p.org.height)
    (hbd : p.bitDepth.toNat < cfg.pelBits)
    (horg : ∀ r, r < p.org.height → ∀ n, n < p.org.width →
      0 ≤ p.org.at r n ∧ p.org.at r n < 2 ^ p.bitDepth.toNat)
    (hcur : ∀ r, r < p.org.height → ∀ n, n < p.org.width → p.cur.at r n = p.org.at r n + k)
    (hrange : ∀ r, r < p.org.height → ∀ n, n < p.org.width →
      0 ≤ p.cur.at r n ∧ p.cur.at r n < 2 ^ p.bitDepth.toNat) :
    xGetMRSAD cfg p = some 0 := by
  have hpow : (2 : Int) ^ p.bitDepth.toNat ≤ 2 ^ (cfg.pelBits - 1) :=
    pow_le_pow_right₀ (by norm_num) (by omega)
  have hk : IsPel cfg.pelBits (-k) := by
    have h1 := horg 0 hh 0 hw
    have h2 := hrange 0 hh 0 hw
    rw [hcur 0 hh 0 hw] at h2
    constructor <;> linarith [h1.1, h1.2, h2.1, h2.2]
  have hne : (p.org.width : Int) * ((p.org.height / 2 ^ p.subShift : Nat) : Int) ≠ 0 := by
    have h1 := steps_pos hh hdiv
    have : 0 < p.org.width * (p.org.height / 2 ^ p.subShift) := Nat.mul_pos hw h1
    exact_mod_cast this.ne'
  have hoff : mrOffset cfg p = -k := by
    unfold mrOffset
    rw [deltaSum_of_const p (-k) (fun r hr n hn => by rw [hcur r hr n hn]; ring),
      Int.mul_tdiv_cancel _ hne, toPel_of_isPel (by omega) hk]
  have hz : ∀ m, m ≤ p.org.height / 2 ^ p.subShift → absDiffSum p (mrOffset cfg p) m = 0 := by
    intro m hm
    rw [hoff]
    exact absDiffSum_eq_zero p (-k) m hm (fun r hr n hn => by rw [hcur r hr n hn]; ring)
  rw [xGetMRSAD_complete cfg p hw hh hdiv
    (fun j hj => by rw [hz (j + 1) (by omega)]; simp [toDistortion]), hz _ le_rfl]
  simp [toDistortion]

/-- Witness of `xGetMRSAD_uniform_shift`: an 8×8 block at bit depth 8 and `k = 7`. -/
theorem xGetMRSAD_uniform_shift_witness : xGetMRSAD cfgFullNBit shifted8x8 = some 0 :=
  xGetMRSAD_uniform_shift cfgFullNBit shifted8x8 7 (by decide) (by decide) (by decide)
    (by decide) (by decide) (by decide) (by decide)

theorem isPel_zero (pelBits : Nat) : IsPel pelBits 0 := by
  unfold IsPel
  have : (0 : Int) < 2 ^ (pelBits - 1) := by positivity
  constructor <;> linarith

/-- With a mean difference that truncates to 0 the offset of `xGetMRSAD` is 0. -/
theorem mrOffset_eq_zero (cfg : Config) (p : DistParam) (hbits : 1 ≤ cfg.pelBits)
    (h : Int.tdiv (deltaSum p)
      ((p.org.width : Int) * ((p.org.height / 2 ^ p.subShift : Nat) : Int)) = 0) :
    mrOffset cfg p = 0 := by
  unfold mrOffset
  rw [h]
  exact toPel_of_isPel hbits (isPel_zero _)

/-- C10: `xGetMRSAD` is not invariant under adding a constant to every sample
of `cur` alone: in a build with `DISTORTION_PRECISION_ADJUSTMENT(8) = 0`, on the
1×4 block (width 4, height 1) with differences `org - cur = [0, 0, 0, 2]` it
returns 2, and after adding `k = 1` to every sample of `cur` it returns 4. -/
theorem xGetMRSAD_not_invariant_under_cur_shift (cfg : Config)
    (h8 : cfg.DISTORTION_PRECISION_ADJUSTMENT 8 = 0) (hbits : 1 ≤ cfg.pelBits) :
    ∃ (p : DistParam) (k : Int) (v v' : Nat),
      p.cur.width = p.org.width ∧ p.cur.height = p.org.height ∧
      xGetMRSAD cfg p = some v ∧ xGetMRSAD cfg (p.curPlus k) = some v' ∧ v ≠ v' := by
  refine ⟨listParam [0, 0, 0, 2] [0, 0, 0, 0] 4 1 8 0 maxDistortion, 1, 2, 4, rfl, rfl, ?_, ?_,
    by decide⟩
  · rw [xGetMRSAD_complete cfg _ (by decide) (by decide) (by decide)
      (fun j _ => maxDistortion_not_lt _ _),
      mrOffset_eq_zero cfg _ hbits (by decide)]
    show some (_ >>> cfg.DISTORTION_PRECISION_ADJUSTMENT 8) = _
    rw [h8]
    decide
  · rw [xGetMRSAD_complete cfg _ (by decide) (by decide) (by decide)
      (fun j _ => maxDistortion_not_lt _ _),
      mrOffset_eq_zero cfg _ hbits (by decide)]
    show some (_ >>> cfg.DISTORTION_PRECISION_ADJUSTMENT 8) = _
    rw [h8]
    decide

/-- Witness of `xGetMRSAD_not_invariant_under_cur_shift` in the build `cfgFullNBit`. -/
theorem xGetMRSAD_not_invariant_under_cur_shift_witness :
    ∃ (p : DistParam) (k : Int) (v v' : Nat),
      p.cur.width = p.org.width ∧ p.cur.height = p.org.height ∧
      xGetMRSAD cfgFullNBit p = some v ∧ xGetMRSAD cfgFullNBit (p.curPlus k) = some v' ∧
      v ≠ v' :=
  xGetMRSAD_not_invariant_under_cur_shift cfgFullNBit rfl (by decide)

/-! ## Size-specialised kernels against the generic kernel -/

/-- `xGetSAD` run to completion with the threshold at its maximum. -/
theorem xGetSAD_closed (cfg : Config) (p : DistParam) (hw : p.applyWeight = false)
    (hdiv : 2 ^ p.subShift ∣ p.org.height)
    (ht : p.maximumDistortionForEarlyExit = maxDistortion) :
    xGetSAD cfg p
      = some (toDistortion
          ((∑ j ∈ Finset.range (p.org.height / 2 ^ p.subShift),
              ∑ n ∈ Finset.range p.org.width,
                (p.org.at (j * 2 ^ p.subShift) n - p.cur.at (j * 2 ^ p.subShift) n).natAbs)
            <<< p.subShift) >>> cfg.DISTORTION_PRECISION_ADJUSTMENT p.bitDepth) := by
  simp only [xGetSAD, hw, ht, Bool.false_eq_true, if_false]
  rw [height_eq_steps hdiv]
  rw [exitPass_complete _ _ (sadRow_eq p.org.buf p.cur.buf p.org.width) _ _ _ _ _ _ _
    (steps_le_height _ _) (fun j _ => maxDistortion_not_lt _ _)]
  simp only [buf_at]

/-- A row loop without early exit over wrapped rows, run to completion. -/
theorem plainPass_complete (row : Int → Int → Nat → Nat) (R : Int → Int → Nat)
    (hrow : ∀ po pc s, s < 2 ^ 64 → row po pc s = toDistortion (s + R po pc))
    (sh sub : Nat) (so sc : Int) (m fuel : Nat) (hfuel : m ≤ fuel) :
    rowLoop row (fun _ => (none : Option Nat))
        (fun sum => toDistortion (sum <<< sub) >>> sh)
        (2 ^ sub) so sc fuel ((m : Int) * 2 ^ sub) 0 0 0
      = some (toDistortion
          ((∑ i ∈ Finset.range m, R ((i : Int) * so) ((i : Int) * sc)) <<< sub) >>> sh) := by
  rw [rowLoop_complete _ _ _ _ _ _ (by positivity) m fuel 0 0 0 hfuel (fun _ _ => rfl)]
  rw [accRows_wrap row R hrow so sc m 0 0 0 (by norm_num)]
  congr 2
  simp only [toDistortion, Nat.shiftLeft_eq, zero_add]
  rw [Nat.mul_mod, Nat.mod_mod, ← Nat.mul_mod]

/-- A size-specialised SAD kernel run to completion: the sum runs over the
kernel's own `k` columns. -/
theorem sadUnrolled_closed (k : Nat) (cfg : Config) (p : DistParam)
    (hw : p.applyWeight = false) (hdiv : 2 ^ p.subShift ∣ p.org.height) :
    sadUnrolled k cfg p
      = some (toDistortion
          ((∑ j ∈ Finset.range (p.org.height / 2 ^ p.subShift), ∑ n ∈ Finset.range k,
              (p.org.at (j * 2 ^ p.subShift) n - p.cur.at (j * 2 ^ p.subShift) n).natAbs)
            <<< p.subShift) >>> cfg.DISTORTION_PRECISION_ADJUSTMENT p.bitDepth) := by
  simp only [sadUnrolled, hw, Bool.false_eq_true, if_false]
  rw [height_eq_steps hdiv]
  rw [plainPass_complete _ _ (sadRow_eq p.org.buf p.cur.buf k) _ _ _ _ _ _
    (steps_le_height _ _)]
  simp only [buf_at]

/-- Sixteen-by-sixteen regrouping of a sum over `16 * m` indices. -/
theorem sum_blocks16 (f : Nat → Nat) (m : Nat) :
    (∑ i ∈ Finset.range m, ∑ k ∈ Finset.range 16, f (16 * i + k))
      = ∑ n ∈ Finset.range (16 * m), f n := by
  induction m with
  | zero => simp
  | succ m ih =>
    rw [Finset.sum_range_succ, ih, Nat.mul_succ, Finset.sum_range_add]

/-- `xGetSAD16N` run to completion on a width that is a multiple of 16. -/
theorem xGetSAD16N_closed (cfg : Config) (p : DistParam) (h16 : 16 ∣ p.org.width)
    (hdiv : 2 ^ p.subShift ∣ p.org.height) :
    xGetSAD16N cfg p
      = some (toDistortion
          ((∑ j ∈ Finset.range (p.org.height / 2 ^ p.subShift),
              ∑ n ∈ Finset.range p.org.width,
                (p.org.at (j * 2 ^ p.subShift) n - p.cur.at (j * 2 ^ p.subShift) n).natAbs)
            <<< p.subShift) >>> cfg.DISTORTION_PRECISION_ADJUSTMENT p.bitDepth) := by
  simp only [xGetSAD16N]
  rw [height_eq_steps hdiv]
  rw [plainPass_complete _ _ (sadRow16N_eq p.org.buf p.cur.buf p.org.width) _ _ _ _ _ _
    (steps_le_height _ _)]
  have hcols : 16 * ((p.org.width + 15) / 16) = p.org.width := by
    obtain ⟨c, hc⟩ := h16
    omega
  have hrow : ∀ j : Nat,
      (∑ i ∈ Finset.range ((p.org.width + 15) / 16), ∑ k ∈ Finset.range 16,
        (p.org.at (j * 2 ^ p.subShift) (16 * i + k)
          - p.cur.at (j * 2 ^ p.subShift) (16 * i + k)).natAbs)
      = ∑ n ∈ Finset.range p.org.width,
        (p.org.at (j * 2 ^ p.subShift) n - p.cur.at (j * 2 ^ p.subShift) n).natAbs := by
    intro j
    rw [sum_blocks16 (fun n =>
      (p.org.at (j * 2 ^ p.subShift) n - p.cur.at (j * 2 ^ p.subShift) n).natAbs), hcols]
  simp only [buf_at, hrow]

/-- C12: with `applyWeight = false`, the early-exit threshold at its maximum
and `2 ^ subShift` dividing the height, `xGetSAD` returns a value, and on a
block whose width is the kernel's width each of `xGetSAD4`, `xGetSAD8`,
`xGetSAD12`, `xGetSAD16`, `xGetSAD24`, `xGetSAD32`, `xGetSAD48`, `xGetSAD64`
returns the same value, as does `xGetSAD16N` on a width that is a positive
multiple of 16; and `xGetSAD4` on a `4 × H` block with constant difference `c`
returns `(4 * H * |c|) >> DISTORTION_PRECISION_ADJUSTMENT(bitDepth)` (the product
being taken in the 64-bit type `Distortion`). -/
theorem sizeKernels_eq_xGetSAD (cfg : Config) (p : DistParam) (hw : p.applyWeight = false)
    (ht : p.maximumDistortionForEarlyExit = maxDistortion)
    (hdiv : 2 ^ p.subShift ∣ p.org.height) :
    (∃ v, xGetSAD cfg p = some v) ∧
    (p.org.width = 4 → xGetSAD4 cfg p = xGetSAD cfg p) ∧
    (p.org.width = 8 → xGetSAD8 cfg p = xGetSAD cfg p) ∧
    (p.org.width = 12 → xGetSAD12 cfg p = xGetSAD cfg p) ∧
    (p.org.width = 16 → xGetSAD16 cfg p = xGetSAD cfg p) ∧
    (p.org.width = 24 → xGetSAD24 cfg p = xGetSAD cfg p) ∧
    (p.org.width = 32 → xGetSAD32 cfg p = xGetSAD cfg p) ∧
    (p.org.width = 48 → xGetSAD48 cfg p = xGetSAD cfg p) ∧
    (p.org.width = 64 → xGetSAD64 cfg p = xGetSAD cfg p) ∧
    (0 < p.org.width → 16 ∣ p.org.width → xGetSAD16N cfg p = xGetSAD cfg p) ∧
    (∀ c : Int, p.org.width = 4 →
      (∀ r, r < p.org.height → ∀ n, n < 4 → p.org.at r n - p.cur.at r n = c) →
      xGetSAD4 cfg p
        = some (toDistortion (4 * p.org.height * c.natAbs)
            >>> cfg.DISTORTION_PRECISION_ADJUSTMENT p.bitDepth)) := by
  have hk : ∀ k, p.org.width = k → sadUnrolled k cfg p = xGetSAD cfg p := by
    intro k hk
    rw [sadUnrolled_closed k cfg p hw hdiv, xGetSAD_closed cfg p hw hdiv ht, hk]
  refine ⟨⟨_, xGetSAD_closed cfg p hw hdiv ht⟩, hk 4, hk 8, hk 12, hk 16, hk 24, hk 32, hk 48,
    hk 64, ?_, ?_⟩
  · intro _ h16
    rw [xGetSAD16N_closed cfg p h16 hdiv, xGetSAD_closed cfg p hw hdiv ht]
  · intro c _ hc
    show sadUnrolled 4 cfg p = _
    rw [sadUnrolled_closed 4 cfg p hw hdiv]
    congr 3
    have hsum : (∑ j ∈ Finset.range (p.org.height / 2 ^ p.subShift), ∑ n ∈ Finset.range 4,
        (p.org.at (j * 2 ^ p.subShift) n - p.cur.at (j * 2 ^ p.subShift) n).natAbs)
        = (p.org.height / 2 ^ p.subShift) * (4 * c.natAbs) := by
      rw [Finset.sum_congr rfl (fun j hj => Finset.sum_congr rfl (fun n hn => by
        rw [hc _ (visited_row_lt (Finset.mem_range.mp hj)) n (Finset.mem_range.mp hn)]))]
      simp
    rw [hsum, Nat.shiftLeft_eq]
    have hh := Nat.div_mul_cancel hdiv
    calc p.org.height / 2 ^ p.subShift * (4 * c.natAbs) * 2 ^ p.subShift
        = 4 * (p.org.height / 2 ^ p.subShift * 2 ^ p.subShift) * c.natAbs := by ring
      _ = 4 * p.org.height * c.natAbs := by rw [hh]

/-- Witness of `sizeKernels_eq_xGetSAD`: `org` constant 100 and `cur` constant
110 over a 4×4 block at bit depth 8 give `4 * 4 * 10 = 160`. -/
theorem sizeKernels_eq_xGetSAD_witness : xGetSAD4 cfgFullNBit flat4x4 = some 160 :=
  ((sizeKernels_eq_xGetSAD cfgFullNBit flat4x4 rfl rfl (by decide)).2.2.2.2.2.2.2.2.2.2
    (-10) rfl (fun _ _ _ _ => by simp [flat4x4, constBuf, CPelBuf.at])).trans (by decide)

/-! ## Setting up a `DistParam`: properties -/

theorem land_eq_zero_iff_dvd (h k : Nat) : h &&& (2 ^ k - 1) = 0 ↔ 2 ^ k ∣ h := by
  rw [Nat.and_pow_two_sub_one_eq_mod, Nat.dvd_iff_mod_eq_zero]

/-- C15: the buffer overload of `setDistParam` sets the row sub-sampling shift
to: mode 1 → 4 if height > 32 and 16 divides the height, else 3 if height > 16
and 8 divides it, else 2 if height > 8 and 4 divides it, else 1 if the height is
even, else 0; mode 2 → 1 if height > 8 and width ≤ 64, else 0; mode 3 → 1 if
height > 8, else 0; every other mode → 0. -/
theorem setDistParam_subShift (cfg : Config) (rcDP : DistParam) (org : CPelBuf)
    (piRefY : Int → Int) (iRefStride bitDepth : Int) (compID : ComponentID)
    (subShiftMode step : Int) (useHadamard : Bool) :
    (setDistParam cfg rcDP org piRefY iRefStride bitDepth compID subShiftMode step
        useHadamard).subShift
      = if subShiftMode = 1 then
          if org.height > 32 ∧ 16 ∣ org.height then 4
          else if org.height > 16 ∧ 8 ∣ org.height then 3
          else if org.height > 8 ∧ 4 ∣ org.height then 2
          else if 2 ∣ org.height then 1
          else 0
        else if subShiftMode = 2 then
          if org.height > 8 ∧ org.width ≤ 64 then 1 else 0
        else if subShiftMode = 3 then
          if org.height > 8 then 1 else 0
        else 0 := by
  have h16 : org.height &&& 15 = 0 ↔ 16 ∣ org.height := land_eq_zero_iff_dvd org.height 4
  have h8 : org.height &&& 7 = 0 ↔ 8 ∣ org.height := land_eq_zero_iff_dvd org.height 3
  have h4 : org.height &&& 3 = 0 ↔ 4 ∣ org.height := land_eq_zero_iff_dvd org.height 2
  have h2 : org.height &&& 1 = 0 ↔ 2 ∣ org.height := land_eq_zero_iff_dvd org.height 1
  cases useHadamard <;>
    simp only [setDistParam, apply_ite DistParam.subShift, h16, h8, h4, h2, Bool.not_false,
      Bool.not_true, if_true, if_false, Bool.false_eq_true, gt_iff_lt]

/-- C16 (as stated) fails: for `subShiftMode = 1` and a 16×64 block the buffer
overload sets `subShift = 4`, the raw-pointer overload sets `subShift = 1`. -/
theorem setDistParamRaw_differs_from_policy :
    (setDistParam cfgFullNBit exampleDistParam (constBuf 0 16 64) (fun _ => 0) 16 8
        ComponentID.COMPONENT_Y 1 1 false).subShift = 4 ∧
    (setDistParamRaw cfgFullNBit exampleDistParam (fun _ => 0) (fun _ => 0) 16 16 8
        ComponentID.COMPONENT_Y 16 64 1 1 false false).toOption.map DistParam.subShift
      = some 1 := by
  constructor
  · simp only [setDistParam, apply_ite DistParam.subShift, constBuf]
    decide
  · simp [setDistParamRaw, exampleDistParam, Except.toOption]

/-- C16 (amended): the raw-pointer overload of `setDistParam` succeeds exactly
when neither `useHadamard` nor `rcDP.useMR` is set, and then stores its
`subShiftMode` argument unchanged as the row sub-sampling shift, whatever the
height and the width. -/
theorem setDistParamRaw_subShift (cfg : Config) (rcDP : DistParam) (pOrg piRefY : Int → Int)
    (iOrgStride iRefStride bitDepth : Int) (compID : ComponentID) (width height : Nat)
    (subShiftMode step : Int) (useHadamard bioApplied : Bool) (hmode : 0 ≤ subShiftMode) :
    ((∃ dp, setDistParamRaw cfg rcDP pOrg piRefY iOrgStride iRefStride bitDepth compID width
        height subShiftMode step useHadamard bioApplied = Except.ok dp)
      ↔ (useHadamard = false ∧ rcDP.useMR = false)) ∧
    (∀ dp, setDistParamRaw cfg rcDP pOrg piRefY iOrgStride iRefStride bitDepth compID width
        height subShiftMode step useHadamard bioApplied = Except.ok dp →
      (dp.subShift : Int) = subShiftMode) := by
  unfold setDistParamRaw
  cases useHadamard <;> cases hmr : rcDP.useMR <;> cases bioApplied <;>
    simp [hmr, Int.toNat_of_nonneg hmode]

/-- Witness of `setDistParamRaw_subShift`: mode 1 on a 16×64 block. -/
theorem setDistParamRaw_subShift_witness :
    (setDistParamRaw cfgFullNBit exampleDistParam (fun _ => 0) (fun _ => 0) 16 16 8
        ComponentID.COMPONENT_Y 16 64 1 1 false false).toOption.map
        (fun dp => (dp.subShift : Int)) = some 1 := by
  have h := setDistParamRaw_subShift cfgFullNBit exampleDistParam (fun _ => 0) (fun _ => 0)
    16 16 8 ComponentID.COMPONENT_Y 16 64 1 1 false false (by decide)
  obtain ⟨dp, hdp⟩ := h.1.mpr ⟨rfl, rfl⟩
  rw [hdp]
  simp [Except.toOption, h.2 dp hdp]

/-! ## Chroma weighting in `getDistPart` -/

theorem int_log_two_eq (x : ℚ) (e : Int) (hx : 0 < x) (h1 : (2 : ℚ) ^ e ≤ x)
    (h2 : x < (2 : ℚ) ^ (e + 1)) : Int.log 2 x = e := by
  have hle : e ≤ Int.log 2 x := (Int.zpow_le_iff_le_log (by norm_num) hx).1 (by exact_mod_cast h1)
  have hlt : Int.log 2 x < e + 1 :=
    (Int.lt_zpow_iff_log_lt (by norm_num) hx).1 (by exact_mod_cast h2)
  omega

theorem roundHalfEven_intCast (n : Int) : roundHalfEven (n : ℚ) = n := by
  have hfloor : Rat.floor (n : ℚ) = n := by
    show ⌊(n : ℚ)⌋ = n
    exact Int.floor_intCast n
  simp only [roundHalfEven, hfloor, sub_self]
  rw [if_pos (by norm_num)]

/-- The conversion of an integer below `2^53` to `double` is exact. -/
theorem roundDouble_natCast (d : Nat) (hd : d < 2 ^ 53) : roundDouble (d : ℚ) = d := by
  unfold roundDouble
  by_cases h0 : (d : ℚ) = 0
  · rw [if_pos h0, h0]
  · rw [if_neg h0]
    have hdpos : 0 < d := Nat.pos_of_ne_zero (fun h => h0 (by rw [h]; simp))
    have hlog : Int.log 2 |(d : ℚ)| = (Nat.log 2 d : Int) := by
      rw [abs_of_nonneg (by positivity)]
      exact Int.log_natCast 2 d
    have hk : Nat.log 2 d < 53 := Nat.log_lt_of_lt_pow (by omega) hd
    obtain ⟨j, hj⟩ : ∃ j : Nat, Nat.log 2 d + j = 52 := ⟨52 - Nat.log 2 d, by omega⟩
    have hmax : max (Nat.log 2 d : Int) (-1022) = (Nat.log 2 d : Int) := by omega
    have hexp : ((Nat.log 2 d : Int)) - 52 = -(j : Int) := by omega
    simp only [hlog, hmax, hexp, zpow_neg, zpow_natCast]
    have hcast : (d : ℚ) / ((2 : ℚ) ^ j)⁻¹ = (((d * 2 ^ j : Nat) : Int) : ℚ) := by
      push_cast
      field_simp
    rw [hcast, roundHalfEven_intCast]
    push_cast
    field_simp

/-- The product of the `double` nearest to 0.7 and 10 is the `double` 7: the
exact product lies half-way between 7 and its predecessor and is rounded to the
even neighbour. -/
theorem roundDouble_seven_tenths :
    roundDouble ((3152519739159347 / 4503599627370496 : ℚ) * 10) = 7 := by
  have hx : (3152519739159347 / 4503599627370496 : ℚ) * 10
      = 15762598695796735 / 2251799813685248 := by norm_num
  have hlog : Int.log 2 |(15762598695796735 / 2251799813685248 : ℚ)| = 2 := by
    rw [abs_of_pos (by norm_num)]
    exact int_log_two_eq _ 2 (by norm_num) (by norm_num) (by norm_num)
  have hfloor : Rat.floor (15762598695796735 / 2 : ℚ) = 7881299347898367 := by
    show ⌊(15762598695796735 / 2 : ℚ)⌋ = 7881299347898367
    rw [Int.floor_eq_iff]
    constructor <;> norm_num
  have hround : roundHalfEven (15762598695796735 / 2 : ℚ) = 7881299347898368 := by
    simp only [roundHalfEven, hfloor]
    norm_num
  have hdiv : (15762598695796735 / 2251799813685248 : ℚ) / 2 ^ ((2 : Int) - 52)
      = 15762598695796735 / 2 := by
    rw [show ((2 : Int) - 52) = -(50 : ℕ) by norm_num, zpow_neg, zpow_natCast]
    norm_num
  rw [hx]
  unfold roundDouble
  rw [if_neg (by norm_num)]
  simp only [hlog, show max (2 : Int) (-1022) = 2 by decide, hdiv, hround]
  rw [show ((2 : Int) - 52) = -(50 : ℕ) by norm_num, zpow_neg, zpow_natCast]
  norm_num

/-- C17: for every block pair and metric kind, `getDistPart` with a component
that is not chroma (luma) returns the value of the raw metric function selected
for the width unchanged, and with a chroma component it returns the product of
the distortion weight of the component (the entry
`m_distortionWeight[MAP_CHROMA(compID)]`) and that value, a product of type
`double`, converted to the integer distortion type; it returns a value exactly
when the raw metric does.  The conversion of the metric value to `double` is
exact below `2^53`. -/
theorem getDistPart_chroma_weight (cfg : Config) (st : State) (org cur : CPelBuf)
    (bitDepth : Int) (compID : ComponentID) (distFunc : DFunc) :
    (cfg.isChroma compID = false →
      getDistPart cfg st org cur bitDepth compID distFunc
        = rawMetric cfg st org cur bitDepth compID distFunc) ∧
    (cfg.isChroma compID = true →
      getDistPart cfg st org cur bitDepth compID distFunc
        = (rawMetric cfg st org cur bitDepth compID distFunc).map
            (fun d => doubleToDistortion
              (roundDouble (st.m_distortionWeight (cfg.MAP_CHROMA compID)
                * roundDouble (d : ℚ))))) ∧
    (∀ d : Nat, d < 2 ^ 53 → roundDouble (d : ℚ) = d) := by
  refine ⟨?_, ?_, roundDouble_natCast⟩
  · intro h
    simp only [getDistPart, rawMetric, h, Bool.false_eq_true, if_false]
  · intro h
    simp only [getDistPart, rawMetric, h, if_true]
    cases st.m_distortionFunc _ _ <;> rfl

/-- Witness of `getDistPart_chroma_weight`: raw metric 10 and the weight 0.7 (as
a `double`) give 7 for Cb, the integer part of the `double` product 7.0; the
exact product is below 7. -/
theorem getDistPart_chroma_weight_witness :
    getDistPart cfgFullNBit stWeightSevenTenths (constBuf 100 4 4) (constBuf 110 4 4) 8
      ComponentID.COMPONENT_Cb DFunc.SSE = some 7 :=
  ((getDistPart_chroma_weight cfgFullNBit stWeightSevenTenths (constBuf 100 4 4)
    (constBuf 110 4 4) 8 ComponentID.COMPONENT_Cb DFunc.SSE).2.1 rfl).trans (by
      have hten : roundDouble ((10 : Nat) : ℚ) = 10 := by
        rw [roundDouble_natCast 10 (by norm_num)]
        norm_num
      have hfloor : Rat.floor 7 = 7 := by decide
      have hraw : rawMetric cfgFullNBit stWeightSevenTenths (constBuf 100 4 4)
          (constBuf 110 4 4) 8 ComponentID.COMPONENT_Cb DFunc.SSE = some 10 := rfl
      rw [hraw]
      show some (doubleToDistortion (roundDouble
        ((3152519739159347 / 4503599627370496 : ℚ) * roundDouble ((10 : Nat) : ℚ)))) = some 7
      rw [hten, roundDouble_seven_tenths, doubleToDistortion, hfloor]
      rfl)

/-! ## The relation between `distScale` and `λ` -/

theorem div_mul_self_eq (a x : ℚ) (hx : x ≠ 0) : a / x * x = a := by
  field_simp

theorem captureStore_invariant (cfg : Config) (st : State)
    (hrate : ∀ c, lamdbaAdjustRate cfg c ≠ 0) (hinv : ScaleInvariant cfg st) :
    (captureStore cfg st).m_resetStore = false ∧
    ∀ i, i < 2 → ∀ c, (captureStore cfg st).m_distScaleStore i c
      * (captureStore cfg st).m_lambdaStore i c = ((2 ^ cfg.SCALE_BITS : Nat) : ℚ) := by
  unfold captureStore
  cases hr : st.m_resetStore
  · simp only [Bool.false_eq_true, if_false, hr, true_and]
    exact hinv.2 hr
  · have h0 := hinv.1 hr
    have hl : st.m_dLambda ≠ 0 := by
      intro h
      rw [h, mul_zero] at h0
      exact absurd h0.symm (by positivity)
    simp only [if_true, true_and]
    intro i hi c
    have hi' : i = 0 ∨ i = 1 := by omega
    rcases hi' with rfl | rfl
    · simpa using h0
    · simp only [one_ne_zero, if_false, if_true]
      exact div_mul_self_eq _ _ (mul_ne_zero hl (hrate c))

theorem pairStep_ok (st st1 : State) (forward : Bool) (h : pairStep st forward = Except.ok st1) :
    st1 = { st with m_pairCheck := if forward then 1 else 0 } ∧
    (forward = true → st.m_pairCheck ≠ 1) ∧ (forward = false → st.m_pairCheck ≠ 0) := by
  unfold pairStep at h
  cases forward
  · simp only [Bool.false_eq_true, if_false] at h
    split at h
    · exact absurd h (by simp)
    · rename_i hp
      refine ⟨?_, by simp, fun _ => hp⟩
      simpa using (Except.ok.inj h).symm
  · simp only [if_true] at h
    split at h
    · exact absurd h (by simp)
    · rename_i hp
      refine ⟨?_, fun _ => hp, by simp⟩
      simpa using (Except.ok.inj h).symm

theorem restoreCheck_ok (st st1 : State) (h : restoreCheck st = Except.ok st1) :
    st1 = st ∧ (st.m_pairCheck = 0 → st.m_distScale = st.m_distScaleUnadjusted) := by
  unfold restoreCheck at h
  split at h
  · rename_i hp
    split at h
    · exact absurd h (by simp)
    · rename_i hne
      exact ⟨(Except.ok.inj h).symm, fun _ => not_not.mp hne⟩
  · rename_i hp
    exact ⟨(Except.ok.inj h).symm, fun h0 => absurd h0 hp⟩

theorem scaleStep_ok (cfg : Config) (st st1 : State) (componentID : ComponentID)
    (applyChromaScale : Bool) (resScaleInv : Int)
    (h : scaleStep cfg st componentID applyChromaScale resScaleInv = Except.ok st1) :
    st1.m_pairCheck = st.m_pairCheck ∧ st1.m_resetStore = st.m_resetStore ∧
    st1.m_lambdaStore = st.m_lambdaStore ∧ st1.m_distScaleStore = st.m_distScaleStore ∧
    st1.m_dLambda = (if applyChromaScale then
        st.m_lambdaStore st.m_pairCheck componentID /
          ((((2 ^ cfg.CSCALE_FP_PREC : Nat) : ℚ) / (resScaleInv : ℚ)) *
            (((2 ^ cfg.CSCALE_FP_PREC : Nat) : ℚ) / (resScaleInv : ℚ)))
      else st.m_lambdaStore st.m_pairCheck componentID) ∧
    st1.m_distScale = (if applyChromaScale then
        ((2 ^ cfg.SCALE_BITS : Nat) : ℚ) / st1.m_dLambda
      else st.m_distScaleStore st.m_pairCheck componentID) ∧
    (applyChromaScale = true →
      st.m_pairCheck ≠ 0 ∧ componentID ≠ ComponentID.COMPONENT_Y) := by
  unfold scaleStep at h
  cases applyChromaScale
  · simp only [Bool.false_eq_true, if_false] at h
    have h1 := (Except.ok.inj h).symm
    subst h1
    simp
  · simp only [if_true] at h
    split at h
    · exact absurd h (by simp)
    · rename_i hp
      have h1 := (Except.ok.inj h).symm
      subst h1
      simpa using hp

theorem lambdaAdjustColorTrans_ok (cfg : Config) (st st1 : State) (forward : Bool)
    (componentID : ComponentID) (applyChromaScale : Bool) (resScaleInv : Int)
    (h : lambdaAdjustColorTrans cfg st forward componentID applyChromaScale resScaleInv
      = Except.ok st1) :
    ∃ s1 s2, pairStep (captureStore cfg st) forward = Except.ok s1 ∧
      scaleStep cfg s1 componentID applyChromaScale resScaleInv = Except.ok s2 ∧
      restoreCheck s2 = Except.ok st1 := by
  unfold lambdaAdjustColorTrans at h
  cases h1 : pairStep (captureStore cfg st) forward with
  | error e => rw [h1] at h; exact absurd h (by simp)
  | ok s1 =>
    rw [h1] at h
    simp only at h
    cases h2 : scaleStep cfg s1 componentID applyChromaScale resScaleInv with
    | error e => rw [h2] at h; exact absurd h (by simp)
    | ok s2 =>
      rw [h2] at h
      exact ⟨s1, s2, rfl, h2, h⟩

/-- C13: in exact arithmetic `distScale · λ = 2^SCALE_BITS` is an invariant.
After `setLambda(λ)` with `λ > 0` it holds, `λ` is stored and the motion-SAD
lambda is `sqrt(λ)`.  Every successful call of `lambdaAdjustColorTrans` (forward
or inverse, with or without `applyChromaScale` and a non-zero `resScaleInv`)
leaves it true, and leaves the cached pairs satisfying it, provided it held
when the cached pairs were captured (the adjustment rates `pow(2, ΔQP/3)` being
non-zero). -/
theorem distScale_mul_lambda_invariant (cfg : Config) (st st1 : State) (dLambda : ℚ)
    (forward : Bool) (componentID : ComponentID) (applyChromaScale : Bool) (resScaleInv : Int)
    (hrate : ∀ c, lamdbaAdjustRate cfg c ≠ 0) :
    (0 < dLambda →
      (setLambda cfg st dLambda).m_distScale * (setLambda cfg st dLambda).m_dLambda
        = ((2 ^ cfg.SCALE_BITS : Nat) : ℚ) ∧
      (setLambda cfg st dLambda).m_dLambda = dLambda ∧
      (setLambda cfg st dLambda).m_dLambdaMotionSAD = cfg.sqrt dLambda) ∧
    (ScaleInvariant cfg st → (applyChromaScale = true → resScaleInv ≠ 0) →
      lambdaAdjustColorTrans cfg st forward componentID applyChromaScale resScaleInv
        = Except.ok st1 →
      st1.m_distScale * st1.m_dLambda = ((2 ^ cfg.SCALE_BITS : Nat) : ℚ) ∧
      ScaleInvariant cfg st1) := by
  constructor
  · intro hpos
    refine ⟨?_, rfl, rfl⟩
    simp only [setLambda]
    exact div_mul_self_eq _ _ (ne_of_gt hpos)
  · intro hinv hres h
    obtain ⟨s1, s2, h1, h2, h3⟩ := lambdaAdjustColorTrans_ok cfg st st1 forward componentID
      applyChromaScale resScaleInv h
    obtain ⟨hreset, hstore⟩ := captureStore_invariant cfg st hrate hinv
    obtain ⟨hs1, hf1, hf0⟩ := pairStep_ok _ _ _ h1
    obtain ⟨hp2, hr2, hl2, hd2, hlam, hds, hcs⟩ := scaleStep_ok cfg s1 s2 componentID
      applyChromaScale resScaleInv h2
    obtain ⟨hs3, -⟩ := restoreCheck_ok _ _ h3
    subst hs3
    have hpc : s1.m_pairCheck < 2 := by
      rw [hs1]
      cases forward <;> simp
    have hs1l : s1.m_lambdaStore = (captureStore cfg st).m_lambdaStore := by rw [hs1]
    have hs1d : s1.m_distScaleStore = (captureStore cfg st).m_distScaleStore := by rw [hs1]
    have hs1r : s1.m_resetStore = (captureStore cfg st).m_resetStore := by rw [hs1]
    have hpair := hstore s1.m_pairCheck hpc componentID
    rw [← hs1l, ← hs1d] at hpair
    have hpow : ((2 ^ cfg.SCALE_BITS : Nat) : ℚ) ≠ 0 := by positivity
    have hlne : s1.m_lambdaStore s1.m_pairCheck componentID ≠ 0 := by
      intro h0
      rw [h0, mul_zero] at hpair
      exact hpow hpair.symm
    refine ⟨?_, ?_, ?_⟩
    · cases applyChromaScale
      · simp only [Bool.false_eq_true, if_false] at hlam hds
        rw [hlam, hds]
        exact hpair
      · simp only [if_true] at hlam hds
        have hr : (resScaleInv : ℚ) ≠ 0 := by exact_mod_cast hres rfl
        have hc : ((2 ^ cfg.CSCALE_FP_PREC : Nat) : ℚ) ≠ 0 := by positivity
        have hne : st1.m_dLambda ≠ 0 := by
          rw [hlam]
          exact div_ne_zero hlne (mul_ne_zero (div_ne_zero hc hr) (div_ne_zero hc hr))
        rw [hds]
        exact div_mul_self_eq _ _ hne
    · intro hrs
      rw [hr2, hs1r, hreset] at hrs
      exact absurd hrs (by simp)
    · intro _ i hi c
      rw [hl2, hd2, hs1l, hs1d]
      exact hstore i hi c

/-- Witness of `distScale_mul_lambda_invariant`: `λ = 4` with `SCALE_BITS = 15`,
then a forward adjustment for Cb. -/
theorem distScale_mul_lambda_invariant_witness :
    (setLambda cfgFullNBit stLambda4 4).m_distScale
        * (setLambda cfgFullNBit stLambda4 4).m_dLambda = 32768 ∧
    (setLambda cfgFullNBit stLambda4 4).m_dLambdaMotionSAD = 2 ∧
    ∃ st1, lambdaAdjustColorTrans cfgFullNBit stLambda4 true ComponentID.COMPONENT_Cb false 0
        = Except.ok st1 ∧
      st1.m_distScale * st1.m_dLambda = 32768 := by
  have hrate : ∀ c, lamdbaAdjustRate cfgFullNBit c ≠ 0 := by
    intro c
    simp only [lamdbaAdjustRate, cfgFullNBit]
    exact zpow_ne_zero _ (by norm_num)
  have hinv : ScaleInvariant cfgFullNBit stLambda4 := by
    constructor
    · intro _
      simp [stLambda4, cfgFullNBit]
      norm_num
    · intro h
      exact absurd h (by simp [stLambda4])
  obtain ⟨st1, h1⟩ : ∃ st1, lambdaAdjustColorTrans cfgFullNBit stLambda4 true
      ComponentID.COMPONENT_Cb false 0 = Except.ok st1 := ⟨_, rfl⟩
  have h := distScale_mul_lambda_invariant cfgFullNBit stLambda4 st1 4 true
    ComponentID.COMPONENT_Cb false 0 hrate
  have hs := h.1 (by norm_num)
  refine ⟨?_, ?_, st1, h1, ?_⟩
  · simpa [cfgFullNBit] using hs.1
  · rw [hs.2.2]
    have hfloor : Rat.floor 4 = 4 := by decide
    have hsqrt : Nat.sqrt (2 * 2) = 2 := Nat.sqrt_eq 2
    simp only [cfgFullNBit, hfloor]
    exact_mod_cast hsqrt
  · simpa [cfgFullNBit] using (h.2 hinv (by simp) h1).1

/-! ## Alternation of forward and inverse lambda adjustment -/

theorem captureStore_pairCheck (cfg : Config) (st : State) :
    (captureStore cfg st).m_pairCheck = st.m_pairCheck := by
  unfold captureStore
  split <;> rfl

theorem lambdaAdjustColorTrans_pairCheck (cfg : Config) (st st1 : State) (forward : Bool)
    (componentID : ComponentID) (applyChromaScale : Bool) (resScaleInv : Int)
    (h : lambdaAdjustColorTrans cfg st forward componentID applyChromaScale resScaleInv
      = Except.ok st1) :
    st1.m_pairCheck = (if forward then 1 else 0) ∧
    (forward = true → st.m_pairCheck ≠ 1) ∧ (forward = false → st.m_pairCheck ≠ 0) := by
  obtain ⟨s1, s2, h1, h2, h3⟩ := lambdaAdjustColorTrans_ok cfg st st1 forward componentID
    applyChromaScale resScaleInv h
  obtain ⟨hs1, hf1, hf0⟩ := pairStep_ok _ _ _ h1
  obtain ⟨hp2, -⟩ := scaleStep_ok cfg s1 s2 componentID applyChromaScale resScaleInv h2
  obtain ⟨hs3, -⟩ := restoreCheck_ok _ _ h3
  rw [captureStore_pairCheck] at hf1 hf0
  refine ⟨?_, hf1, hf0⟩
  rw [hs3, hp2, hs1]

theorem lambdaAdjustColorTrans_pair_error (cfg : Config) (st : State) (forward : Bool)
    (componentID : ComponentID) (applyChromaScale : Bool) (resScaleInv : Int) :
    (forward = true → st.m_pairCheck = 1 →
      lambdaAdjustColorTrans cfg st forward componentID applyChromaScale resScaleInv
        = Except.error "lambda has been already adjusted") ∧
    (forward = false → st.m_pairCheck = 0 →
      lambdaAdjustColorTrans cfg st forward componentID applyChromaScale resScaleInv
        = Except.error "lambda has not been adjusted") := by
  constructor
  · intro hf hp
    simp only [lambdaAdjustColorTrans, pairStep, captureStore_pairCheck, hf, hp, if_true]
  · intro hf hp
    simp only [lambdaAdjustColorTrans, pairStep, captureStore_pairCheck, hf, hp, if_true,
      Bool.false_eq_true, if_false]

theorem scaleStep_error (cfg : Config) (st : State) (componentID : ComponentID)
    (applyChromaScale : Bool) (resScaleInv : Int) (e : String)
    (h : scaleStep cfg st componentID applyChromaScale resScaleInv = Except.error e) :
    e = "wrong lambda adjustment for CS" := by
  unfold scaleStep at h
  cases applyChromaScale
  · simp only [Bool.false_eq_true, if_false] at h
    exact absurd h (by simp)
  · simp only [if_true] at h
    split at h
    · exact (Except.error.inj h).symm
    · exact absurd h (by simp)

theorem restoreCheck_error (st : State) (e : String) (h : restoreCheck st = Except.error e) :
    e = "lambda should be adjusted to the original value" := by
  unfold restoreCheck at h
  split at h
  · split at h
    · exact (Except.error.inj h).symm
    · exact absurd h (by simp)
  · exact absurd h (by simp)

theorem pairStep_error (st : State) (forward : Bool) (e : String)
    (h : pairStep st forward = Except.error e) :
    (forward = true ∧ st.m_pairCheck = 1 ∧ e = "lambda has been already adjusted") ∨
    (forward = false ∧ st.m_pairCheck = 0 ∧ e = "lambda has not been adjusted") := by
  unfold pairStep at h
  cases forward
  · simp only [Bool.false_eq_true, if_false] at h
    split at h
    · rename_i hp
      exact Or.inr ⟨rfl, hp, (Except.error.inj h).symm⟩
    · exact absurd h (by simp)
  · simp only [if_true] at h
    split at h
    · rename_i hp
      exact Or.inl ⟨rfl, hp, (Except.error.inj h).symm⟩
    · exact absurd h (by simp)

theorem lambdaAdjustColorTrans_error (cfg : Config) (st : State) (forward : Bool)
    (componentID : ComponentID) (applyChromaScale : Bool) (resScaleInv : Int) (e : String)
    (h : lambdaAdjustColorTrans cfg st forward componentID applyChromaScale resScaleInv
      = Except.error e) :
    (forward = true ∧ st.m_pairCheck = 1 ∧ e = "lambda has been already adjusted") ∨
    (forward = false ∧ st.m_pairCheck = 0 ∧ e = "lambda has not been adjusted") ∨
    e = "wrong lambda adjustment for CS" ∨
    e = "lambda should be adjusted to the original value" := by
  unfold lambdaAdjustColorTrans at h
  cases h1 : pairStep (captureStore cfg st) forward with
  | error e1 =>
    rw [h1] at h
    simp only at h
    have he := Except.error.inj h
    subst he
    rcases pairStep_error _ _ _ h1 with h2 | h2
    · rw [captureStore_pairCheck] at h2
      exact Or.inl h2
    · rw [captureStore_pairCheck] at h2
      exact Or.inr (Or.inl h2)
  | ok s1 =>
    rw [h1] at h
    simp only at h
    cases h2 : scaleStep cfg s1 componentID applyChromaScale resScaleInv with
    | error e2 =>
      rw [h2] at h
      simp only at h
      have he := Except.error.inj h
      subst he
      exact Or.inr (Or.inr (Or.inl (scaleStep_error _ _ _ _ _ _ h2)))
    | ok s2 =>
      rw [h2] at h
      exact Or.inr (Or.inr (Or.inr (restoreCheck_error _ _ h)))

theorem runCalls_pairCheck (cfg : Config) (cs : List AdjustCall) :
    ∀ st st1, runCalls cfg st cs = Except.ok st1 →
      st1.m_pairCheck
        = ((cs.getLast?).map (fun c => if c.forward then 1 else 0)).getD st.m_pairCheck := by
  induction cs with
  | nil =>
    intro st st1 h
    simp only [runCalls] at h
    rw [← Except.ok.inj h]
    rfl
  | cons c cs ih =>
    intro st st1 h
    simp only [runCalls] at h
    cases h1 : lambdaAdjustColorTrans cfg st c.forward c.componentID c.applyChromaScale
        c.resScaleInv with
    | error e => rw [h1] at h; exact absurd h (by simp)
    | ok s1 =>
      rw [h1] at h
      simp only at h
      have hs1 := (lambdaAdjustColorTrans_pairCheck cfg st s1 _ _ _ _ h1).1
      have := ih s1 st1 h
      rw [this, hs1]
      cases cs with
      | nil => rfl
      | cons d ds =>
        rw [List.getLast?_cons_cons]
        cases hl : (d :: ds).getLast? with
        | none => exact absurd hl (by simp)
        | some x => rfl

theorem init_pairCheck (st : State) : (init st).m_pairCheck = 0 := rfl

/-- C14 (as stated) fails: right after `init()` a call with `forward = true` for
the luma component with `applyChromaScale` fails its contract check although no
forward call precedes it, and an inverse call right after a successful forward
call fails when the restored `distScale` differs from `m_distScaleUnadjusted`. -/
theorem lambdaAdjustColorTrans_fails_outside_alternation :
    lambdaAdjustColorTrans cfgFullNBit (init stLambda4) true ComponentID.COMPONENT_Y true 2048
      = Except.error "wrong lambda adjustment for CS" ∧
    (∃ st1, lambdaAdjustColorTrans cfgFullNBit (init stAdjusted) true ComponentID.COMPONENT_Cb
        false 0 = Except.ok st1 ∧
      lambdaAdjustColorTrans cfgFullNBit st1 false ComponentID.COMPONENT_Cb false 0
        = Except.error "lambda should be adjusted to the original value") := by
  refine ⟨rfl, _, rfl, ?_⟩
  simp [lambdaAdjustColorTrans, captureStore, pairStep, scaleStep, restoreCheck, init,
    stAdjusted]

/-- C14 (amended): `lambdaAdjustColorTrans` enforces alternation through
`m_pairCheck`.  After any run of successful calls from the state after `init()`,
`m_pairCheck = 1` iff the last call was forward (0 otherwise, also for no call);
a forward call fails the check "lambda has been already adjusted" iff the last
successful call was forward, an inverse call fails the check "lambda has not
been adjusted" iff there is no call before it or the last successful call was
inverse; a call fails on another check only with the message of the chroma-scale
check or of the restore check; after a successful call `m_pairCheck = 1` iff
`forward`; a forward call directly after a successful forward call fails. -/
theorem lambdaAdjustColorTrans_alternation (cfg : Config) (st st1 st2 : State)
    (cs : List AdjustCall) (c d : AdjustCall) (e : String)
    (hrun : runCalls cfg (init st) cs = Except.ok st1) :
    (st1.m_pairCheck = 1 ↔ (cs.getLast?).map AdjustCall.forward = some true) ∧
    (st1.m_pairCheck = 0 ↔ (cs.getLast?).map AdjustCall.forward ≠ some true) ∧
    (lambdaAdjustColorTrans cfg st1 true c.componentID c.applyChromaScale c.resScaleInv
        = Except.error "lambda has been already adjusted"
      ↔ (cs.getLast?).map AdjustCall.forward = some true) ∧
    (lambdaAdjustColorTrans cfg st1 false c.componentID c.applyChromaScale c.resScaleInv
        = Except.error "lambda has not been adjusted"
      ↔ (cs.getLast?).map AdjustCall.forward ≠ some true) ∧
    (lambdaAdjustColorTrans cfg st1 c.forward c.componentID c.applyChromaScale c.resScaleInv
        = Except.error e →
      e = "lambda has been already adjusted" ∨ e = "lambda has not been adjusted" ∨
      e = "wrong lambda adjustment for CS" ∨
      e = "lambda should be adjusted to the original value") ∧
    (lambdaAdjustColorTrans cfg st1 c.forward c.componentID c.applyChromaScale c.resScaleInv
        = Except.ok st2 →
      (st2.m_pairCheck = 1 ↔ c.forward = true) ∧
      (c.forward = true →
        lambdaAdjustColorTrans cfg st2 true d.componentID d.applyChromaScale d.resScaleInv
          = Except.error "lambda has been already adjusted")) := by
  have hp := runCalls_pairCheck cfg cs (init st) st1 hrun
  rw [init_pairCheck] at hp
  have hlast : (st1.m_pairCheck = 1 ↔ (cs.getLast?).map AdjustCall.forward = some true) ∧
      (st1.m_pairCheck = 0 ↔ (cs.getLast?).map AdjustCall.forward ≠ some true) := by
    rw [hp]
    cases cs.getLast? with
    | none => simp
    | some x => cases hx : x.forward <;> simp [hx]
  have herr : ∀ (f : Bool) (msg : String),
      lambdaAdjustColorTrans cfg st1 f c.componentID c.applyChromaScale c.resScaleInv
        = Except.error msg →
      (f = true ∧ st1.m_pairCheck = 1 ∧ msg = "lambda has been already adjusted") ∨
      (f = false ∧ st1.m_pairCheck = 0 ∧ msg = "lambda has not been adjusted") ∨
      msg = "wrong lambda adjustment for CS" ∨
      msg = "lambda should be adjusted to the original value" :=
    fun f msg h => lambdaAdjustColorTrans_error cfg st1 f _ _ _ msg h
  refine ⟨hlast.1, hlast.2, ?_, ?_, ?_, ?_⟩
  · rw [← hlast.1]
    constructor
    · intro h
      rcases herr true _ h with h1 | h1 | h1 | h1
      · exact h1.2.1
      · exact absurd h1.1 (by simp)
      · exact absurd h1 (by decide)
      · exact absurd h1 (by decide)
    · intro h
      exact (lambdaAdjustColorTrans_pair_error cfg st1 true _ _ _).1 rfl h
  · rw [← hlast.2]
    constructor
    · intro h
      rcases herr false _ h with h1 | h1 | h1 | h1
      · exact absurd h1.1 (by simp)
      · exact h1.2.1
      · exact absurd h1 (by decide)
      · exact absurd h1 (by decide)
    · intro h
      exact (lambdaAdjustColorTrans_pair_error cfg st1 false _ _ _).2 rfl h
  · intro h
    rcases herr c.forward e h with h1 | h1 | h1 | h1
    · exact Or.inl h1.2.2
    · exact Or.inr (Or.inl h1.2.2)
    · exact Or.inr (Or.inr (Or.inl h1))
    · exact Or.inr (Or.inr (Or.inr h1))
  · intro h
    have h2 := (lambdaAdjustColorTrans_pairCheck cfg st1 st2 _ _ _ _ h).1
    constructor
    · rw [h2]
      cases c.forward <;> simp
    · intro hf
      rw [hf] at h2
      exact (lambdaAdjustColorTrans_pair_error cfg st2 true _ _ _).1 rfl h2

/-- Witness of `lambdaAdjustColorTrans_alternation`: after one forward call for
Cb a second forward call fails and `m_pairCheck = 1`. -/
theorem lambdaAdjustColorTrans_alternation_witness :
    ∃ st1, runCalls cfgFullNBit (init stLambda4)
        [AdjustCall.mk true ComponentID.COMPONENT_Cb false 0] = Except.ok st1 ∧
      st1.m_pairCheck = 1 ∧
      lambdaAdjustColorTrans cfgFullNBit st1 true ComponentID.COMPONENT_Cr false 0
        = Except.error "lambda has been already adjusted" := by
  refine ⟨_, rfl, ?_, ?_⟩
  · exact (lambdaAdjustColorTrans_alternation cfgFullNBit stLambda4 _ stLambda4
      [AdjustCall.mk true ComponentID.COMPONENT_Cb false 0]
      (AdjustCall.mk true ComponentID.COMPONENT_Cr false 0)
      (AdjustCall.mk true ComponentID.COMPONENT_Cr false 0) "" rfl).1.mpr rfl
  · exact (lambdaAdjustColorTrans_alternation cfgFullNBit stLambda4 _ stLambda4
      [AdjustCall.mk true ComponentID.COMPONENT_Cb false 0]
      (AdjustCall.mk true ComponentID.COMPONENT_Cr false 0)
      (AdjustCall.mk true ComponentID.COMPONENT_Cr false 0) "" rfl).2.2.1.mpr rfl

/-! ## Significance-group context selectors -/

theorem grid_position (W x y : Nat) (hx : x < W) :
    (y * W + x) / W = y ∧ y * W + x - y * W = x := by
  have hW : 0 < W := by omega
  have h1 : (y * W + x) / W = y := by
    rw [Nat.add_comm, Nat.add_mul_div_right _ _ hW, Nat.div_eq_of_lt hx, Nat.zero_add]
  exact ⟨h1, by omega⟩

theorem initSubblock_eval (c : CoeffCodingContext) (SubsetId : Nat) (sigGroupFlag : Bool)
    (x y : Nat) (hpos : c.m_scanCG SubsetId = y * c.m_widthInGroups + x)
    (hx : x < c.m_widthInGroups)
    (hfit : y * c.m_widthInGroups + x + c.m_widthInGroups < 2 ^ 32) :
    ∃ c1, c.initSubblock SubsetId sigGroupFlag = some c1 ∧
      c1.m_sigGroupCtxId = c.SigCoeffGroup
        ((if x + 1 < c.m_widthInGroups then c.sigBit (y * c.m_widthInGroups + x + 1) else 0) |||
         (if y + 1 < c.m_heightInGroups then
            c.sigBit (y * c.m_widthInGroups + x + c.m_widthInGroups) else 0)) ∧
      c1.m_sigGroupCtxIdTS = c.TsSigCoeffGroup
        ((if x > 0 then c.sigBit (y * c.m_widthInGroups + x - 1) else 0) +
         (if y > 0 then c.sigBit (y * c.m_widthInGroups + x - c.m_widthInGroups) else 0)) := by
  have hW : c.m_widthInGroups ≠ 0 := by omega
  obtain ⟨hy, hxx⟩ := grid_position c.m_widthInGroups x y hx
  have hyW : y + 1 ≤ c.m_widthInGroups * (y + 1) := Nat.le_mul_of_pos_left _ (by omega)
  have hu1 : toUnsigned (x + 1) = x + 1 := Nat.mod_eq_of_lt (by omega)
  have hu2 : toUnsigned (y + 1) = y + 1 := by
    apply Nat.mod_eq_of_lt
    have : c.m_widthInGroups * (y + 1) = y * c.m_widthInGroups + c.m_widthInGroups := by ring
    omega
  have hu3 : toUnsigned (y * c.m_widthInGroups + x + 1)
      = y * c.m_widthInGroups + x + 1 := Nat.mod_eq_of_lt (by omega)
  have hu4 : toUnsigned (y * c.m_widthInGroups + x + c.m_widthInGroups)
      = y * c.m_widthInGroups + x + c.m_widthInGroups := Nat.mod_eq_of_lt hfit
  have hyW0 : 0 < y → c.m_widthInGroups ≤ y * c.m_widthInGroups :=
    fun h => Nat.le_mul_of_pos_left _ h
  refine ⟨_, by simp only [CoeffCodingContext.initSubblock, hW, if_false]; rfl, ?_, ?_⟩
  · simp only [hpos, hy, hxx, hu1, hu2, hu3, hu4, CoeffCodingContext.sigBit]
    cases sigGroupFlag
    · simp only [Bool.false_eq_true, if_false]
    · simp only [if_true]
      have e1 : ¬ (y * c.m_widthInGroups + x + 1 = y * c.m_widthInGroups + x) := by omega
      have e2 : ¬ (y * c.m_widthInGroups + x + c.m_widthInGroups
          = y * c.m_widthInGroups + x) := by omega
      simp only [e1, e2, if_false]
  · simp only [hpos, hy, hxx, CoeffCodingContext.sigBit]
    cases sigGroupFlag
    · simp only [Bool.false_eq_true, if_false]
    · simp only [if_true]
      by_cases h0 : x > 0
      · have e1 : ¬ (y * c.m_widthInGroups + x - 1 = y * c.m_widthInGroups + x) := by omega
        by_cases h1 : y > 0
        · have e2 : ¬ (y * c.m_widthInGroups + x - c.m_widthInGroups
              = y * c.m_widthInGroups + x) := by
            have := hyW0 h1
            omega
          simp only [h0, h1, e1, e2, if_true, if_false]
        · simp only [h0, h1, e1, if_true, if_false]
      · by_cases h1 : y > 0
        · have e2 : ¬ (y * c.m_widthInGroups + x - c.m_widthInGroups
              = y * c.m_widthInGroups + x) := by
            have := hyW0 h1
            omega
          simp only [h0, h1, e2, if_true, if_false]
        · simp only [h0, h1, if_false]

theorem withBit_sigBit (c : CoeffCodingContext) (pos n : Nat) (b : Bool) (h : n ≠ pos) :
    (c.withBit pos b).sigBit n = c.sigBit n := by
  simp only [CoeffCodingContext.withBit, CoeffCodingContext.sigBit, h, if_false]

/-- C20: after `initSubblock(id, flag)` on a `W × H` grid of coefficient groups
with `pos = scanCG[id] = y·W + x`, `x < W` (and `pos + W` representable as
`unsigned`), the call returns, the main significance-group selector is
`right | lower` with `right` the bit of group `pos + 1` if `x + 1 < W` else 0 and
`lower` the bit of group `pos + W` if `y + 1 < H` else 0, and the transform-skip
selector is `left + above` with `left` the bit of group `pos - 1` if `x > 0` else
0 and `above` the bit of group `pos - W` if `y > 0` else 0.  Neither selector
changes with the own bit of the group or with `flag`, and when no bit is set
(fresh context) both selectors are 0. -/
theorem initSubblock_selectors (c : CoeffCodingContext) (SubsetId : Nat)
    (sigGroupFlag flag2 b : Bool) (x y : Nat)
    (hpos : c.m_scanCG SubsetId = y * c.m_widthInGroups + x)
    (hx : x < c.m_widthInGroups)
    (hfit : y * c.m_widthInGroups + x + c.m_widthInGroups < 2 ^ 32) :
    ∃ c1, c.initSubblock SubsetId sigGroupFlag = some c1 ∧
      c1.m_sigGroupCtxId = c.SigCoeffGroup
        ((if x + 1 < c.m_widthInGroups then c.sigBit (y * c.m_widthInGroups + x + 1) else 0) |||
         (if y + 1 < c.m_heightInGroups then
            c.sigBit (y * c.m_widthInGroups + x + c.m_widthInGroups) else 0)) ∧
      c1.m_sigGroupCtxIdTS = c.TsSigCoeffGroup
        ((if x > 0 then c.sigBit (y * c.m_widthInGroups + x - 1) else 0) +
         (if y > 0 then c.sigBit (y * c.m_widthInGroups + x - c.m_widthInGroups) else 0)) ∧
      (∃ c2, (c.withBit (y * c.m_widthInGroups + x) b).initSubblock SubsetId flag2 = some c2 ∧
        c2.m_sigGroupCtxId = c1.m_sigGroupCtxId ∧
        c2.m_sigGroupCtxIdTS = c1.m_sigGroupCtxIdTS) ∧
      ((∀ n, c.m_sigCoeffGroupFlag n = false) →
        c1.m_sigGroupCtxId = c.SigCoeffGroup 0 ∧ c1.m_sigGroupCtxIdTS = c.TsSigCoeffGroup 0) := by
  obtain ⟨c1, h1, hm, ht⟩ := initSubblock_eval c SubsetId sigGroupFlag x y hpos hx hfit
  obtain ⟨c2, h2, hm2, ht2⟩ := initSubblock_eval (c.withBit (y * c.m_widthInGroups + x) b)
    SubsetId flag2 x y hpos hx hfit
  refine ⟨c1, h1, hm, ht, ⟨c2, h2, ?_, ?_⟩, ?_⟩
  · rw [hm2, hm]
    have e1 : y * c.m_widthInGroups + x + 1 ≠ y * c.m_widthInGroups + x := by omega
    have e2 : y * c.m_widthInGroups + x + c.m_widthInGroups
        ≠ y * c.m_widthInGroups + x := by omega
    show c.SigCoeffGroup _ = _
    rw [show (c.withBit (y * c.m_widthInGroups + x) b).m_widthInGroups
        = c.m_widthInGroups from rfl,
      show (c.withBit (y * c.m_widthInGroups + x) b).m_heightInGroups
        = c.m_heightInGroups from rfl,
      withBit_sigBit c _ _ b e1, withBit_sigBit c _ _ b e2]
  · rw [ht2, ht]
    show c.TsSigCoeffGroup _ = _
    rw [show (c.withBit (y * c.m_widthInGroups + x) b).m_widthInGroups
        = c.m_widthInGroups from rfl]
    congr 2
    · by_cases h0 : x > 0
      · simp only [h0, if_true]
        exact withBit_sigBit c _ _ b (by omega)
      · simp only [h0, if_false]
    · by_cases h0 : y > 0
      · simp only [h0, if_true]
        have : c.m_widthInGroups ≤ y * c.m_widthInGroups := Nat.le_mul_of_pos_left _ h0
        exact withBit_sigBit c _ _ b (by omega)
      · simp only [h0, if_false]
  · intro hfresh
    rw [hm, ht]
    simp [CoeffCodingContext.sigBit, hfresh]

/-- Witness of `initSubblock_selectors`: group 10 of a 4 × 4 grid in which the
groups 6 (above) and 9 (left) are significant. -/
theorem initSubblock_selectors_witness :
    ∃ c1, markedContext.initSubblock 10 false = some c1 ∧
      c1.m_sigGroupCtxId = 0 ∧ c1.m_sigGroupCtxIdTS = 2 := by
  obtain ⟨c1, h1, hm, ht, -⟩ := initSubblock_selectors markedContext 10 false false false 2 2
    (by decide) (by decide) (by decide)
  exact ⟨c1, h1, hm.trans (by decide), ht.trans (by decide)⟩

/-! ## Hadamard kernels on a zero difference -/

theorem xCalcHADs4x4_stage1_zero (diff : Nat → Int) (h : ∀ n, diff n = 0) (k : Nat) :
    xCalcHADs4x4_stage1 diff k = 0 := by
  unfold xCalcHADs4x4_stage1
  split <;> simp only [h, add_zero, sub_zero]

theorem xCalcHADs4x4_stage2_zero (m : Nat → Int) (h : ∀ n, m n = 0) (k : Nat) :
    xCalcHADs4x4_stage2 m k = 0 := by
  unfold xCalcHADs4x4_stage2
  split <;> simp only [h, add_zero, sub_zero]

theorem xCalcHADs4x4_stage3_zero (d : Nat → Int) (h : ∀ n, d n = 0) (k : Nat) :
    xCalcHADs4x4_stage3 d k = 0 := by
  unfold xCalcHADs4x4_stage3
  split <;> simp only [h, add_zero, sub_zero]

theorem xCalcHADs4x4_stage4_zero (m : Nat → Int) (h : ∀ n, m n = 0) (k : Nat) :
    xCalcHADs4x4_stage4 m k = 0 := by
  unfold xCalcHADs4x4_stage4
  split <;> simp only [h, add_zero, sub_zero]

theorem xCalcHADs8x8_stage1_zero (diff : Nat → Int) (h : ∀ n, diff n = 0) (j c : Nat) :
    xCalcHADs8x8_stage1 diff j c = 0 := by
  unfold xCalcHADs8x8_stage1
  split <;> simp only [h, add_zero, sub_zero]

theorem xCalcHADs8x8_stage2_zero (m2 : Nat → Nat → Int) (h : ∀ a b, m2 a b = 0) (j c : Nat) :
    xCalcHADs8x8_stage2 m2 j c = 0 := by
  unfold xCalcHADs8x8_stage2
  split <;> simp only [h, add_zero, sub_zero]

theorem xCalcHADs8x8_stage3_zero (m1 : Nat → Nat → Int) (h : ∀ a b, m1 a b = 0) (j c : Nat) :
    xCalcHADs8x8_stage3 m1 j c = 0 := by
  unfold xCalcHADs8x8_stage3
  split <;> simp only [h, add_zero, sub_zero]

theorem xCalcHADs8x8_stage4_zero (m2 : Nat → Nat → Int) (h : ∀ a b, m2 a b = 0) (r i : Nat) :
    xCalcHADs8x8_stage4 m2 r i = 0 := by
  unfold xCalcHADs8x8_stage4
  split <;> simp only [h, add_zero, sub_zero]

theorem xCalcHADs8x8_stage5_zero (m3 : Nat → Nat → Int) (h : ∀ a b, m3 a b = 0) (r i : Nat) :
    xCalcHADs8x8_stage5 m3 r i = 0 := by
  unfold xCalcHADs8x8_stage5
  split <;> simp only [h, add_zero, sub_zero]

theorem xCalcHADs8x8_stage6_zero (m1 : Nat → Nat → Int) (h : ∀ a b, m1 a b = 0) (r i : Nat) :
    xCalcHADs8x8_stage6 m1 r i = 0 := by
  unfold xCalcHADs8x8_stage6
  split <;> simp only [h, add_zero, sub_zero]

theorem xCalcHADs16x8_stage1_zero (diff : Nat → Int) (h : ∀ n, diff n = 0) (j c : Nat) :
    xCalcHADs16x8_stage1 diff j c = 0 := by
  unfold xCalcHADs16x8_stage1
  split <;> simp only [h, add_zero, sub_zero]

theorem xCalcHADs16x8_stage2_zero (m2 : Nat → Nat → Int) (h : ∀ a b, m2 a b = 0) (j c : Nat) :
    xCalcHADs16x8_stage2 m2 j c = 0 := by
  unfold xCalcHADs16x8_stage2
  split <;> simp only [h, add_zero, sub_zero]

theorem xCalcHADs16x8_stage3_zero (m1 : Nat → Nat → Int) (h : ∀ a b, m1 a b = 0) (j c : Nat) :
    xCalcHADs16x8_stage3 m1 j c = 0 := by
  unfold xCalcHADs16x8_stage3
  split <;> simp only [h, add_zero, sub_zero]

theorem xCalcHADs16x8_stage4_zero (m2 : Nat → Nat → Int) (h : ∀ a b, m2 a b = 0) (j c : Nat) :
    xCalcHADs16x8_stage4 m2 j c = 0 := by
  unfold xCalcHADs16x8_stage4
  split <;> simp only [h, add_zero, sub_zero]

theorem xCalcHADs16x8_stage5_zero (m1 : Nat → Nat → Int) (h : ∀ a b, m1 a b = 0) (r i : Nat) :
    xCalcHADs16x8_stage5 m1 r i = 0 := by
  unfold xCalcHADs16x8_stage5
  split <;> simp only [h, add_zero, sub_zero]

theorem xCalcHADs16x8_stage6_zero (m2 : Nat → Nat → Int) (h : ∀ a b, m2 a b = 0) (r i : Nat) :
    xCalcHADs16x8_stage6 m2 r i = 0 := by
  unfold xCalcHADs16x8_stage6
  split <;> simp only [h, add_zero, sub_zero]

theorem xCalcHADs16x8_stage7_zero (m1 : Nat → Nat → Int) (h : ∀ a b, m1 a b = 0) (r i : Nat) :
    xCalcHADs16x8_stage7 m1 r i = 0 := by
  unfold xCalcHADs16x8_stage7
  split <;> simp only [h, add_zero, sub_zero]

theorem xCalcHADs8x16_stage1_zero (diff : Nat → Int) (h : ∀ n, diff n = 0) (j c : Nat) :
    xCalcHADs8x16_stage1 diff j c = 0 := by
  unfold xCalcHADs8x16_stage1
  split <;> simp only [h, add_zero, sub_zero]

theorem xCalcHADs8x16_stage2_zero (m2 : Nat → Nat → Int) (h : ∀ a b, m2 a b = 0) (j c : Nat) :
    xCalcHADs8x16_stage2 m2 j c = 0 := by
  unfold xCalcHADs8x16_stage2
  split <;> simp only [h, add_zero, sub_zero]

theorem xCalcHADs8x16_stage3_zero (m1 : Nat → Nat → Int) (h : ∀ a b, m1 a b = 0) (j c : Nat) :
    xCalcHADs8x16_stage3 m1 j c = 0 := by
  unfold xCalcHADs8x16_stage3
  split <;> simp only [h, add_zero, sub_zero]

theorem xCalcHADs8x16_stage4_zero (m2 : Nat → Nat → Int) (h : ∀ a b, m2 a b = 0) (r i : Nat) :
    xCalcHADs8x16_stage4 m2 r i = 0 := by
  unfold xCalcHADs8x16_stage4
  split <;> simp only [h, add_zero, sub_zero]

theorem xCalcHADs8x16_stage5_zero (m1 : Nat → Nat → Int) (h : ∀ a b, m1 a b = 0) (r i : Nat) :
    xCalcHADs8x16_stage5 m1 r i = 0 := by
  unfold xCalcHADs8x16_stage5
  split <;> simp only [h, add_zero, sub_zero]

theorem xCalcHADs8x16_stage6_zero (m2 : Nat → Nat → Int) (h : ∀ a b, m2 a b = 0) (r i : Nat) :
    xCalcHADs8x16_stage6 m2 r i = 0 := by
  unfold xCalcHADs8x16_stage6
  split <;> simp only [h, add_zero, sub_zero]

theorem xCalcHADs8x16_stage7_zero (m1 : Nat → Nat → Int) (h : ∀ a b, m1 a b = 0) (r i : Nat) :
    xCalcHADs8x16_stage7 m1 r i = 0 := by
  unfold xCalcHADs8x16_stage7
  split <;> simp only [h, add_zero, sub_zero]

theorem xCalcHADs4x8_stage1_zero (diff : Nat → Int) (h : ∀ n, diff n = 0) (j c : Nat) :
    xCalcHADs4x8_stage1 diff j c = 0 := by
  unfold xCalcHADs4x8_stage1
  split <;> simp only [h, add_zero, sub_zero]

theorem xCalcHADs4x8_stage2_zero (m2 : Nat → Nat → Int) (h : ∀ a b, m2 a b = 0) (j c : Nat) :
    xCalcHADs4x8_stage2 m2 j c = 0 := by
  unfold xCalcHADs4x8_stage2
  split <;> simp only [h, add_zero, sub_zero]

theorem xCalcHADs4x8_stage3_zero (m1 : Nat → Nat → Int) (h : ∀ a b, m1 a b = 0) (r i : Nat) :
    xCalcHADs4x8_stage3 m1 r i = 0 := by
  unfold xCalcHADs4x8_stage3
  split <;> simp only [h, add_zero, sub_zero]

theorem xCalcHADs4x8_stage4_zero (m2 : Nat → Nat → Int) (h : ∀ a b, m2 a b = 0) (r i : Nat) :
    xCalcHADs4x8_stage4 m2 r i = 0 := by
  unfold xCalcHADs4x8_stage4
  split <;> simp only [h, add_zero, sub_zero]

theorem xCalcHADs4x8_stage5_zero (m1 : Nat → Nat → Int) (h : ∀ a b, m1 a b = 0) (r i : Nat) :
    xCalcHADs4x8_stage5 m1 r i = 0 := by
  unfold xCalcHADs4x8_stage5
  split <;> simp only [h, add_zero, sub_zero]

theorem xCalcHADs8x4_stage1_zero (diff : Nat → Int) (h : ∀ n, diff n = 0) (j c : Nat) :
    xCalcHADs8x4_stage1 diff j c = 0 := by
  unfold xCalcHADs8x4_stage1
  split <;> simp only [h, add_zero, sub_zero]

theorem xCalcHADs8x4_stage2_zero (m2 : Nat → Nat → Int) (h : ∀ a b, m2 a b = 0) (j c : Nat) :
    xCalcHADs8x4_stage2 m2 j c = 0 := by
  unfold xCalcHADs8x4_stage2
  split <;> simp only [h, add_zero, sub_zero]

theorem xCalcHADs8x4_stage3_zero (m1 : Nat → Nat → Int) (h : ∀ a b, m1 a b = 0) (j c : Nat) :
    xCalcHADs8x4_stage3 m1 j c = 0 := by
  unfold xCalcHADs8x4_stage3
  split <;> simp only [h, add_zero, sub_zero]

theorem xCalcHADs8x4_stage4_zero (m2 : Nat → Nat → Int) (h : ∀ a b, m2 a b = 0) (r i : Nat) :
    xCalcHADs8x4_stage4 m2 r i = 0 := by
  unfold xCalcHADs8x4_stage4
  split <;> simp only [h, add_zero, sub_zero]

theorem xCalcHADs8x4_stage5_zero (m1 : Nat → Nat → Int) (h : ∀ a b, m1 a b = 0) (r i : Nat) :
    xCalcHADs8x4_stage5 m1 r i = 0 := by
  unfold xCalcHADs8x4_stage5
  split <;> simp only [h, add_zero, sub_zero]

theorem diffBlock_self (a : Int → Int) (pi stride : Int) (w n : Nat) :
    diffBlock a a pi pi stride stride w n = 0 := sub_self _

theorem foldl_const {α β : Type} (f : α → β → α) (s : α) (l : List β)
    (h : ∀ x, f s x = s) : l.foldl f s = s := by
  induction l with
  | nil => rfl
  | cons x xs ih => rw [List.foldl_cons, h x, ih]

theorem absSumDistortion_zero (m2 : Nat → Nat → Int) (rows cols : Nat)
    (h : ∀ a b, m2 a b = 0) : absSumDistortion m2 rows cols = 0 := by
  unfold absSumDistortion
  apply foldl_const
  intro i
  apply foldl_const
  intro j
  rw [h i j]
  rfl

theorem absSumInt_zero (m2 : Nat → Nat → Int) (rows cols : Nat)
    (h : ∀ a b, m2 a b = 0) : absSumInt m2 rows cols = 0 := by
  unfold absSumInt
  apply foldl_const
  intro i
  apply foldl_const
  intro j
  rw [h i j]
  rfl

theorem normaliseInt_zero (cfg : Config) (m2 : Nat → Nat → Int) (n : ℚ)
    (h : ∀ a b, m2 a b = 0) : normaliseInt cfg m2 n 0 = 0 := by
  unfold normaliseInt
  rw [h 0 0]
  have h0 : (0 : Int) - |(0 : Int)| + (|(0 : Int)| >>> 2) = 0 := by decide
  simp only [h0, ite_self, Int.cast_zero, zero_div, zero_mul]
  rfl

theorem xCalcHADs2x2_self (cfg : Config) (a : Int → Int) (pi stride : Int) :
    xCalcHADs2x2 cfg a a pi pi stride stride 1 = Except.ok 0 := by
  unfold xCalcHADs2x2
  simp only [ne_eq, not_true_eq_false, if_false, add_comm (0 : Int) stride,
    add_comm (1 : Int) stride, sub_self, add_zero]
  cases cfg.JVET_R0164_MEAN_SCALED_SATD <;> rfl

theorem xCalcHADs4x4_self (cfg : Config) (a : Int → Int) (pi stride : Int) :
    xCalcHADs4x4 cfg a a pi pi stride stride 1 = Except.ok 0 := by
  have h0 := diffBlock_self a pi stride 4
  have h1 := xCalcHADs4x4_stage1_zero _ h0
  have h2 := xCalcHADs4x4_stage2_zero _ h1
  have h3 := xCalcHADs4x4_stage3_zero _ h2
  have h4 := xCalcHADs4x4_stage4_zero _ h3
  have hs : (List.range 16).foldl (fun (s : Nat) (k : Nat) => toDistortion (s
      + (xCalcHADs4x4_stage4 (xCalcHADs4x4_stage3 (xCalcHADs4x4_stage2 (xCalcHADs4x4_stage1
          (diffBlock a a pi pi stride stride 4)))) k).natAbs)) 0 = 0 := by
    apply foldl_const
    intro k
    rw [h4 k]
    rfl
  simp only [xCalcHADs4x4, ne_eq, not_true_eq_false, if_false, hs, h4 0]
  cases cfg.JVET_R0164_MEAN_SCALED_SATD <;> rfl

theorem xCalcHADs8x8_self (cfg : Config) (a : Int → Int) (pi stride : Int) :
    xCalcHADs8x8 cfg a a pi pi stride stride 1 = Except.ok 0 := by
  have h0 := diffBlock_self a pi stride 8
  have h1 := xCalcHADs8x8_stage1_zero _ h0
  have h2 := xCalcHADs8x8_stage2_zero _ h1
  have h3 := xCalcHADs8x8_stage3_zero _ h2
  have h4 := xCalcHADs8x8_stage4_zero _ h3
  have h5 := xCalcHADs8x8_stage5_zero _ h4
  have h6 := xCalcHADs8x8_stage6_zero _ h5
  simp only [xCalcHADs8x8, ne_eq, not_true_eq_false, if_false,
    absSumDistortion_zero _ 8 8 h6, h6 0 0]
  cases cfg.JVET_R0164_MEAN_SCALED_SATD <;> rfl

theorem xCalcHADs16x8_self (cfg : Config) (a : Int → Int) (pi stride : Int) :
    xCalcHADs16x8 cfg a a pi pi stride stride = 0 := by
  have h0 := diffBlock_self a pi stride 16
  have h1 := xCalcHADs16x8_stage1_zero _ h0
  have h2 := xCalcHADs16x8_stage2_zero _ h1
  have h3 := xCalcHADs16x8_stage3_zero _ h2
  have h4 := xCalcHADs16x8_stage4_zero _ h3
  have h5 := xCalcHADs16x8_stage5_zero _ h4
  have h6 := xCalcHADs16x8_stage6_zero _ h5
  have h7 := xCalcHADs16x8_stage7_zero _ h6
  simp only [xCalcHADs16x8, absSumInt_zero _ 8 16 h7]
  exact normaliseInt_zero cfg _ _ h7

theorem xCalcHADs8x16_self (cfg : Config) (a : Int → Int) (pi stride : Int) :
    xCalcHADs8x16 cfg a a pi pi stride stride = 0 := by
  have h0 := diffBlock_self a pi stride 8
  have h1 := xCalcHADs8x16_stage1_zero _ h0
  have h2 := xCalcHADs8x16_stage2_zero _ h1
  have h3 := xCalcHADs8x16_stage3_zero _ h2
  have h4 := xCalcHADs8x16_stage4_zero _ h3
  have h5 := xCalcHADs8x16_stage5_zero _ h4
  have h6 := xCalcHADs8x16_stage6_zero _ h5
  have h7 := xCalcHADs8x16_stage7_zero _ h6
  simp only [xCalcHADs8x16, absSumInt_zero _ 16 8 h7]
  exact normaliseInt_zero cfg _ _ h7

theorem xCalcHADs4x8_self (cfg : Config) (a : Int → Int) (pi stride : Int) :
    xCalcHADs4x8 cfg a a pi pi stride stride = 0 := by
  have h0 := diffBlock_self a pi stride 4
  have h1 := xCalcHADs4x8_stage1_zero _ h0
  have h2 := xCalcHADs4x8_stage2_zero _ h1
  have h3 := xCalcHADs4x8_stage3_zero _ h2
  have h4 := xCalcHADs4x8_stage4_zero _ h3
  have h5 := xCalcHADs4x8_stage5_zero _ h4
  simp only [xCalcHADs4x8, absSumInt_zero _ 8 4 h5]
  exact normaliseInt_zero cfg _ _ h5

theorem xCalcHADs8x4_self (cfg : Config) (a : Int → Int) (pi stride : Int) :
    xCalcHADs8x4 cfg a a pi pi stride stride = 0 := by
  have h0 := diffBlock_self a pi stride 8
  have h1 := xCalcHADs8x4_stage1_zero _ h0
  have h2 := xCalcHADs8x4_stage2_zero _ h1
  have h3 := xCalcHADs8x4_stage3_zero _ h2
  have h4 := xCalcHADs8x4_stage4_zero _ h3
  have h5 := xCalcHADs8x4_stage5_zero _ h4
  simp only [xCalcHADs8x4, absSumInt_zero _ 4 8 h5]
  exact normaliseInt_zero cfg _ _ h5

theorem foldlM_const {α β : Type} (f : α → β → Except String α) (s : α) (l : List β)
    (h : ∀ x, f s x = Except.ok s) : l.foldlM f s = Except.ok s := by
  induction l with
  | nil => rfl
  | cons x xs ih =>
    rw [List.foldlM_cons, h x]
    exact ih

theorem hadTiles_self (kernel : Int → Int → Except String Nat) (tw th cols rows : Nat)
    (stride : Int) (h : ∀ pi, kernel pi pi = Except.ok 0) :
    hadTiles kernel tw th cols rows stride stride 1 = Except.ok 0 := by
  unfold hadTiles
  apply foldlM_const
  intro ty
  apply foldlM_const
  intro tx
  rw [mul_one, h]
  rfl

/-- C11: for every even width and even height (in particular from 2×2 up to
64×64) and every block `a`, `xGetHADs` with `org = a`, `cur = a`, `step = 1` and
`applyWeight` clear returns 0, and each of the kernels 2×2, 4×4, 8×4, 4×8, 8×8,
16×8 and 8×16 returns 0 on a block compared with itself. -/
theorem xGetHADs_identical_blocks (cfg : Config) (p : DistParam)
    (hweight : p.applyWeight = false) (hstep : p.step = 1) (hsame : p.cur = p.org)
    (hwidth : 2 ∣ p.org.width) (hheight : 2 ∣ p.org.height) :
    xGetHADs cfg p = Except.ok 0 ∧
    (∀ (a : Int → Int) (pi stride : Int),
      xCalcHADs2x2 cfg a a pi pi stride stride 1 = Except.ok 0 ∧
      xCalcHADs4x4 cfg a a pi pi stride stride 1 = Except.ok 0 ∧
      xCalcHADs8x4 cfg a a pi pi stride stride = 0 ∧
      xCalcHADs4x8 cfg a a pi pi stride stride = 0 ∧
      xCalcHADs8x8 cfg a a pi pi stride stride 1 = Except.ok 0 ∧
      xCalcHADs16x8 cfg a a pi pi stride stride = 0 ∧
      xCalcHADs8x16 cfg a a pi pi stride stride = 0) := by
  refine ⟨?_, fun a pi stride => ⟨xCalcHADs2x2_self cfg a pi stride,
    xCalcHADs4x4_self cfg a pi stride, xCalcHADs8x4_self cfg a pi stride,
    xCalcHADs4x8_self cfg a pi stride, xCalcHADs8x8_self cfg a pi stride,
    xCalcHADs16x8_self cfg a pi stride, xCalcHADs8x16_self cfg a pi stride⟩⟩
  have e1 := hadTiles_self (fun piOrg piCur => Except.ok (xCalcHADs16x8 cfg p.org.buf
    p.org.buf piOrg piCur p.org.stride p.org.stride)) 16 8 p.org.width p.org.height
    p.org.stride (fun pi => congrArg Except.ok (xCalcHADs16x8_self cfg _ pi _))
  have e2 := hadTiles_self (fun piOrg piCur => Except.ok (xCalcHADs8x16 cfg p.org.buf
    p.org.buf piOrg piCur p.org.stride p.org.stride)) 8 16 p.org.width p.org.height
    p.org.stride (fun pi => congrArg Except.ok (xCalcHADs8x16_self cfg _ pi _))
  have e3 := hadTiles_self (fun piOrg piCur => Except.ok (xCalcHADs8x4 cfg p.org.buf
    p.org.buf piOrg piCur p.org.stride p.org.stride)) 8 4 p.org.width p.org.height
    p.org.stride (fun pi => congrArg Except.ok (xCalcHADs8x4_self cfg _ pi _))
  have e4 := hadTiles_self (fun piOrg piCur => Except.ok (xCalcHADs4x8 cfg p.org.buf
    p.org.buf piOrg piCur p.org.stride p.org.stride)) 4 8 p.org.width p.org.height
    p.org.stride (fun pi => congrArg Except.ok (xCalcHADs4x8_self cfg _ pi _))
  have e5 := hadTiles_self (fun piOrg piCur => xCalcHADs8x8 cfg p.org.buf
    p.org.buf piOrg piCur p.org.stride p.org.stride 1) 8 8 p.org.width p.org.height
    p.org.stride (fun pi => xCalcHADs8x8_self cfg _ pi _)
  have e6 := hadTiles_self (fun piOrg piCur => xCalcHADs4x4 cfg p.org.buf
    p.org.buf piOrg piCur p.org.stride p.org.stride 1) 4 4 p.org.width p.org.height
    p.org.stride (fun pi => xCalcHADs4x4_self cfg _ pi _)
  have e7 := hadTiles_self (fun piOrg piCur => xCalcHADs2x2 cfg p.org.buf
    p.org.buf piOrg piCur p.org.stride p.org.stride 1) 2 2 p.org.width p.org.height
    p.org.stride (fun pi => xCalcHADs2x2_self cfg _ pi _)
  have heven : p.org.height % 2 = 0 ∧ p.org.width % 2 = 0 :=
    ⟨Nat.mod_eq_zero_of_dvd hheight, Nat.mod_eq_zero_of_dvd hwidth⟩
  simp only [xGetHADs, hweight, hsame, hstep, Bool.false_eq_true, if_false]
  split_ifs <;> simp only [e1, e2, e3, e4, e5, e6, e7, Nat.zero_shiftRight]

/-- Witness of `xGetHADs_identical_blocks`: an 8×8 block against itself. -/
theorem xGetHADs_identical_blocks_witness :
    xGetHADs cfgFullNBit (listParam samples8x8 samples8x8 8 8 8 0 maxDistortion) = Except.ok 0 :=
  (xGetHADs_identical_blocks cfgFullNBit (listParam samples8x8 samples8x8 8 8 8 0 maxDistortion)
    rfl rfl rfl (by decide) (by decide)).1

/-! ## Weighted prediction and the width checks of the size-specialised kernels -/

theorem sadUnrolled_weighted (k : Nat) (cfg : Config) (p : DistParam)
    (hw : p.applyWeight = true) : sadUnrolled k cfg p = cfg.xGetSADw p := by
  simp only [sadUnrolled, hw, if_true]

theorem sseUnrolled_weighted (k : Nat) (cfg : Config) (p : DistParam)
    (hw : p.applyWeight = true) :
    sseUnrolled k cfg p
      = if p.org.width = k then Except.ok (cfg.xGetSSEw p) else Except.error "Invalid size" := by
  simp only [sseUnrolled, hw, if_true, ne_eq, ite_not]

/-- A size-specialised SSE kernel without weighting: the sum runs over the
kernel's own `k` columns. -/
theorem sseUnrolled_closed (k : Nat) (cfg : Config) (p : DistParam)
    (hw : p.applyWeight = false) :
    sseUnrolled k cfg p
      = Except.ok (some (toDistortion (∑ r ∈ Finset.range p.org.height, ∑ n ∈ Finset.range k,
          (((p.org.at r n - p.cur.at r n) * (p.org.at r n - p.cur.at r n))
            >>> (cfg.DISTORTION_PRECISION_ADJUSTMENT p.bitDepth <<< 1)).toNat))) := by
  simp only [sseUnrolled, hw, Bool.false_eq_true, if_false]
  rw [sseLoop_wrap _ _ (sseRow_eq p.org.buf p.cur.buf _ k) _ _ _ 0 0 0 (by norm_num)]
  congr 3
  rw [Nat.zero_add]
  apply Finset.sum_congr rfl
  intro j _
  apply Finset.sum_congr rfl
  intro n _
  simp only [CPelBuf.at]
  congr 3 <;> congr 2 <;> ring

theorem sseUnrolled_error_iff (k : Nat) (cfg : Config) (p : DistParam) :
    sseUnrolled k cfg p = Except.error "Invalid size"
      ↔ (p.applyWeight = true ∧ p.org.width ≠ k) := by
  cases hw : p.applyWeight
  · rw [sseUnrolled_closed k cfg p hw]
    simp
  · rw [sseUnrolled_weighted k cfg p hw]
    by_cases hk : p.org.width = k
    · simp [hk]
    · simp [hk]

/-- C18 (as stated) fails: with `applyWeight` set on a block of width 16,
`xGetSSE4` fails its width check instead of returning the value 9 of the helper
`xGetSSEw`, and `xGetSAD16N`, which has no weighted branch, returns the plain SAD
640 instead of the value 7 of the helper `xGetSADw`. -/
theorem weighted_kernels_not_all_delegating :
    xGetSSE4 cfgWeighted weighted16x4 = Except.error "Invalid size" ∧
    cfgWeighted.xGetSSEw weighted16x4 = some 9 ∧
    xGetSAD16N cfgWeighted weighted16x4 = some 640 ∧
    cfgWeighted.xGetSADw weighted16x4 = some 7 := by
  refine ⟨?_, rfl, ?_, rfl⟩
  · exact (sseUnrolled_error_iff 4 cfgWeighted weighted16x4).mpr ⟨rfl, by decide⟩
  · rw [xGetSAD16N_closed cfgWeighted weighted16x4 (by decide) (by decide)]
    simp [weighted16x4, exampleDistParam, constBuf, CPelBuf.at, cfgWeighted, cfgFullNBit,
      toDistortion]

/-- C18 (amended): when `applyWeight` is set, `xGetSAD` and its 4/8/12/16/24/32/
48/64 variants and `xGetSADwMask` return exactly the value of the helper
`xGetSADw`, `xGetSSE` and `xGetSSE16N` the value of `xGetSSEw`, `xGetHADs` the
value of `xGetHADsw`, for the same `DistParam`; the SSE variants 4/8/16/32/64
return the value of `xGetSSEw` when the block width equals the kernel width and
fail the check "Invalid size" otherwise. -/
theorem weighted_kernels_delegate (cfg : Config) (p : DistParam)
    (hweight : p.applyWeight = true) :
    xGetSAD cfg p = cfg.xGetSADw p ∧
    xGetSAD4 cfg p = cfg.xGetSADw p ∧ xGetSAD8 cfg p = cfg.xGetSADw p ∧
    xGetSAD12 cfg p = cfg.xGetSADw p ∧ xGetSAD16 cfg p = cfg.xGetSADw p ∧
    xGetSAD24 cfg p = cfg.xGetSADw p ∧ xGetSAD32 cfg p = cfg.xGetSADw p ∧
    xGetSAD48 cfg p = cfg.xGetSADw p ∧ xGetSAD64 cfg p = cfg.xGetSADw p ∧
    xGetSADwMask cfg p = cfg.xGetSADw p ∧
    xGetSSE cfg p = cfg.xGetSSEw p ∧ xGetSSE16N cfg p = cfg.xGetSSEw p ∧
    xGetHADs cfg p = cfg.xGetHADsw p ∧
    xGetSSE4 cfg p
      = (if p.org.width = 4 then Except.ok (cfg.xGetSSEw p)
        else Except.error "Invalid size") ∧
    xGetSSE8 cfg p
      = (if p.org.width = 8 then Except.ok (cfg.xGetSSEw p)
        else Except.error "Invalid size") ∧
    xGetSSE16 cfg p
      = (if p.org.width = 16 then Except.ok (cfg.xGetSSEw p)
        else Except.error "Invalid size") ∧
    xGetSSE32 cfg p
      = (if p.org.width = 32 then Except.ok (cfg.xGetSSEw p)
        else Except.error "Invalid size") ∧
    xGetSSE64 cfg p
      = (if p.org.width = 64 then Except.ok (cfg.xGetSSEw p)
        else Except.error "Invalid size") := by
  refine ⟨?_, sadUnrolled_weighted 4 cfg p hweight, sadUnrolled_weighted 8 cfg p hweight,
    sadUnrolled_weighted 12 cfg p hweight, sadUnrolled_weighted 16 cfg p hweight,
    sadUnrolled_weighted 24 cfg p hweight, sadUnrolled_weighted 32 cfg p hweight,
    sadUnrolled_weighted 48 cfg p hweight, sadUnrolled_weighted 64 cfg p hweight, ?_, ?_, ?_, ?_,
    sseUnrolled_weighted 4 cfg p hweight, sseUnrolled_weighted 8 cfg p hweight,
    sseUnrolled_weighted 16 cfg p hweight, sseUnrolled_weighted 32 cfg p hweight,
    sseUnrolled_weighted 64 cfg p hweight⟩
  · simp only [xGetSAD, hweight, if_true]
  · simp only [xGetSADwMask, hweight, if_true]
  · simp only [xGetSSE, hweight, if_true]
  · simp only [xGetSSE16N, hweight, if_true]
  · simp only [xGetHADs, hweight, if_true]

/-- Witness of `weighted_kernels_delegate`: a weighted 16 × 4 block pair in a
build whose helpers return 7, 9 and 11. -/
theorem weighted_kernels_delegate_witness :
    xGetSAD8 cfgWeighted weighted16x4 = some 7 ∧
    xGetSSE16 cfgWeighted weighted16x4 = Except.ok (some 9) ∧
    xGetHADs cfgWeighted weighted16x4 = Except.ok 11 :=
  ⟨(weighted_kernels_delegate cfgWeighted weighted16x4 rfl).2.2.1,
   (weighted_kernels_delegate cfgWeighted weighted16x4 rfl).2.2.2.2.2.2.2.2.2.2.2.2.2.2.2.1,
   (weighted_kernels_delegate cfgWeighted weighted16x4 rfl).2.2.2.2.2.2.2.2.2.2.2.2.1⟩

/-- C19 (as stated) fails: on a block of width 16 with `applyWeight` clear,
`xGetSAD8` returns the SAD 320 of the first 8 columns and `xGetSSE4` the SSE 1600
of the first 4 columns; with `applyWeight` set `xGetSAD8` returns the value of
the helper `xGetSADw`.  None of them signals a failure. -/
theorem size_kernels_accept_other_width :
    plain16x4.org.width = 16 ∧
    xGetSAD8 cfgFullNBit plain16x4 = some 320 ∧
    xGetSSE4 cfgFullNBit plain16x4 = Except.ok (some 1600) ∧
    xGetSAD8 cfgWeighted weighted16x4 = some 7 := by
  refine ⟨rfl, ?_, ?_, sadUnrolled_weighted 8 cfgWeighted weighted16x4 rfl⟩
  · show sadUnrolled 8 cfgFullNBit plain16x4 = _
    rw [sadUnrolled_closed 8 cfgFullNBit plain16x4 rfl (by decide)]
    simp [plain16x4, weighted16x4, exampleDistParam, constBuf, CPelBuf.at, cfgFullNBit,
      toDistortion]
  · show sseUnrolled 4 cfgFullNBit plain16x4 = _
    rw [sseUnrolled_closed 4 cfgFullNBit plain16x4 rfl]
    simp [plain16x4, weighted16x4, exampleDistParam, constBuf, CPelBuf.at, cfgFullNBit,
      toDistortion]
    decide

/-- C19 (amended): each of the SSE kernels `xGetSSE4`, `xGetSSE8`, `xGetSSE16`,
`xGetSSE32`, `xGetSSE64` fails the check "Invalid size" exactly when
`applyWeight` is set and the block width differs from the kernel width `k`.
With `applyWeight` clear, whatever the block width, an SSE kernel of width `k`
returns the SSE of the first `k` columns of every row, and a SAD kernel of
width `k` (which has no width check) returns the SAD of the first `k` columns
of the visited rows when the row loop ends. -/
theorem size_kernels_width_check (cfg : Config) (p : DistParam) (k : Nat)
    (hweight : p.applyWeight = false) (hdiv : 2 ^ p.subShift ∣ p.org.height) :
    (∀ q : DistParam,
      (xGetSSE4 cfg q = Except.error "Invalid size"
        ↔ (q.applyWeight = true ∧ q.org.width ≠ 4)) ∧
      (xGetSSE8 cfg q = Except.error "Invalid size"
        ↔ (q.applyWeight = true ∧ q.org.width ≠ 8)) ∧
      (xGetSSE16 cfg q = Except.error "Invalid size"
        ↔ (q.applyWeight = true ∧ q.org.width ≠ 16)) ∧
      (xGetSSE32 cfg q = Except.error "Invalid size"
        ↔ (q.applyWeight = true ∧ q.org.width ≠ 32)) ∧
      (xGetSSE64 cfg q = Except.error "Invalid size"
        ↔ (q.applyWeight = true ∧ q.org.width ≠ 64))) ∧
    xGetSSE4 = sseUnrolled 4 ∧ xGetSSE8 = sseUnrolled 8 ∧ xGetSSE16 = sseUnrolled 16 ∧
    xGetSSE32 = sseUnrolled 32 ∧ xGetSSE64 = sseUnrolled 64 ∧
    xGetSAD4 = sadUnrolled 4 ∧ xGetSAD8 = sadUnrolled 8 ∧ xGetSAD12 = sadUnrolled 12 ∧
    xGetSAD16 = sadUnrolled 16 ∧ xGetSAD24 = sadUnrolled 24 ∧ xGetSAD32 = sadUnrolled 32 ∧
    xGetSAD48 = sadUnrolled 48 ∧ xGetSAD64 = sadUnrolled 64 ∧
    sseUnrolled k cfg p
      = Except.ok (some (toDistortion (∑ r ∈ Finset.range p.org.height, ∑ n ∈ Finset.range k,
          (((p.org.at r n - p.cur.at r n) * (p.org.at r n - p.cur.at r n))
            >>> (cfg.DISTORTION_PRECISION_ADJUSTMENT p.bitDepth <<< 1)).toNat))) ∧
    sadUnrolled k cfg p
      = some (toDistortion
          ((∑ j ∈ Finset.range (p.org.height / 2 ^ p.subShift), ∑ n ∈ Finset.range k,
              (p.org.at (j * 2 ^ p.subShift) n - p.cur.at (j * 2 ^ p.subShift) n).natAbs)
            <<< p.subShift) >>> cfg.DISTORTION_PRECISION_ADJUSTMENT p.bitDepth) :=
  ⟨fun q => ⟨sseUnrolled_error_iff 4 cfg q, sseUnrolled_error_iff 8 cfg q,
      sseUnrolled_error_iff 16 cfg q, sseUnrolled_error_iff 32 cfg q,
      sseUnrolled_error_iff 64 cfg q⟩,
    rfl, rfl, rfl, rfl, rfl, rfl, rfl, rfl, rfl, rfl, rfl, rfl, rfl,
    sseUnrolled_closed k cfg p hweight, sadUnrolled_closed k cfg p hweight hdiv⟩

/-- Witness of `size_kernels_width_check`: `xGetSSE8` on the unweighted 16 × 4
block pair returns a value, and fails on the weighted one. -/
theorem size_kernels_width_check_witness :
    (∃ v, xGetSSE8 cfgFullNBit plain16x4 = Except.ok (some v)) ∧
    xGetSSE8 cfgWeighted weighted16x4 = Except.error "Invalid size" :=
  ⟨⟨_, (size_kernels_width_check cfgFullNBit plain16x4 8 rfl
      (by decide)).2.2.2.2.2.2.2.2.2.2.2.2.2.2.1⟩,
   ((size_kernels_width_check cfgWeighted plain16x4 8 rfl (by decide)).1 weighted16x4).2.1.mpr
     ⟨rfl, by decide⟩⟩

/-! ## Last-position parameters of `CoeffCodingContext` -/

theorem log2_lt_eight (w : Nat) (h1 : 1 ≤ w) (h255 : w ≤ 255) : Nat.log2 w < 8 :=
  (Nat.log2_lt (by omega)).mpr (by omega)

theorem log2_eq_of_bounds (n k : Nat) (h1 : 2 ^ k ≤ n) (h2 : n < 2 ^ (k + 1)) :
    Nat.log2 n = k := by
  have hn : n ≠ 0 := by
    have : 0 < 2 ^ k := by positivity
    omega
  have hle : k ≤ Nat.log2 n := (Nat.le_log2 hn).mpr h1
  have hlt : Nat.log2 n < k + 1 := (Nat.log2_lt hn).mpr h2
  omega

theorem floorLog2_spec (w : Nat) (h1 : 1 ≤ w) :
    0 ≤ floorLog2 w ∧ 2 ^ (floorLog2 w).toNat ≤ w ∧ w < 2 ^ ((floorLog2 w).toNat + 1) := by
  have hw : w ≠ 0 := by omega
  refine ⟨Int.natCast_nonneg _, ?_, ?_⟩
  · simp only [floorLog2, Int.toNat_natCast]
    exact Nat.log2_self_le hw
  · simp only [floorLog2, Int.toNat_natCast]
    exact Nat.lt_log2_self

theorem constructorBody_luma_of_log2 (w h kw kh : Nat) (hkw : Nat.log2 w = kw)
    (hkh : Nat.log2 h = kh) (h8w : kw < 8) (h8h : kh < 8) :
    CoeffCodingContext.constructorBody ChannelType.LUMA w h
      = some { m_lastOffsetX := CoeffCodingContext.prefixCtx.getD kw 0
               m_lastOffsetY := CoeffCodingContext.prefixCtx.getD kh 0
               m_lastShiftX := (((kw + 1) >>> 2 : Nat) : Int)
               m_lastShiftY := (((kh + 1) >>> 2 : Nat) : Int) } := by
  simp only [CoeffCodingContext.constructorBody, floorLog2, hkw, hkh]
  interval_cases kw <;> interval_cases kh <;> rfl

/-- C21: for every width and height in 1..255 the constructor sets, for luma,
`offsetX = prefixCtx[floorLog2(width)]` with `prefixCtx = {0,0,0,3,6,10,15,21}`
and `shiftX = (floorLog2(width) + 1) >> 2` (likewise Y with the height), the
table index `floorLog2` being in bounds (at most 7, the floor of the binary
logarithm); for chroma, `offsetX = offsetY = 0`, `shiftX = Clip3(0, 2, width >> 3)`
and `shiftY = Clip3(0, 2, height >> 3)`, the width or height divided by 8 and
limited to 2. -/
theorem constructorBody_lastPos (width height : Nat)
    (hwidth : 1 ≤ width ∧ width ≤ 255) (hheight : 1 ≤ height ∧ height ≤ 255) :
    CoeffCodingContext.prefixCtx = [0, 0, 0, 3, 6, 10, 15, 21] ∧
    (0 ≤ floorLog2 width ∧ 2 ^ (floorLog2 width).toNat ≤ width ∧
      width < 2 ^ ((floorLog2 width).toNat + 1)) ∧
    (0 ≤ floorLog2 height ∧ 2 ^ (floorLog2 height).toNat ≤ height ∧
      height < 2 ^ ((floorLog2 height).toNat + 1)) ∧
    (floorLog2 width).toNat < CoeffCodingContext.prefixCtx.length ∧
    (floorLog2 height).toNat < CoeffCodingContext.prefixCtx.length ∧
    CoeffCodingContext.constructorBody ChannelType.LUMA width height
      = some { m_lastOffsetX := CoeffCodingContext.prefixCtx.getD (floorLog2 width).toNat 0
               m_lastOffsetY := CoeffCodingContext.prefixCtx.getD (floorLog2 height).toNat 0
               m_lastShiftX := (floorLog2 width + 1) >>> 2
               m_lastShiftY := (floorLog2 height + 1) >>> 2 } ∧
    CoeffCodingContext.constructorBody ChannelType.CHROMA width height
      = some { m_lastOffsetX := 0
               m_lastOffsetY := 0
               m_lastShiftX := Clip3 0 2 ((width >>> 3 : Nat) : Int)
               m_lastShiftY := Clip3 0 2 ((height >>> 3 : Nat) : Int) } ∧
    Clip3 0 2 ((width >>> 3 : Nat) : Int) = ((min (width / 8) 2 : Nat) : Int) ∧
    Clip3 0 2 ((height >>> 3 : Nat) : Int) = ((min (height / 8) 2 : Nat) : Int) := by
  have h8w := log2_lt_eight width hwidth.1 hwidth.2
  have h8h := log2_lt_eight height hheight.1 hheight.2
  have hclip : ∀ n : Nat, Clip3 0 2 ((n >>> 3 : Nat) : Int) = ((min (n / 8) 2 : Nat) : Int) := by
    intro n
    simp only [Clip3, Nat.shiftRight_eq_div_pow]
    omega
  refine ⟨rfl, floorLog2_spec width hwidth.1, floorLog2_spec height hheight.1, ?_, ?_, ?_, rfl,
    hclip width, hclip height⟩
  · simpa [floorLog2, CoeffCodingContext.prefixCtx] using h8w
  · simpa [floorLog2, CoeffCodingContext.prefixCtx] using h8h
  · rw [constructorBody_luma_of_log2 width height _ _ rfl rfl h8w h8h]
    simp only [floorLog2, Int.toNat_natCast]
    congr 2

/-- Witness of `constructorBody_lastPos`: a 16 × 4 block. -/
theorem constructorBody_lastPos_witness :
    CoeffCodingContext.constructorBody ChannelType.LUMA 16 4
      = some { m_lastOffsetX := 6, m_lastOffsetY := 0, m_lastShiftX := 1, m_lastShiftY := 0 } ∧
    CoeffCodingContext.constructorBody ChannelType.CHROMA 16 4
      = some { m_lastOffsetX := 0, m_lastOffsetY := 0, m_lastShiftX := 2, m_lastShiftY := 0 } := by
  have h16 : floorLog2 16 = 4 := by
    simp only [floorLog2]
    exact_mod_cast log2_eq_of_bounds 16 4 (by norm_num) (by norm_num)
  have h4 : floorLog2 4 = 2 := by
    simp only [floorLog2]
    exact_mod_cast log2_eq_of_bounds 4 2 (by norm_num) (by norm_num)
  have h := constructorBody_lastPos 16 4 (by decide) (by decide)
  refine ⟨h.2.2.2.2.2.1.trans ?_, h.2.2.2.2.2.2.1.trans (by decide)⟩
  rw [h16, h4]
  decide

/-! ## Mode and flag contexts -/

theorem countNeighbours_pair (prop : CodingUnit → Bool) (l a : Option CodingUnit) :
    countNeighbours prop [l, a]
      = (if l.any prop then 1 else 0) + (if a.any prop then 1 else 0) := by
  cases l with
  | none =>
    cases a with
    | none => rfl
    | some y => cases hy : prop y <;> simp [countNeighbours, hy]
  | some x =>
    cases a with
    | none => cases hx : prop x <;> simp [countNeighbours, hx]
    | some y => cases hx : prop x <;> cases hy : prop y <;> simp [countNeighbours, hx, hy]

theorem countNeighbours_le (prop : CodingUnit → Bool) (l a : Option CodingUnit) :
    countNeighbours prop [l, a] ≤ 2 := by
  rw [countNeighbours_pair]
  split <;> split <;> omega

/-- C23: `CtxSkipFlag`, `CtxAffineFlag` and `CtxIBCFlag` each return the number
(0, 1 or 2) of available left and above neighbouring coding units whose skip
flag, affine flag or IBC mode respectively is set; an unavailable neighbour
contributes 0. -/
theorem flagContexts_count_neighbours (cfg : CtxConfig) (cs : CodingStructure)
    (cu : CodingUnit) :
    DeriveCtx.CtxSkipFlag cs cu
      = countNeighbours (fun c => c.skip) [lumaLeft cs cu, lumaAbove cs cu] ∧
    DeriveCtx.CtxAffineFlag cs cu
      = countNeighbours (fun c => c.affine) [lumaLeft cs cu, lumaAbove cs cu] ∧
    DeriveCtx.CtxIBCFlag cfg cs cu
      = countNeighbours cfg.isIBC [ibcLeft cs cu, ibcAbove cs cu] ∧
    DeriveCtx.CtxSkipFlag cs cu ≤ 2 ∧ DeriveCtx.CtxAffineFlag cs cu ≤ 2 ∧
    DeriveCtx.CtxIBCFlag cfg cs cu ≤ 2 ∧
    countNeighbours (fun c => c.skip) [none, none] = 0 ∧
    (∀ c, countNeighbours (fun c => c.skip) [some c, none] = c.skip.toNat) ∧
    (∀ c, countNeighbours (fun c => c.skip) [none, some c] = c.skip.toNat) := by
  have h1 : DeriveCtx.CtxSkipFlag cs cu
      = countNeighbours (fun c => c.skip) [lumaLeft cs cu, lumaAbove cs cu] := by
    rw [countNeighbours_pair]
    rfl
  have h2 : DeriveCtx.CtxAffineFlag cs cu
      = countNeighbours (fun c => c.affine) [lumaLeft cs cu, lumaAbove cs cu] := by
    rw [countNeighbours_pair]
    rfl
  have h3 : DeriveCtx.CtxIBCFlag cfg cs cu
      = countNeighbours cfg.isIBC [ibcLeft cs cu, ibcAbove cs cu] := by
    rw [countNeighbours_pair]
    simp only [DeriveCtx.CtxIBCFlag, ibcLeft, ibcAbove, Nat.zero_add]
  refine ⟨h1, h2, h3, ?_, ?_, ?_, rfl, ?_, ?_⟩
  · rw [h1]
    exact countNeighbours_le _ _ _
  · rw [h2]
    exact countNeighbours_le _ _ _
  · rw [h3]
    exact countNeighbours_le _ _ _
  · intro c
    cases hc : c.skip <;> simp [countNeighbours, hc]
  · intro c
    cases hc : c.skip <;> simp [countNeighbours, hc]

/-- C24 (as stated) fails: with an intra left neighbour and an intra above
neighbour `CtxPredModeFlag` and `CtxModeConsFlag` return 1, not the number 2 of
intra neighbours. -/
theorem predModeContexts_not_a_sum :
    countNeighbours ctxCfgExample.isIntra
      [lumaLeft (exampleStructure 16 (some (exampleUnit PredMode.MODE_INTRA 0 16 16 16))
          (some (exampleUnit PredMode.MODE_INTRA 16 0 16 16)))
        (exampleUnit PredMode.MODE_INTER 16 16 16 16),
       lumaAbove (exampleStructure 16 (some (exampleUnit PredMode.MODE_INTRA 0 16 16 16))
          (some (exampleUnit PredMode.MODE_INTRA 16 0 16 16)))
        (exampleUnit PredMode.MODE_INTER 16 16 16 16)] = 2 ∧
    DeriveCtx.CtxPredModeFlag ctxCfgExample
      (exampleStructure 16 (some (exampleUnit PredMode.MODE_INTRA 0 16 16 16))
        (some (exampleUnit PredMode.MODE_INTRA 16 0 16 16)))
      (exampleUnit PredMode.MODE_INTER 16 16 16 16) = 1 ∧
    DeriveCtx.CtxModeConsFlag ctxCfgExample
      (exampleStructure 16 (some (exampleUnit PredMode.MODE_INTRA 0 16 16 16))
        (some (exampleUnit PredMode.MODE_INTRA 16 0 16 16)))
      (examplePartitioner 16 16 1 0) = Except.ok 1 := by
  refine ⟨by decide, by decide, rfl⟩

/-- C24 (amended): `CtxPredModeFlag` returns 1 when at least one available
left or above neighbour is intra-coded and 0 otherwise, the contributions of
the two neighbours being combined by a logical or: it is the number of intra
neighbours limited to 1.  `CtxModeConsFlag` returns the same value for its
neighbours whenever its assertion passes (a luma partitioner, or a build
without assertions), and fails otherwise. -/
theorem predModeContexts_or (cfg : CtxConfig) (cs : CodingStructure) (cu : CodingUnit)
    (partitioner : Partitioner)
    (hassert : cfg.NDEBUG = true ∨ cfg.isLumaChannel partitioner.chType = true) :
    DeriveCtx.CtxPredModeFlag cfg cs cu
      = min 1 (countNeighbours cfg.isIntra [lumaLeft cs cu, lumaAbove cs cu]) ∧
    DeriveCtx.CtxModeConsFlag cfg cs partitioner
      = Except.ok (min 1 (countNeighbours cfg.isIntra
          [partLeft cs partitioner, partAbove cs partitioner])) ∧
    (DeriveCtx.CtxPredModeFlag cfg cs cu = 1
      ↔ ((lumaLeft cs cu).any cfg.isIntra = true ∨ (lumaAbove cs cu).any cfg.isIntra = true)) ∧
    DeriveCtx.CtxPredModeFlag cfg cs cu ≤ 1 ∧
    (∀ cfg2 : CtxConfig, cfg2.NDEBUG = false → cfg2.isLumaChannel partitioner.chType = false →
      ∃ e, DeriveCtx.CtxModeConsFlag cfg2 cs partitioner = Except.error e) := by
  have hor : ∀ l a : Option CodingUnit,
      (if (a.any cfg.isIntra || l.any cfg.isIntra) = true then 1 else 0)
        = min 1 (countNeighbours cfg.isIntra [l, a]) := by
    intro l a
    rw [countNeighbours_pair]
    cases l.any cfg.isIntra <;> cases a.any cfg.isIntra <;> rfl
  have h1 : DeriveCtx.CtxPredModeFlag cfg cs cu
      = min 1 (countNeighbours cfg.isIntra [lumaLeft cs cu, lumaAbove cs cu]) :=
    hor (lumaLeft cs cu) (lumaAbove cs cu)
  refine ⟨h1, ?_, ?_, ?_, ?_⟩
  · have hcond : (!cfg.NDEBUG && !cfg.isLumaChannel partitioner.chType) = false := by
      rcases hassert with h | h <;> simp [h]
    simp only [DeriveCtx.CtxModeConsFlag, hcond, Bool.false_eq_true, if_false]
    exact congrArg Except.ok (hor (partLeft cs partitioner) (partAbove cs partitioner))
  · show (if ((lumaAbove cs cu).any cfg.isIntra || (lumaLeft cs cu).any cfg.isIntra) = true
        then 1 else 0) = 1 ↔ _
    cases (lumaLeft cs cu).any cfg.isIntra <;> cases (lumaAbove cs cu).any cfg.isIntra <;> simp
  · rw [h1]
    exact Nat.min_le_left _ _
  · intro cfg2 hn hl
    exact ⟨"isLuma(partitioner.chType)", by simp [DeriveCtx.CtxModeConsFlag, hn, hl]⟩

/-- Witness of `predModeContexts_or`: one intra neighbour (left) out of two. -/
theorem predModeContexts_or_witness :
    DeriveCtx.CtxPredModeFlag ctxCfgExample
      (exampleStructure 16 (some (exampleUnit PredMode.MODE_INTRA 0 16 16 16))
        (some (exampleUnit PredMode.MODE_INTER 16 0 16 16)))
      (exampleUnit PredMode.MODE_INTER 16 16 16 16) = 1 :=
  ((predModeContexts_or ctxCfgExample
    (exampleStructure 16 (some (exampleUnit PredMode.MODE_INTRA 0 16 16 16))
      (some (exampleUnit PredMode.MODE_INTER 16 0 16 16)))
    (exampleUnit PredMode.MODE_INTER 16 16 16 16) (examplePartitioner 16 16 1 0)
    (Or.inr rfl)).1).trans (by decide)

theorem CtxMipFlag_eq (cs : CodingStructure) (cu : CodingUnit) :
    DeriveCtx.CtxMipFlag cs cu
      = if cu.lwidth > toUnsigned (2 * cu.lheight) ∨ cu.lheight > toUnsigned (2 * cu.lwidth)
        then 3
        else countNeighbours (fun c => c.mipFlag) [lumaLeft cs cu, lumaAbove cs cu] := by
  rw [countNeighbours_pair]
  rfl

/-- C25: `CtxMipFlag` returns the fixed value 3 whenever the luma width exceeds
twice the luma height or the luma height exceeds twice the luma width,
regardless of the neighbours; otherwise it returns the number (0, 1 or 2) of
available left and above neighbours with `mipFlag` set; the result is always
in 0..3.  (The doubled sizes are taken to fit the type `unsigned`.) -/
theorem CtxMipFlag_value (cs : CodingStructure) (cu : CodingUnit)
    (hwidth : 2 * cu.lwidth < 2 ^ 32) (hheight : 2 * cu.lheight < 2 ^ 32) :
    ((cu.lwidth > 2 * cu.lheight ∨ cu.lheight > 2 * cu.lwidth) →
      DeriveCtx.CtxMipFlag cs cu = 3) ∧
    (¬ (cu.lwidth > 2 * cu.lheight ∨ cu.lheight > 2 * cu.lwidth) →
      DeriveCtx.CtxMipFlag cs cu
        = countNeighbours (fun c => c.mipFlag) [lumaLeft cs cu, lumaAbove cs cu] ∧
      DeriveCtx.CtxMipFlag cs cu ≤ 2) ∧
    DeriveCtx.CtxMipFlag cs cu ≤ 3 := by
  have hw : toUnsigned (2 * cu.lwidth) = 2 * cu.lwidth := Nat.mod_eq_of_lt hwidth
  have hh : toUnsigned (2 * cu.lheight) = 2 * cu.lheight := Nat.mod_eq_of_lt hheight
  have hle := countNeighbours_le (fun c => c.mipFlag) (lumaLeft cs cu) (lumaAbove cs cu)
  rw [CtxMipFlag_eq, hw, hh]
  refine ⟨fun h => if_pos h, fun h => ?_, ?_⟩
  · rw [if_neg h]
    exact ⟨rfl, hle⟩
  · split
    · exact le_refl 3
    · omega

/-- Witness of `CtxMipFlag_value`: a 32 × 8 unit has the fixed context 3, a
16 × 16 unit without neighbours the context 0. -/
theorem CtxMipFlag_value_witness :
    DeriveCtx.CtxMipFlag (exampleStructure 16 none none)
      (exampleUnit PredMode.MODE_INTRA 16 16 32 8) = 3 ∧
    DeriveCtx.CtxMipFlag (exampleStructure 16 none none)
      (exampleUnit PredMode.MODE_INTRA 16 16 16 16) = 0 :=
  ⟨(CtxMipFlag_value (exampleStructure 16 none none)
      (exampleUnit PredMode.MODE_INTRA 16 16 32 8) (by decide) (by decide)).1
      (Or.inl (by decide)),
   ((CtxMipFlag_value (exampleStructure 16 none none)
      (exampleUnit PredMode.MODE_INTRA 16 16 16 16) (by decide) (by decide)).2.1
      (by decide)).1.trans (by decide)⟩

/-! ## Split contexts -/

theorem numHor_numVer (f : Nat → Bool) :
    numHor f = (if f 2 then 1 else 0) + (if f 4 then 1 else 0) ∧
    numVer f = (if f 3 then 1 else 0) + (if f 5 then 1 else 0) := by
  constructor
  · cases h2 : f 2 <;> cases h4 : f 4 <;> simp [numHor, h2, h4]
  · cases h3 : f 3 <;> cases h5 : f 5 <;> simp [numVer, h3, h5]

/-- The outputs of `CtxSplit` when no division by zero occurs. -/
theorem CtxSplitContexts_some (p : Partitioner) (left above : Option CodingUnit)
    (flags : Nat → Bool)
    (hleft : ∀ c, left = some c → (c.block p.chType).height ≠ 0)
    (habove : ∀ c, above = some c → (c.block p.chType).width ≠ 0) :
    DeriveCtx.CtxSplitContexts p left above flags
      = some
        { ctxSpl :=
            (if left.any
                (fun c => (c.block p.chType).height < (p.currAreaBlock p.chType).height)
              then 1 else 0)
            + (if above.any
                (fun c => (c.block p.chType).width < (p.currAreaBlock p.chType).width)
              then 1 else 0)
            + 3 * (DeriveCtx.numSplit flags >>> 1)
          ctxQt :=
            (if left.any (fun c => c.qtDepth > p.currQtDepth) then 1 else 0)
            + (if above.any (fun c => c.qtDepth > p.currQtDepth) then 1 else 0)
            + (if p.currQtDepth < 2 then 0 else 3)
          ctxHv :=
            if numVer flags = numHor flags then
              depthTieBreak p left above
            else if numVer flags < numHor flags then 3
            else 4
          ctxHorBt := if p.currMtDepth ≤ 1 then 1 else 0
          ctxVerBt := if p.currMtDepth ≤ 1 then 3 else 2 } := by
  simp only [DeriveCtx.CtxSplitContexts, ← (numHor_numVer flags).1, ← (numHor_numVer flags).2]
  generalize numVer flags = v
  generalize numHor flags = h
  by_cases h1 : v = h
  · cases left with
    | none =>
      cases above with
      | none => simp [h1, depthTieBreak]
      | some a =>
        have ha := habove a rfl
        simp [h1, ha, depthTieBreak]
    | some l =>
      have hl := hleft l rfl
      cases above with
      | none => simp [h1, hl, depthTieBreak]
      | some a =>
        have ha := habove a rfl
        simp only [h1, hl, ha, or_self, if_false, if_true, Option.isNone_some, Bool.false_eq_true,
          or_false, Option.any_some, decide_eq_true_eq, depthTieBreak]
        split_ifs <;> rfl
  · by_cases h2 : v < h
    · cases left <;> cases above <;> simp [h1, h2]
    · cases left <;> cases above <;> simp [h1, h2]

theorem CtxSplit_eq (cs : CodingStructure) (p : Partitioner) (_canSplit : Option (Nat → Bool)) :
    DeriveCtx.CtxSplit cs p _canSplit
      = DeriveCtx.CtxSplitContexts p (partLeft cs p) (partAbove cs p)
          (splitFlags cs p _canSplit) := rfl

theorem numSplit_eq (f : Nat → Bool) :
    DeriveCtx.numSplit f = max (allowedSplits f) 1 - 1 ∧ DeriveCtx.numSplit f ≤ 5 := by
  cases h1 : f 1 <;> cases h2 : f 2 <;> cases h3 : f 3 <;> cases h4 : f 4 <;> cases h5 : f 5 <;>
    simp [DeriveCtx.numSplit, allowedSplits, h1, h2, h3, h4, h5]

theorem countNeighbours_single (prop : CodingUnit → Bool) (n : Option CodingUnit) :
    countNeighbours prop [n] = if n.any prop then 1 else 0 := by
  cases n with
  | none => rfl
  | some c => cases hc : prop c <;> simp [countNeighbours, hc]

theorem shiftRight_one_le (n : Nat) (h : n ≤ 5) : n >>> 1 ≤ 2 := by
  rw [Nat.shiftRight_eq_div_pow]
  omega

/-- C26: in `CtxSplit` (which returns when the existing neighbours have non-zero
size) `ctxSpl = [left exists and heightLeft < heightCurr] + [above exists and
widthAbove < widthCurr] + 3 * ((max(n, 1) - 1) >> 1)`, where `n` counts the
allowed split types among the six `canSplit` flags: the quad split counts 2,
each of the four binary and ternary splits counts 1 and `canSplit[0]` counts 0. -/
theorem CtxSplit_ctxSpl (cs : CodingStructure) (p : Partitioner)
    (_canSplit : Option (Nat → Bool))
    (hleft : ∀ c, partLeft cs p = some c → (c.block p.chType).height ≠ 0)
    (habove : ∀ c, partAbove cs p = some c → (c.block p.chType).width ≠ 0) :
    ∃ r, DeriveCtx.CtxSplit cs p _canSplit = some r ∧
      r.ctxSpl
        = countNeighbours
            (fun c => (c.block p.chType).height < (p.currAreaBlock p.chType).height)
            [partLeft cs p]
          + countNeighbours
            (fun c => (c.block p.chType).width < (p.currAreaBlock p.chType).width)
            [partAbove cs p]
          + 3 * ((max (allowedSplits (splitFlags cs p _canSplit)) 1 - 1) >>> 1) := by
  refine ⟨_, (CtxSplit_eq cs p _canSplit).trans
    (CtxSplitContexts_some p _ _ _ hleft habove), ?_⟩
  simp only [countNeighbours_single, (numSplit_eq _).1]

/-- Witness of `CtxSplit_ctxSpl`: a 16 × 16 area with a left neighbour of height
8 and an above neighbour of width 16, every split allowed (`n = 6`):
`ctxSpl = 1 + 0 + 3 * 2 = 7`. -/
theorem CtxSplit_ctxSpl_witness :
    ∃ r, DeriveCtx.CtxSplit
        (exampleStructure 16 (some (exampleUnit PredMode.MODE_INTRA 0 16 8 8))
          (some (exampleUnit PredMode.MODE_INTRA 16 0 16 16)))
        (examplePartitioner 16 16 1 0) none = some r ∧ r.ctxSpl = 7 := by
  obtain ⟨r, hr, hs⟩ := CtxSplit_ctxSpl
    (exampleStructure 16 (some (exampleUnit PredMode.MODE_INTRA 0 16 8 8))
      (some (exampleUnit PredMode.MODE_INTRA 16 0 16 16)))
    (examplePartitioner 16 16 1 0) none
    (fun c hc => by
      have : c = exampleUnit PredMode.MODE_INTRA 0 16 8 8 := (Option.some.inj hc).symm
      subst this
      decide)
    (fun c hc => by
      have : c = exampleUnit PredMode.MODE_INTRA 16 0 16 16 := (Option.some.inj hc).symm
      subst this
      decide)
  exact ⟨r, hr, hs.trans (by decide)⟩

/-- C27: in `CtxSplit`, with `numHor = [canSplit[2]] + [canSplit[4]]` and
`numVer = [canSplit[3]] + [canSplit[5]]`: `ctxHv = 3` if `numVer < numHor`, 4 if
`numVer > numHor`, and when they are equal `ctxHv = 0` if either neighbour is
missing or `depAbove = depLeft`, 1 if `depAbove < depLeft`, 2 otherwise, where
`depAbove = widthCurr / widthAbove` and `depLeft = heightCurr / heightLeft`
(integer division); the function returns, without division by zero, when the
existing neighbours have non-zero size. -/
theorem CtxSplit_ctxHv (cs : CodingStructure) (p : Partitioner)
    (_canSplit : Option (Nat → Bool))
    (hleft : ∀ c, partLeft cs p = some c → (c.block p.chType).height ≠ 0)
    (habove : ∀ c, partAbove cs p = some c → (c.block p.chType).width ≠ 0) :
    numHor (splitFlags cs p _canSplit)
      = (if splitFlags cs p _canSplit 2 then 1 else 0)
        + (if splitFlags cs p _canSplit 4 then 1 else 0) ∧
    numVer (splitFlags cs p _canSplit)
      = (if splitFlags cs p _canSplit 3 then 1 else 0)
        + (if splitFlags cs p _canSplit 5 then 1 else 0) ∧
    ∃ r, DeriveCtx.CtxSplit cs p _canSplit = some r ∧
      (numVer (splitFlags cs p _canSplit) < numHor (splitFlags cs p _canSplit) →
        r.ctxHv = 3) ∧
      (numVer (splitFlags cs p _canSplit) > numHor (splitFlags cs p _canSplit) →
        r.ctxHv = 4) ∧
      (numVer (splitFlags cs p _canSplit) = numHor (splitFlags cs p _canSplit) →
        ((partLeft cs p = none ∨ partAbove cs p = none) → r.ctxHv = 0) ∧
        (∀ l a, partLeft cs p = some l → partAbove cs p = some a →
          r.ctxHv
            = if (p.currAreaBlock p.chType).width / (a.block p.chType).width
                  = (p.currAreaBlock p.chType).height / (l.block p.chType).height then 0
              else if (p.currAreaBlock p.chType).width / (a.block p.chType).width
                  < (p.currAreaBlock p.chType).height / (l.block p.chType).height then 1
              else 2)) := by
  refine ⟨(numHor_numVer _).1, (numHor_numVer _).2, _, (CtxSplit_eq cs p _canSplit).trans
    (CtxSplitContexts_some p _ _ _ hleft habove), ?_, ?_, ?_⟩
  · intro h
    show (if _ then _ else _) = 3
    rw [if_neg (by omega), if_pos h]
  · intro h
    show (if _ then _ else _) = 4
    rw [if_neg (by omega), if_neg (by omega)]
  · intro h
    constructor
    · intro hn
      show (if _ then _ else _) = 0
      rw [if_pos h]
      rcases hn with hn | hn
      · rw [hn]
        rfl
      · rw [hn]
        cases partLeft cs p <;> rfl
    · intro l a hl ha
      show (if _ then _ else _) = _
      rw [if_pos h, hl, ha]
      rfl

/-- Witness of `CtxSplit_ctxHv`: a 16 × 16 area with a left neighbour of height
8 and an above neighbour of width 16: `depAbove = 1 < depLeft = 2`, `ctxHv = 1`. -/
theorem CtxSplit_ctxHv_witness :
    ∃ r, DeriveCtx.CtxSplit
        (exampleStructure 16 (some (exampleUnit PredMode.MODE_INTRA 0 16 8 8))
          (some (exampleUnit PredMode.MODE_INTRA 16 0 16 16)))
        (examplePartitioner 16 16 1 0) none = some r ∧ r.ctxHv = 1 := by
  obtain ⟨-, -, r, hr, -, -, hs⟩ := CtxSplit_ctxHv
    (exampleStructure 16 (some (exampleUnit PredMode.MODE_INTRA 0 16 8 8))
      (some (exampleUnit PredMode.MODE_INTRA 16 0 16 16)))
    (examplePartitioner 16 16 1 0) none
    (fun c hc => by
      have : c = exampleUnit PredMode.MODE_INTRA 0 16 8 8 := (Option.some.inj hc).symm
      subst this
      decide)
    (fun c hc => by
      have : c = exampleUnit PredMode.MODE_INTRA 16 0 16 16 := (Option.some.inj hc).symm
      subst this
      decide)
  exact ⟨r, hr, ((hs (by decide)).2 _ _ rfl rfl).trans (by decide)⟩

theorem CtxSplitContexts_range (p : Partitioner) (left above : Option CodingUnit)
    (flags : Nat → Bool) (r : SplitCtx)
    (h : DeriveCtx.CtxSplitContexts p left above flags = some r) :
    r.ctxSpl ≤ 8 ∧ r.ctxQt ≤ 5 ∧ r.ctxHv ≤ 4 ∧
    r.ctxHorBt = (if p.currMtDepth ≤ 1 then 1 else 0) ∧
    r.ctxVerBt = (if p.currMtDepth ≤ 1 then 3 else 2) := by
  have hn := shiftRight_one_le _ (numSplit_eq flags).2
  simp only [DeriveCtx.CtxSplitContexts, ← (numHor_numVer flags).1,
    ← (numHor_numVer flags).2] at h
  generalize numVer flags = v at h
  generalize numHor flags = w at h
  cases left <;> cases above <;>
    simp only [Option.any_none, Option.any_some,
      Bool.false_eq_true, if_false, Nat.zero_add, Nat.add_zero, decide_eq_true_eq] at h
  all_goals
    split at h
    · exact absurd h (by simp)
    · rename_i hv heq
      have hr := (Option.some.inj h).symm
      subst hr
      refine ⟨?_, ?_, ?_, rfl, rfl⟩
      · dsimp only
        first
          | omega
          | (split_ifs <;> omega)
      · dsimp only
        first
          | omega
          | (split_ifs <;> omega)
      · show hv ≤ 4
        split_ifs at heq <;> simp only [Option.some.injEq, reduceCtorEq] at heq <;> omega

/-- C28: for every partition state, neighbour configuration and `canSplit`
vector, `CtxSplit` returns when the existing neighbours have non-zero size, and
whenever it returns its outputs stay within the ranges documented in the code:
`ctxSpl` in 0..8, `ctxQt` in 0..5, `ctxHv` in 0..4, `ctxHorBt` in {0, 1} and
`ctxVerBt` in {2, 3}, with `ctxHorBt = 1` and `ctxVerBt = 3` exactly when
`currMtDepth <= 1`. -/
theorem CtxSplit_ranges (cs : CodingStructure) (p : Partitioner)
    (_canSplit : Option (Nat → Bool))
    (hleft : ∀ c, partLeft cs p = some c → (c.block p.chType).height ≠ 0)
    (habove : ∀ c, partAbove cs p = some c → (c.block p.chType).width ≠ 0) :
    (∃ r, DeriveCtx.CtxSplit cs p _canSplit = some r) ∧
    (∀ (cs2 : CodingStructure) (p2 : Partitioner) (flags : Option (Nat → Bool)) (r : SplitCtx),
      DeriveCtx.CtxSplit cs2 p2 flags = some r →
      r.ctxSpl ≤ 8 ∧ r.ctxQt ≤ 5 ∧ r.ctxHv ≤ 4 ∧
      (r.ctxHorBt = 0 ∨ r.ctxHorBt = 1) ∧ (r.ctxVerBt = 2 ∨ r.ctxVerBt = 3) ∧
      (r.ctxHorBt = 1 ↔ p2.currMtDepth ≤ 1) ∧ (r.ctxVerBt = 3 ↔ p2.currMtDepth ≤ 1)) := by
  refine ⟨⟨_, (CtxSplit_eq cs p _canSplit).trans
    (CtxSplitContexts_some p _ _ _ hleft habove)⟩, ?_⟩
  intro cs2 p2 flags r hr
  rw [CtxSplit_eq] at hr
  obtain ⟨h1, h2, h3, h4, h5⟩ := CtxSplitContexts_range p2 _ _ _ r hr
  refine ⟨h1, h2, h3, ?_, ?_, ?_, ?_⟩
  · rw [h4]
    split <;> simp
  · rw [h5]
    split <;> simp
  · rw [h4]
    split <;> simp [*]
  · rw [h5]
    split <;> simp [*]

/-- Witness of `CtxSplit_ranges`: a 16 × 16 area without neighbours at
multi-type-tree depth 2. -/
theorem CtxSplit_ranges_witness :
    ∃ r, DeriveCtx.CtxSplit (exampleStructure 16 none none) (examplePartitioner 16 16 1 2) none
        = some r ∧ r.ctxSpl ≤ 8 ∧ r.ctxHorBt = 0 ∧ r.ctxVerBt = 2 := by
  have h := CtxSplit_ranges (exampleStructure 16 none none) (examplePartitioner 16 16 1 2) none
    (fun c hc => by cases hc) (fun c hc => by cases hc)
  obtain ⟨r, hr⟩ := h.1
  obtain ⟨h1, -, -, h4, h5, h6, h7⟩ := h.2 _ _ _ r hr
  have hmt : ¬ (examplePartitioner 16 16 1 2).currMtDepth ≤ 1 := by decide
  refine ⟨r, hr, h1, ?_, ?_⟩
  · rcases h4 with h | h
    · exact h
    · exact absurd (h6.mp h) hmt
  · rcases h5 with h | h
    · exact h
    · exact absurd (h7.mp h) hmt

/-- C22: when the left and the above neighbour lookups both return no
neighbour, `CtxSkipFlag`, `CtxAffineFlag`, `CtxIBCFlag`, `CtxPredModeFlag` and
`CtxModeConsFlag` (its assertion passing) return 0, `CtxMipFlag` returns 0
unless the aspect-ratio override applies (then 3), and `CtxSplit` returns with
`ctxSpl = 3 * (numSplit >> 1)`, `ctxQt` 0 for `currQtDepth < 2` and 3 otherwise,
and `ctxHv = 0` when the horizontal and vertical split counts are equal. -/
theorem contexts_without_neighbours (cfg : CtxConfig) (cs : CodingStructure) (cu : CodingUnit)
    (p : Partitioner) (_canSplit : Option (Nat → Bool))
    (hlumaLeft : lumaLeft cs cu = none) (hlumaAbove : lumaAbove cs cu = none)
    (hibcLeft : ibcLeft cs cu = none) (hibcAbove : ibcAbove cs cu = none)
    (hpartLeft : partLeft cs p = none) (hpartAbove : partAbove cs p = none)
    (hassert : cfg.NDEBUG = true ∨ cfg.isLumaChannel p.chType = true) :
    DeriveCtx.CtxSkipFlag cs cu = 0 ∧ DeriveCtx.CtxAffineFlag cs cu = 0 ∧
    DeriveCtx.CtxIBCFlag cfg cs cu = 0 ∧ DeriveCtx.CtxPredModeFlag cfg cs cu = 0 ∧
    DeriveCtx.CtxModeConsFlag cfg cs p = Except.ok 0 ∧
    DeriveCtx.CtxMipFlag cs cu
      = (if cu.lwidth > toUnsigned (2 * cu.lheight) ∨ cu.lheight > toUnsigned (2 * cu.lwidth)
        then 3 else 0) ∧
    ∃ r, DeriveCtx.CtxSplit cs p _canSplit = some r ∧
      r.ctxSpl = 3 * (DeriveCtx.numSplit (splitFlags cs p _canSplit) >>> 1) ∧
      r.ctxQt = (if p.currQtDepth < 2 then 0 else 3) ∧
      (numHor (splitFlags cs p _canSplit) = numVer (splitFlags cs p _canSplit) →
        r.ctxHv = 0) := by
  have hcond : (!cfg.NDEBUG && !cfg.isLumaChannel p.chType) = false := by
    rcases hassert with h | h <;> simp [h]
  refine ⟨?_, ?_, ?_, ?_, ?_, ?_, _, (CtxSplit_eq cs p _canSplit).trans
    (CtxSplitContexts_some p _ _ _ (fun c hc => by rw [hpartLeft] at hc; exact absurd hc (by simp))
      (fun c hc => by rw [hpartAbove] at hc; exact absurd hc (by simp))), ?_, ?_, ?_⟩
  · show (if (lumaLeft cs cu).any _ then 1 else 0) + (if (lumaAbove cs cu).any _ then 1 else 0) = 0
    rw [hlumaLeft, hlumaAbove]
    rfl
  · show (if (lumaLeft cs cu).any _ then 1 else 0) + (if (lumaAbove cs cu).any _ then 1 else 0) = 0
    rw [hlumaLeft, hlumaAbove]
    rfl
  · show 0 + (if (ibcLeft cs cu).any _ then 1 else 0) + (if (ibcAbove cs cu).any _ then 1 else 0)
      = 0
    rw [hibcLeft, hibcAbove]
    rfl
  · show (if ((lumaAbove cs cu).any _ || (lumaLeft cs cu).any _) = true then 1 else 0) = 0
    rw [hlumaLeft, hlumaAbove]
    rfl
  · simp only [DeriveCtx.CtxModeConsFlag, hcond, Bool.false_eq_true, if_false]
    show Except.ok (if ((partAbove cs p).any _ || (partLeft cs p).any _) = true then 1 else 0)
      = Except.ok 0
    rw [hpartLeft, hpartAbove]
    rfl
  · rw [CtxMipFlag_eq, hlumaLeft, hlumaAbove]
    rfl
  · show _ + _ + 3 * _ = 3 * _
    rw [hpartLeft, hpartAbove]
    simp
  · show _ + _ + _ = _
    rw [hpartLeft, hpartAbove]
    simp
  · intro h
    show (if _ then _ else _) = 0
    rw [if_pos h.symm, hpartLeft]
    rfl

/-- Witness of `contexts_without_neighbours`: a 16 × 16 unit without neighbours,
quad-tree depth 1, every split allowed: `ctxSpl = 3 * (5 >> 1) = 6`. -/
theorem contexts_without_neighbours_witness :
    DeriveCtx.CtxSkipFlag (exampleStructure 16 none none)
      (exampleUnit PredMode.MODE_INTER 16 16 16 16) = 0 ∧
    DeriveCtx.CtxModeConsFlag ctxCfgExample (exampleStructure 16 none none)
      (examplePartitioner 16 16 1 0) = Except.ok 0 ∧
    ∃ r, DeriveCtx.CtxSplit (exampleStructure 16 none none) (examplePartitioner 16 16 1 0) none
        = some r ∧ r.ctxSpl = 6 ∧ r.ctxQt = 0 ∧ r.ctxHv = 0 := by
  have h := contexts_without_neighbours ctxCfgExample (exampleStructure 16 none none)
    (exampleUnit PredMode.MODE_INTER 16 16 16 16) (examplePartitioner 16 16 1 0) none
    rfl rfl rfl rfl rfl rfl (Or.inr rfl)
  obtain ⟨r, hr, h1, h2, h3⟩ := h.2.2.2.2.2.2
  exact ⟨h.1, h.2.2.2.2.1, r, hr, h1.trans (by decide), h2.trans (by decide), h3 (by decide)⟩

/-! ## `CtxQtCbf` and `CtxInterDir` -/

/-- C29: `CtxQtCbf(compID, prevCbf, ispIdx)` returns `2 + prevCbf` when `ispIdx`
is non-zero and the component is luma, returns `prevCbf` (0 or 1) when the
component is Cr, and returns 0 in every other case (luma without ISP, Cb); the
result is always in 0..3.  (`isLuma` holds of the component Y only.) -/
theorem CtxQtCbf_value (cfg : CtxConfig) (compID : ComponentID) (prevCbf : Bool) (ispIdx : Int)
    (hluma : ∀ c, cfg.isLuma c = true ↔ c = ComponentID.COMPONENT_Y) :
    (ispIdx ≠ 0 → compID = ComponentID.COMPONENT_Y →
      DeriveCtx.CtxQtCbf cfg compID prevCbf ispIdx = 2 + prevCbf.toNat) ∧
    (compID = ComponentID.COMPONENT_Cr →
      DeriveCtx.CtxQtCbf cfg compID prevCbf ispIdx = prevCbf.toNat) ∧
    (ispIdx = 0 → compID = ComponentID.COMPONENT_Y →
      DeriveCtx.CtxQtCbf cfg compID prevCbf ispIdx = 0) ∧
    (compID = ComponentID.COMPONENT_Cb →
      DeriveCtx.CtxQtCbf cfg compID prevCbf ispIdx = 0) ∧
    DeriveCtx.CtxQtCbf cfg compID prevCbf ispIdx ≤ 3 ∧
    prevCbf.toNat ≤ 1 := by
  have hY := (hluma ComponentID.COMPONENT_Y).mpr rfl
  have hCb : cfg.isLuma ComponentID.COMPONENT_Cb = false := by
    cases h : cfg.isLuma ComponentID.COMPONENT_Cb
    · rfl
    · exact absurd ((hluma _).mp h) (by decide)
  have hCr : cfg.isLuma ComponentID.COMPONENT_Cr = false := by
    cases h : cfg.isLuma ComponentID.COMPONENT_Cr
    · rfl
    · exact absurd ((hluma _).mp h) (by decide)
  refine ⟨?_, ?_, ?_, ?_, ?_, ?_⟩
  · intro hi hc
    subst hc
    simp [DeriveCtx.CtxQtCbf, hi, hY]
  · intro hc
    subst hc
    cases prevCbf <;> simp [DeriveCtx.CtxQtCbf, hCr]
  · intro hi hc
    subst hc
    simp [DeriveCtx.CtxQtCbf, hi]
  · intro hc
    subst hc
    simp [DeriveCtx.CtxQtCbf, hCb]
  · unfold DeriveCtx.CtxQtCbf
    cases prevCbf <;> split_ifs <;> simp
  · cases prevCbf <;> simp

/-- Witness of `CtxQtCbf_value`: luma under ISP with a previous CBF gives 3. -/
theorem CtxQtCbf_value_witness :
    DeriveCtx.CtxQtCbf ctxCfgExample ComponentID.COMPONENT_Y true 1 = 3 :=
  (CtxQtCbf_value ctxCfgExample ComponentID.COMPONENT_Y true 1
    (fun c => by cases c <;> decide)).1 (by decide) rfl

theorem log2_range (w : Nat) (h4 : 4 ≤ w) (h128 : w ≤ 128) :
    2 ≤ Nat.log2 w ∧ Nat.log2 w ≤ 7 := by
  have hw : w ≠ 0 := by omega
  have h1 : 2 ≤ Nat.log2 w := (Nat.le_log2 hw).mpr (by omega)
  have h2 : Nat.log2 w < 8 := (Nat.log2_lt hw).mpr (by omega)
  omega

theorem log2_mono (w w2 : Nat) (hw : 1 ≤ w) (h : w ≤ w2) : Nat.log2 w ≤ Nat.log2 w2 :=
  (Nat.le_log2 (by omega)).mpr (le_trans (Nat.log2_self_le (by omega)) h)

theorem CtxInterDir_eq (pu : PredictionUnit) (a b : Nat) (ha : Nat.log2 pu.lumaSizeWidth = a)
    (hb : Nat.log2 pu.lumaSizeHeight = b) (hab : a + b ≤ 14) :
    (0 : Int)
      ≤ (7 : Int) - ((floorLog2 pu.lumaSizeWidth + floorLog2 pu.lumaSizeHeight + 1) >>> 1) ∧
    DeriveCtx.CtxInterDir pu = 7 - (a + b + 1) / 2 ∧
    (7 : Int) - ((floorLog2 pu.lumaSizeWidth + floorLog2 pu.lumaSizeHeight + 1) >>> 1)
      = ((7 - (a + b + 1) / 2 : Nat) : Int) := by
  have hs : ((floorLog2 pu.lumaSizeWidth + floorLog2 pu.lumaSizeHeight + 1) >>> 1 : Int)
      = (((a + b + 1) / 2 : Nat) : Int) := by
    have hc : ((a : Int) + (b : Int) + 1) = ((a + b + 1 : Nat) : Int) := by push_cast; rfl
    simp only [floorLog2, ha, hb]
    have hshift : ((a + b + 1 : Nat) : Int) >>> (1 : Int) = (((a + b + 1) >>> 1 : Nat) : Int) :=
      rfl
    rw [hc, hshift, Nat.shiftRight_eq_div_pow, pow_one]
  refine ⟨?_, ?_, ?_⟩
  · rw [hs]
    omega
  · simp only [DeriveCtx.CtxInterDir, hs, intToUnsigned]
    omega
  · rw [hs]
    omega

/-- C30: `CtxInterDir` is a function of the luma block size only and equals
`7 - ((floorLog2(width) + floorLog2(height) + 1) >> 1)`; for every luma width
and height in 4..128 the subtraction does not underflow, the result lies in
0..5, and it is non-increasing in the width and in the height. -/
theorem CtxInterDir_value (pu pu2 : PredictionUnit)
    (hwidth : 4 ≤ pu.lumaSizeWidth ∧ pu.lumaSizeWidth ≤ 128)
    (hheight : 4 ≤ pu.lumaSizeHeight ∧ pu.lumaSizeHeight ≤ 128)
    (hwidth2 : pu2.lumaSizeWidth ≤ 128) (hheight2 : pu2.lumaSizeHeight ≤ 128) :
    (0 : Int)
      ≤ (7 : Int) - ((floorLog2 pu.lumaSizeWidth + floorLog2 pu.lumaSizeHeight + 1) >>> 1) ∧
    (DeriveCtx.CtxInterDir pu : Int)
      = (7 : Int) - ((floorLog2 pu.lumaSizeWidth + floorLog2 pu.lumaSizeHeight + 1) >>> 1) ∧
    DeriveCtx.CtxInterDir pu ≤ 5 ∧
    (pu.lumaSizeWidth ≤ pu2.lumaSizeWidth → pu.lumaSizeHeight ≤ pu2.lumaSizeHeight →
      DeriveCtx.CtxInterDir pu2 ≤ DeriveCtx.CtxInterDir pu) ∧
    DeriveCtx.CtxInterDir pu
      = DeriveCtx.CtxInterDir
          { lumaSizeWidth := pu.lumaSizeWidth, lumaSizeHeight := pu.lumaSizeHeight } := by
  obtain ⟨ha2, ha7⟩ := log2_range pu.lumaSizeWidth hwidth.1 hwidth.2
  obtain ⟨hb2, hb7⟩ := log2_range pu.lumaSizeHeight hheight.1 hheight.2
  obtain ⟨h0, he, hi⟩ := CtxInterDir_eq pu _ _ rfl rfl (by omega)
  refine ⟨h0, ?_, ?_, ?_, rfl⟩
  · rw [hi, he]
  · rw [he]
    omega
  · intro hw hh
    obtain ⟨hc2, hc7⟩ := log2_range pu2.lumaSizeWidth (by omega) hwidth2
    obtain ⟨hd2, hd7⟩ := log2_range pu2.lumaSizeHeight (by omega) hheight2
    have hm1 := log2_mono _ _ (by omega) hw
    have hm2 := log2_mono _ _ (by omega) hh
    rw [he, (CtxInterDir_eq pu2 _ _ rfl rfl (by omega)).2.1]
    omega

/-- Witness of `CtxInterDir_value`: the sizes 4 × 4 and 128 × 128 give the
contexts 5 and 0. -/
theorem CtxInterDir_value_witness :
    DeriveCtx.CtxInterDir { lumaSizeWidth := 128, lumaSizeHeight := 128 }
      ≤ DeriveCtx.CtxInterDir { lumaSizeWidth := 4, lumaSizeHeight := 4 } ∧
    DeriveCtx.CtxInterDir { lumaSizeWidth := 4, lumaSizeHeight := 4 } ≤ 5 :=
  ⟨(CtxInterDir_value { lumaSizeWidth := 4, lumaSizeHeight := 4 }
      { lumaSizeWidth := 128, lumaSizeHeight := 128 } (by decide) (by decide) (by decide)
      (by decide)).2.2.2.1 (by decide) (by decide),
   (CtxInterDir_value { lumaSizeWidth := 4, lumaSizeHeight := 4 }
      { lumaSizeWidth := 128, lumaSizeHeight := 128 } (by decide) (by decide) (by decide)
      (by decide)).2.2.1⟩

/-! ## Colour-transform λ adjustment: a forward/inverse pair -/

/-- A forward call without chroma scaling on a state with `m_resetStore = true`
and `m_pairCheck = 0` succeeds; the state after it holds the values from before
the call in row 0 of both stores, has `m_pairCheck = 1`, a cleared
`m_resetStore` and the same `m_distScaleUnadjusted`. -/
theorem lambdaAdjustColorTrans_forward_fresh (cfg : Config) (st : State)
    (componentID : ComponentID) (resScaleInv : Int)
    (hreset : st.m_resetStore = true) (hpair : st.m_pairCheck = 0) :
    ∃ st1, lambdaAdjustColorTrans cfg st true componentID false resScaleInv = Except.ok st1
      ∧ st1.m_resetStore = false ∧ st1.m_pairCheck = 1
      ∧ st1.m_distScaleUnadjusted = st.m_distScaleUnadjusted
      ∧ (∀ c, st1.m_lambdaStore 0 c = st.m_dLambda)
      ∧ (∀ c, st1.m_distScaleStore 0 c = st.m_distScale) := by
  simp only [lambdaAdjustColorTrans, captureStore, pairStep, scaleStep, restoreCheck, hreset,
    hpair, if_true, Bool.false_eq_true, if_false, zero_ne_one, one_ne_zero]
  exact ⟨_, rfl, rfl, rfl, rfl, fun _ => rfl, fun _ => rfl⟩

/-- An inverse call without chroma scaling on a state with a cleared
`m_resetStore`, `m_pairCheck = 1` and a row 0 of the distScale store that equals
`m_distScaleUnadjusted` succeeds and loads λ and distScale from row 0. -/
theorem lambdaAdjustColorTrans_inverse_stored (cfg : Config) (st : State)
    (componentID : ComponentID) (resScaleInv : Int)
    (hreset : st.m_resetStore = false) (hpair : st.m_pairCheck = 1)
    (hscale : st.m_distScaleStore 0 componentID = st.m_distScaleUnadjusted) :
    ∃ st1, lambdaAdjustColorTrans cfg st false componentID false resScaleInv = Except.ok st1
      ∧ st1.m_dLambda = st.m_lambdaStore 0 componentID
      ∧ st1.m_distScale = st.m_distScaleStore 0 componentID
      ∧ st1.m_pairCheck = 0 := by
  simp only [lambdaAdjustColorTrans, captureStore, pairStep, scaleStep, restoreCheck, hreset,
    hpair, hscale, if_true, Bool.false_eq_true, if_false, zero_ne_one, one_ne_zero, ne_eq,
    not_true_eq_false]
  exact ⟨_, rfl, rfl, rfl, rfl⟩

/-- C39: from a state with `m_resetStore = true`, `m_pairCheck = 0` and
`m_distScaleUnadjusted` equal to the current distScale, a forward call of
`lambdaAdjustColorTrans` for `c1` followed by an inverse call for `c2`, both
without chroma scaling, succeeds for all components `c1`, `c2`, and λ and
distScale after the pair are the values from before the forward call. -/
theorem lambdaAdjustColorTrans_round_trip (cfg : Config) (st : State) (c1 c2 : ComponentID)
    (r1 r2 : Int) (hreset : st.m_resetStore = true) (hpair : st.m_pairCheck = 0)
    (hunadjusted : st.m_distScaleUnadjusted = st.m_distScale) :
    ∃ st1 st2, lambdaAdjustColorTrans cfg st true c1 false r1 = Except.ok st1
      ∧ lambdaAdjustColorTrans cfg st1 false c2 false r2 = Except.ok st2
      ∧ st2.m_dLambda = st.m_dLambda ∧ st2.m_distScale = st.m_distScale := by
  obtain ⟨st1, h1, hr1, hp1, hu1, hl1, hd1⟩ :=
    lambdaAdjustColorTrans_forward_fresh cfg st c1 r1 hreset hpair
  obtain ⟨st2, h2, hl2, hd2, _⟩ :=
    lambdaAdjustColorTrans_inverse_stored cfg st1 c2 r2 hr1 hp1
      (by rw [hd1 c2, hu1, hunadjusted])
  exact ⟨st1, st2, h1, h2, by rw [hl2, hl1 c2], by rw [hd2, hd1 c2]⟩

/-- Witness of `lambdaAdjustColorTrans_round_trip`: the state with `λ = 4` in the
full-precision build, forward for Cb and inverse for Cr. -/
theorem lambdaAdjustColorTrans_round_trip_witness :
    ∃ st1 st2, lambdaAdjustColorTrans cfgFullNBit stLambda4 true ComponentID.COMPONENT_Cb
          false 0 = Except.ok st1
      ∧ lambdaAdjustColorTrans cfgFullNBit st1 false ComponentID.COMPONENT_Cr false 0
          = Except.ok st2
      ∧ st2.m_dLambda = stLambda4.m_dLambda ∧ st2.m_distScale = stLambda4.m_distScale :=
  lambdaAdjustColorTrans_round_trip cfgFullNBit stLambda4 ComponentID.COMPONENT_Cb
    ComponentID.COMPONENT_Cr 0 0 rfl rfl rfl

/-! ## Coefficient-group significance bitset -/

/-- The bitset after `initSubblock`, whatever the flag. -/
theorem initSubblock_bitset (c c1 : CoeffCodingContext) (SubsetId : Nat) (sigGroupFlag : Bool)
    (h : c.initSubblock SubsetId sigGroupFlag = some c1) :
    c1.m_sigCoeffGroupFlag
      = if sigGroupFlag then
          fun n => if n = c.m_scanCG SubsetId then true else c.m_sigCoeffGroupFlag n
        else c.m_sigCoeffGroupFlag := by
  unfold CoeffCodingContext.initSubblock at h
  by_cases hW : c.m_widthInGroups = 0
  · rw [if_pos hW] at h
    cases h
  · rw [if_neg hW] at h
    simp only [Option.some.injEq] at h
    rw [← h]

/-- C40: on a grid of non-zero width `initSubblock(id, flag)` returns, and the
returned coefficient-group significance bitset differs from the old one at most
at position `scanCG[id]`: with `flag = true` that bit is set and every other bit
is unchanged, with `flag = false` the whole bitset is unchanged; in either case
a bit that was set stays set. -/
theorem initSubblock_bitset_frame (c : CoeffCodingContext) (SubsetId : Nat)
    (sigGroupFlag : Bool) (hW : c.m_widthInGroups ≠ 0) :
    ∃ c1, c.initSubblock SubsetId sigGroupFlag = some c1
      ∧ (∀ n, n ≠ c.m_scanCG SubsetId → c1.m_sigCoeffGroupFlag n = c.m_sigCoeffGroupFlag n)
      ∧ (sigGroupFlag = true → c1.m_sigCoeffGroupFlag (c.m_scanCG SubsetId) = true)
      ∧ (sigGroupFlag = false → c1.m_sigCoeffGroupFlag = c.m_sigCoeffGroupFlag)
      ∧ (∀ n, c.m_sigCoeffGroupFlag n = true → c1.m_sigCoeffGroupFlag n = true) := by
  have hsome : ∃ c1, c.initSubblock SubsetId sigGroupFlag = some c1 := by
    unfold CoeffCodingContext.initSubblock
    rw [if_neg hW]
    exact ⟨_, rfl⟩
  obtain ⟨c1, hc1⟩ := hsome
  have hbits := initSubblock_bitset c c1 SubsetId sigGroupFlag hc1
  refine ⟨c1, hc1, ?_, ?_, ?_, ?_⟩
  · intro n hn
    rw [hbits]
    cases sigGroupFlag
    · rfl
    · simp only [if_true, if_neg hn]
  · intro hflag
    rw [hbits, hflag]
    simp only [if_true]
  · intro hflag
    rw [hbits, hflag]
    simp only [Bool.false_eq_true, if_false]
  · intro n hn
    rw [hbits]
    cases sigGroupFlag
    · simpa only [Bool.false_eq_true, if_false] using hn
    · by_cases hpos : n = c.m_scanCG SubsetId
      · simp only [if_true, if_pos hpos]
      · simpa only [if_true, if_neg hpos] using hn

/-- Witness of `initSubblock_bitset_frame`: group 5 of the 4 × 4 grid in which
the groups 6 and 9 are significant, with the flag set. -/
theorem initSubblock_bitset_frame_witness :
    ∃ c1, markedContext.initSubblock 5 true = some c1
      ∧ (∀ n, n ≠ markedContext.m_scanCG 5 →
          c1.m_sigCoeffGroupFlag n = markedContext.m_sigCoeffGroupFlag n)
      ∧ (true = true → c1.m_sigCoeffGroupFlag (markedContext.m_scanCG 5) = true)
      ∧ (true = false → c1.m_sigCoeffGroupFlag = markedContext.m_sigCoeffGroupFlag)
      ∧ (∀ n, markedContext.m_sigCoeffGroupFlag n = true → c1.m_sigCoeffGroupFlag n = true) :=
  initSubblock_bitset_frame markedContext 5 true (by decide)

/-! ## Row sub-sampling chosen by `setDistParam` and the row loops -/

theorem accRows_count (m : Nat) : ∀ (po pc : Int) (acc : Nat),
    accRows (fun _ _ (n : Nat) => n + 1) 0 0 m po pc acc = acc + m := by
  induction m with
  | zero => intro po pc acc; rfl
  | succ m ih =>
    intro po pc acc
    simp only [accRows, ih]
    omega

theorem rowIterations_of_dvd {h s : Nat} (hdiv : 2 ^ s ∣ h) :
    rowIterations (2 ^ s) h h = some (h >>> s) := by
  unfold rowIterations
  rw [height_eq_steps hdiv]
  rw [rowLoop_complete _ _ _ _ _ _ (by positivity) _ _ 0 0 0 (steps_le_height _ _)
    (fun _ _ => rfl)]
  rw [accRows_count, Nat.shiftRight_eq_div_pow]
  simp

/-- The value of `subShift` after the buffer overload of `setDistParam`, with
the bit tests of the source. -/
theorem setDistParam_subShift_value (cfg : Config) (rcDP : DistParam) (org : CPelBuf)
    (piRefY : Int → Int) (iRefStride bitDepth : Int) (compID : ComponentID)
    (subShiftMode step : Int) (useHadamard : Bool) :
    (setDistParam cfg rcDP org piRefY iRefStride bitDepth compID subShiftMode step
        useHadamard).subShift
      = if subShiftMode = 1 then
          if org.height > 32 ∧ 16 ∣ org.height then 4
          else if org.height > 16 ∧ 8 ∣ org.height then 3
          else if org.height > 8 ∧ 4 ∣ org.height then 2
          else if 2 ∣ org.height then 1
          else 0
        else if subShiftMode = 2 then
          if org.height > 8 ∧ org.width ≤ 64 then 1 else 0
        else if subShiftMode = 3 then
          if org.height > 8 then 1 else 0
        else 0 := by
  have h16 : org.height &&& 15 = 0 ↔ 16 ∣ org.height := land_eq_zero_iff_dvd org.height 4
  have h8 : org.height &&& 7 = 0 ↔ 8 ∣ org.height := land_eq_zero_iff_dvd org.height 3
  have h4 : org.height &&& 3 = 0 ↔ 4 ∣ org.height := land_eq_zero_iff_dvd org.height 2
  have h2 : org.height &&& 1 = 0 ↔ 2 ∣ org.height := land_eq_zero_iff_dvd org.height 1
  cases useHadamard <;>
    simp only [setDistParam, apply_ite DistParam.subShift, h16, h8, h4, h2, Bool.not_false,
      Bool.not_true, if_true, if_false, Bool.false_eq_true, gt_iff_lt]

/-- The fields of the result of `setDistParam` read by `xGetSAD`. -/
theorem setDistParam_fields (cfg : Config) (rcDP : DistParam) (org : CPelBuf)
    (piRefY : Int → Int) (iRefStride bitDepth : Int) (compID : ComponentID)
    (subShiftMode step : Int) (useHadamard : Bool) :
    (setDistParam cfg rcDP org piRefY iRefStride bitDepth compID subShiftMode step
        useHadamard).org = org ∧
    (setDistParam cfg rcDP org piRefY iRefStride bitDepth compID subShiftMode step
        useHadamard).applyWeight = rcDP.applyWeight ∧
    (setDistParam cfg rcDP org piRefY iRefStride bitDepth compID subShiftMode step
        useHadamard).maximumDistortionForEarlyExit = maxDistortion := by
  refine ⟨?_, ?_, ?_⟩
  · cases useHadamard <;>
      simp only [setDistParam, apply_ite DistParam.org, Bool.not_false, Bool.not_true, if_true,
        if_false, Bool.false_eq_true, ite_self]
  · cases useHadamard <;>
      simp only [setDistParam, apply_ite DistParam.applyWeight, Bool.not_false, Bool.not_true,
        if_true, if_false, Bool.false_eq_true, ite_self]
  · cases useHadamard <;>
      simp only [setDistParam, apply_ite DistParam.maximumDistortionForEarlyExit, Bool.not_false,
        Bool.not_true, if_true, if_false, Bool.false_eq_true, ite_self]

/-- In mode 1 the chosen `subShift` divides the height. -/
theorem setDistParam_mode1_dvd (cfg : Config) (rcDP : DistParam) (org : CPelBuf)
    (piRefY : Int → Int) (iRefStride bitDepth : Int) (compID : ComponentID)
    (step : Int) (useHadamard : Bool) :
    2 ^ (setDistParam cfg rcDP org piRefY iRefStride bitDepth compID 1 step
        useHadamard).subShift ∣ org.height := by
  rw [setDistParam_subShift_value]
  simp only [if_true]
  split_ifs with h1 h2 h3 h4
  · exact h1.2
  · exact h2.2
  · exact h3.2
  · exact h4
  · simp

/-- C37 (as stated) fails in its last clause: in mode 3 a block of height 7 gets
`subShift = 0`, so `2 ^ subShift` divides the height although the height is
odd; the same holds in mode 2. -/
theorem subShift_divides_odd_height :
    (2 ^ (setDistParam cfgFullNBit exampleDistParam (constBuf 0 8 7) (fun _ => 0) 8 8
        ComponentID.COMPONENT_Y 3 1 false).subShift ∣ (constBuf 0 8 7).height
      ∧ ¬ 2 ∣ (constBuf 0 8 7).height) ∧
    (2 ^ (setDistParam cfgFullNBit exampleDistParam (constBuf 0 8 7) (fun _ => 0) 8 8
        ComponentID.COMPONENT_Y 2 1 false).subShift ∣ (constBuf 0 8 7).height
      ∧ ¬ 2 ∣ (constBuf 0 8 7).height) := by
  rw [setDistParam_subShift_value, setDistParam_subShift_value]
  simp only [constBuf]
  decide

/-- C37 (amended): for every height ≥ 1 the `subShift` chosen by `setDistParam`
in mode 1 satisfies `2 ^ subShift ∣ height` and `height >> subShift ≥ 1`; the
loop control of the row kernels then runs exactly `height >> subShift`
iterations, `xGetSAD` on the parameter block returns the sum over exactly these
rows, and for a width ≥ 1 the divisor `cols * (rows >> subShift)` of `xGetMRSAD`
is non-zero.  In mode 2 the divisibility holds exactly when the height is even
or the height is at most 8 or the width exceeds 64, in mode 3 exactly when the
height is even or at most 8. -/
theorem setDistParam_subShift_divides (cfg : Config) (rcDP dp : DistParam) (org : CPelBuf)
    (piRefY : Int → Int) (iRefStride bitDepth : Int) (compID : ComponentID)
    (subShiftMode step : Int) (useHadamard : Bool)
    (hdp : dp = setDistParam cfg rcDP org piRefY iRefStride bitDepth compID subShiftMode step
      useHadamard)
    (hw : 1 ≤ org.width) (hh : 1 ≤ org.height) (hweight : rcDP.applyWeight = false) :
    (subShiftMode = 1 →
      2 ^ dp.subShift ∣ org.height ∧ 1 ≤ org.height >>> dp.subShift
      ∧ rowIterations (2 ^ dp.subShift) org.height org.height
          = some (org.height >>> dp.subShift)
      ∧ xGetSAD cfg dp
          = some (toDistortion
              ((∑ j ∈ Finset.range (org.height >>> dp.subShift),
                  ∑ n ∈ Finset.range org.width,
                    (org.at (j * 2 ^ dp.subShift) n
                      - dp.cur.at (j * 2 ^ dp.subShift) n).natAbs)
                <<< dp.subShift) >>> cfg.DISTORTION_PRECISION_ADJUSTMENT dp.bitDepth)
      ∧ (org.width : Int) * ((org.height : Int) >>> dp.subShift) ≠ 0)
    ∧ (subShiftMode = 2 →
        (2 ^ dp.subShift ∣ org.height ↔ (2 ∣ org.height ∨ org.height ≤ 8 ∨ 64 < org.width)))
    ∧ (subShiftMode = 3 →
        (2 ^ dp.subShift ∣ org.height ↔ (2 ∣ org.height ∨ org.height ≤ 8))) := by
  obtain ⟨horg, happly, hthr⟩ := setDistParam_fields cfg rcDP org piRefY iRefStride bitDepth
    compID subShiftMode step useHadamard
  rw [← hdp] at horg happly hthr
  have hval := setDistParam_subShift_value cfg rcDP org piRefY iRefStride bitDepth compID
    subShiftMode step useHadamard
  rw [← hdp] at hval
  refine ⟨?_, ?_, ?_⟩
  · intro hmode
    have hdiv : 2 ^ dp.subShift ∣ org.height := by
      rw [hdp, hmode]
      exact setDistParam_mode1_dvd cfg rcDP org piRefY iRefStride bitDepth compID step
        useHadamard
    have hsteps : 1 ≤ org.height >>> dp.subShift := by
      rw [Nat.shiftRight_eq_div_pow]
      exact steps_pos hh hdiv
    refine ⟨hdiv, hsteps, rowIterations_of_dvd hdiv, ?_, ?_⟩
    · rw [xGetSAD_closed cfg dp (happly.trans hweight) (by rw [horg]; exact hdiv) hthr, horg]
      simp only [Nat.shiftRight_eq_div_pow]
    · rw [cast_shiftRight, ← Nat.shiftRight_eq_div_pow]
      have : 0 < org.width * (org.height >>> dp.subShift) := Nat.mul_pos hw hsteps
      exact_mod_cast this.ne'
  · intro hmode
    rw [hval, hmode]
    simp only [show ¬ (2 : Int) = 1 by decide, if_false, if_true]
    split_ifs with h1
    · simp only [pow_one]
      constructor
      · intro h; exact Or.inl h
      · intro h; rcases h with h | h | h
        · exact h
        · omega
        · omega
    · simp only [pow_zero, one_dvd, true_iff]
      by_cases h8 : org.height ≤ 8
      · exact Or.inr (Or.inl h8)
      · right; right
        by_contra h64
        exact h1 ⟨by omega, by omega⟩
  · intro hmode
    rw [hval, hmode]
    simp only [show ¬ (3 : Int) = 1 by decide, show ¬ (3 : Int) = 2 by decide, if_false, if_true]
    split_ifs with h1
    · simp only [pow_one]
      constructor
      · intro h; exact Or.inl h
      · intro h; rcases h with h | h
        · exact h
        · omega
    · simp only [pow_zero, one_dvd, true_iff]
      exact Or.inr (by omega)

/-- Witness of `setDistParam_subShift_divides`: mode 1 on a 16×64 block, where
`subShift = 4` and the loop runs `64 >> 4 = 4` iterations. -/
theorem setDistParam_subShift_divides_witness :
    rowIterations
        (2 ^ (setDistParam cfgFullNBit exampleDistParam (constBuf 0 16 64) (fun _ => 0) 16 8
          ComponentID.COMPONENT_Y 1 1 false).subShift) 64 64
      = some (64 >>> (setDistParam cfgFullNBit exampleDistParam (constBuf 0 16 64) (fun _ => 0)
          16 8 ComponentID.COMPONENT_Y 1 1 false).subShift) :=
  ((setDistParam_subShift_divides cfgFullNBit exampleDistParam _ (constBuf 0 16 64)
    (fun _ => 0) 16 8 ComponentID.COMPONENT_Y 1 1 false rfl (by decide) (by decide) rfl).1
      rfl).2.2.1

/-! ## Symmetry of `xGetMRSAD` -/

theorem mrsadRow_swap (org cur : Int → Int) (offset : Int) (cols : Nat) (po pc : Int)
    (s : Nat) :
    mrsadRow cur org (-offset) cols pc po s = mrsadRow org cur offset cols po pc s := by
  unfold mrsadRow
  congr 1
  funext s n
  rw [← Int.natAbs_neg]
  congr 3
  ring

theorem deltaSum_swap (p : DistParam) (hwidth : p.cur.width = p.org.width)
    (hheight : p.cur.height = p.org.height) : deltaSum p.swap = - deltaSum p := by
  simp only [deltaSum, DistParam.swap, hwidth, hheight, ← Finset.sum_neg_distrib, neg_sub]

/-- The mean difference over the visited rows of two blocks of samples in
`[0, 2^bd)` and its negation are both representable as a `Pel` when `bd` is
smaller than the width of `Pel`. -/
theorem isPel_subsampled_mean (pelBits bd : Nat) (p : DistParam) (hbd : bd < pelBits)
    (hw : 1 ≤ p.org.width) (hh : 1 ≤ p.org.height) (hdiv : 2 ^ p.subShift ∣ p.org.height)
    (horg : ∀ r, r < p.org.height → ∀ n, n < p.org.width →
      0 ≤ p.org.at r n ∧ p.org.at r n < 2 ^ bd)
    (hcur : ∀ r, r < p.org.height → ∀ n, n < p.org.width →
      0 ≤ p.cur.at r n ∧ p.cur.at r n < 2 ^ bd) :
    IsPel pelBits (Int.tdiv (deltaSum p)
      ((p.org.width : Int) * ((p.org.height / 2 ^ p.subShift : Nat) : Int))) ∧
    IsPel pelBits (- Int.tdiv (deltaSum p)
      ((p.org.width : Int) * ((p.org.height / 2 ^ p.subShift : Nat) : Int))) := by
  have hpow : (2 : Int) ^ bd ≤ 2 ^ (pelBits - 1) :=
    pow_le_pow_right₀ (by norm_num) (by omega)
  have hN : (0 : Int) < (p.org.width : Int) * ((p.org.height / 2 ^ p.subShift : Nat) : Int) := by
    have : 0 < p.org.width * (p.org.height / 2 ^ p.subShift) :=
      Nat.mul_pos hw (steps_pos hh hdiv)
    exact_mod_cast this
  have hrow : ∀ j, j < p.org.height / 2 ^ p.subShift → j * 2 ^ p.subShift < p.org.height := by
    intro j hj
    calc j * 2 ^ p.subShift < p.org.height / 2 ^ p.subShift * 2 ^ p.subShift :=
          Nat.mul_lt_mul_of_pos_right hj (by positivity)
      _ = p.org.height := Nat.div_mul_cancel hdiv
  have hsum := abs_sum_le_of_bound
    (fun j n => p.org.at (j * 2 ^ p.subShift) n - p.cur.at (j * 2 ^ p.subShift) n) (2 ^ bd - 1)
    (p.org.height / 2 ^ p.subShift) p.org.width (fun j hj n hn => by
      have h1 := horg _ (hrow j hj) n hn
      have h2 := hcur _ (hrow j hj) n hn
      show |p.org.at (j * 2 ^ p.subShift) n - p.cur.at (j * 2 ^ p.subShift) n| ≤ 2 ^ bd - 1
      rw [abs_le]
      constructor <;> linarith [h1.1, h1.2, h2.1, h2.2])
  have hq := abs_tdiv_le hN hsum
  rw [abs_le] at hq
  unfold deltaSum
  constructor <;> constructor <;> linarith [hq.1, hq.2]

/-- With the mean and its negation representable, swapping the two blocks does
not change the result of `xGetMRSAD`. -/
theorem xGetMRSAD_swap (cfg : Config) (p : DistParam) (hbits : 1 ≤ cfg.pelBits)
    (hwidth : p.cur.width = p.org.width) (hheight : p.cur.height = p.org.height)
    (hdiv : 2 ^ p.subShift ∣ p.org.height)
    (hq : IsPel cfg.pelBits (Int.tdiv (deltaSum p)
      ((p.org.width : Int) * ((p.org.height / 2 ^ p.subShift : Nat) : Int))))
    (hnq : IsPel cfg.pelBits (- Int.tdiv (deltaSum p)
      ((p.org.width : Int) * ((p.org.height / 2 ^ p.subShift : Nat) : Int)))) :
    xGetMRSAD cfg p.swap = xGetMRSAD cfg p := by
  have hdiv' : 2 ^ p.swap.subShift ∣ p.swap.org.height := by
    simpa only [DistParam.swap, hheight] using hdiv
  have h1 := deltaPass_complete p.swap hdiv'
  have h2 := deltaPass_complete p hdiv
  rw [deltaSum_swap p hwidth hheight] at h1
  simp only [DistParam.swap, hwidth, hheight] at h1
  simp only [xGetMRSAD, DistParam.swap, hwidth, hheight, h1, h2, cast_shiftRight,
    Int.neg_tdiv, toPel_of_isPel hbits hq, toPel_of_isPel hbits hnq]
  split_ifs with h0
  · rfl
  · exact rowLoop_swap _ _ _ _ _ _ _ (fun po pc a => mrsadRow_swap _ _ _ _ _ _ _) _ _ _ _ _

set_option maxRecDepth 10000 in
/-- C36 (as stated) fails at the edge of the `Pel` range: for the 1×1 blocks
`a = [-32768]` and `b = [0]` with a 16-bit `Pel`, the call with `org = a`
returns 0 and the call with `org = b` returns 65536, because the mean 32768 of
`b - a` wraps to -32768 when it is stored in a `Pel`. -/
theorem xGetMRSAD_not_symmetric_at_pel_edge :
    xGetMRSAD cfgFullNBit (listParam [-32768] [0] 1 1 16 0 maxDistortion) = some 0 ∧
    xGetMRSAD cfgFullNBit (listParam [-32768] [0] 1 1 16 0 maxDistortion).swap
      = some 65536 := by
  constructor <;> decide

/-- C36 (amended): `xGetMRSAD` is symmetric on every pair of blocks of equal
shape (width and height ≥ 1, `2 ^ subShift` dividing the height, any threshold)
whose mean difference over the visited rows, truncated toward zero, and its
negation are both representable as a `Pel`: the call with `org` and `cur`
exchanged returns the same value as the original call, because the truncated
quotient is negated by the exchange and the offset stored in a `Pel` with it. -/
theorem xGetMRSAD_symm (cfg : Config) (p : DistParam) (hbits : 1 ≤ cfg.pelBits)
    (hwidth : p.cur.width = p.org.width) (hheight : p.cur.height = p.org.height)
    (hw : 1 ≤ p.org.width) (hh : 1 ≤ p.org.height) (hdiv : 2 ^ p.subShift ∣ p.org.height)
    (hq : IsPel cfg.pelBits (Int.tdiv (deltaSum p)
      ((p.org.width : Int) * ((p.org.height / 2 ^ p.subShift : Nat) : Int))))
    (hnq : IsPel cfg.pelBits (- Int.tdiv (deltaSum p)
      ((p.org.width : Int) * ((p.org.height / 2 ^ p.subShift : Nat) : Int)))) :
    ∃ v, xGetMRSAD cfg p = some v ∧ xGetMRSAD cfg p.swap = some v := by
  have hswap := xGetMRSAD_swap cfg p hbits hwidth hheight hdiv hq hnq
  have hterm : ∃ v, xGetMRSAD cfg p = some v := by
    have hdivisor : (p.org.width : Int) * ((p.org.height / 2 ^ p.subShift : Nat) : Int) ≠ 0 := by
      have : 0 < p.org.width * (p.org.height / 2 ^ p.subShift) :=
        Nat.mul_pos hw (steps_pos hh hdiv)
      exact_mod_cast this.ne'
    simp only [xGetMRSAD, deltaPass_complete p hdiv, cast_shiftRight, if_neg hdivisor]
    rw [height_eq_steps hdiv]
    exact rowLoop_terminates _ _ _ _ _ _ (by positivity) _ _ _ _ _ (steps_le_height _ _)
  obtain ⟨v, hv⟩ := hterm
  exact ⟨v, hv, by rw [hswap, hv]⟩

/-- Witness of `xGetMRSAD_symm`: a 2×2 block pair at bit depth 8 with
`subShift = 1` and threshold 3; the mean difference over the visited row is -2. -/
theorem xGetMRSAD_symm_witness :
    ∃ v, xGetMRSAD cfgFullNBit (listParam [1, 2, 3, 4] [4, 3, 2, 9] 2 2 8 1 3) = some v ∧
      xGetMRSAD cfgFullNBit (listParam [1, 2, 3, 4] [4, 3, 2, 9] 2 2 8 1 3).swap = some v :=
  xGetMRSAD_symm cfgFullNBit (listParam [1, 2, 3, 4] [4, 3, 2, 9] 2 2 8 1 3) (by decide) rfl rfl
    (by decide) (by decide) (by decide) (by decide) (by decide)

/-! ## `xGetHADs`: the size check -/

theorem foldlM_ok {α β : Type} (f : α → β → Except String α) (l : List β)
    (h : ∀ s x, ∃ s1, f s x = Except.ok s1) : ∀ s, ∃ r, l.foldlM f s = Except.ok r := by
  induction l with
  | nil => intro s; exact ⟨s, rfl⟩
  | cons x xs ih =>
    intro s
    obtain ⟨s1, hs1⟩ := h s x
    rw [List.foldlM_cons, hs1]
    exact ih s1

/-- The tile loops return when every kernel call returns. -/
theorem hadTiles_ok (kernel : Int → Int → Except String Nat) (tw th cols rows : Nat)
    (strideOrg strideCur xStep : Int) (h : ∀ po pc, ∃ v, kernel po pc = Except.ok v) :
    ∃ v, hadTiles kernel tw th cols rows strideOrg strideCur xStep = Except.ok v := by
  unfold hadTiles
  apply foldlM_ok
  intro s ty
  apply foldlM_ok
  intro s tx
  obtain ⟨v, hv⟩ := h ((ty : Int) * (strideOrg * (th : Int)) + ((tx * tw : Nat) : Int))
    ((ty : Int) * (strideCur * (th : Int)) + ((tx * tw : Nat) : Int) * xStep)
  rw [hv]
  exact ⟨_, rfl⟩

theorem xCalcHADs2x2_ok (cfg : Config) (org cur : Int → Int) (so sc po pc : Int) :
    ∃ v, xCalcHADs2x2 cfg org cur po pc so sc 1 = Except.ok v := by
  unfold xCalcHADs2x2
  rw [if_neg (by simp)]
  exact ⟨_, rfl⟩

theorem xCalcHADs4x4_ok (cfg : Config) (org cur : Int → Int) (so sc po pc : Int) :
    ∃ v, xCalcHADs4x4 cfg org cur po pc so sc 1 = Except.ok v := by
  unfold xCalcHADs4x4
  rw [if_neg (by simp)]
  exact ⟨_, rfl⟩

theorem xCalcHADs8x8_ok (cfg : Config) (org cur : Int → Int) (so sc po pc : Int) :
    ∃ v, xCalcHADs8x8 cfg org cur po pc so sc 1 = Except.ok v := by
  unfold xCalcHADs8x8
  rw [if_neg (by simp)]
  exact ⟨_, rfl⟩

theorem shifted_ok (e : Except String Nat) (k : Nat) (h : ∃ v, e = Except.ok v) :
    ∃ v, (match e with
      | Except.error e => Except.error e
      | Except.ok sum => (Except.ok (sum >>> k) : Except String Nat)) = Except.ok v := by
  obtain ⟨v, rfl⟩ := h
  exact ⟨_, rfl⟩

/-- With even width and height `xGetHADs` returns a distortion. -/
theorem xGetHADs_even (cfg : Config) (p : DistParam) (hweight : p.applyWeight = false)
    (hstep : p.step = 1) (hw : p.org.width % 2 = 0) (hh : p.org.height % 2 = 0) :
    ∃ v, xGetHADs cfg p = Except.ok v := by
  simp only [xGetHADs, hweight, hstep, Bool.false_eq_true, if_false]
  apply shifted_ok
  split_ifs
  · exact hadTiles_ok _ _ _ _ _ _ _ _ (fun _ _ => ⟨_, rfl⟩)
  · exact hadTiles_ok _ _ _ _ _ _ _ _ (fun _ _ => ⟨_, rfl⟩)
  · exact hadTiles_ok _ _ _ _ _ _ _ _ (fun _ _ => ⟨_, rfl⟩)
  · exact hadTiles_ok _ _ _ _ _ _ _ _ (fun _ _ => ⟨_, rfl⟩)
  · exact hadTiles_ok _ _ _ _ _ _ _ _ (fun po pc => xCalcHADs8x8_ok cfg _ _ _ _ po pc)
  · exact hadTiles_ok _ _ _ _ _ _ _ _ (fun po pc => xCalcHADs4x4_ok cfg _ _ _ _ po pc)
  · exact hadTiles_ok _ _ _ _ _ _ _ _ (fun po pc => xCalcHADs2x2_ok cfg _ _ _ _ po pc)
  · rename_i hlast
    exact absurd ⟨hh, hw⟩ hlast

/-- With an odd width or an odd height no tiling branch of `xGetHADs` applies. -/
theorem xGetHADs_odd (cfg : Config) (p : DistParam) (hweight : p.applyWeight = false)
    (hodd : ¬ (p.org.width % 2 = 0 ∧ p.org.height % 2 = 0)) :
    xGetHADs cfg p = Except.error "Invalid size" := by
  have r15 : p.org.height &&& 15 = p.org.height % 16 :=
    Nat.and_pow_two_sub_one_eq_mod p.org.height 4
  have r7 : p.org.height &&& 7 = p.org.height % 8 :=
    Nat.and_pow_two_sub_one_eq_mod p.org.height 3
  have r3 : p.org.height &&& 3 = p.org.height % 4 :=
    Nat.and_pow_two_sub_one_eq_mod p.org.height 2
  have c15 : p.org.width &&& 15 = p.org.width % 16 :=
    Nat.and_pow_two_sub_one_eq_mod p.org.width 4
  have c7 : p.org.width &&& 7 = p.org.width % 8 :=
    Nat.and_pow_two_sub_one_eq_mod p.org.width 3
  have c3 : p.org.width &&& 3 = p.org.width % 4 :=
    Nat.and_pow_two_sub_one_eq_mod p.org.width 2
  simp only [xGetHADs, hweight, Bool.false_eq_true, if_false, r15, r7, r3, c15, c7, c3]
  rw [if_neg (by omega), if_neg (by omega), if_neg (by omega), if_neg (by omega),
    if_neg (by omega), if_neg (by omega), if_neg (by omega)]

/-- C32: with `applyWeight = false` and `step = 1`, for every width and height
(in particular for width ≥ 1 and height ≥ 1) `xGetHADs` fails with
"Invalid size" exactly when the width or the height is odd; for every even
width and even height a tiling branch applies and a distortion is returned. -/
theorem xGetHADs_invalid_size (cfg : Config) (p : DistParam) (hweight : p.applyWeight = false)
    (hstep : p.step = 1) :
    (xGetHADs cfg p = Except.error "Invalid size"
      ↔ (p.org.width % 2 = 1 ∨ p.org.height % 2 = 1)) ∧
    (p.org.width % 2 = 0 → p.org.height % 2 = 0 → ∃ v, xGetHADs cfg p = Except.ok v) := by
  refine ⟨⟨?_, ?_⟩, fun h1 h2 => xGetHADs_even cfg p hweight hstep h1 h2⟩
  · intro herr
    by_contra hodd
    obtain ⟨v, hv⟩ := xGetHADs_even cfg p hweight hstep (by omega) (by omega)
    rw [hv] at herr
    cases herr
  · intro hodd
    exact xGetHADs_odd cfg p hweight (by omega)

/-- Witness of `xGetHADs_invalid_size`: a 16×4 block of constant samples. -/
theorem xGetHADs_invalid_size_witness :
    (xGetHADs cfgFullNBit plain16x4 = Except.error "Invalid size"
      ↔ (plain16x4.org.width % 2 = 1 ∨ plain16x4.org.height % 2 = 1)) ∧
    (plain16x4.org.width % 2 = 0 → plain16x4.org.height % 2 = 0 →
      ∃ v, xGetHADs cfgFullNBit plain16x4 = Except.ok v) :=
  xGetHADs_invalid_size cfgFullNBit plain16x4 rfl rfl

/-! ## ALF filter shapes: properties -/

/-- C31: constructing `AlfFilterShape(size)` fails with "Wrong ALF filter shape"
exactly when `size` is none of 5, 7 and `size_CC_ALF` (which is -1); for size 5
it yields `numCoeff = 7` and a pattern of 13 entries, for size 7 `numCoeff = 13`
and a pattern of 25 entries, for `size_CC_ALF` `filterLength = 8` and
`numCoeff = 8`. -/
theorem AlfFilterShape_construct :
    (∀ size : Int, AlfFilterShape.construct size = Except.error "Wrong ALF filter shape"
      ↔ (size ≠ 5 ∧ size ≠ 7 ∧ size ≠ size_CC_ALF)) ∧
    size_CC_ALF = -1 ∧
    (∃ s, AlfFilterShape.construct 5 = Except.ok s ∧ s.numCoeff = 7 ∧ s.pattern.length = 13
      ∧ s.filterLength = 5 ∧ s.filterType = AlfFilterType.ALF_FILTER_5) ∧
    (∃ s, AlfFilterShape.construct 7 = Except.ok s ∧ s.numCoeff = 13 ∧ s.pattern.length = 25
      ∧ s.filterLength = 7 ∧ s.filterType = AlfFilterType.ALF_FILTER_7) ∧
    (∃ s, AlfFilterShape.construct size_CC_ALF = Except.ok s ∧ s.filterLength = 8
      ∧ s.numCoeff = 8 ∧ s.filterType = AlfFilterType.CC_ALF) := by
  refine ⟨?_, rfl, ⟨_, rfl, by decide, rfl, rfl, rfl⟩, ⟨_, rfl, by decide, rfl, rfl, rfl⟩,
    ⟨_, rfl, rfl, rfl, rfl⟩⟩
  intro size
  unfold AlfFilterShape.construct
  by_cases h5 : size = 5
  · simp [h5]
  · by_cases h7 : size = 7
    · simp [h7]
    · by_cases hc : size = size_CC_ALF
      · simp [hc, size_CC_ALF]
      · simp [h5, h7, hc]

/-! ## Hadamard kernels: normalisation -/

theorem rat_floor_eq (q : ℚ) (z : Int) (h1 : (z : ℚ) ≤ q) (h2 : q < (z : ℚ) + 1) :
    Rat.floor q = z := by
  show ⌊q⌋ = z
  rw [Int.floor_eq_iff]
  exact ⟨h1, h2⟩

theorem shiftRight_24_ne_8 (k : Nat) : 24 >>> k ≠ 8 := by
  rw [Nat.shiftRight_eq_div_pow]
  rcases Nat.lt_or_ge k 2 with h | h
  · interval_cases k <;> decide
  · have h4 : 2 ^ 2 ≤ 2 ^ k := Nat.pow_le_pow_right (by norm_num) h
    have : 24 / 2 ^ k ≤ 24 / 2 ^ 2 := Nat.div_le_div_left h4 (by norm_num)
    omega

set_option maxRecDepth 100000 in
/-- C33 (as stated) fails for the 4x8 and 8x4 kernels: on the block pair with
`org = 3` and `cur = 0` everywhere the DC-reduced coefficient sum of either
kernel is 24 and the kernel returns `trunc(24 / sqrt(32) * 2) = 8`, which is not
`24 >> k` for any `k`. -/
theorem hadamard_4x8_8x4_not_shifts :
    dcReducedInt cfgLibm (xCalcHADs4x8_coeff (fun _ => 3) (fun _ => 0) 0 0 4 4 0 0)
        (absSumInt (xCalcHADs4x8_coeff (fun _ => 3) (fun _ => 0) 0 0 4 4) 8 4) = 24 ∧
    xCalcHADs4x8 cfgLibm (fun _ => 3) (fun _ => 0) 0 0 4 4 = 8 ∧
    dcReducedInt cfgLibm (xCalcHADs8x4_coeff (fun _ => 3) (fun _ => 0) 0 0 8 8 0 0)
        (absSumInt (xCalcHADs8x4_coeff (fun _ => 3) (fun _ => 0) 0 0 8 8) 4 8) = 24 ∧
    xCalcHADs8x4 cfgLibm (fun _ => 3) (fun _ => 0) 0 0 8 8 = 8 ∧
    ∀ k : Nat, 24 >>> k ≠ 8 := by
  have hS1 : absSumInt (xCalcHADs4x8_coeff (fun _ => 3) (fun _ => 0) 0 0 4 4) 8 4 = 96 := by
    decide
  have hdc1 : xCalcHADs4x8_coeff (fun _ => 3) (fun _ => 0) 0 0 4 4 0 0 = 96 := by decide
  have hS2 : absSumInt (xCalcHADs8x4_coeff (fun _ => 3) (fun _ => 0) 0 0 8 8) 4 8 = 96 := by
    decide
  have hdc2 : xCalcHADs8x4_coeff (fun _ => 3) (fun _ => 0) 0 0 8 8 0 0 = 96 := by decide
  have hred : dcReducedInt cfgLibm 96 96 = 24 := by
    simp only [dcReducedInt, cfgLibm, cfgFullNBit, if_true]
    decide
  have hnorm : intToDistortion (doubleToInt (((24 : Int) : ℚ) / cfgLibm.sqrt (4 * 8) * 2))
      = 8 := by
    have : doubleToInt (((24 : Int) : ℚ) / cfgLibm.sqrt (4 * 8) * 2) = 8 := by
      simp only [cfgLibm, doubleToInt]
      norm_num
      exact rat_floor_eq _ 8 (by norm_num) (by norm_num)
    rw [this]
    decide
  have h4x8 : xCalcHADs4x8 cfgLibm (fun _ => 3) (fun _ => 0) 0 0 4 4
      = intToDistortion (doubleToInt
          ((dcReducedInt cfgLibm (xCalcHADs4x8_coeff (fun _ => 3) (fun _ => 0) 0 0 4 4 0 0)
            (absSumInt (xCalcHADs4x8_coeff (fun _ => 3) (fun _ => 0) 0 0 4 4) 8 4) : ℚ)
              / cfgLibm.sqrt (4 * 8) * 2)) := rfl
  have h8x4 : xCalcHADs8x4 cfgLibm (fun _ => 3) (fun _ => 0) 0 0 8 8
      = intToDistortion (doubleToInt
          ((dcReducedInt cfgLibm (xCalcHADs8x4_coeff (fun _ => 3) (fun _ => 0) 0 0 8 8 0 0)
            (absSumInt (xCalcHADs8x4_coeff (fun _ => 3) (fun _ => 0) 0 0 8 8) 4 8) : ℚ)
              / cfgLibm.sqrt (4 * 8) * 2)) := rfl
  rw [h4x8, h8x4, hS1, hdc1, hS2, hdc2, hred]
  exact ⟨rfl, hnorm, rfl, hnorm, shiftRight_24_ne_8⟩

/-- C33 (amended): the kernels 16x8 and 8x16 return `trunc(S / sqrt(16*8) * 2)`
and the kernels 8x4 and 4x8 return `trunc(S / sqrt(4*8) * 2)` of the DC-reduced
coefficient sum `S`; the square kernels normalise `S` by a size-dependent
power-of-two right shift: 8x8 returns `(S + 2) >> 2`, 4x4 returns
`(S + 1) >> 1`, and 2x2 applies no shift. -/
theorem hadamard_normalisation (cfg : Config) (org cur : Int → Int)
    (piOrg piCur strideOrg strideCur : Int) :
    xCalcHADs16x8 cfg org cur piOrg piCur strideOrg strideCur
      = intToDistortion (doubleToInt
          ((dcReducedInt cfg (xCalcHADs16x8_coeff org cur piOrg piCur strideOrg strideCur 0 0)
            (absSumInt (xCalcHADs16x8_coeff org cur piOrg piCur strideOrg strideCur) 8 16) : ℚ)
              / cfg.sqrt (16 * 8) * 2)) ∧
    xCalcHADs8x16 cfg org cur piOrg piCur strideOrg strideCur
      = intToDistortion (doubleToInt
          ((dcReducedInt cfg (xCalcHADs8x16_coeff org cur piOrg piCur strideOrg strideCur 0 0)
            (absSumInt (xCalcHADs8x16_coeff org cur piOrg piCur strideOrg strideCur) 16 8) : ℚ)
              / cfg.sqrt (16 * 8) * 2)) ∧
    xCalcHADs8x4 cfg org cur piOrg piCur strideOrg strideCur
      = intToDistortion (doubleToInt
          ((dcReducedInt cfg (xCalcHADs8x4_coeff org cur piOrg piCur strideOrg strideCur 0 0)
            (absSumInt (xCalcHADs8x4_coeff org cur piOrg piCur strideOrg strideCur) 4 8) : ℚ)
              / cfg.sqrt (4 * 8) * 2)) ∧
    xCalcHADs4x8 cfg org cur piOrg piCur strideOrg strideCur
      = intToDistortion (doubleToInt
          ((dcReducedInt cfg (xCalcHADs4x8_coeff org cur piOrg piCur strideOrg strideCur 0 0)
            (absSumInt (xCalcHADs4x8_coeff org cur piOrg piCur strideOrg strideCur) 8 4) : ℚ)
              / cfg.sqrt (4 * 8) * 2)) ∧
    xCalcHADs8x8 cfg org cur piOrg piCur strideOrg strideCur 1
      = Except.ok (toDistortion
          (dcReducedDistortion cfg (xCalcHADs8x8_coeff org cur piOrg piCur strideOrg strideCur 0 0)
            (absSumDistortion (xCalcHADs8x8_coeff org cur piOrg piCur strideOrg strideCur) 8 8)
            + 2) >>> 2) ∧
    xCalcHADs4x4 cfg org cur piOrg piCur strideOrg strideCur 1
      = Except.ok (toDistortion
          (dcReducedDistortion cfg (xCalcHADs4x4_coeff org cur piOrg piCur strideOrg strideCur 0)
            ((List.range 16).foldl (fun (s : Nat) (k : Nat) => toDistortion
              (s + (xCalcHADs4x4_coeff org cur piOrg piCur strideOrg strideCur k).natAbs)) 0)
            + 1) >>> 1) ∧
    xCalcHADs2x2 cfg org cur piOrg piCur strideOrg strideCur 1
      = Except.ok (xCalcHADs2x2_sum cfg org cur piOrg piCur strideOrg strideCur) := by
  refine ⟨rfl, rfl, rfl, rfl, ?_, ?_, ?_⟩
  · simp only [xCalcHADs8x8, ne_eq, not_true_eq_false, if_false]
    rfl
  · simp only [xCalcHADs4x4, ne_eq, not_true_eq_false, if_false]
    rfl
  · simp only [xCalcHADs2x2, xCalcHADs2x2_sum, ne_eq, not_true_eq_false, if_false]
    split_ifs <;> rfl

/-! ## Hadamard kernels on a constant difference -/

theorem xCalcHADs8x8_stage1_const (diff : Nat → Int) (v : Int) (h : ∀ k, k < 64 → diff k = v) :
    ∀ j, j < 8 → ∀ c, c < 8 → xCalcHADs8x8_stage1 diff j c = if c < 4 then 2 * v else 0 := by
  intro j hj c hc
  have hb : j <<< 3 = j * 8 := by simp [Nat.shiftLeft_eq]
  have h0 := h (j * 8) (by omega)
  have h1 := h (j * 8 + 1) (by omega)
  have h2 := h (j * 8 + 2) (by omega)
  have h3 := h (j * 8 + 3) (by omega)
  have h4 := h (j * 8 + 4) (by omega)
  have h5 := h (j * 8 + 5) (by omega)
  have h6 := h (j * 8 + 6) (by omega)
  have h7 := h (j * 8 + 7) (by omega)
  interval_cases c <;> simp [xCalcHADs8x8_stage1, hb, h0, h1, h2, h3, h4, h5, h6, h7, two_mul]

theorem xCalcHADs8x8_stage2_const (m : Nat → Nat → Int) (v : Int)
    (h : ∀ j, j < 8 → ∀ c, c < 8 → m j c = if c < 4 then v else 0) :
    ∀ j, j < 8 → ∀ c, c < 8 → xCalcHADs8x8_stage2 m j c = if c < 2 then 2 * v else 0 := by
  intro j hj c hc
  interval_cases c <;> simp [xCalcHADs8x8_stage2, h j hj, two_mul]

theorem xCalcHADs8x8_stage3_const (m : Nat → Nat → Int) (v : Int)
    (h : ∀ j, j < 8 → ∀ c, c < 8 → m j c = if c < 2 then v else 0) :
    ∀ j, j < 8 → ∀ c, c < 8 → xCalcHADs8x8_stage3 m j c = if c = 0 then 2 * v else 0 := by
  intro j hj c hc
  interval_cases c <;> simp [xCalcHADs8x8_stage3, h j hj, two_mul]

theorem xCalcHADs8x8_stage4_const (m : Nat → Nat → Int) (v : Int)
    (h : ∀ j, j < 8 → ∀ c, c < 8 → m j c = if c = 0 then v else 0) :
    ∀ r, r < 8 → ∀ i, i < 8 →
      xCalcHADs8x8_stage4 m r i = if r < 4 ∧ i = 0 then 2 * v else 0 := by
  intro r hr i hi
  have hcol : ∀ j, j < 8 → m j i = if i = 0 then v else 0 := fun j hj => h j hj i hi
  by_cases h0 : i = 0
  · subst h0
    interval_cases r <;> simp [xCalcHADs8x8_stage4, hcol, two_mul]
  · interval_cases r <;> simp [xCalcHADs8x8_stage4, hcol, h0]

theorem xCalcHADs8x8_stage5_const (m : Nat → Nat → Int) (v : Int)
    (h : ∀ r, r < 8 → ∀ i, i < 8 → m r i = if r < 4 ∧ i = 0 then v else 0) :
    ∀ r, r < 8 → ∀ i, i < 8 →
      xCalcHADs8x8_stage5 m r i = if r < 2 ∧ i = 0 then 2 * v else 0 := by
  intro r hr i hi
  have hcol : ∀ j, j < 8 → m j i = if j < 4 ∧ i = 0 then v else 0 := fun j hj => h j hj i hi
  by_cases h0 : i = 0
  · subst h0
    interval_cases r <;> simp [xCalcHADs8x8_stage5, hcol, two_mul]
  · interval_cases r <;> simp [xCalcHADs8x8_stage5, hcol, h0]

theorem xCalcHADs8x8_stage6_const (m : Nat → Nat → Int) (v : Int)
    (h : ∀ r, r < 8 → ∀ i, i < 8 → m r i = if r < 2 ∧ i = 0 then v else 0) :
    ∀ r, r < 8 → ∀ i, i < 8 →
      xCalcHADs8x8_stage6 m r i = if r = 0 ∧ i = 0 then 2 * v else 0 := by
  intro r hr i hi
  have hcol : ∀ j, j < 8 → m j i = if j < 2 ∧ i = 0 then v else 0 := fun j hj => h j hj i hi
  by_cases h0 : i = 0
  · subst h0
    interval_cases r <;> simp [xCalcHADs8x8_stage6, hcol, two_mul]
  · interval_cases r <;> simp [xCalcHADs8x8_stage6, hcol, h0]

/-- The difference array of a tile on which `org - cur` is `v` everywhere. -/
theorem diffBlock_const (org cur : Int → Int) (po pc so sc : Int) (w : Nat) (hw : 0 < w)
    (v : Int)
    (h : ∀ r, r < w → ∀ n, n < w →
      org (po + (r : Int) * so + (n : Int)) - cur (pc + (r : Int) * sc + (n : Int)) = v) :
    ∀ k, k < w * w → diffBlock org cur po pc so sc w k = v := by
  intro k hk
  unfold diffBlock
  exact h (k / w) (Nat.div_lt_of_lt_mul hk) (k % w) (Nat.mod_lt _ hw)

/-- On a constant difference `v` the only non-zero coefficient of the 8x8
transform is the DC term `64 v`. -/
theorem xCalcHADs8x8_coeff_const (org cur : Int → Int) (po pc so sc : Int) (v : Int)
    (h : ∀ r : Nat, r < 8 → ∀ n : Nat, n < 8 →
      org (po + (r : Int) * so + (n : Int)) - cur (pc + (r : Int) * sc + (n : Int)) = v) :
    ∀ i, i < 8 → ∀ j, j < 8 →
      xCalcHADs8x8_coeff org cur po pc so sc i j = if i = 0 ∧ j = 0 then 64 * v else 0 := by
  have h1 := xCalcHADs8x8_stage1_const _ v (diffBlock_const org cur po pc so sc 8 (by norm_num) v h)
  have h2 := xCalcHADs8x8_stage2_const _ _ h1
  have h3 := xCalcHADs8x8_stage3_const _ _ h2
  have h4 := xCalcHADs8x8_stage4_const _ _ h3
  have h5 := xCalcHADs8x8_stage5_const _ _ h4
  have h6 := xCalcHADs8x8_stage6_const _ _ h5
  intro i hi j hj
  rw [xCalcHADs8x8_coeff, h6 i hi j hj]
  split_ifs <;> ring

theorem absSumDistortion_eq (m2 : Nat → Nat → Int) (rows cols : Nat) :
    absSumDistortion m2 rows cols
      = toDistortion (∑ i ∈ Finset.range rows, ∑ j ∈ Finset.range cols, (m2 i j).natAbs) := by
  unfold absSumDistortion
  rw [foldl_range_wrap_step _ (fun i => ∑ j ∈ Finset.range cols, (m2 i j).natAbs)
    (fun s i hs => foldl_range_wrap (fun j => (m2 i j).natAbs) cols s hs) rows 0 (by positivity)]
  rw [Nat.zero_add]

theorem abs_sum_single (m2 : Nat → Nat → Int) (R C : Nat) (hR : 0 < R) (hC : 0 < C) (d : Int)
    (h : ∀ i, i < R → ∀ j, j < C → m2 i j = if i = 0 ∧ j = 0 then d else 0) :
    ∑ i ∈ Finset.range R, ∑ j ∈ Finset.range C, (m2 i j).natAbs = d.natAbs := by
  rw [Finset.sum_congr rfl (fun i hi => Finset.sum_congr rfl (fun j hj => by
    rw [h i (Finset.mem_range.1 hi) j (Finset.mem_range.1 hj)]))]
  rw [Finset.sum_eq_single 0, Finset.sum_eq_single 0]
  · simp
  · intro j _ hj
    simp [hj]
  · intro h0
    exact absurd (Finset.mem_range.2 hC) h0
  · intro i _ hi
    simp [hi]
  · intro h0
    exact absurd (Finset.mem_range.2 hR) h0

theorem subDistortion_self (a : Nat) (ha : a < 2 ^ 64) : subDistortion a a = 0 := by
  unfold subDistortion
  rw [Nat.mod_eq_of_lt ha]
  have : a + 2 ^ 64 - a = 2 ^ 64 := by omega
  rw [this, Nat.mod_self]

/-- The reduction of a DC term of absolute value `4 k` in a sum that consists of
the DC term alone leaves `k`. -/
theorem dcReducedDistortion_dc (cfg : Config) (hjvet : cfg.JVET_R0164_MEAN_SCALED_SATD = true)
    (dc : Int) (k : Nat) (hdc : dc.natAbs = 4 * k) (hk : 4 * k < 2 ^ 64) :
    dcReducedDistortion cfg dc (4 * k) = k := by
  have habs : |dc| = ((4 * k : Nat) : Int) := by rw [Int.abs_eq_natAbs, hdc]
  have hshift : (|dc| >>> 2).toNat = k := by
    have hcast : ((4 * k : Nat) : Int) >>> (2 : Int) = (((4 * k) >>> 2 : Nat) : Int) := rfl
    rw [habs, hcast, Int.toNat_ofNat, Nat.shiftRight_eq_div_pow]
    omega
  simp only [dcReducedDistortion, hjvet, if_true, hdc, subDistortion_self _ hk, hshift, zero_add]
  exact toDistortion_of_lt (by omega)

/-- `xCalcHADs8x8` on a tile with constant difference `v` returns `4 |v|` under
the mean-scaled DC reduction. -/
theorem xCalcHADs8x8_const (cfg : Config) (hjvet : cfg.JVET_R0164_MEAN_SCALED_SATD = true)
    (org cur : Int → Int) (po pc so sc : Int) (v : Int) (hv : v.natAbs < 2 ^ 32)
    (h : ∀ r : Nat, r < 8 → ∀ n : Nat, n < 8 →
      org (po + (r : Int) * so + (n : Int)) - cur (pc + (r : Int) * sc + (n : Int)) = v) :
    xCalcHADs8x8 cfg org cur po pc so sc 1 = Except.ok (4 * v.natAbs) := by
  have hfold : xCalcHADs8x8 cfg org cur po pc so sc 1
      = Except.ok (toDistortion
          (dcReducedDistortion cfg (xCalcHADs8x8_coeff org cur po pc so sc 0 0)
            (absSumDistortion (xCalcHADs8x8_coeff org cur po pc so sc) 8 8) + 2) >>> 2) := by
    simp only [xCalcHADs8x8, ne_eq, not_true_eq_false, if_false]
    rfl
  have hc := xCalcHADs8x8_coeff_const org cur po pc so sc v h
  have hn : (64 * v).natAbs = 4 * (16 * v.natAbs) := by
    rw [Int.natAbs_mul, show (64 : Int).natAbs = 64 from rfl]
    ring
  have h00 : xCalcHADs8x8_coeff org cur po pc so sc 0 0 = 64 * v := by
    rw [hc 0 (by norm_num) 0 (by norm_num)]
    simp
  rw [hfold, absSumDistortion_eq, abs_sum_single _ 8 8 (by norm_num) (by norm_num) (64 * v) hc,
    h00, hn, toDistortion_of_lt (show 4 * (16 * v.natAbs) < 2 ^ 64 by omega),
    dcReducedDistortion_dc cfg hjvet (64 * v) (16 * v.natAbs) hn (by omega),
    toDistortion_of_lt (show 16 * v.natAbs + 2 < 2 ^ 64 by omega), Nat.shiftRight_eq_div_pow]
  exact congrArg Except.ok (by omega)

theorem xCalcHADs4x4_stage1_const (diff : Nat → Int) (v : Int) (h : ∀ k, k < 16 → diff k = v) :
    ∀ k, k < 16 → xCalcHADs4x4_stage1 diff k = if k < 8 then 2 * v else 0 := by
  intro k hk
  interval_cases k <;> simp [xCalcHADs4x4_stage1, h, two_mul]

theorem xCalcHADs4x4_stage2_const (m : Nat → Int) (v : Int)
    (h : ∀ k, k < 16 → m k = if k < 8 then v else 0) :
    ∀ k, k < 16 → xCalcHADs4x4_stage2 m k = if k < 4 then 2 * v else 0 := by
  intro k hk
  interval_cases k <;> simp [xCalcHADs4x4_stage2, h, two_mul]

theorem xCalcHADs4x4_stage3_const (d : Nat → Int) (v : Int)
    (h : ∀ k, k < 16 → d k = if k < 4 then v else 0) :
    ∀ k, k < 16 → xCalcHADs4x4_stage3 d k = if k < 2 then 2 * v else 0 := by
  intro k hk
  interval_cases k <;> simp [xCalcHADs4x4_stage3, h, two_mul]

theorem xCalcHADs4x4_stage4_const (m : Nat → Int) (v : Int)
    (h : ∀ k, k < 16 → m k = if k < 2 then v else 0) :
    ∀ k, k < 16 → xCalcHADs4x4_stage4 m k = if k = 0 then 2 * v else 0 := by
  intro k hk
  interval_cases k <;> simp [xCalcHADs4x4_stage4, h, two_mul]

/-- On a constant difference `v` the only non-zero coefficient of the 4x4
transform is the DC term `16 v`. -/
theorem xCalcHADs4x4_coeff_const (org cur : Int → Int) (po pc so sc : Int) (v : Int)
    (h : ∀ r : Nat, r < 4 → ∀ n : Nat, n < 4 →
      org (po + (r : Int) * so + (n : Int)) - cur (pc + (r : Int) * sc + (n : Int)) = v) :
    ∀ k, k < 16 → xCalcHADs4x4_coeff org cur po pc so sc k = if k = 0 then 16 * v else 0 := by
  have h1 := xCalcHADs4x4_stage1_const _ v (diffBlock_const org cur po pc so sc 4 (by norm_num) v h)
  have h2 := xCalcHADs4x4_stage2_const _ _ h1
  have h3 := xCalcHADs4x4_stage3_const _ _ h2
  have h4 := xCalcHADs4x4_stage4_const _ _ h3
  intro k hk
  rw [xCalcHADs4x4_coeff, h4 k hk]
  split_ifs <;> ring

/-- `xCalcHADs4x4` on a tile with constant difference `v` returns `2 |v|` under
the mean-scaled DC reduction. -/
theorem xCalcHADs4x4_const (cfg : Config) (hjvet : cfg.JVET_R0164_MEAN_SCALED_SATD = true)
    (org cur : Int → Int) (po pc so sc : Int) (v : Int) (hv : v.natAbs < 2 ^ 32)
    (h : ∀ r : Nat, r < 4 → ∀ n : Nat, n < 4 →
      org (po + (r : Int) * so + (n : Int)) - cur (pc + (r : Int) * sc + (n : Int)) = v) :
    xCalcHADs4x4 cfg org cur po pc so sc 1 = Except.ok (2 * v.natAbs) := by
  have hfold : xCalcHADs4x4 cfg org cur po pc so sc 1
      = Except.ok (toDistortion
          (dcReducedDistortion cfg (xCalcHADs4x4_coeff org cur po pc so sc 0)
            ((List.range 16).foldl (fun (s : Nat) (k : Nat) => toDistortion
              (s + (xCalcHADs4x4_coeff org cur po pc so sc k).natAbs)) 0) + 1) >>> 1) := by
    simp only [xCalcHADs4x4, ne_eq, not_true_eq_false, if_false]
    rfl
  have hc := xCalcHADs4x4_coeff_const org cur po pc so sc v h
  have hn : (16 * v).natAbs = 4 * (4 * v.natAbs) := by
    rw [Int.natAbs_mul, show (16 : Int).natAbs = 16 from rfl]
    ring
  have h00 : xCalcHADs4x4_coeff org cur po pc so sc 0 = 16 * v := by
    rw [hc 0 (by norm_num)]
    simp
  have hsum : ∑ k ∈ Finset.range 16, (xCalcHADs4x4_coeff org cur po pc so sc k).natAbs
      = (16 * v).natAbs := by
    rw [Finset.sum_congr rfl (fun k hk => by rw [hc k (Finset.mem_range.1 hk)])]
    rw [Finset.sum_eq_single 0]
    · simp
    · intro k _ hk
      simp [hk]
    · intro h0
      exact absurd (Finset.mem_range.2 (by norm_num)) h0
  have hfoldl : (List.range 16).foldl (fun (s : Nat) (k : Nat) => toDistortion
      (s + (xCalcHADs4x4_coeff org cur po pc so sc k).natAbs)) 0
      = toDistortion (0 + ∑ k ∈ Finset.range 16,
          (xCalcHADs4x4_coeff org cur po pc so sc k).natAbs) :=
    foldl_range_wrap (fun k => (xCalcHADs4x4_coeff org cur po pc so sc k).natAbs) 16 0
      (by positivity)
  rw [hfold, hfoldl, Nat.zero_add, hsum, h00, hn,
    toDistortion_of_lt (show 4 * (4 * v.natAbs) < 2 ^ 64 by omega),
    dcReducedDistortion_dc cfg hjvet (16 * v) (4 * v.natAbs) hn (by omega),
    toDistortion_of_lt (show 4 * v.natAbs + 1 < 2 ^ 64 by omega), Nat.shiftRight_eq_div_pow]
  exact congrArg Except.ok (by omega)

/-- `xCalcHADs2x2` on a tile with constant difference `v` returns `|v|` under the
mean-scaled DC reduction. -/
theorem xCalcHADs2x2_const (cfg : Config) (hjvet : cfg.JVET_R0164_MEAN_SCALED_SATD = true)
    (org cur : Int → Int) (po pc so sc : Int) (v : Int) (hv : v.natAbs < 2 ^ 32)
    (h : ∀ r : Nat, r < 2 → ∀ n : Nat, n < 2 →
      org (po + (r : Int) * so + (n : Int)) - cur (pc + (r : Int) * sc + (n : Int)) = v) :
    xCalcHADs2x2 cfg org cur po pc so sc 1 = Except.ok v.natAbs := by
  have e0 : org (po + 0) - cur (pc + 0) = v := by
    have := h 0 (by norm_num) 0 (by norm_num)
    simpa using this
  have e1 : org (po + 1) - cur (pc + 1) = v := by
    have := h 0 (by norm_num) 1 (by norm_num)
    simpa using this
  have e2 : org (po + so) - cur (pc + (0 + sc)) = v := by
    have := h 1 (by norm_num) 0 (by norm_num)
    simpa using this
  have e3 : org (po + (so + 1)) - cur (pc + (1 + sc)) = v := by
    have := h 1 (by norm_num) 1 (by norm_num)
    rw [show po + ((1 : Nat) : Int) * so + ((1 : Nat) : Int) = po + (so + 1) by push_cast; ring,
      show pc + ((1 : Nat) : Int) * sc + ((1 : Nat) : Int) = pc + (1 + sc) by push_cast; ring]
      at this
    exact this
  have habs : |v + v + (v + v)| = ((4 * v.natAbs : Nat) : Int) := by
    rw [show v + v + (v + v) = 4 * v by ring, Int.abs_eq_natAbs, Int.natAbs_mul]
    rfl
  have hcast : ((4 * v.natAbs : Nat) : Int) >>> (2 : Int) = (((4 * v.natAbs) >>> 2 : Nat) : Int) :=
    rfl
  have hshift : (4 * v.natAbs) >>> 2 = v.natAbs := by
    rw [Nat.shiftRight_eq_div_pow]
    omega
  simp only [xCalcHADs2x2, ne_eq, not_true_eq_false, if_false, hjvet, if_true, e0, e1, e2, e3]
  simp only [habs, hcast, hshift, Int.toNat_ofNat, sub_self, add_zero, Int.natAbs_zero, zero_add]
  simp only [toDistortion_of_lt (show v.natAbs < 2 ^ 64 by omega)]

theorem foldlM_range_const (f : Nat → Nat → Except String Nat) (n v : Nat)
    (h : ∀ s k, k < n → s < 2 ^ 64 → f s k = Except.ok (toDistortion (s + v))) :
    ∀ s, s < 2 ^ 64 → (List.range n).foldlM f s = Except.ok (toDistortion (s + n * v)) := by
  induction n with
  | zero =>
    intro s hs
    simp [toDistortion_of_lt hs]
    rfl
  | succ n ih =>
    intro s hs
    rw [List.range_succ, List.foldlM_append,
      ih (fun s k hk hs => h s k (Nat.lt_succ_of_lt hk) hs) s hs]
    show List.foldlM f (toDistortion (s + n * v)) [n] = _
    rw [List.foldlM_cons, h _ n (Nat.lt_succ_self n) (toDistortion_lt _)]
    show Except.ok (toDistortion (toDistortion (s + n * v) + v)) = _
    rw [toDistortion_add_left, Nat.add_assoc, Nat.succ_mul]

/-- The tile loops over kernels that all return `v`. -/
theorem hadTiles_const (kernel : Int → Int → Except String Nat) (tw th cols rows : Nat)
    (strideOrg strideCur xStep : Int) (v : Nat)
    (h : ∀ ty, ty < (rows + th - 1) / th → ∀ tx, tx < (cols + tw - 1) / tw →
      kernel ((ty : Int) * (strideOrg * (th : Int)) + ((tx * tw : Nat) : Int))
        ((ty : Int) * (strideCur * (th : Int)) + ((tx * tw : Nat) : Int) * xStep)
        = Except.ok v) :
    hadTiles kernel tw th cols rows strideOrg strideCur xStep
      = Except.ok (toDistortion (((rows + th - 1) / th) * (((cols + tw - 1) / tw) * v))) := by
  unfold hadTiles
  rw [foldlM_range_const _ ((rows + th - 1) / th) (((cols + tw - 1) / tw) * v) _ 0
    (by positivity), Nat.zero_add]
  intro s ty hty hs
  rw [foldlM_range_const _ ((cols + tw - 1) / tw) v _ s hs]
  intro s1 tx htx _
  rw [h ty hty tx htx]

/-- `xGetHADs` on a square block whose side is a multiple of 8 and on which
`org - cur` is `c` everywhere. -/
theorem xGetHADs_const (cfg : Config) (p : DistParam) (c : Int)
    (hweight : p.applyWeight = false) (hstep : p.step = 1)
    (hjvet : cfg.JVET_R0164_MEAN_SCALED_SATD = true)
    (hsquare : p.org.height = p.org.width) (h8 : p.org.width % 8 = 0)
    (hc : c.natAbs < 2 ^ 32) (hwrap : p.org.width * p.org.width / 16 * c.natAbs < 2 ^ 64)
    (hconst : ∀ r : Nat, r < p.org.width → ∀ n : Nat, n < p.org.width →
      p.org.at r n - p.cur.at r n = c) :
    xGetHADs cfg p
      = Except.ok ((p.org.width * p.org.width / 16 * c.natAbs)
          >>> cfg.DISTORTION_PRECISION_ADJUSTMENT p.bitDepth) := by
  obtain ⟨m, hm⟩ : ∃ m, p.org.width = 8 * m := ⟨p.org.width / 8, by omega⟩
  have htiles : (p.org.width + 8 - 1) / 8 = m := by omega
  have hkernel : ∀ ty, ty < (p.org.width + 8 - 1) / 8 → ∀ tx, tx < (p.org.width + 8 - 1) / 8 →
      xCalcHADs8x8 cfg p.org.buf p.cur.buf
        ((ty : Int) * (p.org.stride * ((8 : Nat) : Int)) + ((tx * 8 : Nat) : Int))
        ((ty : Int) * (p.cur.stride * ((8 : Nat) : Int)) + ((tx * 8 : Nat) : Int) * 1)
        p.org.stride p.cur.stride 1 = Except.ok (4 * c.natAbs) := by
    intro ty hty tx htx
    apply xCalcHADs8x8_const cfg hjvet _ _ _ _ _ _ c hc
    intro r hr n hn
    have hb := hconst (ty * 8 + r) (by omega) (tx * 8 + n) (by omega)
    simp only [CPelBuf.at] at hb
    rw [← hb]
    congr 2 <;> (push_cast; ring)
  have hsum : m * (m * (4 * c.natAbs)) = p.org.width * p.org.width / 16 * c.natAbs := by
    have : p.org.width * p.org.width / 16 = 4 * (m * m) := by
      rw [hm]
      have : 8 * m * (8 * m) = 16 * (4 * (m * m)) := by ring
      rw [this, Nat.mul_div_cancel_left _ (by norm_num)]
    rw [this]
    ring
  have htile := hadTiles_const
    (fun piOrg piCur =>
      xCalcHADs8x8 cfg p.org.buf p.cur.buf piOrg piCur p.org.stride p.cur.stride 1)
    8 8 p.org.width p.org.width p.org.stride p.cur.stride 1 (4 * c.natAbs) hkernel
  rw [htiles, hsum, toDistortion_of_lt hwrap] at htile
  simp only [xGetHADs, hweight, hstep, hsquare, Bool.false_eq_true, if_false, gt_iff_lt,
    lt_self_iff_false, false_and, h8, and_self, if_true, htile]

/-- C35: if `org - cur` is the same constant `c` at every sample of a square
block whose side `N` is a positive multiple of 8, then every non-DC coefficient
of the 8x8 and 4x4 transforms is 0 and the DC coefficient is `c` times the
number of samples (`64 c`, `16 c`); with the mean-scaled DC reduction
`xCalcHADs2x2` returns `|c|`, `xCalcHADs4x4` returns `2 |c|` and `xCalcHADs8x8`
returns `4 |c|` (on the tiles at the block origin), and `xGetHADs` returns
`((N * N / 16) * |c|) >> DISTORTION_PRECISION_ADJUSTMENT(bitDepth)`. -/
theorem hadamard_constant_difference (cfg : Config) (p : DistParam) (c : Int)
    (hweight : p.applyWeight = false) (hstep : p.step = 1)
    (hjvet : cfg.JVET_R0164_MEAN_SCALED_SATD = true)
    (hsquare : p.org.height = p.org.width) (h8 : p.org.width % 8 = 0)
    (hpos : 0 < p.org.width)
    (hc : c.natAbs < 2 ^ 32) (hwrap : p.org.width * p.org.width / 16 * c.natAbs < 2 ^ 64)
    (hconst : ∀ r : Nat, r < p.org.width → ∀ n : Nat, n < p.org.width →
      p.org.at r n - p.cur.at r n = c) :
    (∀ i, i < 8 → ∀ j, j < 8 →
      xCalcHADs8x8_coeff p.org.buf p.cur.buf 0 0 p.org.stride p.cur.stride i j
        = if i = 0 ∧ j = 0 then 64 * c else 0) ∧
    (∀ k, k < 16 →
      xCalcHADs4x4_coeff p.org.buf p.cur.buf 0 0 p.org.stride p.cur.stride k
        = if k = 0 then 16 * c else 0) ∧
    xCalcHADs2x2 cfg p.org.buf p.cur.buf 0 0 p.org.stride p.cur.stride 1
      = Except.ok c.natAbs ∧
    xCalcHADs4x4 cfg p.org.buf p.cur.buf 0 0 p.org.stride p.cur.stride 1
      = Except.ok (2 * c.natAbs) ∧
    xCalcHADs8x8 cfg p.org.buf p.cur.buf 0 0 p.org.stride p.cur.stride 1
      = Except.ok (4 * c.natAbs) ∧
    xGetHADs cfg p
      = Except.ok ((p.org.width * p.org.width / 16 * c.natAbs)
          >>> cfg.DISTORTION_PRECISION_ADJUSTMENT p.bitDepth) := by
  have htile : ∀ w : Nat, w ≤ 8 → ∀ r : Nat, r < w → ∀ n : Nat, n < w →
      p.org.buf (0 + (r : Int) * p.org.stride + (n : Int))
        - p.cur.buf (0 + (r : Int) * p.cur.stride + (n : Int)) = c := by
    intro w hw r hr n hn
    have hb := hconst r (by omega) n (by omega)
    simp only [CPelBuf.at] at hb
    rw [zero_add, zero_add]
    exact hb
  exact ⟨xCalcHADs8x8_coeff_const _ _ _ _ _ _ c (htile 8 (by norm_num)),
    xCalcHADs4x4_coeff_const _ _ _ _ _ _ c (htile 4 (by norm_num)),
    xCalcHADs2x2_const cfg hjvet _ _ _ _ _ _ c hc (htile 2 (by norm_num)),
    xCalcHADs4x4_const cfg hjvet _ _ _ _ _ _ c hc (htile 4 (by norm_num)),
    xCalcHADs8x8_const cfg hjvet _ _ _ _ _ _ c hc (htile 8 (by norm_num)),
    xGetHADs_const cfg p c hweight hstep hjvet hsquare h8 hc hwrap hconst⟩

/-- Witness of `hadamard_constant_difference`: the 8×8 block pair with
`cur = org + 7`, for which `xGetHADs` returns `(64 / 16) * 7 = 28`. -/
theorem hadamard_constant_difference_witness :
    xGetHADs cfgFullNBit shifted8x8 = Except.ok 28 :=
  ((hadamard_constant_difference cfgFullNBit shifted8x8 (-7) rfl rfl rfl rfl (by decide)
    (by decide) (by decide) (by decide) (by decide)).2.2.2.2.2).trans
      (congrArg Except.ok (by decide))

/-! ## Head-room of the `Distortion` accumulator -/

theorem nat_sum_le_of_bound (f : Nat → Nat → Nat) (B a b : Nat)
    (hf : ∀ r, r < a → ∀ n, n < b → f r n ≤ B) :
    ∑ r ∈ Finset.range a, ∑ n ∈ Finset.range b, f r n ≤ a * (b * B) := by
  calc ∑ r ∈ Finset.range a, ∑ n ∈ Finset.range b, f r n
      ≤ ∑ _r ∈ Finset.range a, b * B := by
        apply Finset.sum_le_sum
        intro r hr
        calc ∑ n ∈ Finset.range b, f r n ≤ ∑ _n ∈ Finset.range b, B :=
              Finset.sum_le_sum (fun n hn =>
                hf r (Finset.mem_range.1 hr) n (Finset.mem_range.1 hn))
          _ = b * B := by simp
    _ = a * (b * B) := by simp

/-- A difference of two samples in `[0, 2^16)`: absolute value and square. -/
theorem sample_difference_bounds {a b : Int} (ha : 0 ≤ a ∧ a < 2 ^ 16) (hb : 0 ≤ b ∧ b < 2 ^ 16)
    (shift : Nat) :
    |a - b| ≤ 2 ^ 16 - 1 ∧ (a - b).natAbs ≤ 2 ^ 16 - 1 ∧ |(a - b) * (a - b)| ≤ (2 ^ 16 - 1) ^ 2
      ∧ (((a - b) * (a - b)) >>> shift).toNat ≤ (2 ^ 16 - 1) ^ 2 := by
  have h1 : |a - b| ≤ 2 ^ 16 - 1 := by
    rw [abs_le]
    constructor <;> linarith [ha.1, ha.2, hb.1, hb.2]
  have h2 : (a - b) * (a - b) ≤ (2 ^ 16 - 1) ^ 2 := by
    have := abs_le.1 h1
    nlinarith [this.1, this.2]
  have h3 : 0 ≤ (a - b) * (a - b) := mul_self_nonneg _
  have h4 : ((a - b) * (a - b)) >>> shift ≤ (a - b) * (a - b) := by
    rw [Int.shiftRight_eq_div_pow]
    exact Int.ediv_le_self _ h3
  refine ⟨h1, ?_, ?_, ?_⟩
  · have := abs_le.1 h1
    omega
  · rw [abs_of_nonneg h3]
    exact h2
  · have h5 : (((a - b) * (a - b)) >>> shift).toNat ≤ ((a - b) * (a - b)).toNat :=
      Int.toNat_le_toNat h4
    have h6 : ((a - b) * (a - b)).toNat ≤ (2 ^ 16 - 1) ^ 2 := by
      have : ((2 ^ 16 - 1) ^ 2 : Int) = (((2 ^ 16 - 1) ^ 2 : Nat) : Int) := by norm_num
      rw [this] at h2
      omega
    exact h5.trans h6

/-- `xGetSSE16N` on a width that is a multiple of 16. -/
theorem xGetSSE16N_closed (cfg : Config) (p : DistParam) (hw : p.applyWeight = false)
    (h16 : 16 ∣ p.org.width) :
    xGetSSE16N cfg p
      = some (toDistortion (∑ r ∈ Finset.range p.org.height, ∑ n ∈ Finset.range p.org.width,
          (((p.org.at r n - p.cur.at r n) * (p.org.at r n - p.cur.at r n))
            >>> (cfg.DISTORTION_PRECISION_ADJUSTMENT p.bitDepth <<< 1)).toNat)) := by
  simp only [xGetSSE16N, hw, Bool.false_eq_true, if_false]
  rw [sseLoop_wrap _ _ (sseRow16N_eq p.org.buf p.cur.buf _ p.org.width) _ _ _ 0 0 0
    (by norm_num)]
  have hcols : 16 * ((p.org.width + 15) / 16) = p.org.width := by
    obtain ⟨c, hc⟩ := h16
    omega
  congr 2
  rw [Nat.zero_add]
  apply Finset.sum_congr rfl
  intro j _
  rw [sum_blocks16 (fun n =>
    (((p.org.buf ((0 : Int) + (j : Int) * p.org.stride + (n : Int))
        - p.cur.buf ((0 : Int) + (j : Int) * p.cur.stride + (n : Int)))
      * (p.org.buf ((0 : Int) + (j : Int) * p.org.stride + (n : Int))
        - p.cur.buf ((0 : Int) + (j : Int) * p.cur.stride + (n : Int))))
        >>> (cfg.DISTORTION_PRECISION_ADJUSTMENT p.bitDepth <<< 1)).toNat), hcols]
  apply Finset.sum_congr rfl
  intro n _
  simp only [CPelBuf.at]
  congr 3 <;> congr 2 <;> ring

/-- C34: for a 64×64 block pair with samples in `[0, 2^16)` the exact sum of
squared differences is at most `4096 * (2^16 - 1)^2 < 2^44` and the exact sum of
absolute differences is below `2^28`, also over any number of visited rows after
the `<< subShift` compensation with `subShift ≤ 4`; hence the `Distortion`
accumulator does not wrap: `xGetSSE`, `xGetSSE64`, `xGetSSE16N`, and (with the
threshold that `setDistParam` stores) `xGetSAD`, `xGetSAD64`, `xGetSAD16N`
return the exact sums. -/
theorem accumulator_does_not_wrap (cfg : Config) (p : DistParam)
    (hweight : p.applyWeight = false) (hw : p.org.width = 64) (hh : p.org.height = 64)
    (hs : p.subShift ≤ 4) (ht : p.maximumDistortionForEarlyExit = maxDistortion)
    (horg : ∀ r, r < 64 → ∀ n, n < 64 → 0 ≤ p.org.at r n ∧ p.org.at r n < 2 ^ 16)
    (hcur : ∀ r, r < 64 → ∀ n, n < 64 → 0 ≤ p.cur.at r n ∧ p.cur.at r n < 2 ^ 16) :
    (∑ r ∈ Finset.range 64, ∑ n ∈ Finset.range 64,
        (p.org.at r n - p.cur.at r n) * (p.org.at r n - p.cur.at r n)
      ≤ 4096 * (2 ^ 16 - 1) ^ 2) ∧
    ((4096 * (2 ^ 16 - 1) ^ 2 : Int) < 2 ^ 44) ∧
    (∑ r ∈ Finset.range 64, ∑ n ∈ Finset.range 64, |p.org.at r n - p.cur.at r n| < 2 ^ 28) ∧
    (∀ m, m ≤ 64 / 2 ^ p.subShift → absDiffSum p 0 m <<< p.subShift < 2 ^ 28) ∧
    xGetSSE cfg p
      = some (∑ r ∈ Finset.range 64, ∑ n ∈ Finset.range 64,
          (((p.org.at r n - p.cur.at r n) * (p.org.at r n - p.cur.at r n))
            >>> (cfg.DISTORTION_PRECISION_ADJUSTMENT p.bitDepth <<< 1)).toNat) ∧
    xGetSSE64 cfg p = Except.ok (xGetSSE cfg p) ∧
    xGetSSE16N cfg p = xGetSSE cfg p ∧
    xGetSAD cfg p
      = some (((∑ j ∈ Finset.range (64 / 2 ^ p.subShift), ∑ n ∈ Finset.range 64,
            (p.org.at (j * 2 ^ p.subShift) n - p.cur.at (j * 2 ^ p.subShift) n).natAbs)
          <<< p.subShift) >>> cfg.DISTORTION_PRECISION_ADJUSTMENT p.bitDepth) ∧
    xGetSAD64 cfg p = xGetSAD cfg p ∧
    xGetSAD16N cfg p = xGetSAD cfg p := by
  have hdiv64 : 2 ^ p.subShift ∣ 64 := by
    have : (64 : Nat) = 2 ^ 6 := by norm_num
    rw [this]
    exact pow_dvd_pow 2 (by omega)
  have hdiv : 2 ^ p.subShift ∣ p.org.height := by rw [hh]; exact hdiv64
  have hpt := fun r (hr : r < 64) n (hn : n < 64) =>
    sample_difference_bounds (horg r hr n hn) (hcur r hr n hn)
      (cfg.DISTORTION_PRECISION_ADJUSTMENT p.bitDepth <<< 1)
  have hrow : ∀ j, j < 64 / 2 ^ p.subShift → j * 2 ^ p.subShift < 64 := by
    intro j hj
    calc j * 2 ^ p.subShift < 64 / 2 ^ p.subShift * 2 ^ p.subShift :=
          Nat.mul_lt_mul_of_pos_right hj (by positivity)
      _ = 64 := Nat.div_mul_cancel hdiv64
  -- the sums of the kernels
  have hsse : ∑ r ∈ Finset.range 64, ∑ n ∈ Finset.range 64,
      (((p.org.at r n - p.cur.at r n) * (p.org.at r n - p.cur.at r n))
        >>> (cfg.DISTORTION_PRECISION_ADJUSTMENT p.bitDepth <<< 1)).toNat < 2 ^ 64 := by
    have := nat_sum_le_of_bound (fun r n =>
      (((p.org.at r n - p.cur.at r n) * (p.org.at r n - p.cur.at r n))
        >>> (cfg.DISTORTION_PRECISION_ADJUSTMENT p.bitDepth <<< 1)).toNat) ((2 ^ 16 - 1) ^ 2)
      64 64 (fun r hr n hn => (hpt r hr n hn).2.2.2)
    exact lt_of_le_of_lt this (by norm_num)
  have hprefix : ∀ m, m ≤ 64 / 2 ^ p.subShift → absDiffSum p 0 m <<< p.subShift < 2 ^ 28 := by
    intro m hm
    have hb := nat_sum_le_of_bound (fun j n =>
      (p.org.at (j * 2 ^ p.subShift) n - p.cur.at (j * 2 ^ p.subShift) n - 0).natAbs)
      (2 ^ 16 - 1) m 64 (fun j hj n hn => by
        show (p.org.at (j * 2 ^ p.subShift) n - p.cur.at (j * 2 ^ p.subShift) n - 0).natAbs
          ≤ 2 ^ 16 - 1
        rw [sub_zero]
        exact (hpt _ (hrow j (lt_of_lt_of_le hj hm)) n hn).2.1)
    have hm64 : m * 2 ^ p.subShift ≤ 64 := by
      calc m * 2 ^ p.subShift ≤ 64 / 2 ^ p.subShift * 2 ^ p.subShift :=
            Nat.mul_le_mul_right _ hm
        _ = 64 := Nat.div_mul_cancel hdiv64
    unfold absDiffSum
    rw [hw, Nat.shiftLeft_eq]
    calc (∑ j ∈ Finset.range m, ∑ n ∈ Finset.range 64,
          (p.org.at (j * 2 ^ p.subShift) n - p.cur.at (j * 2 ^ p.subShift) n - 0).natAbs)
          * 2 ^ p.subShift
        ≤ m * (64 * (2 ^ 16 - 1)) * 2 ^ p.subShift := Nat.mul_le_mul_right _ hb
      _ = m * 2 ^ p.subShift * (64 * (2 ^ 16 - 1)) := by ring
      _ ≤ 64 * (64 * (2 ^ 16 - 1)) := Nat.mul_le_mul_right _ hm64
      _ < 2 ^ 28 := by norm_num
  have hsad : (∑ j ∈ Finset.range (64 / 2 ^ p.subShift), ∑ n ∈ Finset.range 64,
      (p.org.at (j * 2 ^ p.subShift) n - p.cur.at (j * 2 ^ p.subShift) n).natAbs)
        <<< p.subShift < 2 ^ 64 := by
    have := hprefix (64 / 2 ^ p.subShift) le_rfl
    simp only [absDiffSum, hw, sub_zero] at this
    exact lt_trans this (by norm_num)
  have e1 : xGetSSE cfg p
      = some (∑ r ∈ Finset.range 64, ∑ n ∈ Finset.range 64,
          (((p.org.at r n - p.cur.at r n) * (p.org.at r n - p.cur.at r n))
            >>> (cfg.DISTORTION_PRECISION_ADJUSTMENT p.bitDepth <<< 1)).toNat) := by
    rw [xGetSSE_closed cfg p hweight, hh, hw, toDistortion_of_lt hsse]
  have e2 : xGetSAD cfg p
      = some (((∑ j ∈ Finset.range (64 / 2 ^ p.subShift), ∑ n ∈ Finset.range 64,
            (p.org.at (j * 2 ^ p.subShift) n - p.cur.at (j * 2 ^ p.subShift) n).natAbs)
          <<< p.subShift) >>> cfg.DISTORTION_PRECISION_ADJUSTMENT p.bitDepth) := by
    rw [xGetSAD_closed cfg p hweight hdiv ht, hh, hw, toDistortion_of_lt hsad]
  refine ⟨?_, by norm_num, ?_, hprefix, e1, ?_, ?_, e2, ?_, ?_⟩
  · have := abs_sum_le_of_bound
      (fun r n => (p.org.at r n - p.cur.at r n) * (p.org.at r n - p.cur.at r n))
      ((2 ^ 16 - 1) ^ 2) 64 64 (fun r hr n hn => (hpt r hr n hn).2.2.1)
    have h2 := (abs_le.1 this).2
    norm_num at h2 ⊢
    exact h2
  · have := abs_sum_le_of_bound (fun r n => |p.org.at r n - p.cur.at r n|) (2 ^ 16 - 1) 64 64
      (fun r hr n hn => by
        show |(|p.org.at r n - p.cur.at r n|)| ≤ 2 ^ 16 - 1
        rw [abs_abs]
        exact (hpt r hr n hn).1)
    have h2 := (abs_le.1 this).2
    norm_num at h2 ⊢
    linarith
  · rw [e1]
    show sseUnrolled 64 cfg p = _
    rw [sseUnrolled_closed 64 cfg p hweight, hh, toDistortion_of_lt hsse]
  · rw [e1, xGetSSE16N_closed cfg p hweight (by rw [hw]; norm_num), hh, hw,
      toDistortion_of_lt hsse]
  · rw [e2]
    show sadUnrolled 64 cfg p = _
    rw [sadUnrolled_closed 64 cfg p hweight hdiv, hh, toDistortion_of_lt hsad]
  · rw [e2, xGetSAD16N_closed cfg p (by rw [hw]; norm_num) hdiv, hh, hw,
      toDistortion_of_lt hsad]

/-- Witness of `accumulator_does_not_wrap`: the block pair with `org = 65535`
and `cur = 0` everywhere, which attains the bound on the squared differences. -/
theorem accumulator_does_not_wrap_witness :
    ∑ r ∈ Finset.range 64, ∑ n ∈ Finset.range 64,
        (extreme64x64.org.at r n - extreme64x64.cur.at r n)
          * (extreme64x64.org.at r n - extreme64x64.cur.at r n)
      ≤ 4096 * (2 ^ 16 - 1) ^ 2 :=
  (accumulator_does_not_wrap cfgFullNBit extreme64x64 rfl rfl rfl (by decide) rfl
    (fun _ _ _ _ => by
      show (0 : Int) ≤ 65535 ∧ (65535 : Int) < 2 ^ 16
      norm_num)
    (fun _ _ _ _ => by
      show (0 : Int) ≤ 0 ∧ (0 : Int) < 2 ^ 16
      norm_num)).1

/-! ## Luma-weighted SSE with unit weights -/

/-- With the weight `2^F` the rounding term `2^F >> 1` does not carry. -/
theorem unit_weight_shift (x : Int) (hx : 0 ≤ x) (F s : Nat) :
    ((((1 <<< F : Nat) : Int)) * x + (((1 <<< F >>> 1 : Nat) : Int))) >>> (F + s) = x >>> s := by
  obtain ⟨k, rfl⟩ := Int.eq_ofNat_of_zero_le hx
  rw [Int.shiftRight_eq_div_pow, Int.shiftRight_eq_div_pow]
  norm_cast
  rw [Nat.one_shiftLeft, Nat.shiftRight_eq_div_pow, pow_one, pow_add,
    ← Nat.div_div_eq_div_mul, Nat.mul_add_div (by positivity)]
  have hlt : 2 ^ F / 2 < 2 ^ F := Nat.div_lt_self (by positivity) (by norm_num)
  rw [Nat.div_eq_of_lt hlt, Nat.add_zero]

theorem intToDistortion_of_nonneg (y : Int) (hy : 0 ≤ y) :
    intToDistortion y = toDistortion y.toNat := by
  obtain ⟨k, rfl⟩ := Int.eq_ofNat_of_zero_le hy
  unfold intToDistortion toDistortion
  norm_cast

theorem toDistortion_add_right (a b : Nat) :
    toDistortion (a + toDistortion b) = toDistortion (a + b) := by
  rw [Nat.add_comm, toDistortion_add_left, Nat.add_comm]

/-- The value of `getWeightedMSE` on a sample that passes the checks and finds
the weight `1 << MSE_WEIGHT_FRAC_BITS`: the square of the difference narrowed
to a `Pel`, shifted. -/
theorem getWeightedMSE_unit (cfg : Config) (st : State) (compID : ComponentID)
    (org cur orgLuma : Int) (shift : Nat) (h : WtdSampleOk cfg st compID org orgLuma) :
    getWeightedMSE cfg st compID org cur shift orgLuma
      = Except.ok (some (toDistortion
          (((toPel cfg.pelBits (org - cur) * toPel cfg.pelBits (org - cur)) >>> shift).toNat))) := by
  obtain ⟨hpos, hluma, hidx, hlut⟩ := h
  have h1 : ¬ (cfg.CHECKD = true ∧ org < 0) := fun hc => absurd hc.2 (not_lt.2 (hpos hc.1))
  have h2 : ¬ (compID = ComponentID.COMPONENT_Y ∧ cfg.CHECKD = true ∧ org ≠ orgLuma) :=
    fun hc => hc.2.2 (hluma hc.2.1 hc.1)
  have hsq : 0 ≤ toPel cfg.pelBits (org - cur) * toPel cfg.pelBits (org - cur) :=
    mul_self_nonneg _
  have hshift : 0 ≤ (toPel cfg.pelBits (org - cur) * toPel cfg.pelBits (org - cur)) >>> shift := by
    rw [Int.shiftRight_eq_div_pow]
    exact Int.ediv_nonneg hsq (by positivity)
  simp only [getWeightedMSE, if_neg h1, if_neg h2, if_pos hidx, hlut,
    unit_weight_shift _ hsq, intToDistortion_of_nonneg _ hshift]

/-- One step of `xGetSSE_WTD` is one step of `xGetSSE`. -/
theorem wtdStep_eq (cfg : Config) (st : State) (org cur orgLuma : Int → Int)
    (compID : ComponentID) (shift cShift : Nat) (po pc pl : Int) (s n : Nat)
    (hbits : 1 ≤ cfg.pelBits)
    (h : WtdSampleOk cfg st compID (org (po + (n : Int)))
      (orgLuma (pl + ((n <<< cShift : Nat) : Int))))
    (hpel : IsPel cfg.pelBits (org (po + (n : Int)) - cur (pc + (n : Int)))) :
    wtdStep cfg st org cur orgLuma compID shift cShift po pc pl s n
      = Except.ok (some (sseStep org cur shift po pc s n)) := by
  simp only [wtdStep, getWeightedMSE_unit cfg st compID _ _ _ shift h, sseStep,
    toDistortion_add_right, toPel_of_isPel hbits hpel]

/-- One row of `xGetSSE_WTD` is one row of `xGetSSE`. -/
theorem wtdRow_eq (cfg : Config) (st : State) (org cur orgLuma : Int → Int)
    (compID : ComponentID) (shift cShift : Nat) (po pc pl : Int) (hbits : 1 ≤ cfg.pelBits) :
    ∀ (cols : Nat) (s : Nat),
      (∀ n, n < cols →
        WtdSampleOk cfg st compID (org (po + (n : Int)))
            (orgLuma (pl + ((n <<< cShift : Nat) : Int)))
          ∧ IsPel cfg.pelBits (org (po + (n : Int)) - cur (pc + (n : Int)))) →
      wtdRow cfg st org cur orgLuma compID shift cShift cols po pc pl s
        = Except.ok (some (sseRow org cur shift cols po pc s)) := by
  intro cols
  induction cols with
  | zero => intro s _; rfl
  | succ cols ih =>
    intro s h
    have hprev := ih s (fun n hn => h n (Nat.lt_succ_of_lt hn))
    unfold wtdRow at hprev ⊢
    unfold sseRow at hprev ⊢
    rw [List.range_succ, List.foldl_append, List.foldl_append, hprev]
    simp only [List.foldl_cons, List.foldl_nil]
    exact wtdStep_eq cfg st org cur orgLuma compID shift cShift po pc pl _ cols hbits
      (h cols (Nat.lt_succ_self cols)).1 (h cols (Nat.lt_succ_self cols)).2

/-- The row loop of `xGetSSE_WTD` is the row loop of `xGetSSE` when every row
is. -/
theorem wtdLoop_eq (row : Int → Int → Int → Nat → Except String (Option Nat))
    (row1 : Int → Int → Nat → Nat) (so sc sl : Int) :
    ∀ (rows : Nat) (po pc pl : Int) (s : Nat),
      (∀ j, j < rows → ∀ s,
        row (po + (j : Int) * so) (pc + (j : Int) * sc) (pl + (j : Int) * sl) s
          = Except.ok (some (row1 (po + (j : Int) * so) (pc + (j : Int) * sc) s))) →
      wtdLoop row so sc sl rows po pc pl s = Except.ok (some (sseLoop row1 so sc rows po pc s)) := by
  intro rows
  induction rows with
  | zero => intro po pc pl s _; rfl
  | succ rows ih =>
    intro po pc pl s h
    have h0 := h 0 (Nat.succ_pos rows) s
    simp only [Nat.cast_zero, zero_mul, add_zero] at h0
    simp only [wtdLoop, sseLoop, h0]
    apply ih
    intro j hj s1
    have hj1 := h (j + 1) (Nat.succ_lt_succ hj) s1
    have e1 : po + so + (j : Int) * so = po + ((j + 1 : Nat) : Int) * so := by push_cast; ring
    have e2 : pc + sc + (j : Int) * sc = pc + ((j + 1 : Nat) : Int) * sc := by push_cast; ring
    have e3 : pl + sl + (j : Int) * sl = pl + ((j + 1 : Nat) : Int) * sl := by push_cast; ring
    rw [e1, e2, e3]
    exact hj1

set_option maxRecDepth 100000 in
/-- C38 (as stated) fails on blocks outside its tacit conditions, with a table
of 256 unit weights, a 16-bit `Pel` and `CHECKD` expanding to `CHECK`.  With
`org = 1` and `cur = -32768` the difference 32769 is narrowed to -32767:
`getWeightedMSE` returns `32767^2 = 1073676289` where `(org - cur)^2` is
`1073807361`, and so does `xGetSSE_WTD` where `xGetSSE` returns `1073807361`.
With `org = -1` the first check fails, for the luma component with a luma
sample different from `org` the second check fails, and with the luma sample
300 the table is read outside its bounds; `xGetSSE` returns a value each
time. -/
theorem xGetSSE_WTD_differs_from_xGetSSE :
    (getWeightedMSE cfgFullNBit stUnitWeights ComponentID.COMPONENT_Y 1 (-32768) 0 1
        = Except.ok (some 1073676289)
      ∧ (((1 : Int) - (-32768)) * ((1 : Int) - (-32768))) >>> 0 = 1073807361) ∧
    (xGetSSE_WTD cfgFullNBit stUnitWeights (wtd1x1 1 (-32768) 1 ComponentID.COMPONENT_Y)
        = Except.ok (some 1073676289)
      ∧ xGetSSE cfgFullNBit (wtd1x1 1 (-32768) 1 ComponentID.COMPONENT_Y) = some 1073807361) ∧
    (xGetSSE_WTD cfgFullNBit stUnitWeights (wtd1x1 (-1) 0 0 ComponentID.COMPONENT_Cb)
        = Except.error "Sample value must be positive"
      ∧ xGetSSE cfgFullNBit (wtd1x1 (-1) 0 0 ComponentID.COMPONENT_Cb) = some 1) ∧
    (xGetSSE_WTD cfgFullNBit stUnitWeights (wtd1x1 1 0 2 ComponentID.COMPONENT_Y)
        = Except.error "Luma sample values must be equal to each other"
      ∧ xGetSSE cfgFullNBit (wtd1x1 1 0 2 ComponentID.COMPONENT_Y) = some 1) ∧
    (xGetSSE_WTD cfgFullNBit stUnitWeights (wtd1x1 1 0 300 ComponentID.COMPONENT_Cb)
        = Except.ok none
      ∧ xGetSSE cfgFullNBit (wtd1x1 1 0 300 ComponentID.COMPONENT_Cb) = some 1) :=
  ⟨⟨rfl, by decide⟩, ⟨rfl, by decide⟩, ⟨rfl, by decide⟩, ⟨rfl, by decide⟩, ⟨rfl, by decide⟩⟩

/-- C38 (amended): when the looked-up weight is `1 << MSE_WEIGHT_FRAC_BITS` and
the checks pass, `getWeightedMSE` returns `(d^2) >> shift` for every `shift`
(the rounding term does not carry), where `d` is `org - cur` narrowed to a
`Pel`, which is `org - cur` itself when that is representable as a `Pel`; hence
with a table whose entries are all `1 << MSE_WEIGHT_FRAC_BITS`, `xGetSSE_WTD`
returns the value of the unweighted `xGetSSE` on every block whose differences
`org - cur` are representable as a `Pel`, whose luma samples index the table
and, where `CHECKD` expands to `CHECK`, whose `org` samples are non-negative
and, for the luma component, equal to the luma samples. -/
theorem xGetSSE_WTD_unit_weights (cfg : Config) (st : State) (p : DistParam)
    (hbits : 1 ≤ cfg.pelBits) (hweight : p.applyWeight = false)
    (hlut : ∀ w, w ∈ st.m_reshapeLumaLevelToWeightPLUT →
      w = ((1 <<< cfg.MSE_WEIGHT_FRAC_BITS : Nat) : Int))
    (hpel : ∀ r, r < p.org.height → ∀ n, n < p.org.width →
      IsPel cfg.pelBits (p.org.at r n - p.cur.at r n))
    (hluma : ∀ r, r < p.org.height → ∀ n, n < p.org.width →
      0 ≤ p.lumaAt r n ∧ (p.lumaAt r n).toNat < st.m_reshapeLumaLevelToWeightPLUT.length)
    (hcheck : cfg.CHECKD = true → ∀ r, r < p.org.height → ∀ n, n < p.org.width →
      0 ≤ p.org.at r n ∧ (p.compID = ComponentID.COMPONENT_Y → p.org.at r n = p.lumaAt r n)) :
    (∀ (compID : ComponentID) (org cur orgLuma : Int) (shift : Nat),
      WtdSampleOk cfg st compID org orgLuma →
      getWeightedMSE cfg st compID org cur shift orgLuma
          = Except.ok (some (toDistortion
              (((toPel cfg.pelBits (org - cur) * toPel cfg.pelBits (org - cur))
                >>> shift).toNat)))
        ∧ (IsPel cfg.pelBits (org - cur) → toPel cfg.pelBits (org - cur) = org - cur)) ∧
    xGetSSE_WTD cfg st p = Except.ok (xGetSSE cfg p) := by
  refine ⟨fun compID org cur orgLuma shift h =>
    ⟨getWeightedMSE_unit cfg st compID org cur orgLuma shift h,
      fun hp => toPel_of_isPel hbits hp⟩, ?_⟩
  have hok : ∀ r, r < p.org.height → ∀ n, n < p.org.width →
      WtdSampleOk cfg st p.compID (p.org.at r n) (p.lumaAt r n) := by
    intro r hr n hn
    obtain ⟨h5, h6⟩ := hluma r hr n hn
    refine ⟨fun hc => (hcheck hc r hr n hn).1, fun hc hy => (hcheck hc r hr n hn).2 hy, h5, ?_⟩
    rw [List.getElem?_eq_getElem h6]
    exact congrArg some (hlut _ (List.getElem_mem _))
  simp only [xGetSSE_WTD, xGetSSE, hweight, Bool.false_eq_true, if_false]
  apply wtdLoop_eq
  intro j hj s
  apply wtdRow_eq cfg st _ _ _ _ _ _ _ _ _ hbits
  intro n hn
  have h1 := hok j hj n hn
  have h2 := hpel j hj n hn
  simp only [CPelBuf.at, DistParam.lumaAt] at h1 h2
  simp only [zero_add]
  exact ⟨h1, h2⟩

/-- Witness of `xGetSSE_WTD_unit_weights`: a 4×4 luma block pair (`org = 100`,
`cur = 110`) with a table of 256 unit weights. -/
theorem xGetSSE_WTD_unit_weights_witness :
    xGetSSE_WTD cfgFullNBit stUnitWeights luma4x4 = Except.ok (xGetSSE cfgFullNBit luma4x4) :=
  (xGetSSE_WTD_unit_weights cfgFullNBit stUnitWeights luma4x4 (by decide) rfl
    (fun w hw => by
      have := List.eq_of_mem_replicate hw
      rw [this]
      rfl)
    (fun _ _ _ _ => by
      show IsPel 16 ((100 : Int) - 110)
      decide)
    (fun _ _ _ _ => by
      show (0 : Int) ≤ 100 ∧ (100 : Int).toNat < (List.replicate 256 (65536 : Int)).length
      rw [List.length_replicate]
      decide)
    (fun _ _ _ _ _ => by
      show (0 : Int) ≤ 100 ∧ (ComponentID.COMPONENT_Y = ComponentID.COMPONENT_Y →
        (100 : Int) = 100)
      exact ⟨by decide, fun _ => rfl⟩)).2

/-- Witness of `hadamard_normalisation`: the 4x8 kernel on the block pair with
`org = 3` and `cur = 0` everywhere, in the build with the `double` values of
`sqrt`. -/
theorem hadamard_normalisation_witness :
    xCalcHADs4x8 cfgLibm (fun _ => 3) (fun _ => 0) 0 0 4 4
      = intToDistortion (doubleToInt
          ((dcReducedInt cfgLibm (xCalcHADs4x8_coeff (fun _ => 3) (fun _ => 0) 0 0 4 4 0 0)
            (absSumInt (xCalcHADs4x8_coeff (fun _ => 3) (fun _ => 0) 0 0 4 4) 8 4) : ℚ)
              / cfgLibm.sqrt (4 * 8) * 2)) :=
  (hadamard_normalisation cfgLibm (fun _ => 3) (fun _ => 0) 0 0 4 4).2.2.2.1

end RdCost
